import Mathlib

/-!
# Network-driver persistence and restore

A shallow embedding of the store code of the ipvlan and macvlan drivers
(`daemon/libnetwork/drivers/ipvlan/ipvlan_store.go`,
`daemon/libnetwork/drivers/macvlan/macvlan_store.go`), of the host driver
exercised by `daemon/libnetwork/drivers/host/host_test.go`, and of the host
name normalisation and the resolution of credentials of
`daemon/pkg/registry/auth.go`.

Conventions of the embedding

* A Go method with a pointer receiver becomes a function that takes the state
  it reads and returns the state it leaves behind.
* A Go call that can abort the process returns an `Outcome`: either the
  returned values or `panicked`.
* Go maps are association lists kept sorted by key (`GoMap`); the only
  observations made on them are lookups and the key order used by
  `encoding/json` when it prints a map.
* Calls to collaborators that live outside these files (the datastore and
  `createNetwork`) are recorded, in order, in the `calls` field of the state.
* Records are values wherever only their content matters. `CopyTo`, whose
  effect is an assignment between two structs in memory, is embedded on a
  heap with explicit pointers and slice headers.
* Functions of the Go library that parse and print addresses are parameters
  (`AddrLib`); `netLib` is the library of Go itself, embedded from the
  packages `net` and `net/netip`.
* Log statements have no effect on any value computed here and are left out.
-/

set_option autoImplicit false

/-! ## Go values shared by the drivers -/

/-- Go `error` values that occur in the drivers. The `nil` error is `none` in
`Option GoError`. -/
inductive GoError where
  /-- The sentinel `datastore.ErrKeyNotFound`. -/
  | ErrKeyNotFound : GoError
  /-- An error that wraps nothing: `errors.New`, `fmt.Errorf` with `%v`, or any
  failure of a backend. -/
  | errorString (msg : String) : GoError
  /-- The result of `fmt.Errorf` with `%w`: a message and the wrapped error. -/
  | wrapError (msg : String) (err : GoError) : GoError
  /-- A `types.ForbiddenError`. -/
  | ForbiddenError (msg : String) : GoError
  /-- The result of `types.InternalErrorf`. -/
  | InternalError (msg : String) : GoError
  /-- A `*json.SyntaxError`. -/
  | SyntaxError (msg : String) : GoError
  /-- A `*json.UnmarshalTypeError`. -/
  | UnmarshalTypeError (msg : String) : GoError
deriving DecidableEq, Repr

/-- Walks the chain of wrapped errors: the body of `errors.Is` for a non-nil
error and a sentinel target. -/
def GoError.is : GoError → GoError → Bool
  | .wrapError msg err, target =>
    decide (GoError.wrapError msg err = target) || GoError.is err target
  | e, target => decide (e = target)

/-- The Go call `errors.Is(err, target)`; a nil `err` matches no target. -/
def errors.Is (err : Option GoError) (target : GoError) : Bool :=
  match err with
  | none => false
  | some e => GoError.is e target

/-- What a Go call leaves its caller with: its return values, or a panic that
unwinds the caller too. -/
inductive Outcome (α : Type) where
  | ret (a : α) : Outcome α
  | panicked (reason : String) : Outcome α
deriving DecidableEq, Repr

/-- A Go `map[string]V`, held as an association list. -/
abbrev GoMap (V : Type) := List (String × V)

/-- The Go lookup `v, ok := m[k]`. -/
def GoMap.lookup {V : Type} : GoMap V → String → Option V
  | [], _ => none
  | (k', v) :: m, k => if k = k' then some v else GoMap.lookup m k

/-- The Go assignment `m[k] = v`: replaces the entry of `k` or adds one, keeping
the keys in increasing order when they were. -/
def GoMap.insert {V : Type} : GoMap V → String → V → GoMap V
  | [], k, v => [(k, v)]
  | (k', v') :: m, k, v =>
    if k = k' then (k, v) :: m
    else if k < k' then (k, v) :: (k', v') :: m
    else (k', v') :: GoMap.insert m k v

/-- The keys of a Go map. -/
def GoMap.keys {V : Type} (m : GoMap V) : List String := m.map Prod.fst

/-- The keys of the list are in strictly increasing order, the order in which
`json.Marshal` prints a map. -/
def GoMap.Sorted {V : Type} (m : GoMap V) : Prop := (GoMap.keys m).Pairwise (fun a b => a < b)

/-- A hardware or IP address: a Go `[]byte`. -/
abbrev Bytes := List (Fin 256)

/-- A Go `net.IPNet`: an address and its mask. -/
structure IPNet where
  IP : Bytes
  Mask : Bytes
deriving DecidableEq, Repr


/-! ## The package `encoding/json`

The drivers hand Go values to `json.Marshal` and read documents back with
`json.Unmarshal`. Both are modelled on the text itself: `encode` prints a Go
value the way `json.Marshal` does, `parse` reads a text the way the scanner
and decoder of `encoding/json` do. A Go `[]byte` that holds text, and the
content of a Go `string`, are lists of characters; strings that are not valid
UTF-8 are outside the model. -/

namespace json

/-- The text of a Go `[]byte` or `string`. -/
abbrev Text := List Char

/-- A parsed JSON document. A number keeps its exact decimal value
`mant * 10 ^ exp`; the members of an object are in document order. -/
inductive JSON where
  | null : JSON
  | bool (b : Bool) : JSON
  | number (mant : Int) (exp : Int) : JSON
  | string (s : String) : JSON
  | array (elems : List JSON) : JSON
  | object (members : List (String × JSON)) : JSON
deriving Repr

/-- The Go values the drivers pass to `json.Marshal`: a nil pointer, a `bool`,
an `int`, a `string`, a slice, and a map with string keys or a struct, either
of which is given by its members in the order `json.Marshal` prints them
(sorted keys for a map, declaration order for a struct). -/
inductive GoValue where
  | nil : GoValue
  | bool (b : Bool) : GoValue
  | int (n : Int) : GoValue
  | string (s : String) : GoValue
  | slice (elems : List GoValue) : GoValue
  | object (fields : List (String × GoValue)) : GoValue
deriving Repr

/-! ### Printing -/

/-- The lower-case hexadecimal digit of a number below 16. -/
def hexDigit (n : Nat) : Char :=
  if n < 10 then Char.ofNat (48 + n) else Char.ofNat (87 + n)

/-- How `json.Marshal` writes one character of a string: the quote and the
backslash are escaped, control characters use the short escapes `\b`, `\f`,
`\n`, `\r`, `\t` or `\u00XX`, and `<`, `>`, `&`, U+2028 and U+2029 are written
as `\uXXXX`. -/
def escapeChar (c : Char) : Text :=
  if c.toNat = 34 then ['\\', '\"']
  else if c.toNat = 92 then ['\\', '\\']
  else if c.toNat = 8 then ['\\', 'b']
  else if c.toNat = 12 then ['\\', 'f']
  else if c.toNat = 10 then ['\\', 'n']
  else if c.toNat = 13 then ['\\', 'r']
  else if c.toNat = 9 then ['\\', 't']
  else if c.toNat < 32 then
    ['\\', 'u', '0', '0', hexDigit (c.toNat / 16), hexDigit (c.toNat % 16)]
  else if c.toNat = 60 then ['\\', 'u', '0', '0', '3', 'c']
  else if c.toNat = 62 then ['\\', 'u', '0', '0', '3', 'e']
  else if c.toNat = 38 then ['\\', 'u', '0', '0', '2', '6']
  else if c.toNat = 8232 then ['\\', 'u', '2', '0', '2', '8']
  else if c.toNat = 8233 then ['\\', 'u', '2', '0', '2', '9']
  else [c]

/-- The escaped content of a string, without the surrounding quotes. -/
def escape : Text → Text
  | [] => []
  | c :: cs => escapeChar c ++ escape cs

/-- A string as `json.Marshal` prints it. -/
def encodeString (s : String) : Text := '\"' :: (escape s.data ++ ['\"'])

/-- The decimal digits of a number, most significant first, built from the
least significant end; `fuel` bounds the number of digits. -/
def natDigitsAux : Nat → Nat → Text → Text
  | 0, _, acc => acc
  | fuel + 1, n, acc =>
    if n < 10 then Char.ofNat (48 + n) :: acc
    else natDigitsAux fuel (n / 10) (Char.ofNat (48 + n % 10) :: acc)

/-- The decimal digits of a natural number. -/
def natDigits (n : Nat) : Text := natDigitsAux (n + 1) n []

/-- A Go `int` as `json.Marshal` prints it. -/
def encodeInt (n : Int) : Text :=
  if n < 0 then '-' :: natDigits n.natAbs else natDigits n.natAbs

mutual
/-- The text `json.Marshal` prints for a Go value, in its compact form. -/
def encode : GoValue → Text
  | GoValue.nil => ['n', 'u', 'l', 'l']
  | GoValue.bool true => ['t', 'r', 'u', 'e']
  | GoValue.bool false => ['f', 'a', 'l', 's', 'e']
  | GoValue.int n => encodeInt n
  | GoValue.string s => encodeString s
  | GoValue.slice [] => ['[', ']']
  | GoValue.slice (x :: xs) => '[' :: (encode x ++ encodeElems xs)
  | GoValue.object [] => ['\x7b', '\x7d']
  | GoValue.object ((k, v) :: fs) =>
    '\x7b' :: (encodeString k ++ ':' :: (encode v ++ encodeFields fs))
/-- The elements of a slice after the first, each after a comma, and the
closing bracket. -/
def encodeElems : List GoValue → Text
  | [] => [']']
  | x :: xs => ',' :: (encode x ++ encodeElems xs)
/-- The members of an object after the first, each after a comma, and the
closing brace. -/
def encodeFields : List (String × GoValue) → Text
  | [] => ['\x7d']
  | (k, v) :: fs => ',' :: (encodeString k ++ ':' :: (encode v ++ encodeFields fs))
end

mutual
/-- The document a printed Go value denotes. -/
def toDoc : GoValue → JSON
  | GoValue.nil => JSON.null
  | GoValue.bool b => JSON.bool b
  | GoValue.int n => JSON.number n 0
  | GoValue.string s => JSON.string s
  | GoValue.slice xs => JSON.array (toDocs xs)
  | GoValue.object fs => JSON.object (toDocFields fs)
/-- The documents of the elements of a slice. -/
def toDocs : List GoValue → List JSON
  | [] => []
  | x :: xs => toDoc x :: toDocs xs
/-- The documents of the members of an object. -/
def toDocFields : List (String × GoValue) → List (String × JSON)
  | [] => []
  | (k, v) :: fs => (k, toDoc v) :: toDocFields fs
end

mutual
/-- The nesting depth of a Go value: the number of slices and objects open at
its deepest point. -/
def depth : GoValue → Nat
  | GoValue.slice xs => depthElems xs + 1
  | GoValue.object fs => depthFields fs + 1
  | _ => 0
/-- The largest nesting depth among the elements of a slice. -/
def depthElems : List GoValue → Nat
  | [] => 0
  | x :: xs => max (depth x) (depthElems xs)
/-- The largest nesting depth among the members of an object. -/
def depthFields : List (String × GoValue) → Nat
  | [] => 0
  | (_, v) :: fs => max (depth v) (depthFields fs)
end

/-! ### Parsing -/

/-- Skips the JSON white space: space, tab, line feed, carriage return. -/
def skipWs : Text → Text
  | [] => []
  | c :: cs =>
    if c.toNat = 32 ∨ c.toNat = 9 ∨ c.toNat = 10 ∨ c.toNat = 13 then skipWs cs else c :: cs

/-- The value of a hexadecimal digit. -/
def hexVal (c : Char) : Option Nat :=
  if 48 ≤ c.toNat ∧ c.toNat ≤ 57 then some (c.toNat - 48)
  else if 97 ≤ c.toNat ∧ c.toNat ≤ 102 then some (c.toNat - 87)
  else if 65 ≤ c.toNat ∧ c.toNat ≤ 70 then some (c.toNat - 55)
  else none

/-- Reads the four hexadecimal digits of a `\u` escape. -/
def parseHex4 : Text → Option (Nat × Text)
  | a :: b :: c :: d :: rest =>
    match hexVal a, hexVal b, hexVal c, hexVal d with
    | some x, some y, some z, some w => some (((x * 16 + y) * 16 + z) * 16 + w, rest)
    | _, _, _, _ => none
  | _ => none

/-- The replacement character U+FFFD, which stands for an unpaired surrogate. -/
def replacementChar : Char := Char.ofNat 65533

/-- Reads the content of a string up to and including its closing quote, and
undoes the escapes; the opening quote has been read. A control character, an
unknown escape or the end of the text is an error. A `\u` escape that is a
high surrogate combines with a following low surrogate escape; any other
surrogate becomes U+FFFD. -/
def parseStringBody : Nat → Text → Option (Text × Text)
  | 0, _ => none
  | _ + 1, [] => none
  | fuel + 1, c :: rest =>
    if c.toNat = 34 then some ([], rest)
    else if c.toNat = 92 then
      match rest with
      | [] => none
      | e :: rest1 =>
        if e.toNat = 117 then
          match parseHex4 rest1 with
          | none => none
          | some (u, rest2) =>
            if 55296 ≤ u ∧ u < 57344 then
              match rest2 with
              | b1 :: u1 :: rest3 =>
                match (if b1.toNat = 92 ∧ u1.toNat = 117 then parseHex4 rest3 else none) with
                | some (u2, rest4) =>
                  if u < 56320 ∧ 56320 ≤ u2 ∧ u2 < 57344 then
                    (parseStringBody fuel rest4).map (fun p =>
                      (Char.ofNat (65536 + (u - 55296) * 1024 + (u2 - 56320)) :: p.1, p.2))
                  else (parseStringBody fuel rest2).map (fun p => (replacementChar :: p.1, p.2))
                | none => (parseStringBody fuel rest2).map (fun p => (replacementChar :: p.1, p.2))
              | _ => (parseStringBody fuel rest2).map (fun p => (replacementChar :: p.1, p.2))
            else (parseStringBody fuel rest2).map (fun p => (Char.ofNat u :: p.1, p.2))
        else
          match (if e.toNat = 34 then some '\"'
                 else if e.toNat = 92 then some '\\'
                 else if e.toNat = 47 then some '/'
                 else if e.toNat = 98 then some (Char.ofNat 8)
                 else if e.toNat = 102 then some (Char.ofNat 12)
                 else if e.toNat = 110 then some (Char.ofNat 10)
                 else if e.toNat = 114 then some (Char.ofNat 13)
                 else if e.toNat = 116 then some (Char.ofNat 9)
                 else none) with
          | none => none
          | some x => (parseStringBody fuel rest1).map (fun p => (x :: p.1, p.2))
    else if c.toNat < 32 then none
    else (parseStringBody fuel rest).map (fun p => (c :: p.1, p.2))

/-- Whether a character is a decimal digit. -/
def isDigit (c : Char) : Bool := decide (48 ≤ c.toNat ∧ c.toNat ≤ 57)

/-- The number a run of decimal digits denotes. -/
def digitsVal (ds : Text) : Nat := ds.foldl (fun a c => 10 * a + (c.toNat - 48)) 0

/-- Reads a number: an optional minus sign, an integer part without a leading
zero, an optional fraction and an optional exponent. -/
def parseNumber (cs : Text) : Option (JSON × Text) :=
  let neg : Bool := decide (cs.head? = some '-')
  let cs1 := if neg then cs.tail else cs
  let ip := cs1.takeWhile isDigit
  let r1 := cs1.dropWhile isDigit
  if ip = [] ∨ (ip.head? = some '0' ∧ 1 < ip.length) then none
  else
    match (if (r1.head?.map Char.toNat) = some 46 then
             if r1.tail.takeWhile isDigit = [] then none
             else some (r1.tail.takeWhile isDigit, r1.tail.dropWhile isDigit)
           else some ([], r1)) with
    | none => none
    | some (fd, r2) =>
      match (if (r2.head?.map Char.toNat) = some 101 ∨ (r2.head?.map Char.toNat) = some 69 then
               let r3 := r2.tail
               let r4 := if r3.head? = some '-' ∨ r3.head? = some '+' then r3.tail else r3
               if r4.takeWhile isDigit = [] then none
               else some
                 ((if r3.head? = some '-' then -(digitsVal (r4.takeWhile isDigit) : Int)
                   else (digitsVal (r4.takeWhile isDigit) : Int)),
                  r4.dropWhile isDigit)
             else some ((0 : Int), r2)) with
      | none => none
      | some (ex, r5) =>
        some (JSON.number
          (if neg then -(digitsVal (ip ++ fd) : Int) else (digitsVal (ip ++ fd) : Int))
          (ex - fd.length), r5)

/-- Reads the given characters, or fails. -/
def expect (lit : Text) (cs : Text) : Option Text :=
  if lit.isPrefixOf cs then some (cs.drop lit.length) else none

/-- The nesting depth beyond which the scanner gives up. -/
def maxNestingDepth : Nat := 10000

/-- Reads the key of an object member and the colon after it. -/
def parseKey (fuel : Nat) (cs : Text) : Option (String × Text) :=
  match skipWs cs with
  | [] => none
  | c :: rest =>
    if c.toNat = 34 then
      match parseStringBody fuel rest with
      | none => none
      | some (k, rest1) =>
        match skipWs rest1 with
        | [] => none
        | c1 :: rest2 => if c1.toNat = 58 then some (String.mk k, rest2) else none
    else none

mutual
/-- Reads one JSON value and returns it with the text that follows. `fuel`
bounds the number of characters read; `depth` counts the arrays and objects
that are open. -/
def parseValue : Nat → Nat → Text → Option (JSON × Text)
  | 0, _, _ => none
  | fuel + 1, depth, cs =>
    match skipWs cs with
    | [] => none
    | c :: rest =>
      if c.toNat = 110 then (expect ['u', 'l', 'l'] rest).map (fun r => (JSON.null, r))
      else if c.toNat = 116 then (expect ['r', 'u', 'e'] rest).map (fun r => (JSON.bool true, r))
      else if c.toNat = 102 then
        (expect ['a', 'l', 's', 'e'] rest).map (fun r => (JSON.bool false, r))
      else if c.toNat = 34 then
        (parseStringBody fuel rest).map (fun p => (JSON.string (String.mk p.1), p.2))
      else if c.toNat = 91 then
        if maxNestingDepth ≤ depth then none
        else
          match skipWs rest with
          | [] => none
          | c1 :: rest1 =>
            if c1.toNat = 93 then some (JSON.array [], rest1)
            else
              match parseValue fuel (depth + 1) rest with
              | none => none
              | some (v, rest2) =>
                (parseElems fuel (depth + 1) rest2).map (fun p => (JSON.array (v :: p.1), p.2))
      else if c.toNat = 123 then
        if maxNestingDepth ≤ depth then none
        else
          match skipWs rest with
          | [] => none
          | c1 :: rest1 =>
            if c1.toNat = 125 then some (JSON.object [], rest1)
            else
              match parseKey fuel rest with
              | none => none
              | some (k, rest2) =>
                match parseValue fuel (depth + 1) rest2 with
                | none => none
                | some (v, rest3) =>
                  (parseMembers fuel (depth + 1) rest3).map
                    (fun p => (JSON.object ((k, v) :: p.1), p.2))
      else if c.toNat = 45 ∨ isDigit c then parseNumber (c :: rest)
      else none
/-- Reads the elements of an array after the first, and the closing bracket. -/
def parseElems : Nat → Nat → Text → Option (List JSON × Text)
  | 0, _, _ => none
  | fuel + 1, depth, cs =>
    match skipWs cs with
    | [] => none
    | c :: rest =>
      if c.toNat = 93 then some ([], rest)
      else if c.toNat = 44 then
        match parseValue fuel depth rest with
        | none => none
        | some (v, rest1) => (parseElems fuel depth rest1).map (fun p => (v :: p.1, p.2))
      else none
/-- Reads the members of an object after the first, and the closing brace. -/
def parseMembers : Nat → Nat → Text → Option (List (String × JSON) × Text)
  | 0, _, _ => none
  | fuel + 1, depth, cs =>
    match skipWs cs with
    | [] => none
    | c :: rest =>
      if c.toNat = 125 then some ([], rest)
      else if c.toNat = 44 then
        match parseKey fuel rest with
        | none => none
        | some (k, rest1) =>
          match parseValue fuel depth rest1 with
          | none => none
          | some (v, rest2) =>
            (parseMembers fuel depth rest2).map (fun p => ((k, v) :: p.1, p.2))
      else none
end

/-- The text after a number does not continue it: it is empty or starts with a
character that is neither a digit nor `.`, `e` or `E`. -/
def numberEnd (rest : Text) : Prop :=
  ∀ c, rest.head? = some c →
    isDigit c = false ∧ c.toNat ≠ 46 ∧ c.toNat ≠ 101 ∧ c.toNat ≠ 69

/-- Reads a whole text as one JSON document; only white space may follow the
value. `none` is a syntax error. -/
def parse (b : Text) : Option JSON :=
  match parseValue (b.length + 1) 0 b with
  | none => none
  | some (v, rest) => if skipWs rest = [] then some v else none

/-! ### Numbers -/

/-- A finite `float64`: the number `mant * 2 ^ exp`, negated when `neg`. -/
structure Float64 where
  neg : Bool
  mant : Nat
  exp : Int
deriving DecidableEq, Repr

/-- The `float64` nearest to `num / den`, ties going to the even mantissa, as
`strconv.ParseFloat` computes it; `none` when the value is out of range.
`den` is positive. -/
def Float64.ofRatio (neg : Bool) (num den : Nat) : Option Float64 :=
  if num = 0 then some { neg := neg, mant := 0, exp := 0 }
  else
    let e0 : Int := (Nat.log2 num : Int) - (Nat.log2 den : Int)
    let below : Bool :=
      if 0 ≤ e0 then decide (num < den * 2 ^ e0.toNat)
      else decide (num * 2 ^ (-e0).toNat < den)
    let e : Int := if below then e0 - 1 else e0
    let p : Int := max (e - 52) (-1074)
    let n' : Nat := if 0 ≤ p then num else num * 2 ^ (-p).toNat
    let d' : Nat := if 0 ≤ p then den * 2 ^ p.toNat else den
    let q := n' / d'
    let r := n' % d'
    let m := if d' < 2 * r ∨ (2 * r = d' ∧ q % 2 = 1) then q + 1 else q
    if 0 ≤ p ∧ 2 ^ 1024 ≤ m * 2 ^ p.toNat then none
    else some { neg := neg, mant := m, exp := p }

/-- The `float64` of the decimal number `mant * 10 ^ exp`. -/
def Float64.ofDecimal (mant exp : Int) : Option Float64 :=
  if 0 ≤ exp then Float64.ofRatio (decide (mant < 0)) (mant.natAbs * 10 ^ exp.toNat) 1
  else Float64.ofRatio (decide (mant < 0)) mant.natAbs (10 ^ (-exp).toNat)

/-- The Go conversion `int(f)` for a 64-bit `int`: the value is truncated
towards zero; a value outside the range of `int` gives the smallest `int`, as
on amd64 (the language leaves that case to the implementation). -/
def Float64.toInt (f : Float64) : Int :=
  let mag : Nat := if 0 ≤ f.exp then f.mant * 2 ^ f.exp.toNat else f.mant / 2 ^ (-f.exp).toNat
  let v : Int := if f.neg then -(mag : Int) else (mag : Int)
  if -(2 : Int) ^ 63 ≤ v ∧ v < (2 : Int) ^ 63 then v else -(2 : Int) ^ 63

/-! ### Decoding into `map[string]interface{}` -/

mutual
/-- Whether every number of a document fits a `float64`. -/
def numbersFit : JSON → Bool
  | JSON.number mant exp => (Float64.ofDecimal mant exp).isSome
  | JSON.array xs => numbersFitElems xs
  | JSON.object ms => numbersFitMembers ms
  | _ => true
/-- Whether every number in the elements of an array fits a `float64`. -/
def numbersFitElems : List JSON → Bool
  | [] => true
  | x :: xs => numbersFit x && numbersFitElems xs
/-- Whether every number in the members of an object fits a `float64`. -/
def numbersFitMembers : List (String × JSON) → Bool
  | [] => true
  | (_, v) :: ms => numbersFit v && numbersFitMembers ms
end

/-- The map built from the members of an object, a later member replacing an
earlier one with the same key. -/
def toMap (ms : List (String × JSON)) : GoMap JSON :=
  ms.foldl (fun m kv => GoMap.insert m kv.1 kv.2) []

/-- The call `json.Unmarshal(b, &nMap)` for a nil `nMap` of type
`map[string]interface{}`: it returns the error and the map. An element of the
map is the document of the member: a string, a `float64` (a number), a `bool`,
nil (`null`), a slice or a map. A text that is not JSON is a syntax error; a
document that is neither an object nor `null`, or a number that does not fit a
`float64`, is a type error; `null` leaves the map nil, which reads as empty. -/
def unmarshalMap (b : Text) : Except GoError (GoMap JSON) :=
  match parse b with
  | none => Except.error (GoError.SyntaxError "invalid character")
  | some doc =>
    match doc with
    | JSON.null => Except.ok []
    | JSON.object ms =>
      if numbersFitMembers ms then Except.ok (toMap ms)
      else Except.error (GoError.UnmarshalTypeError "cannot unmarshal number into float64")
    | _ => Except.error (GoError.UnmarshalTypeError "cannot unmarshal into map")

/-- The type assertion `v.(string)` on an element of the map, `v` being the
result of the lookup; `none` is the panic of a failed assertion. -/
def assertString (v : Option JSON) : Option String :=
  match v with
  | some (JSON.string s) => some s
  | _ => none

/-- The type assertion `v.(float64)`; `none` is the panic of a failed
assertion. -/
def assertFloat64 (v : Option JSON) : Option Float64 :=
  match v with
  | some (JSON.number mant exp) => Float64.ofDecimal mant exp
  | _ => none

/-- The type assertion `v.(bool)`; `none` is the panic of a failed assertion. -/
def assertBool (v : Option JSON) : Option Bool :=
  match v with
  | some (JSON.bool b) => some b
  | _ => none

/-- The folded form of a member name, by which the decoder matches it to a
struct field when no field has exactly that name: letters are compared
without case, and U+017F and U+212A fold to `s` and `k`. -/
def foldName (s : String) : Text :=
  s.data.map (fun c =>
    if c.toNat = 383 then 's'
    else if c.toNat = 8490 then 'k'
    else if 65 ≤ c.toNat ∧ c.toNat ≤ 90 then Char.ofNat (c.toNat + 32)
    else c)

/-- A value without nesting whose number, if it is one, fits a `float64`. -/
def Scalar (v : GoValue) : Prop := depth v = 0 ∧ numbersFit (toDoc v) = true

end json
/-! ## Address functions used by the endpoint records -/

/-- The functions of package `net` and of `libnetwork/types` that the endpoint
code calls. They are defined outside the drivers and are taken as parameters:
`macString` is `net.HardwareAddr.String`, `ipNetString` is
`(*net.IPNet).String`, and `ParseMAC` and `ParseCIDR` are `net.ParseMAC` and
`types.ParseCIDR`, each returning the Go pair (value, error); the value of
`ParseCIDR` is a pointer, `none` being nil. -/
structure AddrLib where
  macString : Bytes → String
  ipNetString : IPNet → String
  ParseMAC : String → Bytes × Option GoError
  ParseCIDR : String → Option IPNet × Option GoError
/-! ## Go memory: pointers and slice headers

`CopyTo` assigns one struct to another, and what a struct assignment shares
between the two structs can only be told where pointers and slices are
explicit. The definitions of this part place the records in a heap. -/

/-- The address of a Go object; `0` is the nil pointer. -/
abbrev Addr := Nat

/-- A slice header: the backing array, the index in it of the first element of
the slice, and the length. The nil slice has length zero. -/
structure Slice where
  array : Addr
  off : Nat
  len : Nat
deriving DecidableEq, Repr

/-- The struct `net.IPNet` as it lies in memory: both fields are byte slices. -/
structure IPNetCell where
  IP : Slice
  Mask : Slice
deriving DecidableEq, Repr

/-- A `datastore.KVObject` interface value of one of the drivers: the dynamic
type and the pointer. -/
inductive KVRef where
  | configuration (p : Addr) : KVRef
  | endpoint (p : Addr) : KVRef
deriving DecidableEq, Repr
/-! ## The address functions of the Go library

The endpoint records print their addresses with `net.HardwareAddr.String` and
`(*net.IPNet).String` and read them back with `net.ParseMAC` and
`types.ParseCIDR`. These functions are outside the drivers; they are embedded
here from the Go library (packages `net` and `net/netip`, as of Go 1.22), on
the bytes of the strings. -/

namespace net

/-- The bytes of a Go string: the UTF-8 encoding of its characters. -/
def stringBytes (s : String) : List Nat :=
  s.data.flatMap (fun c => (String.utf8EncodeChar c).map UInt8.toNat)

/-- The constant `hexDigit`, the string `0123456789abcdef`, indexed at `n`. -/
def hexDigit (n : Nat) : Char := "0123456789abcdef".data.getD n '0'

/-- The code of the character `hexDigit[n]`, for `n` below 16. -/
def hexCode (n : Nat) : Nat := if n < 10 then 48 + n else 87 + n

/-- The loop of `HardwareAddr.String`, at index `i`: a colon before every
byte but the first, and the two digits of the byte, `hexDigit[b>>4]` and
`hexDigit[b&0xF]`. -/
def HardwareAddr.String.loop : Nat → Bytes → List Char
  | _, [] => []
  | i, b :: a =>
    (if 0 < i then [':'] else []) ++
      hexDigit (b.val / 16) :: hexDigit (b.val % 16) :: HardwareAddr.String.loop (i + 1) a

/-- The method `net.HardwareAddr.String`; the empty address prints as the
empty string. -/
def HardwareAddr.String (a : Bytes) : String := String.mk (HardwareAddr.String.loop 0 a)

/-- The value of a hexadecimal digit, in either case, as `xtoi` and the IPv6
parser read it; `none` for any other byte. -/
def hexVal (c : Nat) : Option Nat :=
  if 48 ≤ c ∧ c ≤ 57 then some (c - 48)
  else if 97 ≤ c ∧ c ≤ 102 then some (c - 97 + 10)
  else if 65 ≤ c ∧ c ≤ 70 then some (c - 65 + 10)
  else none

/-- The constant `big`, the bound of `xtoi` and `dtoi`. -/
def big : Nat := 0xFFFFFF

/-- The loop of `xtoi`: `n` is the number read so far and `i` the count of
bytes consumed. -/
def xtoi.loop : List Nat → Nat → Nat → Nat × Nat × Bool
  | [], n, i => if i = 0 then (0, i, false) else (n, i, true)
  | c :: s, n, i =>
    match hexVal c with
    | none => if i = 0 then (0, i, false) else (n, i, true)
    | some d => if big ≤ n * 16 + d then (0, i, false) else xtoi.loop s (n * 16 + d) (i + 1)

/-- The function `xtoi`: hexadecimal to integer; it returns the number, the
count of bytes consumed and success. -/
def xtoi (s : List Nat) : Nat × Nat × Bool := xtoi.loop s 0 0

/-- The function `xtoi2`: the next two hexadecimal digits of `s` as a byte; when
`s` is longer than two bytes the third must be `e`. -/
def xtoi2 (s : List Nat) (e : Nat) : Nat × Bool :=
  if 2 < s.length ∧ s.getD 2 0 ≠ e then (0, false)
  else ((xtoi (s.take 2)).1 % 256, (xtoi (s.take 2)).2.2 && decide ((xtoi (s.take 2)).2.1 = 2))

/-- The loop of `ParseMAC` for the forms `00:00:5e:00:53:01` and
`00-00-5e-00-53-01`: `n` bytes are still to be read from `s`, three bytes of
text each; `none` is the jump to `error`. -/
def ParseMAC.colons (sep : Nat) : Nat → List Nat → Option Bytes
  | 0, _ => some []
  | n + 1, s =>
    if (xtoi2 s sep).2 then
      (ParseMAC.colons sep n (s.drop 3)).map (fun hw => Fin.ofNat (xtoi2 s sep).1 :: hw)
    else none

/-- The loop of `ParseMAC` for the form `0000.5e00.5301`: `n` pairs of bytes
are still to be read from `s`, five bytes of text each. -/
def ParseMAC.dots (sep : Nat) : Nat → List Nat → Option Bytes
  | 0, _ => some []
  | n + 1, s =>
    if (xtoi2 (s.take 2) 0).2 then
      if (xtoi2 (s.drop 2) sep).2 then
        (ParseMAC.dots sep n (s.drop 5)).map (fun hw =>
          Fin.ofNat (xtoi2 (s.take 2) 0).1 :: Fin.ofNat (xtoi2 (s.drop 2) sep).1 :: hw)
      else none
    else none

/-- The function `net.ParseMAC`, which returns the Go pair (address, error); the
address is nil when the error is not. -/
def ParseMAC (s : String) : Bytes × Option GoError :=
  let b := stringBytes s
  let err : Bytes × Option GoError := ([], some (GoError.errorString "invalid MAC address"))
  if b.length < 14 then err
  else if b.getD 2 0 = 58 ∨ b.getD 2 0 = 45 then
    if (b.length + 1) % 3 ≠ 0 then err
    else if (b.length + 1) / 3 ≠ 6 ∧ (b.length + 1) / 3 ≠ 8 ∧ (b.length + 1) / 3 ≠ 20 then err
    else
      match ParseMAC.colons (b.getD 2 0) ((b.length + 1) / 3) b with
      | none => err
      | some hw => (hw, none)
  else if b.getD 4 0 = 46 then
    if (b.length + 1) % 5 ≠ 0 then err
    else if 2 * (b.length + 1) / 5 ≠ 6 ∧ 2 * (b.length + 1) / 5 ≠ 8 ∧
        2 * (b.length + 1) / 5 ≠ 20 then err
    else
      match ParseMAC.dots 46 (2 * (b.length + 1) / 5 / 2) b with
      | none => err
      | some hw => (hw, none)
  else err

/-- The loop of `dtoi`: `n` is the number read so far and `i` the count of
bytes consumed. -/
def dtoi.loop : List Nat → Nat → Nat → Nat × Nat × Bool
  | [], n, i => if i = 0 then (0, 0, false) else (n, i, true)
  | c :: s, n, i =>
    if 48 ≤ c ∧ c ≤ 57 then
      if big ≤ n * 10 + (c - 48) then (big, i, false) else dtoi.loop s (n * 10 + (c - 48)) (i + 1)
    else if i = 0 then (0, 0, false) else (n, i, true)

/-- The function `dtoi`: decimal to integer; it returns the number, the count of
bytes consumed and success. -/
def dtoi (s : List Nat) : Nat × Nat × Bool := dtoi.loop s 0 0

/-- The function `uitoa`: an unsigned integer in decimal. -/
def uitoa (val : Nat) : List Char := json.natDigits val

/-- The function `hexString`: two digits for every byte. -/
def hexString : Bytes → List Char
  | [] => []
  | b :: bs => hexDigit (b.val / 16) :: hexDigit (b.val % 16) :: hexString bs

/-- The method `IP.To4`: the 4-byte form of an IPv4 address, which is held in 4
bytes or in 16 bytes with the prefix `0:0:0:0:0:ffff`; nil, here the empty
slice, for any other address. -/
def IP.To4 (ip : Bytes) : Bytes :=
  if ip.length = 4 then ip
  else if ip.length = 16 ∧ (ip.take 10).all (fun b => decide (b = 0)) ∧
      ip.getD 10 0 = 255 ∧ ip.getD 11 0 = 255 then ip.drop 12
  else []

/-- The loop of `CIDRMask`: `l` bytes are still to be written and `n` bits of
the prefix are still to be set. -/
def CIDRMask.loop : Nat → Nat → Bytes
  | 0, _ => []
  | l + 1, n =>
    if 8 ≤ n then 255 :: CIDRMask.loop l (n - 8)
    else Fin.ofNat (255 - 255 / 2 ^ n) :: CIDRMask.loop l 0

/-- The function `net.CIDRMask`: the mask of `bits` bits whose first `ones` bits
are set; nil when `bits` is neither 32 nor 128 or `ones` is out of range. -/
def CIDRMask (ones bits : Nat) : Bytes :=
  if bits ≠ 32 ∧ bits ≠ 128 then []
  else if bits < ones then []
  else CIDRMask.loop (bits / 8) ones

/-- The inner loop of `simpleMaskLength`, which counts the leading one bits of a
byte: `for v&0x80 != 0 { n++; v <<= 1 }`. It returns the byte that is left
and the count. -/
def simpleMaskLength.ones : Nat → Nat → Nat → Nat × Nat
  | 0, v, n => (v, n)
  | fuel + 1, v, n =>
    if v / 128 % 2 = 1 then simpleMaskLength.ones fuel (v * 2 % 256) (n + 1) else (v, n)

/-- The loop of `simpleMaskLength` over the bytes of the mask; `none` is the
result `-1`. -/
def simpleMaskLength.loop : Bytes → Nat → Option Nat
  | [], n => some n
  | v :: mask, n =>
    if v.val = 255 then simpleMaskLength.loop mask (n + 8)
    else if (simpleMaskLength.ones 8 v.val n).1 ≠ 0 then none
    else if mask.any (fun b => decide (b ≠ 0)) then none
    else some (simpleMaskLength.ones 8 v.val n).2

/-- The function `simpleMaskLength`: the number of leading ones of a mask that
is ones followed by zeros; `none`, for the Go result `-1`, for any other
mask. -/
def simpleMaskLength (mask : Bytes) : Option Nat := simpleMaskLength.loop mask 0

/-- The function `networkNumberAndMask`; `none` is the result `nil, nil`. -/
def networkNumberAndMask (n : IPNet) : Option (Bytes × Bytes) :=
  let ip := if (IP.To4 n.IP).length = 0 then n.IP else IP.To4 n.IP
  if (IP.To4 n.IP).length = 0 ∧ n.IP.length ≠ 16 then none
  else if n.Mask.length = 4 then
    if ip.length ≠ 4 then none else some (ip, n.Mask)
  else if n.Mask.length = 16 then
    if ip.length = 4 then some (ip, n.Mask.drop 12) else some (ip, n.Mask)
  else none

end net

namespace netip

/-- The function `appendDecimal`: a byte in decimal. -/
def appendDecimal (x : Nat) : List Char :=
  (if 100 ≤ x then [Char.ofNat (48 + x / 100)] else []) ++
    (if 10 ≤ x then [Char.ofNat (48 + x / 10 % 10)] else []) ++ [Char.ofNat (48 + x % 10)]

/-- The function `appendHex`: a 16-bit group in hexadecimal, without leading
zeros. -/
def appendHex (x : Nat) : List Char :=
  (if 0x1000 ≤ x then [net.hexDigit (x / 0x1000)] else []) ++
    (if 0x100 ≤ x then [net.hexDigit (x / 0x100 % 16)] else []) ++
    (if 0x10 ≤ x then [net.hexDigit (x / 0x10 % 16)] else []) ++ [net.hexDigit (x % 16)]

/-- The method `Addr.string4` on the four bytes of an IPv4 address. -/
def string4 (p : Bytes) : List Char :=
  appendDecimal (p.getD 0 0).val ++ '.' :: appendDecimal (p.getD 1 0).val ++
    '.' :: appendDecimal (p.getD 2 0).val ++ '.' :: appendDecimal (p.getD 3 0).val

/-- The method `Addr.v6u16`: the 16-bit group at index `i` of a 16-byte
address. -/
def v6u16 (ip : Bytes) (i : Nat) : Nat := (ip.getD (2 * i) 0).val * 256 + (ip.getD (2 * i + 1) 0).val

/-- The inner loop of the search of `string6` for runs of zero groups: the
first index from `j` on, up to 8, whose group is not zero. -/
def string6.runEnd (ip : Bytes) : Nat → Nat → Nat
  | 0, j => j
  | fuel + 1, j => if j < 8 ∧ v6u16 ip j = 0 then string6.runEnd ip fuel (j + 1) else j

/-- The outer loop of the search, at index `i`: `zeroStart` and `zeroEnd`
bound the longest run of at least two zero groups found so far, the first of
the longest; both are 255 while none is found. -/
def string6.search (ip : Bytes) : Nat → Nat → Nat × Nat → Nat × Nat
  | 0, _, z => z
  | fuel + 1, i, z =>
    if 8 ≤ i then z
    else if 2 ≤ string6.runEnd ip 8 i - i ∧ z.2 - z.1 < string6.runEnd ip 8 i - i then
      string6.search ip fuel (i + 1) (i, string6.runEnd ip 8 i)
    else string6.search ip fuel (i + 1) z

/-- The loop of `string6` that prints the groups, at index `i`: the run of
zeros found prints as `::`, and a colon stands before every other group but
the first. -/
def string6.print (ip : Bytes) (zeroStart zeroEnd : Nat) : Nat → Nat → List Char
  | 0, _ => []
  | fuel + 1, i =>
    if 8 ≤ i then []
    else if i = zeroStart then
      ':' :: ':' ::
        (if 8 ≤ zeroEnd then []
         else appendHex (v6u16 ip zeroEnd) ++ string6.print ip zeroStart zeroEnd fuel (zeroEnd + 1))
    else
      (if 0 < i then [':'] else []) ++
        (appendHex (v6u16 ip i) ++ string6.print ip zeroStart zeroEnd fuel (i + 1))

/-- The method `Addr.string6` on the sixteen bytes of an IPv6 address without
zone. -/
def string6 (ip : Bytes) : List Char :=
  string6.print ip (string6.search ip 8 0 (255, 255)).1 (string6.search ip 8 0 (255, 255)).2 8 0

/-- The groups of an IPv6 address as `string6` prints them on one side of `::`:
each in hexadecimal, with a colon between two groups. -/
def joinGroups : List Nat → List Char
  | [] => []
  | [g] => appendHex g
  | g :: g2 :: gs => appendHex g ++ ':' :: joinGroups (g2 :: gs)

/-- The two bytes of each group of a list, high byte first. -/
def groupBytes (gs : List Nat) : List Nat := gs.flatMap (fun g => [g / 256, g % 256])

/-- What the search of `string6` finds: nothing, or a run of at least two
groups that are zero. -/
def string6.Run (ip : Bytes) (z : Nat × Nat) : Prop :=
  z = (255, 255) ∨
    (z.1 < z.2 ∧ z.2 ≤ 8 ∧ 2 ≤ z.2 - z.1 ∧ ∀ j, z.1 ≤ j → j < z.2 → v6u16 ip j = 0)

/-- A parsed address, a `netip.Addr`: its sixteen bytes (`As16`), whether it is
an IPv4 address (`Is4`), and the bytes of its zone. -/
structure Addr where
  as16 : Bytes
  is4 : Bool
  zone : List Nat
deriving DecidableEq, Repr

/-- The method `Addr.BitLen`. -/
def Addr.BitLen (a : Addr) : Nat := if a.is4 then 32 else 128

/-- The loop of `parseIPv4Fields` over the bytes of the text: `prev` is the
byte before the current one, `val` the value of the field being read, `pos`
the index of that field, `digLen` the number of its digits, and `fields` the
fields read so far. `none` is an error. -/
def parseIPv4Fields.loop : List Nat → Option Nat → Nat → Nat → Nat → List Nat →
    Option (List Nat)
  | [], _, val, pos, _, fields => if pos < 3 then none else some (fields ++ [val])
  | c :: s, prev, val, pos, digLen, fields =>
    if 48 ≤ c ∧ c ≤ 57 then
      if digLen = 1 ∧ val = 0 then none
      else if 255 < val * 10 + (c - 48) then none
      else parseIPv4Fields.loop s (some c) (val * 10 + (c - 48)) pos (digLen + 1) fields
    else if c = 46 then
      if prev = none ∨ s = [] ∨ prev = some 46 then none
      else if pos = 3 then none
      else parseIPv4Fields.loop s (some c) 0 (pos + 1) 0 (fields ++ [val])
    else none

/-- The function `parseIPv4Fields` on the whole of a text: the four fields of a
dotted address, or `none` for an error. -/
def parseIPv4Fields (s : List Nat) : Option (List Nat) :=
  parseIPv4Fields.loop s none 0 0 0 []

/-- The prefix of an IPv4 address held in 16 bytes: `0:0:0:0:0:ffff`. -/
def v4InV6Prefix : Bytes := [0, 0, 0, 0, 0, 0, 0, 0, 0, 0, 255, 255]

/-- The function `parseIPv4`. -/
def parseIPv4 (s : List Nat) : Option Addr :=
  match parseIPv4Fields s with
  | none => none
  | some fields =>
    some { as16 := v4InV6Prefix ++ fields.map (fun x => Fin.ofNat x), is4 := true, zone := [] }

/-- The loop of `parseIPv6` that reads one group of hexadecimal digits: `off` is
the count of digits read and `acc` their value. It stops at the first byte
that is no digit; a fifth digit is an error, `none`. -/
def parseIPv6.hex : List Nat → Nat → Nat → Option (Nat × Nat)
  | [], off, acc => some (off, acc)
  | c :: s, off, acc =>
    match net.hexVal c with
    | none => some (off, acc)
    | some d =>
      if 3 < off then none
      else if 65535 < acc * 16 + d then none
      else parseIPv6.hex s (off + 1) (acc * 16 + d)

/-- The main loop of `parseIPv6`: `s` is the text still to be read, `ip` the
bytes stored so far (their count is the index `i` of the Go code) and
`ellipsis` the index at which `::` was seen, `none` for `-1`. The loop runs
while `i < 16`; it returns the text left, the bytes and the ellipsis, or
`none` for an error. -/
def parseIPv6.loop : Nat → List Nat → List Nat → Option Nat →
    Option (List Nat × List Nat × Option Nat)
  | 0, s, ip, ellipsis => some (s, ip, ellipsis)
  | fuel + 1, s, ip, ellipsis =>
    if 16 ≤ ip.length then some (s, ip, ellipsis)
    else
      match parseIPv6.hex s 0 0 with
      | none => none
      | some (off, acc) =>
        if off = 0 then none
        else if off < s.length ∧ s.getD off 0 = 46 then
          if ellipsis = none ∧ ip.length ≠ 12 then none
          else if 16 < ip.length + 4 then none
          else
            match parseIPv4Fields s with
            | none => none
            | some fields => some ([], ip ++ fields, ellipsis)
        else if s.drop off = [] then some ([], ip ++ [acc / 256, acc % 256], ellipsis)
        else if (s.drop off).head? ≠ some 58 then none
        else if (s.drop off).length = 1 then none
        else if (s.drop (off + 1)).head? = some 58 then
          if ellipsis ≠ none then none
          else if s.drop (off + 2) = [] then
            some ([], ip ++ [acc / 256, acc % 256], some (ip.length + 2))
          else
            parseIPv6.loop fuel (s.drop (off + 2)) (ip ++ [acc / 256, acc % 256])
              (some (ip.length + 2))
        else parseIPv6.loop fuel (s.drop (off + 1)) (ip ++ [acc / 256, acc % 256]) ellipsis

/-- What `parseIPv6` does once the loop is over: the whole text must have been
read; when fewer than 16 bytes were stored the ellipsis is expanded, the
bytes from it on moving to the end and zeros taking their place; 16 bytes
with an ellipsis are an error. -/
def parseIPv6.finish (s ip : List Nat) (ellipsis : Option Nat) : Option (List Nat) :=
  if s.length ≠ 0 then none
  else if ip.length < 16 then
    match ellipsis with
    | none => none
    | some e => some (ip.take e ++ List.replicate (16 - ip.length) 0 ++ ip.drop e)
  else
    match ellipsis with
    | none => some ip
    | some _ => none

/-- The function `parseIPv6`. The zone is split off first; a leading `::` is
read before the loop. -/
def parseIPv6 (text : List Nat) : Option Addr :=
  let s := text.takeWhile (fun c => decide (c ≠ 37))
  let zone := (text.dropWhile (fun c => decide (c ≠ 37))).drop 1
  if s.length < text.length ∧ zone = [] then none
  else if 2 ≤ s.length ∧ s.getD 0 0 = 58 ∧ s.getD 1 0 = 58 then
    if s.drop 2 = [] then
      some { as16 := List.replicate 16 0, is4 := false, zone := zone }
    else
      match parseIPv6.loop 8 (s.drop 2) [] (some 0) with
      | none => none
      | some r =>
        match parseIPv6.finish r.1 r.2.1 r.2.2 with
        | none => none
        | some ip => some { as16 := ip.map (fun x => Fin.ofNat x), is4 := false, zone := zone }
  else
    match parseIPv6.loop 8 s [] none with
    | none => none
    | some r =>
      match parseIPv6.finish r.1 r.2.1 r.2.2 with
      | none => none
      | some ip => some { as16 := ip.map (fun x => Fin.ofNat x), is4 := false, zone := zone }

/-- The function `netip.ParseAddr`: the first of the bytes `.`, `:` and `%` in
the text decides how it is read. -/
def ParseAddr.scan (text : List Nat) : List Nat → Option Addr
  | [] => none
  | c :: s =>
    if c = 46 then parseIPv4 text
    else if c = 58 then parseIPv6 text
    else if c = 37 then none
    else ParseAddr.scan text s

/-- The function `netip.ParseAddr`; `none` is an error. -/
def ParseAddr (text : List Nat) : Option Addr := ParseAddr.scan text text

end netip

namespace net

/-- The method `IP.To16`: the 16-byte form of an address; nil, here the empty
slice, for an address that has neither 4 nor 16 bytes. -/
def IP.To16 (ip : Bytes) : Bytes :=
  if ip.length = 4 then netip.v4InV6Prefix ++ ip
  else if ip.length = 16 then ip
  else []

/-- The method `IP.String`. -/
def IP.String (ip : Bytes) : List Char :=
  if ip.length = 0 then "<nil>".data
  else if ip.length ≠ 4 ∧ ip.length ≠ 16 then '?' :: hexString ip
  else if (IP.To4 ip).length = 4 then netip.string4 (IP.To4 ip)
  else netip.string6 ip

/-- The method `IPMask.String`. -/
def IPMask.String (m : Bytes) : List Char :=
  if m.length = 0 then "<nil>".data else hexString m

/-- The method `(*net.IPNet).String` on a pointer that is not nil. -/
def IPNet.String (n : IPNet) : String :=
  match networkNumberAndMask n with
  | none => "<nil>"
  | some (nn, m) =>
    match simpleMaskLength m with
    | none => String.mk (IP.String nn ++ '/' :: IPMask.String m)
    | some l => String.mk (IP.String nn ++ '/' :: uitoa l)

/-- A network as the Go library builds them: an IPv4 address, held in 4 bytes
or in 16 bytes with the prefix `0:0:0:0:0:ffff`, with a mask of 4 bytes, or
another address of 16 bytes with a mask of 16 bytes; and the mask is a prefix
mask, ones followed by zeros, which is what `simpleMaskLength` accepts. -/
def IPNet.WellFormed (n : IPNet) : Prop :=
  (((IP.To4 n.IP).length = 4 ∧ n.Mask.length = 4) ∨
      ((IP.To4 n.IP).length = 0 ∧ n.IP.length = 16 ∧ n.Mask.length = 16)) ∧
    simpleMaskLength n.Mask ≠ none

/-- The network with its address in the 16-byte form. -/
def IPNet.To16 (n : IPNet) : IPNet := { n with IP := IP.To16 n.IP }

/-- The function `net.ParseCIDR`, of which the network that it returns is kept:
the address as parsed, in its 16-byte form, which is its first result, and
the mask. `none` is an error. -/
def ParseCIDR (s : List Nat) : Option (Bytes × Bytes) :=
  let addr := s.takeWhile (fun c => decide (c ≠ 47))
  let mask := (s.dropWhile (fun c => decide (c ≠ 47))).drop 1
  if addr.length = s.length then none
  else
    match netip.ParseAddr addr with
    | none => none
    | some ipAddr =>
      if ipAddr.zone ≠ [] then none
      else if (dtoi mask).2.2 = false ∨ (dtoi mask).2.1 ≠ mask.length ∨
          ipAddr.BitLen < (dtoi mask).1 then none
      else some (ipAddr.as16, CIDRMask (dtoi mask).1 ipAddr.BitLen)

end net

namespace types

/-- Modelled from the spec: the function `types.ParseCIDR` of
`libnetwork/types`, which is not among the sources: `net.ParseCIDR`, with the
address that was parsed put in the place of the network number. It returns
the Go pair (network, error), the network being nil when the error is not. -/
def ParseCIDR (cidr : String) : Option IPNet × Option GoError :=
  match net.ParseCIDR (net.stringBytes cidr) with
  | none => (none, some (GoError.errorString "invalid CIDR address"))
  | some (ip, mask) => (some { IP := ip, Mask := mask }, none)

end types

/-- The address functions of the Go library, as the endpoint code calls them. -/
def netLib : AddrLib where
  macString := net.HardwareAddr.String
  ipNetString := net.IPNet.String
  ParseMAC := net.ParseMAC
  ParseCIDR := types.ParseCIDR
/-! ## The ipvlan driver -/

namespace ipvlan

/-- The subnet descriptor `ipSubnet`. -/
structure ipSubnet where
  SubnetIP : String
  GwIP : String
deriving DecidableEq, Repr

/-- The network record `configuration`. `Mtu` is a Go `int`; the subnet slices
hold pointers, `none` being the nil pointer. A Go slice has a length and a
capacity: `Ipv4Subnets` and `Ipv6Subnets` are the elements of the two slices,
and `Ipv4Spare` and `Ipv6Spare`, which are no fields of the Go struct, are what
the backing arrays of the two slices hold past the length, up to the capacity.
`json.Unmarshal` decodes into that spare capacity when it extends a slice, so
a later decode can bring back what an earlier one left there. -/
structure configuration where
  ID : String
  Mtu : Int
  dbIndex : Nat
  dbExists : Bool
  Internal : Bool
  Parent : String
  IpvlanMode : String
  IpvlanFlag : String
  CreatedSlaveLink : Bool
  Ipv4Subnets : List (Option ipSubnet)
  Ipv6Subnets : List (Option ipSubnet)
  Ipv4Spare : List (Option ipSubnet) := []
  Ipv6Spare : List (Option ipSubnet) := []
deriving DecidableEq, Repr

/-- Modelled from the spec: the endpoint record, whose struct declaration is in
a file of the driver that is not among the sources. The fields are those
`ipvlan_store.go` reads and writes: identifier, owning-network identifier,
optional hardware address (empty when absent), optional IPv4 and IPv6
address/prefix (nil when absent), source interface name, version stamp and
existence flag. -/
structure endpoint where
  id : String
  nid : String
  mac : Bytes
  addr : Option IPNet
  addrv6 : Option IPNet
  srcName : String
  dbIndex : Nat
  dbExists : Bool
deriving DecidableEq, Repr

/-- The type `endpointTable`, a `map[string]*endpoint`. -/
abbrev endpointTable := GoMap endpoint

/-- Modelled from the spec: the in-memory network, whose struct declaration is
not among the sources: a Network Record together with its child Endpoint
Records, held in the field `endpoints` that `populateEndpoints` assigns to. -/
structure network where
  id : String
  endpoints : endpointTable
  config : configuration
deriving DecidableEq, Repr

/-- The type `networkTable`, a `map[string]*network`: the in-memory index of the
driver. Distinct keys hold distinct networks. -/
abbrev networkTable := GoMap network

/-- The interface `datastore.KVObject`, as implemented by the two record types
of the driver. -/
inductive KVObject where
  | configuration (config : configuration) : KVObject
  | endpoint (ep : endpoint) : KVObject
deriving DecidableEq, Repr

/-- Modelled from the spec: the Persistent Object Store of section 6, an external
collaborator. `σ` is whatever the backend holds; every call may change it.
`List` returns the Go pair (records, error); it materialises records with the
prototype's `New()`, so a listing made with a `configuration` prototype holds
configurations and one made with an `endpoint` prototype holds endpoints. -/
structure Store (σ : Type) where
  ListConfigurations : σ → (List configuration × Option GoError) × σ
  ListEndpoints : σ → (List endpoint × Option GoError) × σ
  PutObjectAtomic : KVObject → σ → Option GoError × σ
  DeleteObject : KVObject → σ → Option GoError × σ

/-- A call made to a collaborator outside `ipvlan_store.go`. -/
inductive Call where
  | ListConfigurations : Call
  | ListEndpoints : Call
  | createNetwork (config : configuration) : Call
  | PutObjectAtomic (kvObject : KVObject) : Call
  | DeleteObject (kvObject : KVObject) : Call
deriving DecidableEq, Repr

/-- The receiver `d *driver` together with the world its methods act on:
`networks` and `store` are the Go fields (`store` is nil when persistence is
disabled); `backend` is the content behind `store`, `host` is the state of the
machine that `createNetwork` inspects and changes, and `calls` records the
collaborator calls made so far. -/
structure driver (σ ω : Type) where
  networks : networkTable
  store : Option (Store σ)
  backend : σ
  host : ω
  calls : List Call

/-- Modelled from the spec: the method `d.createNetwork(config)`, defined in a
file of the driver that is not among the sources. It attempts to reconstruct
the in-memory network of a record: it reads and changes the index and the
host, and returns the Go pair (bool, error). -/
abbrev CreateNetwork (ω : Type) :=
  configuration → networkTable → ω → (Bool × Option GoError) × networkTable × ω

/-- The Go value `json.Marshal` sees in a subnet slice: each element is a nil
pointer or a struct printed with its two fields, in declaration order. -/
def subnetsValue (subnets : List (Option ipSubnet)) : json.GoValue :=
  json.GoValue.slice (subnets.map (fun p =>
    match p with
    | none => json.GoValue.nil
    | some s =>
      json.GoValue.object
        [("SubnetIP", json.GoValue.string s.SubnetIP), ("GwIP", json.GoValue.string s.GwIP)]))

/-- Decodes one member of a JSON object into an `ipSubnet`. The member goes to
the field with exactly its name or, failing that, to the field with the same
folded name; a member that matches no field is skipped. A string sets the
field, `null` leaves it, any other value is a type error and leaves it. -/
def setSubnetField (s : ipSubnet) (k : String) (v : json.JSON) : ipSubnet × Option GoError :=
  let field : Option Bool :=
    if k = "SubnetIP" then some true
    else if k = "GwIP" then some false
    else if json.foldName k = json.foldName "SubnetIP" then some true
    else if json.foldName k = json.foldName "GwIP" then some false
    else none
  match field with
  | none => (s, none)
  | some isSubnetIP =>
    match v with
    | json.JSON.string x =>
      (if isSubnetIP then { s with SubnetIP := x } else { s with GwIP := x }, none)
    | json.JSON.null => (s, none)
    | _ => (s, some (GoError.UnmarshalTypeError "cannot unmarshal into Go struct field of type string"))

/-- Decodes a JSON value into an element of a subnet slice, a `*ipSubnet` that
currently is `old`. `null` sets the pointer to nil; any other value is decoded
into the struct the pointer refers to, a new one when the pointer is nil: the
members of an object are decoded in order, and a value that is not an object
is a type error. The first error is kept and decoding goes on. -/
def decodeSubnet (old : Option ipSubnet) (doc : json.JSON) : Option ipSubnet × Option GoError :=
  match doc with
  | json.JSON.null => (none, none)
  | json.JSON.object ms =>
    let r := ms.foldl (fun (acc : ipSubnet × Option GoError) kv =>
      let r := setSubnetField acc.1 kv.1 kv.2
      (r.1, if acc.2 = none then r.2 else acc.2)) (old.getD { SubnetIP := "", GwIP := "" }, none)
    (some r.1, r.2)
  | _ =>
    (some (old.getD { SubnetIP := "", GwIP := "" }),
      some (GoError.UnmarshalTypeError "cannot unmarshal into Go value of type ipSubnet"))

/-- Decodes the elements of a JSON array into a subnet slice whose backing
array holds `old`, the elements of the slice followed by its spare capacity.
The decoder extends the slice one element at a time and decodes the element
at index `i` of the array into what the backing array holds at `i`: an
element of the slice, or a pointer that an earlier use of the array left in
its spare capacity. Past the capacity the slice is grown, and the element is
decoded into a new nil pointer. The slice ends with as many elements as the
array. -/
def decodeSubnets : List (Option ipSubnet) → List json.JSON →
    List (Option ipSubnet) × Option GoError
  | _, [] => ([], none)
  | old, doc :: docs =>
    let r := decodeSubnet old.head?.join doc
    let rs := decodeSubnets old.tail docs
    (r.1 :: rs.1, if r.2 = none then rs.2 else r.2)

/-- The call `json.Unmarshal(b, &subnets)` for a subnet slice that currently
holds `old` and whose backing array holds `spare` past it: the elements of the
slice it leaves and the error it returns. A text that is not JSON is a syntax
error and leaves the slice; `null` sets the slice to nil; a value that is not
an array is a type error and leaves the slice. -/
def unmarshalSubnets (old spare : List (Option ipSubnet)) (b : json.Text) :
    List (Option ipSubnet) × Option GoError :=
  match json.parse b with
  | none => (old, some (GoError.SyntaxError "invalid character"))
  | some json.JSON.null => ([], none)
  | some (json.JSON.array docs) => decodeSubnets (old ++ spare) docs
  | some _ =>
    (old, some (GoError.UnmarshalTypeError "cannot unmarshal into Go value of type []*ipSubnet"))

/-- What the backing array of the slice holds past its length after the call
`json.Unmarshal(b, &subnets)`. `null` sets the slice to nil and an empty array
sets it to a new empty slice, both without capacity. A longer array is decoded
in place: what the backing array held past the elements decoded stays there,
now as spare capacity; when the array is longer than the capacity the slice is
grown into a new backing array, whose spare capacity holds nil pointers only
(as good as none: a nil pointer is decoded into as a new element is). A text
that is not decoded leaves the slice. -/
def spareAfter (old spare : List (Option ipSubnet)) (b : json.Text) :
    List (Option ipSubnet) :=
  match json.parse b with
  | some json.JSON.null => []
  | some (json.JSON.array []) => []
  | some (json.JSON.array (doc :: docs)) => (old ++ spare).drop (doc :: docs).length
  | _ => spare

/-- The Go expression `nets[k].endpoints[i]`, with its presence flag: the endpoint
held in the index under network `k` and endpoint identifier `i`. -/
def endpointAt (nets : networkTable) (k i : String) : Option endpoint :=
  match GoMap.lookup nets k with
  | none => none
  | some n => GoMap.lookup n.endpoints i

/-- The method `storeDelete`. -/
def storeDelete {σ ω : Type} (d : driver σ ω) (kvObject : KVObject) :
    Option GoError × driver σ ω :=
  match d.store with
  | none => (none, d)
  | some st =>
    let r := st.DeleteObject kvObject d.backend
    (r.1, { d with backend := r.2, calls := d.calls ++ [Call.DeleteObject kvObject] })

/-- The method `storeUpdate`. -/
def storeUpdate {σ ω : Type} (d : driver σ ω) (kvObject : KVObject) :
    Option GoError × driver σ ω :=
  match d.store with
  | none => (none, d)
  | some st =>
    let r := st.PutObjectAtomic kvObject d.backend
    let d1 := { d with backend := r.2, calls := d.calls ++ [Call.PutObjectAtomic kvObject] }
    match r.1 with
    | some _ => (some (GoError.errorString "failed to update ipvlan store for object type"), d1)
    | none => (none, d1)

/-- One iteration of the loop of `populateNetworks`: the call
`d.createNetwork(config)`, whose error is only logged. -/
def populateNetworks.iter {σ ω : Type} (createNetwork : CreateNetwork ω)
    (d : driver σ ω) (config : configuration) : driver σ ω :=
  let r := createNetwork config d.networks d.host
  { d with networks := r.2.1, host := r.2.2, calls := d.calls ++ [Call.createNetwork config] }

/-- The method `populateNetworks`. -/
def populateNetworks {σ ω : Type} (createNetwork : CreateNetwork ω) (d : driver σ ω) :
    Outcome (Option GoError) × driver σ ω :=
  match d.store with
  | none => (Outcome.panicked "invalid memory address or nil pointer dereference", d)
  | some st =>
    let r := st.ListConfigurations d.backend
    let kvol := r.1.1
    let err := r.1.2
    let d1 := { d with backend := r.2, calls := d.calls ++ [Call.ListConfigurations] }
    if err ≠ none ∧ ¬ errors.Is err GoError.ErrKeyNotFound then
      match err with
      | some e =>
        (Outcome.ret (some (GoError.wrapError
          "failed to get ipvlan network configurations from store" e)), d1)
      | none => (Outcome.ret none, d1)
    else if errors.Is err GoError.ErrKeyNotFound then
      (Outcome.ret none, d1)
    else
      (Outcome.ret none, kvol.foldl (populateNetworks.iter createNetwork) d1)

/-- One iteration of the loop of `populateEndpoints`: the endpoint is attached
to its network when the index has one, and deleted from the store otherwise. -/
def populateEndpoints.iter {σ ω : Type} (d : driver σ ω) (ep : endpoint) : driver σ ω :=
  match GoMap.lookup d.networks ep.nid with
  | none => (storeDelete d (KVObject.endpoint ep)).2
  | some n =>
    { d with networks :=
        GoMap.insert d.networks ep.nid { n with endpoints := GoMap.insert n.endpoints ep.id ep } }

/-- The method `populateEndpoints`. -/
def populateEndpoints {σ ω : Type} (d : driver σ ω) :
    Outcome (Option GoError) × driver σ ω :=
  match d.store with
  | none => (Outcome.panicked "invalid memory address or nil pointer dereference", d)
  | some st =>
    let r := st.ListEndpoints d.backend
    let kvol := r.1.1
    let err := r.1.2
    let d1 := { d with backend := r.2, calls := d.calls ++ [Call.ListEndpoints] }
    if err ≠ none ∧ ¬ errors.Is err GoError.ErrKeyNotFound then
      match err with
      | some e =>
        (Outcome.ret (some (GoError.wrapError "failed to get ipvlan endpoints from store" e)), d1)
      | none => (Outcome.ret none, d1)
    else if errors.Is err GoError.ErrKeyNotFound then
      (Outcome.ret none, d1)
    else
      (Outcome.ret none, kvol.foldl populateEndpoints.iter d1)

/-- The method `initStore`. -/
def initStore {σ ω : Type} (createNetwork : CreateNetwork ω) (d : driver σ ω) :
    Outcome (Option GoError) × driver σ ω :=
  match populateNetworks createNetwork d with
  | (Outcome.ret none, d1) =>
    match populateEndpoints d1 with
    | (Outcome.ret none, d2) => (Outcome.ret none, d2)
    | r => r
  | r => r

/-- The store deletions made for a listing: one `DeleteObject` per record whose
network identifier is not a key of the index `nets`, in list order. -/
def staleDeletes (nets : networkTable) (eps : List endpoint) : List Call :=
  (eps.filter (fun e => decide (e.nid ∉ GoMap.keys nets))).map
    (fun e => Call.DeleteObject (KVObject.endpoint e))

/-- The index and host left by calling `createNetwork` on each record in turn,
whatever each call returns. -/
def restoreNetworks {ω : Type} (createNetwork : CreateNetwork ω)
    (configs : List configuration) (s : networkTable × ω) : networkTable × ω :=
  configs.foldl (fun s config => (createNetwork config s.1 s.2).2) s

/-- The index left by attaching, in turn, each endpoint whose network identifier
is a key of the index. -/
def attachAll (nets : networkTable) (eps : List endpoint) : networkTable :=
  eps.foldl (fun nets ep =>
    match GoMap.lookup nets ep.nid with
    | none => nets
    | some n =>
      GoMap.insert nets ep.nid { n with endpoints := GoMap.insert n.endpoints ep.id ep }) nets

/-- The content of the store after `DeleteObject` of each endpoint in turn. -/
def deleteAll {σ : Type} (st : Store σ) (eps : List endpoint) (s : σ) : σ :=
  eps.foldl (fun s ep => (st.DeleteObject (KVObject.endpoint ep) s).2) s

/-- What the restore pipeline makes of the Go pair returned by `List`: the
records to process, or `none` when the listing failed with an error that is
not `ErrKeyNotFound`. -/
def listed {α : Type} (r : List α × Option GoError) : Option (List α) :=
  if errors.Is r.2 GoError.ErrKeyNotFound then some []
  else if r.2 = none then some r.1
  else none

/-- A store on which deletions succeed: listing does not change the content,
and `DeleteObject` of an endpoint record returns no error, removes the
records stored under that endpoint's key (its identifier) and leaves every
other record as it was. -/
structure Store.DeletionsSucceed {σ : Type} (st : Store σ) : Prop where
  listConfigurations_backend : ∀ s, (st.ListConfigurations s).2 = s
  listEndpoints_backend : ∀ s, (st.ListEndpoints s).2 = s
  delete_ok : ∀ s e, (st.DeleteObject (KVObject.endpoint e) s).1 = none
  delete_configurations : ∀ s e,
    (st.ListConfigurations (st.DeleteObject (KVObject.endpoint e) s).2).1
      = (st.ListConfigurations s).1
  delete_endpoints : ∀ s e,
    listed (st.ListEndpoints (st.DeleteObject (KVObject.endpoint e) s).2).1
      = (listed (st.ListEndpoints s).1).map (List.filter (fun x => decide (x.id ≠ e.id)))

/-- Modelled from the spec: a Persistent Object Store held in memory, the records
of each kind in key order. Used as the concrete store of the examples. -/
structure MemStore where
  configurations : List configuration
  endpoints : List endpoint
deriving DecidableEq, Repr

/-- Modelled from the spec: the operations of section 6 on `MemStore`. `List`
reports `ErrKeyNotFound` when no record of the kind exists; `PutObjectAtomic`
creates the record or, when the version stamps agree, replaces it;
`DeleteObject` removes by key. -/
def MemStore.store : Store MemStore where
  ListConfigurations := fun s =>
    (if s.configurations = [] then ([], some GoError.ErrKeyNotFound)
     else (s.configurations, none), s)
  ListEndpoints := fun s =>
    (if s.endpoints = [] then ([], some GoError.ErrKeyNotFound)
     else (s.endpoints, none), s)
  PutObjectAtomic := fun o s =>
    match o with
    | KVObject.configuration c =>
      match s.configurations.find? (fun x => decide (x.ID = c.ID)) with
      | none => (none, { s with configurations := s.configurations ++ [c] })
      | some old =>
        if old.dbIndex = c.dbIndex then
          (none, { s with configurations :=
            s.configurations.map (fun x => if x.ID = c.ID then c else x) })
        else (some (GoError.errorString "key modified"), s)
    | KVObject.endpoint e =>
      match s.endpoints.find? (fun x => decide (x.id = e.id)) with
      | none => (none, { s with endpoints := s.endpoints ++ [e] })
      | some old =>
        if old.dbIndex = e.dbIndex then
          (none, { s with endpoints := s.endpoints.map (fun x => if x.id = e.id then e else x) })
        else (some (GoError.errorString "key modified"), s)
  DeleteObject := fun o s =>
    match o with
    | KVObject.configuration c =>
      (none, { s with configurations := s.configurations.filter (fun x => decide (x.ID ≠ c.ID)) })
    | KVObject.endpoint e =>
      (none, { s with endpoints := s.endpoints.filter (fun x => decide (x.id ≠ e.id)) })

/-- Modelled from the spec: a `createNetwork` that always succeeds, as used in
the examples: it adds the network of the record, without endpoints, to the
index unless the index already has it, and reports whether it had. -/
def createNetworkOk {ω : Type} : CreateNetwork ω := fun config nets h =>
  match GoMap.lookup nets config.ID with
  | some _ => ((true, none), nets, h)
  | none =>
    ((false, none),
      GoMap.insert nets config.ID { id := config.ID, endpoints := [], config := config }, h)

/-- Modelled from the spec: a `createNetwork` that fails for every record and
changes nothing, as used in the examples. -/
def createNetworkFail {ω : Type} : CreateNetwork ω := fun _ nets h =>
  ((false, some (GoError.errorString "could not create network")), nets, h)

/-- An example of a `createNetwork` that inspects the host, whose state is here
the list of the links that exist on it. Restoring a network creates its link:
the call fails, and changes nothing, when the link of the record already
exists, and otherwise creates the link and adds the network of the record,
without endpoints, to the index. -/
def createNetworkOnce : CreateNetwork (List String) := fun config nets h =>
  if config.Parent ∈ h then
    ((false, some (GoError.errorString "link already exists")), nets, h)
  else
    ((false, none),
      GoMap.insert nets config.ID { id := config.ID, endpoints := [], config := config },
      config.Parent :: h)

end ipvlan
/-! ## The macvlan driver -/

namespace macvlan

/-- The subnet descriptor `ipSubnet`. -/
structure ipSubnet where
  SubnetIP : String
  GwIP : String
deriving DecidableEq, Repr

/-- The network record `configuration`. `Mtu` is a Go `int`; the subnet slices
hold pointers, `none` being the nil pointer. A Go slice has a length and a
capacity: `Ipv4Subnets` and `Ipv6Subnets` are the elements of the two slices,
and `Ipv4Spare` and `Ipv6Spare`, which are no fields of the Go struct, are what
the backing arrays of the two slices hold past the length, up to the capacity.
`json.Unmarshal` decodes into that spare capacity when it extends a slice, so
a later decode can bring back what an earlier one left there. -/
structure configuration where
  ID : String
  Mtu : Int
  dbIndex : Nat
  dbExists : Bool
  Internal : Bool
  Parent : String
  MacvlanMode : String
  CreatedSlaveLink : Bool
  Ipv4Subnets : List (Option ipSubnet)
  Ipv6Subnets : List (Option ipSubnet)
  Ipv4Spare : List (Option ipSubnet) := []
  Ipv6Spare : List (Option ipSubnet) := []
deriving DecidableEq, Repr

/-- Modelled from the spec: the endpoint record, whose struct declaration is in
a file of the driver that is not among the sources. The fields are those
`macvlan_store.go` reads and writes: identifier, owning-network identifier,
optional hardware address (empty when absent), optional IPv4 and IPv6
address/prefix (nil when absent), source interface name, version stamp and
existence flag. -/
structure endpoint where
  id : String
  nid : String
  mac : Bytes
  addr : Option IPNet
  addrv6 : Option IPNet
  srcName : String
  dbIndex : Nat
  dbExists : Bool
deriving DecidableEq, Repr

/-- The type `endpointTable`, a `map[string]*endpoint`. -/
abbrev endpointTable := GoMap endpoint

/-- Modelled from the spec: the in-memory network, whose struct declaration is
not among the sources: a Network Record together with its child Endpoint
Records, held in the field `endpoints` that `populateEndpoints` assigns to. -/
structure network where
  id : String
  endpoints : endpointTable
  config : configuration
deriving DecidableEq, Repr

/-- The type `networkTable`, a `map[string]*network`: the in-memory index of the
driver. Distinct keys hold distinct networks. -/
abbrev networkTable := GoMap network

/-- The interface `datastore.KVObject`, as implemented by the two record types
of the driver. -/
inductive KVObject where
  | configuration (config : configuration) : KVObject
  | endpoint (ep : endpoint) : KVObject
deriving DecidableEq, Repr

/-- Modelled from the spec: the Persistent Object Store of section 6, an external
collaborator. `σ` is whatever the backend holds; every call may change it.
`List` returns the Go pair (records, error); it materialises records with the
prototype's `New()`, so a listing made with a `configuration` prototype holds
configurations and one made with an `endpoint` prototype holds endpoints. -/
structure Store (σ : Type) where
  ListConfigurations : σ → (List configuration × Option GoError) × σ
  ListEndpoints : σ → (List endpoint × Option GoError) × σ
  PutObjectAtomic : KVObject → σ → Option GoError × σ
  DeleteObject : KVObject → σ → Option GoError × σ

/-- A call made to a collaborator outside `macvlan_store.go`. -/
inductive Call where
  | ListConfigurations : Call
  | ListEndpoints : Call
  | createNetwork (config : configuration) : Call
  | PutObjectAtomic (kvObject : KVObject) : Call
  | DeleteObject (kvObject : KVObject) : Call
deriving DecidableEq, Repr

/-- The receiver `d *driver` together with the world its methods act on:
`networks` and `store` are the Go fields (`store` is nil when persistence is
disabled); `backend` is the content behind `store`, `host` is the state of the
machine that `createNetwork` inspects and changes, and `calls` records the
collaborator calls made so far. -/
structure driver (σ ω : Type) where
  networks : networkTable
  store : Option (Store σ)
  backend : σ
  host : ω
  calls : List Call

/-- Modelled from the spec: the method `d.createNetwork(config)`, defined in a
file of the driver that is not among the sources. It attempts to reconstruct
the in-memory network of a record: it reads and changes the index and the
host, and returns the Go pair (bool, error). -/
abbrev CreateNetwork (ω : Type) :=
  configuration → networkTable → ω → (Bool × Option GoError) × networkTable × ω

/-- The Go value `json.Marshal` sees in a subnet slice: each element is a nil
pointer or a struct printed with its two fields, in declaration order. -/
def subnetsValue (subnets : List (Option ipSubnet)) : json.GoValue :=
  json.GoValue.slice (subnets.map (fun p =>
    match p with
    | none => json.GoValue.nil
    | some s =>
      json.GoValue.object
        [("SubnetIP", json.GoValue.string s.SubnetIP), ("GwIP", json.GoValue.string s.GwIP)]))

/-- Decodes one member of a JSON object into an `ipSubnet`. The member goes to
the field with exactly its name or, failing that, to the field with the same
folded name; a member that matches no field is skipped. A string sets the
field, `null` leaves it, any other value is a type error and leaves it. -/
def setSubnetField (s : ipSubnet) (k : String) (v : json.JSON) : ipSubnet × Option GoError :=
  let field : Option Bool :=
    if k = "SubnetIP" then some true
    else if k = "GwIP" then some false
    else if json.foldName k = json.foldName "SubnetIP" then some true
    else if json.foldName k = json.foldName "GwIP" then some false
    else none
  match field with
  | none => (s, none)
  | some isSubnetIP =>
    match v with
    | json.JSON.string x =>
      (if isSubnetIP then { s with SubnetIP := x } else { s with GwIP := x }, none)
    | json.JSON.null => (s, none)
    | _ => (s, some (GoError.UnmarshalTypeError "cannot unmarshal into Go struct field of type string"))

/-- Decodes a JSON value into an element of a subnet slice, a `*ipSubnet` that
currently is `old`. `null` sets the pointer to nil; any other value is decoded
into the struct the pointer refers to, a new one when the pointer is nil: the
members of an object are decoded in order, and a value that is not an object
is a type error. The first error is kept and decoding goes on. -/
def decodeSubnet (old : Option ipSubnet) (doc : json.JSON) : Option ipSubnet × Option GoError :=
  match doc with
  | json.JSON.null => (none, none)
  | json.JSON.object ms =>
    let r := ms.foldl (fun (acc : ipSubnet × Option GoError) kv =>
      let r := setSubnetField acc.1 kv.1 kv.2
      (r.1, if acc.2 = none then r.2 else acc.2)) (old.getD { SubnetIP := "", GwIP := "" }, none)
    (some r.1, r.2)
  | _ =>
    (some (old.getD { SubnetIP := "", GwIP := "" }),
      some (GoError.UnmarshalTypeError "cannot unmarshal into Go value of type ipSubnet"))

/-- Decodes the elements of a JSON array into a subnet slice whose backing
array holds `old`, the elements of the slice followed by its spare capacity.
The decoder extends the slice one element at a time and decodes the element
at index `i` of the array into what the backing array holds at `i`: an
element of the slice, or a pointer that an earlier use of the array left in
its spare capacity. Past the capacity the slice is grown, and the element is
decoded into a new nil pointer. The slice ends with as many elements as the
array. -/
def decodeSubnets : List (Option ipSubnet) → List json.JSON →
    List (Option ipSubnet) × Option GoError
  | _, [] => ([], none)
  | old, doc :: docs =>
    let r := decodeSubnet old.head?.join doc
    let rs := decodeSubnets old.tail docs
    (r.1 :: rs.1, if r.2 = none then rs.2 else r.2)

/-- The call `json.Unmarshal(b, &subnets)` for a subnet slice that currently
holds `old` and whose backing array holds `spare` past it: the elements of the
slice it leaves and the error it returns. A text that is not JSON is a syntax
error and leaves the slice; `null` sets the slice to nil; a value that is not
an array is a type error and leaves the slice. -/
def unmarshalSubnets (old spare : List (Option ipSubnet)) (b : json.Text) :
    List (Option ipSubnet) × Option GoError :=
  match json.parse b with
  | none => (old, some (GoError.SyntaxError "invalid character"))
  | some json.JSON.null => ([], none)
  | some (json.JSON.array docs) => decodeSubnets (old ++ spare) docs
  | some _ =>
    (old, some (GoError.UnmarshalTypeError "cannot unmarshal into Go value of type []*ipSubnet"))

/-- What the backing array of the slice holds past its length after the call
`json.Unmarshal(b, &subnets)`. `null` sets the slice to nil and an empty array
sets it to a new empty slice, both without capacity. A longer array is decoded
in place: what the backing array held past the elements decoded stays there,
now as spare capacity; when the array is longer than the capacity the slice is
grown into a new backing array, whose spare capacity holds nil pointers only
(as good as none: a nil pointer is decoded into as a new element is). A text
that is not decoded leaves the slice. -/
def spareAfter (old spare : List (Option ipSubnet)) (b : json.Text) :
    List (Option ipSubnet) :=
  match json.parse b with
  | some json.JSON.null => []
  | some (json.JSON.array []) => []
  | some (json.JSON.array (doc :: docs)) => (old ++ spare).drop (doc :: docs).length
  | _ => spare

/-- The Go expression `nets[k].endpoints[i]`, with its presence flag: the endpoint
held in the index under network `k` and endpoint identifier `i`. -/
def endpointAt (nets : networkTable) (k i : String) : Option endpoint :=
  match GoMap.lookup nets k with
  | none => none
  | some n => GoMap.lookup n.endpoints i

/-- The method `storeDelete`. -/
def storeDelete {σ ω : Type} (d : driver σ ω) (kvObject : KVObject) :
    Option GoError × driver σ ω :=
  match d.store with
  | none => (none, d)
  | some st =>
    let r := st.DeleteObject kvObject d.backend
    (r.1, { d with backend := r.2, calls := d.calls ++ [Call.DeleteObject kvObject] })

/-- The method `storeUpdate`. -/
def storeUpdate {σ ω : Type} (d : driver σ ω) (kvObject : KVObject) :
    Option GoError × driver σ ω :=
  match d.store with
  | none => (none, d)
  | some st =>
    let r := st.PutObjectAtomic kvObject d.backend
    let d1 := { d with backend := r.2, calls := d.calls ++ [Call.PutObjectAtomic kvObject] }
    match r.1 with
    | some _ => (some (GoError.errorString "failed to update macvlan store for object type"), d1)
    | none => (none, d1)

/-- One iteration of the loop of `populateNetworks`: the call
`d.createNetwork(config)`, whose error is only logged. -/
def populateNetworks.iter {σ ω : Type} (createNetwork : CreateNetwork ω)
    (d : driver σ ω) (config : configuration) : driver σ ω :=
  let r := createNetwork config d.networks d.host
  { d with networks := r.2.1, host := r.2.2, calls := d.calls ++ [Call.createNetwork config] }

/-- The method `populateNetworks`. -/
def populateNetworks {σ ω : Type} (createNetwork : CreateNetwork ω) (d : driver σ ω) :
    Outcome (Option GoError) × driver σ ω :=
  match d.store with
  | none => (Outcome.panicked "invalid memory address or nil pointer dereference", d)
  | some st =>
    let r := st.ListConfigurations d.backend
    let kvol := r.1.1
    let err := r.1.2
    let d1 := { d with backend := r.2, calls := d.calls ++ [Call.ListConfigurations] }
    if err ≠ none ∧ ¬ errors.Is err GoError.ErrKeyNotFound then
      match err with
      | some e =>
        (Outcome.ret (some (GoError.wrapError
          "failed to get macvlan network configurations from store" e)), d1)
      | none => (Outcome.ret none, d1)
    else if errors.Is err GoError.ErrKeyNotFound then
      (Outcome.ret none, d1)
    else
      (Outcome.ret none, kvol.foldl (populateNetworks.iter createNetwork) d1)

/-- One iteration of the loop of `populateEndpoints`: the endpoint is attached
to its network when the index has one, and deleted from the store otherwise. -/
def populateEndpoints.iter {σ ω : Type} (d : driver σ ω) (ep : endpoint) : driver σ ω :=
  match GoMap.lookup d.networks ep.nid with
  | none => (storeDelete d (KVObject.endpoint ep)).2
  | some n =>
    { d with networks :=
        GoMap.insert d.networks ep.nid { n with endpoints := GoMap.insert n.endpoints ep.id ep } }

/-- The method `populateEndpoints`. -/
def populateEndpoints {σ ω : Type} (d : driver σ ω) :
    Outcome (Option GoError) × driver σ ω :=
  match d.store with
  | none => (Outcome.panicked "invalid memory address or nil pointer dereference", d)
  | some st =>
    let r := st.ListEndpoints d.backend
    let kvol := r.1.1
    let err := r.1.2
    let d1 := { d with backend := r.2, calls := d.calls ++ [Call.ListEndpoints] }
    if err ≠ none ∧ ¬ errors.Is err GoError.ErrKeyNotFound then
      match err with
      | some e =>
        (Outcome.ret (some (GoError.wrapError "failed to get macvlan endpoints from store" e)), d1)
      | none => (Outcome.ret none, d1)
    else if errors.Is err GoError.ErrKeyNotFound then
      (Outcome.ret none, d1)
    else
      (Outcome.ret none, kvol.foldl populateEndpoints.iter d1)

/-- The method `initStore`. -/
def initStore {σ ω : Type} (createNetwork : CreateNetwork ω) (d : driver σ ω) :
    Outcome (Option GoError) × driver σ ω :=
  match populateNetworks createNetwork d with
  | (Outcome.ret none, d1) =>
    match populateEndpoints d1 with
    | (Outcome.ret none, d2) => (Outcome.ret none, d2)
    | r => r
  | r => r

/-- The store deletions made for a listing: one `DeleteObject` per record whose
network identifier is not a key of the index `nets`, in list order. -/
def staleDeletes (nets : networkTable) (eps : List endpoint) : List Call :=
  (eps.filter (fun e => decide (e.nid ∉ GoMap.keys nets))).map
    (fun e => Call.DeleteObject (KVObject.endpoint e))

/-- The index and host left by calling `createNetwork` on each record in turn,
whatever each call returns. -/
def restoreNetworks {ω : Type} (createNetwork : CreateNetwork ω)
    (configs : List configuration) (s : networkTable × ω) : networkTable × ω :=
  configs.foldl (fun s config => (createNetwork config s.1 s.2).2) s

/-- The index left by attaching, in turn, each endpoint whose network identifier
is a key of the index. -/
def attachAll (nets : networkTable) (eps : List endpoint) : networkTable :=
  eps.foldl (fun nets ep =>
    match GoMap.lookup nets ep.nid with
    | none => nets
    | some n =>
      GoMap.insert nets ep.nid { n with endpoints := GoMap.insert n.endpoints ep.id ep }) nets

/-- The content of the store after `DeleteObject` of each endpoint in turn. -/
def deleteAll {σ : Type} (st : Store σ) (eps : List endpoint) (s : σ) : σ :=
  eps.foldl (fun s ep => (st.DeleteObject (KVObject.endpoint ep) s).2) s

/-- What the restore pipeline makes of the Go pair returned by `List`: the
records to process, or `none` when the listing failed with an error that is
not `ErrKeyNotFound`. -/
def listed {α : Type} (r : List α × Option GoError) : Option (List α) :=
  if errors.Is r.2 GoError.ErrKeyNotFound then some []
  else if r.2 = none then some r.1
  else none

/-- A store on which deletions succeed: listing does not change the content,
and `DeleteObject` of an endpoint record returns no error, removes the
records stored under that endpoint's key (its identifier) and leaves every
other record as it was. -/
structure Store.DeletionsSucceed {σ : Type} (st : Store σ) : Prop where
  listConfigurations_backend : ∀ s, (st.ListConfigurations s).2 = s
  listEndpoints_backend : ∀ s, (st.ListEndpoints s).2 = s
  delete_ok : ∀ s e, (st.DeleteObject (KVObject.endpoint e) s).1 = none
  delete_configurations : ∀ s e,
    (st.ListConfigurations (st.DeleteObject (KVObject.endpoint e) s).2).1
      = (st.ListConfigurations s).1
  delete_endpoints : ∀ s e,
    listed (st.ListEndpoints (st.DeleteObject (KVObject.endpoint e) s).2).1
      = (listed (st.ListEndpoints s).1).map (List.filter (fun x => decide (x.id ≠ e.id)))

/-- Modelled from the spec: a Persistent Object Store held in memory, the records
of each kind in key order. Used as the concrete store of the examples. -/
structure MemStore where
  configurations : List configuration
  endpoints : List endpoint
deriving DecidableEq, Repr

/-- Modelled from the spec: the operations of section 6 on `MemStore`. `List`
reports `ErrKeyNotFound` when no record of the kind exists; `PutObjectAtomic`
creates the record or, when the version stamps agree, replaces it;
`DeleteObject` removes by key. -/
def MemStore.store : Store MemStore where
  ListConfigurations := fun s =>
    (if s.configurations = [] then ([], some GoError.ErrKeyNotFound)
     else (s.configurations, none), s)
  ListEndpoints := fun s =>
    (if s.endpoints = [] then ([], some GoError.ErrKeyNotFound)
     else (s.endpoints, none), s)
  PutObjectAtomic := fun o s =>
    match o with
    | KVObject.configuration c =>
      match s.configurations.find? (fun x => decide (x.ID = c.ID)) with
      | none => (none, { s with configurations := s.configurations ++ [c] })
      | some old =>
        if old.dbIndex = c.dbIndex then
          (none, { s with configurations :=
            s.configurations.map (fun x => if x.ID = c.ID then c else x) })
        else (some (GoError.errorString "key modified"), s)
    | KVObject.endpoint e =>
      match s.endpoints.find? (fun x => decide (x.id = e.id)) with
      | none => (none, { s with endpoints := s.endpoints ++ [e] })
      | some old =>
        if old.dbIndex = e.dbIndex then
          (none, { s with endpoints := s.endpoints.map (fun x => if x.id = e.id then e else x) })
        else (some (GoError.errorString "key modified"), s)
  DeleteObject := fun o s =>
    match o with
    | KVObject.configuration c =>
      (none, { s with configurations := s.configurations.filter (fun x => decide (x.ID ≠ c.ID)) })
    | KVObject.endpoint e =>
      (none, { s with endpoints := s.endpoints.filter (fun x => decide (x.id ≠ e.id)) })

/-- Modelled from the spec: a `createNetwork` that always succeeds, as used in
the examples: it adds the network of the record, without endpoints, to the
index unless the index already has it, and reports whether it had. -/
def createNetworkOk {ω : Type} : CreateNetwork ω := fun config nets h =>
  match GoMap.lookup nets config.ID with
  | some _ => ((true, none), nets, h)
  | none =>
    ((false, none),
      GoMap.insert nets config.ID { id := config.ID, endpoints := [], config := config }, h)

/-- Modelled from the spec: a `createNetwork` that fails for every record and
changes nothing, as used in the examples. -/
def createNetworkFail {ω : Type} : CreateNetwork ω := fun _ nets h =>
  ((false, some (GoError.errorString "could not create network")), nets, h)

/-- An example of a `createNetwork` that inspects the host, whose state is here
the list of the links that exist on it. Restoring a network creates its link:
the call fails, and changes nothing, when the link of the record already
exists, and otherwise creates the link and adds the network of the record,
without endpoints, to the index. -/
def createNetworkOnce : CreateNetwork (List String) := fun config nets h =>
  if config.Parent ∈ h then
    ((false, some (GoError.errorString "link already exists")), nets, h)
  else
    ((false, none),
      GoMap.insert nets config.ID { id := config.ID, endpoints := [], config := config },
      config.Parent :: h)

end macvlan

/-! ## Serialization of the ipvlan network record -/

namespace ipvlan

/-- Modelled from the spec: the constant `flagBridge`, declared in a file of the
driver that is not among the sources: the baseline value of the flag, the
first of the flag strings of the driver family. -/
def flagBridge : String := "bridge"

/-- The method `configuration.MarshalJSON`. `json.Marshal` does not fail on the
values passed to it here. -/
def configuration.MarshalJSON (config : configuration) : json.Text × Option GoError :=
  let nMap : GoMap json.GoValue := []
  let nMap := GoMap.insert nMap "ID" (json.GoValue.string config.ID)
  let nMap := GoMap.insert nMap "Mtu" (json.GoValue.int config.Mtu)
  let nMap := GoMap.insert nMap "Parent" (json.GoValue.string config.Parent)
  let nMap := GoMap.insert nMap "IpvlanMode" (json.GoValue.string config.IpvlanMode)
  let nMap := GoMap.insert nMap "IpvlanFlag" (json.GoValue.string config.IpvlanFlag)
  let nMap := GoMap.insert nMap "Internal" (json.GoValue.bool config.Internal)
  let nMap := GoMap.insert nMap "CreatedSubIface" (json.GoValue.bool config.CreatedSlaveLink)
  let nMap :=
    if 0 < config.Ipv4Subnets.length then
      GoMap.insert nMap "Ipv4Subnets"
        (json.GoValue.string (String.mk (json.encode (subnetsValue config.Ipv4Subnets))))
    else nMap
  let nMap :=
    if 0 < config.Ipv6Subnets.length then
      GoMap.insert nMap "Ipv6Subnets"
        (json.GoValue.string (String.mk (json.encode (subnetsValue config.Ipv6Subnets))))
    else nMap
  (json.encode (json.GoValue.object nMap), none)

/-- The map `nMap` that `MarshalJSON` builds and prints. -/
def configuration.nMap (config : configuration) : GoMap json.GoValue :=
  let nMap : GoMap json.GoValue := []
  let nMap := GoMap.insert nMap "ID" (json.GoValue.string config.ID)
  let nMap := GoMap.insert nMap "Mtu" (json.GoValue.int config.Mtu)
  let nMap := GoMap.insert nMap "Parent" (json.GoValue.string config.Parent)
  let nMap := GoMap.insert nMap "IpvlanMode" (json.GoValue.string config.IpvlanMode)
  let nMap := GoMap.insert nMap "IpvlanFlag" (json.GoValue.string config.IpvlanFlag)
  let nMap := GoMap.insert nMap "Internal" (json.GoValue.bool config.Internal)
  let nMap := GoMap.insert nMap "CreatedSubIface" (json.GoValue.bool config.CreatedSlaveLink)
  let nMap :=
    if 0 < config.Ipv4Subnets.length then
      GoMap.insert nMap "Ipv4Subnets"
        (json.GoValue.string (String.mk (json.encode (subnetsValue config.Ipv4Subnets))))
    else nMap
  if 0 < config.Ipv6Subnets.length then
    GoMap.insert nMap "Ipv6Subnets"
      (json.GoValue.string (String.mk (json.encode (subnetsValue config.Ipv6Subnets))))
  else nMap

/-- The method `configuration.UnmarshalJSON`, which returns the receiver as it
leaves it. A failed type assertion panics. -/
def configuration.UnmarshalJSON (config : configuration) (b : json.Text) :
    Outcome (Option GoError) × configuration :=
  match json.unmarshalMap b with
  | Except.error err => (Outcome.ret (some err), config)
  | Except.ok nMap =>
    match json.assertString (GoMap.lookup nMap "ID") with
    | none => (Outcome.panicked "interface conversion: interface {} is not string", config)
    | some id =>
      let config := { config with ID := id }
      match json.assertFloat64 (GoMap.lookup nMap "Mtu") with
      | none => (Outcome.panicked "interface conversion: interface {} is not float64", config)
      | some mtu =>
        let config := { config with Mtu := mtu.toInt }
        match json.assertString (GoMap.lookup nMap "Parent") with
        | none => (Outcome.panicked "interface conversion: interface {} is not string", config)
        | some parent =>
          let config := { config with Parent := parent }
          match json.assertString (GoMap.lookup nMap "IpvlanMode") with
          | none => (Outcome.panicked "interface conversion: interface {} is not string", config)
          | some mode =>
            let config := { config with IpvlanMode := mode }
            match (match GoMap.lookup nMap "IpvlanFlag" with
                   | some v => json.assertString (some v)
                   | none => some flagBridge) with
            | none => (Outcome.panicked "interface conversion: interface {} is not string", config)
            | some flag =>
              let config := { config with IpvlanFlag := flag }
              match json.assertBool (GoMap.lookup nMap "Internal") with
              | none => (Outcome.panicked "interface conversion: interface {} is not bool", config)
              | some internal =>
                let config := { config with Internal := internal }
                match json.assertBool (GoMap.lookup nMap "CreatedSubIface") with
                | none =>
                  (Outcome.panicked "interface conversion: interface {} is not bool", config)
                | some created =>
                  let config := { config with CreatedSlaveLink := created }
                  match (match GoMap.lookup nMap "Ipv4Subnets" with
                         | some v =>
                           match json.assertString (some v) with
                           | none => none
                           | some s =>
                             some (unmarshalSubnets config.Ipv4Subnets config.Ipv4Spare s.data,
                               spareAfter config.Ipv4Subnets config.Ipv4Spare s.data)
                         | none => some ((config.Ipv4Subnets, none), config.Ipv4Spare)) with
                  | none =>
                    (Outcome.panicked "interface conversion: interface {} is not string", config)
                  | some ((v4, some err), spare4) =>
                    (Outcome.ret (some err),
                      { config with Ipv4Subnets := v4, Ipv4Spare := spare4 })
                  | some ((v4, none), spare4) =>
                    let config := { config with Ipv4Subnets := v4, Ipv4Spare := spare4 }
                    match (match GoMap.lookup nMap "Ipv6Subnets" with
                           | some v =>
                             match json.assertString (some v) with
                             | none => none
                             | some s =>
                               some (unmarshalSubnets config.Ipv6Subnets config.Ipv6Spare s.data,
                                 spareAfter config.Ipv6Subnets config.Ipv6Spare s.data)
                           | none => some ((config.Ipv6Subnets, none), config.Ipv6Spare)) with
                    | none =>
                      (Outcome.panicked "interface conversion: interface {} is not string",
                        config)
                    | some ((v6, some err), spare6) =>
                      (Outcome.ret (some err),
                        { config with Ipv6Subnets := v6, Ipv6Spare := spare6 })
                    | some ((v6, none), spare6) =>
                      (Outcome.ret none, { config with Ipv6Subnets := v6, Ipv6Spare := spare6 })

/-- A decoded payload that is well formed but for the flag: the map holds the
members `ID`, `Parent` and `IpvlanMode` as strings, `Mtu` as a number, and
`Internal` and `CreatedSubIface` as booleans; and each of `Ipv4Subnets` and
`Ipv6Subnets` is absent or is a string whose text decodes without error into
the slice of the receiver. -/
def configuration.WellFormedButFlag (config : configuration) (nMap : GoMap json.JSON) : Prop :=
  (∃ s, GoMap.lookup nMap "ID" = some (json.JSON.string s)) ∧
  (∃ m e, GoMap.lookup nMap "Mtu" = some (json.JSON.number m e)) ∧
  (∃ s, GoMap.lookup nMap "Parent" = some (json.JSON.string s)) ∧
  (∃ s, GoMap.lookup nMap "IpvlanMode" = some (json.JSON.string s)) ∧
  (∃ b, GoMap.lookup nMap "Internal" = some (json.JSON.bool b)) ∧
  (∃ b, GoMap.lookup nMap "CreatedSubIface" = some (json.JSON.bool b)) ∧
  (GoMap.lookup nMap "Ipv4Subnets" = none ∨
    ∃ s, GoMap.lookup nMap "Ipv4Subnets" = some (json.JSON.string s) ∧
      (unmarshalSubnets config.Ipv4Subnets config.Ipv4Spare s.data).2 = none) ∧
  (GoMap.lookup nMap "Ipv6Subnets" = none ∨
    ∃ s, GoMap.lookup nMap "Ipv6Subnets" = some (json.JSON.string s) ∧
      (unmarshalSubnets config.Ipv6Subnets config.Ipv6Spare s.data).2 = none)

/-- The method `configuration.Value`: `json.Marshal(config)` calls `MarshalJSON`
and returns its text, already compact. -/
def configuration.Value (config : configuration) : json.Text :=
  match configuration.MarshalJSON config with
  | (_, some _) => []
  | (b, none) => b

/-- The method `configuration.SetValue`: `json.Unmarshal(value, config)` checks
that the text is JSON and hands it to `UnmarshalJSON`. -/
def configuration.SetValue (config : configuration) (value : json.Text) :
    Outcome (Option GoError) × configuration :=
  match json.parse value with
  | none => (Outcome.ret (some (GoError.SyntaxError "invalid character")), config)
  | some _ => configuration.UnmarshalJSON config value

/-- The method `configuration.New`: the zero value `&configuration{}`, whose
slices are nil and so have no capacity. -/
def configuration.New (_config : configuration) : configuration :=
  { ID := "", Mtu := 0, dbIndex := 0, dbExists := false, Internal := false, Parent := "",
    IpvlanMode := "", IpvlanFlag := "", CreatedSlaveLink := false, Ipv4Subnets := [],
    Ipv6Subnets := [], Ipv4Spare := [], Ipv6Spare := [] }

end ipvlan

/-! ## Serialization of the macvlan network record -/

namespace macvlan

/-- The method `configuration.MarshalJSON`. `json.Marshal` does not fail on the
values passed to it here. -/
def configuration.MarshalJSON (config : configuration) : json.Text × Option GoError :=
  let nMap : GoMap json.GoValue := []
  let nMap := GoMap.insert nMap "ID" (json.GoValue.string config.ID)
  let nMap := GoMap.insert nMap "Mtu" (json.GoValue.int config.Mtu)
  let nMap := GoMap.insert nMap "Parent" (json.GoValue.string config.Parent)
  let nMap := GoMap.insert nMap "MacvlanMode" (json.GoValue.string config.MacvlanMode)
  let nMap := GoMap.insert nMap "Internal" (json.GoValue.bool config.Internal)
  let nMap := GoMap.insert nMap "CreatedSubIface" (json.GoValue.bool config.CreatedSlaveLink)
  let nMap :=
    if 0 < config.Ipv4Subnets.length then
      GoMap.insert nMap "Ipv4Subnets"
        (json.GoValue.string (String.mk (json.encode (subnetsValue config.Ipv4Subnets))))
    else nMap
  let nMap :=
    if 0 < config.Ipv6Subnets.length then
      GoMap.insert nMap "Ipv6Subnets"
        (json.GoValue.string (String.mk (json.encode (subnetsValue config.Ipv6Subnets))))
    else nMap
  (json.encode (json.GoValue.object nMap), none)

/-- The map `nMap` that `MarshalJSON` builds and prints. -/
def configuration.nMap (config : configuration) : GoMap json.GoValue :=
  let nMap : GoMap json.GoValue := []
  let nMap := GoMap.insert nMap "ID" (json.GoValue.string config.ID)
  let nMap := GoMap.insert nMap "Mtu" (json.GoValue.int config.Mtu)
  let nMap := GoMap.insert nMap "Parent" (json.GoValue.string config.Parent)
  let nMap := GoMap.insert nMap "MacvlanMode" (json.GoValue.string config.MacvlanMode)
  let nMap := GoMap.insert nMap "Internal" (json.GoValue.bool config.Internal)
  let nMap := GoMap.insert nMap "CreatedSubIface" (json.GoValue.bool config.CreatedSlaveLink)
  let nMap :=
    if 0 < config.Ipv4Subnets.length then
      GoMap.insert nMap "Ipv4Subnets"
        (json.GoValue.string (String.mk (json.encode (subnetsValue config.Ipv4Subnets))))
    else nMap
  if 0 < config.Ipv6Subnets.length then
    GoMap.insert nMap "Ipv6Subnets"
      (json.GoValue.string (String.mk (json.encode (subnetsValue config.Ipv6Subnets))))
  else nMap

/-- The method `configuration.UnmarshalJSON`, which returns the receiver as it
leaves it. A failed type assertion panics. -/
def configuration.UnmarshalJSON (config : configuration) (b : json.Text) :
    Outcome (Option GoError) × configuration :=
  match json.unmarshalMap b with
  | Except.error err => (Outcome.ret (some err), config)
  | Except.ok nMap =>
    match json.assertString (GoMap.lookup nMap "ID") with
    | none => (Outcome.panicked "interface conversion: interface {} is not string", config)
    | some id =>
      let config := { config with ID := id }
      match json.assertFloat64 (GoMap.lookup nMap "Mtu") with
      | none => (Outcome.panicked "interface conversion: interface {} is not float64", config)
      | some mtu =>
        let config := { config with Mtu := mtu.toInt }
        match json.assertString (GoMap.lookup nMap "Parent") with
        | none => (Outcome.panicked "interface conversion: interface {} is not string", config)
        | some parent =>
          let config := { config with Parent := parent }
          match json.assertString (GoMap.lookup nMap "MacvlanMode") with
          | none => (Outcome.panicked "interface conversion: interface {} is not string", config)
          | some mode =>
            let config := { config with MacvlanMode := mode }
            match json.assertBool (GoMap.lookup nMap "Internal") with
            | none => (Outcome.panicked "interface conversion: interface {} is not bool", config)
            | some internal =>
              let config := { config with Internal := internal }
              match json.assertBool (GoMap.lookup nMap "CreatedSubIface") with
              | none =>
                (Outcome.panicked "interface conversion: interface {} is not bool", config)
              | some created =>
                let config := { config with CreatedSlaveLink := created }
                match (match GoMap.lookup nMap "Ipv4Subnets" with
                       | some v =>
                         match json.assertString (some v) with
                         | none => none
                         | some s =>
                           some (unmarshalSubnets config.Ipv4Subnets config.Ipv4Spare s.data,
                             spareAfter config.Ipv4Subnets config.Ipv4Spare s.data)
                       | none => some ((config.Ipv4Subnets, none), config.Ipv4Spare)) with
                | none =>
                  (Outcome.panicked "interface conversion: interface {} is not string", config)
                | some ((v4, some err), spare4) =>
                  (Outcome.ret (some err),
                    { config with Ipv4Subnets := v4, Ipv4Spare := spare4 })
                | some ((v4, none), spare4) =>
                  let config := { config with Ipv4Subnets := v4, Ipv4Spare := spare4 }
                  match (match GoMap.lookup nMap "Ipv6Subnets" with
                         | some v =>
                           match json.assertString (some v) with
                           | none => none
                           | some s =>
                             some (unmarshalSubnets config.Ipv6Subnets config.Ipv6Spare s.data,
                               spareAfter config.Ipv6Subnets config.Ipv6Spare s.data)
                         | none => some ((config.Ipv6Subnets, none), config.Ipv6Spare)) with
                  | none =>
                    (Outcome.panicked "interface conversion: interface {} is not string",
                      config)
                  | some ((v6, some err), spare6) =>
                    (Outcome.ret (some err),
                      { config with Ipv6Subnets := v6, Ipv6Spare := spare6 })
                  | some ((v6, none), spare6) =>
                    (Outcome.ret none, { config with Ipv6Subnets := v6, Ipv6Spare := spare6 })

/-- The method `configuration.Value`: `json.Marshal(config)` calls `MarshalJSON`
and returns its text, already compact. -/
def configuration.Value (config : configuration) : json.Text :=
  match configuration.MarshalJSON config with
  | (_, some _) => []
  | (b, none) => b

/-- The method `configuration.SetValue`: `json.Unmarshal(value, config)` checks
that the text is JSON and hands it to `UnmarshalJSON`. -/
def configuration.SetValue (config : configuration) (value : json.Text) :
    Outcome (Option GoError) × configuration :=
  match json.parse value with
  | none => (Outcome.ret (some (GoError.SyntaxError "invalid character")), config)
  | some _ => configuration.UnmarshalJSON config value

/-- The method `configuration.New`: the zero value `&configuration{}`, whose
slices are nil and so have no capacity. -/
def configuration.New (_config : configuration) : configuration :=
  { ID := "", Mtu := 0, dbIndex := 0, dbExists := false, Internal := false, Parent := "",
    MacvlanMode := "", CreatedSlaveLink := false, Ipv4Subnets := [],
    Ipv6Subnets := [], Ipv4Spare := [], Ipv6Spare := [] }

end macvlan
/-! ## The `KVObject` methods of the ipvlan records -/

namespace ipvlan

/-- The constant `ipvlanPrefix`. -/
def ipvlanPrefix : String := "ipvlan"

/-- The constant `ipvlanNetworkPrefix`. -/
def ipvlanNetworkPrefix : String := ipvlanPrefix ++ "/network"

/-- The constant `ipvlanEndpointPrefix`. -/
def ipvlanEndpointPrefix : String := ipvlanPrefix ++ "/endpoint"

/-- The method `configuration.Key`. -/
def configuration.Key (config : configuration) : List String :=
  [ipvlanNetworkPrefix, config.ID]

/-- The method `configuration.KeyPrefix`. -/
def configuration.KeyPrefix (_config : configuration) : List String :=
  [ipvlanNetworkPrefix]

/-- The method `configuration.Index`. -/
def configuration.Index (config : configuration) : Nat := config.dbIndex

/-- The method `configuration.SetIndex`. -/
def configuration.SetIndex (config : configuration) (index : Nat) : configuration :=
  { config with dbIndex := index, dbExists := true }

/-- The method `configuration.Exists`. -/
def configuration.Exists (config : configuration) : Bool := config.dbExists

/-- The method `configuration.Skip`. -/
def configuration.Skip (_config : configuration) : Bool := false

/-- The method `endpoint.Key`. -/
def endpoint.Key (ep : endpoint) : List String :=
  [ipvlanEndpointPrefix, ep.id]

/-- The method `endpoint.KeyPrefix`. -/
def endpoint.KeyPrefix (_ep : endpoint) : List String :=
  [ipvlanEndpointPrefix]

/-- The method `endpoint.Index`. -/
def endpoint.Index (ep : endpoint) : Nat := ep.dbIndex

/-- The method `endpoint.SetIndex`. -/
def endpoint.SetIndex (ep : endpoint) (index : Nat) : endpoint :=
  { ep with dbIndex := index, dbExists := true }

/-- The method `endpoint.Exists`. -/
def endpoint.Exists (ep : endpoint) : Bool := ep.dbExists

/-- The method `endpoint.Skip`. -/
def endpoint.Skip (_ep : endpoint) : Bool := false

/-- The method `endpoint.New`: the zero value `&endpoint{}`. -/
def endpoint.New (_ep : endpoint) : endpoint :=
  { id := "", nid := "", mac := [], addr := none, addrv6 := none, srcName := "",
    dbIndex := 0, dbExists := false }

/-! ### Serialization of the endpoint record -/

/-- The method `endpoint.MarshalJSON`. `json.Marshal` does not fail on the
values passed to it here. -/
def endpoint.MarshalJSON (lib : AddrLib) (ep : endpoint) : json.Text × Option GoError :=
  let epMap : GoMap json.GoValue := []
  let epMap := GoMap.insert epMap "id" (json.GoValue.string ep.id)
  let epMap := GoMap.insert epMap "nid" (json.GoValue.string ep.nid)
  let epMap := GoMap.insert epMap "SrcName" (json.GoValue.string ep.srcName)
  let epMap :=
    if ep.mac.length ≠ 0 then
      GoMap.insert epMap "MacAddress" (json.GoValue.string (lib.macString ep.mac))
    else epMap
  let epMap :=
    match ep.addr with
    | some addr => GoMap.insert epMap "Addr" (json.GoValue.string (lib.ipNetString addr))
    | none => epMap
  let epMap :=
    match ep.addrv6 with
    | some addrv6 => GoMap.insert epMap "Addrv6" (json.GoValue.string (lib.ipNetString addrv6))
    | none => epMap
  (json.encode (json.GoValue.object epMap), none)

/-- The map `epMap` that `endpoint.MarshalJSON` builds and prints. -/
def endpoint.epMap (lib : AddrLib) (ep : endpoint) : GoMap json.GoValue :=
  let epMap : GoMap json.GoValue := []
  let epMap := GoMap.insert epMap "id" (json.GoValue.string ep.id)
  let epMap := GoMap.insert epMap "nid" (json.GoValue.string ep.nid)
  let epMap := GoMap.insert epMap "SrcName" (json.GoValue.string ep.srcName)
  let epMap :=
    if ep.mac.length ≠ 0 then
      GoMap.insert epMap "MacAddress" (json.GoValue.string (lib.macString ep.mac))
    else epMap
  let epMap :=
    match ep.addr with
    | some addr => GoMap.insert epMap "Addr" (json.GoValue.string (lib.ipNetString addr))
    | none => epMap
  match ep.addrv6 with
  | some addrv6 => GoMap.insert epMap "Addrv6" (json.GoValue.string (lib.ipNetString addrv6))
  | none => epMap

/-- The method `endpoint.UnmarshalJSON`, which returns the receiver as it
leaves it. A failed type assertion panics; the result of a parser is assigned
to the field before its error is looked at. -/
def endpoint.UnmarshalJSON (lib : AddrLib) (ep : endpoint) (b : json.Text) :
    Outcome (Option GoError) × endpoint :=
  match json.unmarshalMap b with
  | Except.error _ =>
    (Outcome.ret (some (GoError.errorString "Failed to unmarshal to ipvlan endpoint")), ep)
  | Except.ok epMap =>
    match (match GoMap.lookup epMap "MacAddress" with
           | some v =>
             match json.assertString (some v) with
             | none => none
             | some s => some (lib.ParseMAC s)
           | none => some (ep.mac, none)) with
    | none => (Outcome.panicked "interface conversion: interface {} is not string", ep)
    | some (mac, some _) =>
      (Outcome.ret (some (GoError.InternalError
        "failed to decode ipvlan endpoint MAC address after json unmarshal")),
        { ep with mac := mac })
    | some (mac, none) =>
      let ep := { ep with mac := mac }
      match (match GoMap.lookup epMap "Addr" with
             | some v =>
               match json.assertString (some v) with
               | none => none
               | some s => some (lib.ParseCIDR s)
             | none => some (ep.addr, none)) with
      | none => (Outcome.panicked "interface conversion: interface {} is not string", ep)
      | some (addr, some _) =>
        (Outcome.ret (some (GoError.InternalError
          "failed to decode ipvlan endpoint IPv4 address after json unmarshal")),
          { ep with addr := addr })
      | some (addr, none) =>
        let ep := { ep with addr := addr }
        match (match GoMap.lookup epMap "Addrv6" with
               | some v =>
                 match json.assertString (some v) with
                 | none => none
                 | some s => some (lib.ParseCIDR s)
               | none => some (ep.addrv6, none)) with
        | none => (Outcome.panicked "interface conversion: interface {} is not string", ep)
        | some (addrv6, some _) =>
          (Outcome.ret (some (GoError.InternalError
            "failed to decode ipvlan endpoint IPv6 address after json unmarshal")),
            { ep with addrv6 := addrv6 })
        | some (addrv6, none) =>
          let ep := { ep with addrv6 := addrv6 }
          match json.assertString (GoMap.lookup epMap "id") with
          | none => (Outcome.panicked "interface conversion: interface {} is not string", ep)
          | some id =>
            let ep := { ep with id := id }
            match json.assertString (GoMap.lookup epMap "nid") with
            | none => (Outcome.panicked "interface conversion: interface {} is not string", ep)
            | some nid =>
              let ep := { ep with nid := nid }
              match json.assertString (GoMap.lookup epMap "SrcName") with
              | none =>
                (Outcome.panicked "interface conversion: interface {} is not string", ep)
              | some srcName => (Outcome.ret none, { ep with srcName := srcName })

/-- The method `endpoint.Value`: `json.Marshal(ep)` calls `MarshalJSON` and
returns its text, already compact. -/
def endpoint.Value (lib : AddrLib) (ep : endpoint) : json.Text :=
  match endpoint.MarshalJSON lib ep with
  | (_, some _) => []
  | (b, none) => b

/-- The method `endpoint.SetValue`: `json.Unmarshal(value, ep)` checks that the
text is JSON and hands it to `UnmarshalJSON`. -/
def endpoint.SetValue (lib : AddrLib) (ep : endpoint) (value : json.Text) :
    Outcome (Option GoError) × endpoint :=
  match json.parse value with
  | none => (Outcome.ret (some (GoError.SyntaxError "invalid character")), ep)
  | some _ => endpoint.UnmarshalJSON lib ep value

/-! ### Payloads on which no type assertion fails -/

/-- The required members of a network payload have the types the code asserts:
`ID`, `Parent` and `IpvlanMode` are strings, `Mtu` is a number, `Internal` and
`CreatedSubIface` are booleans, and the flag member of the driver, when the
driver has one and the payload carries it, is a string. -/
def configuration.RequiredTyped (nMap : GoMap json.JSON) : Prop :=
  (∃ s, GoMap.lookup nMap "ID" = some (json.JSON.string s)) ∧
  (∃ m e, GoMap.lookup nMap "Mtu" = some (json.JSON.number m e)) ∧
  (∃ s, GoMap.lookup nMap "Parent" = some (json.JSON.string s)) ∧
  (∃ s, GoMap.lookup nMap "IpvlanMode" = some (json.JSON.string s)) ∧
  (GoMap.lookup nMap "IpvlanFlag" = none ∨ ∃ s, GoMap.lookup nMap "IpvlanFlag" = some (json.JSON.string s)) ∧
  (∃ b, GoMap.lookup nMap "Internal" = some (json.JSON.bool b)) ∧
  (∃ b, GoMap.lookup nMap "CreatedSubIface" = some (json.JSON.bool b))

/-- The required members of an endpoint payload, `id`, `nid` and `SrcName`, are
strings. -/
def endpoint.RequiredTyped (epMap : GoMap json.JSON) : Prop :=
  (∃ s, GoMap.lookup epMap "id" = some (json.JSON.string s)) ∧
  (∃ s, GoMap.lookup epMap "nid" = some (json.JSON.string s)) ∧
  (∃ s, GoMap.lookup epMap "SrcName" = some (json.JSON.string s))

end ipvlan
/-! ## The `KVObject` methods of the macvlan records -/

namespace macvlan

/-- The constant `macvlanPrefix`. -/
def macvlanPrefix : String := "macvlan"

/-- The constant `macvlanNetworkPrefix`. -/
def macvlanNetworkPrefix : String := macvlanPrefix ++ "/network"

/-- The constant `macvlanEndpointPrefix`. -/
def macvlanEndpointPrefix : String := macvlanPrefix ++ "/endpoint"

/-- The method `configuration.Key`. -/
def configuration.Key (config : configuration) : List String :=
  [macvlanNetworkPrefix, config.ID]

/-- The method `configuration.KeyPrefix`. -/
def configuration.KeyPrefix (_config : configuration) : List String :=
  [macvlanNetworkPrefix]

/-- The method `configuration.Index`. -/
def configuration.Index (config : configuration) : Nat := config.dbIndex

/-- The method `configuration.SetIndex`. -/
def configuration.SetIndex (config : configuration) (index : Nat) : configuration :=
  { config with dbIndex := index, dbExists := true }

/-- The method `configuration.Exists`. -/
def configuration.Exists (config : configuration) : Bool := config.dbExists

/-- The method `configuration.Skip`. -/
def configuration.Skip (_config : configuration) : Bool := false

/-- The method `endpoint.Key`. -/
def endpoint.Key (ep : endpoint) : List String :=
  [macvlanEndpointPrefix, ep.id]

/-- The method `endpoint.KeyPrefix`. -/
def endpoint.KeyPrefix (_ep : endpoint) : List String :=
  [macvlanEndpointPrefix]

/-- The method `endpoint.Index`. -/
def endpoint.Index (ep : endpoint) : Nat := ep.dbIndex

/-- The method `endpoint.SetIndex`. -/
def endpoint.SetIndex (ep : endpoint) (index : Nat) : endpoint :=
  { ep with dbIndex := index, dbExists := true }

/-- The method `endpoint.Exists`. -/
def endpoint.Exists (ep : endpoint) : Bool := ep.dbExists

/-- The method `endpoint.Skip`. -/
def endpoint.Skip (_ep : endpoint) : Bool := false

/-- The method `endpoint.New`: the zero value `&endpoint{}`. -/
def endpoint.New (_ep : endpoint) : endpoint :=
  { id := "", nid := "", mac := [], addr := none, addrv6 := none, srcName := "",
    dbIndex := 0, dbExists := false }

/-! ### Serialization of the endpoint record -/

/-- The method `endpoint.MarshalJSON`. `json.Marshal` does not fail on the
values passed to it here. -/
def endpoint.MarshalJSON (lib : AddrLib) (ep : endpoint) : json.Text × Option GoError :=
  let epMap : GoMap json.GoValue := []
  let epMap := GoMap.insert epMap "id" (json.GoValue.string ep.id)
  let epMap := GoMap.insert epMap "nid" (json.GoValue.string ep.nid)
  let epMap := GoMap.insert epMap "SrcName" (json.GoValue.string ep.srcName)
  let epMap :=
    if ep.mac.length ≠ 0 then
      GoMap.insert epMap "MacAddress" (json.GoValue.string (lib.macString ep.mac))
    else epMap
  let epMap :=
    match ep.addr with
    | some addr => GoMap.insert epMap "Addr" (json.GoValue.string (lib.ipNetString addr))
    | none => epMap
  let epMap :=
    match ep.addrv6 with
    | some addrv6 => GoMap.insert epMap "Addrv6" (json.GoValue.string (lib.ipNetString addrv6))
    | none => epMap
  (json.encode (json.GoValue.object epMap), none)

/-- The map `epMap` that `endpoint.MarshalJSON` builds and prints. -/
def endpoint.epMap (lib : AddrLib) (ep : endpoint) : GoMap json.GoValue :=
  let epMap : GoMap json.GoValue := []
  let epMap := GoMap.insert epMap "id" (json.GoValue.string ep.id)
  let epMap := GoMap.insert epMap "nid" (json.GoValue.string ep.nid)
  let epMap := GoMap.insert epMap "SrcName" (json.GoValue.string ep.srcName)
  let epMap :=
    if ep.mac.length ≠ 0 then
      GoMap.insert epMap "MacAddress" (json.GoValue.string (lib.macString ep.mac))
    else epMap
  let epMap :=
    match ep.addr with
    | some addr => GoMap.insert epMap "Addr" (json.GoValue.string (lib.ipNetString addr))
    | none => epMap
  match ep.addrv6 with
  | some addrv6 => GoMap.insert epMap "Addrv6" (json.GoValue.string (lib.ipNetString addrv6))
  | none => epMap

/-- The method `endpoint.UnmarshalJSON`, which returns the receiver as it
leaves it. A failed type assertion panics; the result of a parser is assigned
to the field before its error is looked at. -/
def endpoint.UnmarshalJSON (lib : AddrLib) (ep : endpoint) (b : json.Text) :
    Outcome (Option GoError) × endpoint :=
  match json.unmarshalMap b with
  | Except.error _ =>
    (Outcome.ret (some (GoError.errorString "Failed to unmarshal to macvlan endpoint")), ep)
  | Except.ok epMap =>
    match (match GoMap.lookup epMap "MacAddress" with
           | some v =>
             match json.assertString (some v) with
             | none => none
             | some s => some (lib.ParseMAC s)
           | none => some (ep.mac, none)) with
    | none => (Outcome.panicked "interface conversion: interface {} is not string", ep)
    | some (mac, some _) =>
      (Outcome.ret (some (GoError.InternalError
        "failed to decode macvlan endpoint MAC address after json unmarshal")),
        { ep with mac := mac })
    | some (mac, none) =>
      let ep := { ep with mac := mac }
      match (match GoMap.lookup epMap "Addr" with
             | some v =>
               match json.assertString (some v) with
               | none => none
               | some s => some (lib.ParseCIDR s)
             | none => some (ep.addr, none)) with
      | none => (Outcome.panicked "interface conversion: interface {} is not string", ep)
      | some (addr, some _) =>
        (Outcome.ret (some (GoError.InternalError
          "failed to decode macvlan endpoint IPv4 address after json unmarshal")),
          { ep with addr := addr })
      | some (addr, none) =>
        let ep := { ep with addr := addr }
        match (match GoMap.lookup epMap "Addrv6" with
               | some v =>
                 match json.assertString (some v) with
                 | none => none
                 | some s => some (lib.ParseCIDR s)
               | none => some (ep.addrv6, none)) with
        | none => (Outcome.panicked "interface conversion: interface {} is not string", ep)
        | some (addrv6, some _) =>
          (Outcome.ret (some (GoError.InternalError
            "failed to decode macvlan endpoint IPv6 address after json unmarshal")),
            { ep with addrv6 := addrv6 })
        | some (addrv6, none) =>
          let ep := { ep with addrv6 := addrv6 }
          match json.assertString (GoMap.lookup epMap "id") with
          | none => (Outcome.panicked "interface conversion: interface {} is not string", ep)
          | some id =>
            let ep := { ep with id := id }
            match json.assertString (GoMap.lookup epMap "nid") with
            | none => (Outcome.panicked "interface conversion: interface {} is not string", ep)
            | some nid =>
              let ep := { ep with nid := nid }
              match json.assertString (GoMap.lookup epMap "SrcName") with
              | none =>
                (Outcome.panicked "interface conversion: interface {} is not string", ep)
              | some srcName => (Outcome.ret none, { ep with srcName := srcName })

/-- The method `endpoint.Value`: `json.Marshal(ep)` calls `MarshalJSON` and
returns its text, already compact. -/
def endpoint.Value (lib : AddrLib) (ep : endpoint) : json.Text :=
  match endpoint.MarshalJSON lib ep with
  | (_, some _) => []
  | (b, none) => b

/-- The method `endpoint.SetValue`: `json.Unmarshal(value, ep)` checks that the
text is JSON and hands it to `UnmarshalJSON`. -/
def endpoint.SetValue (lib : AddrLib) (ep : endpoint) (value : json.Text) :
    Outcome (Option GoError) × endpoint :=
  match json.parse value with
  | none => (Outcome.ret (some (GoError.SyntaxError "invalid character")), ep)
  | some _ => endpoint.UnmarshalJSON lib ep value

/-! ### Payloads on which no type assertion fails -/

/-- The required members of a network payload have the types the code asserts:
`ID`, `Parent` and `MacvlanMode` are strings, `Mtu` is a number, `Internal` and
`CreatedSubIface` are booleans, and the flag member of the driver, when the
driver has one and the payload carries it, is a string. -/
def configuration.RequiredTyped (nMap : GoMap json.JSON) : Prop :=
  (∃ s, GoMap.lookup nMap "ID" = some (json.JSON.string s)) ∧
  (∃ m e, GoMap.lookup nMap "Mtu" = some (json.JSON.number m e)) ∧
  (∃ s, GoMap.lookup nMap "Parent" = some (json.JSON.string s)) ∧
  (∃ s, GoMap.lookup nMap "MacvlanMode" = some (json.JSON.string s)) ∧
  (∃ b, GoMap.lookup nMap "Internal" = some (json.JSON.bool b)) ∧
  (∃ b, GoMap.lookup nMap "CreatedSubIface" = some (json.JSON.bool b))

/-- The required members of an endpoint payload, `id`, `nid` and `SrcName`, are
strings. -/
def endpoint.RequiredTyped (epMap : GoMap json.JSON) : Prop :=
  (∃ s, GoMap.lookup epMap "id" = some (json.JSON.string s)) ∧
  (∃ s, GoMap.lookup epMap "nid" = some (json.JSON.string s)) ∧
  (∃ s, GoMap.lookup epMap "SrcName" = some (json.JSON.string s))

end macvlan
/-! ## The ipvlan records in memory -/

namespace ipvlan

/-- The struct `configuration` as it lies in memory: the subnet slices are slice
headers; the strings are immutable and held by value. -/
structure configurationCell where
  ID : String
  Mtu : Int
  dbIndex : Nat
  dbExists : Bool
  Internal : Bool
  Parent : String
  IpvlanMode : String
  IpvlanFlag : String
  CreatedSlaveLink : Bool
  Ipv4Subnets : Slice
  Ipv6Subnets : Slice
deriving DecidableEq, Repr

/-- The struct `endpoint` as it lies in memory: `mac` is a byte slice and the
addresses are pointers to `net.IPNet`. -/
structure endpointCell where
  id : String
  nid : String
  mac : Slice
  addr : Addr
  addrv6 : Addr
  srcName : String
  dbIndex : Nat
  dbExists : Bool
deriving DecidableEq, Repr

/-- The heap: what lies at each address, by kind of object. `pointerArrays`
holds the backing arrays of the `[]*ipSubnet` slices and `byteArrays` those of
the byte slices. -/
structure Heap where
  configurations : Addr → configurationCell
  endpoints : Addr → endpointCell
  subnets : Addr → ipSubnet
  pointerArrays : Addr → List Addr
  byteArrays : Addr → List (Fin 256)
  ipNets : Addr → IPNetCell

/-- The elements of a `[]*ipSubnet` slice, each pointer followed to the struct
it refers to. -/
def Heap.readSubnets (h : Heap) (s : Slice) : List (Option ipSubnet) :=
  (((h.pointerArrays s.array).drop s.off).take s.len).map
    (fun p => if p = 0 then none else some (h.subnets p))

/-- The bytes of a byte slice. -/
def Heap.readBytes (h : Heap) (s : Slice) : Bytes :=
  ((h.byteArrays s.array).drop s.off).take s.len

/-- The `net.IPNet` a pointer refers to; nil refers to none. -/
def Heap.readIPNet (h : Heap) (p : Addr) : Option IPNet :=
  if p = 0 then none
  else some { IP := h.readBytes (h.ipNets p).IP, Mask := h.readBytes (h.ipNets p).Mask }

/-- The network record that a `*configuration` refers to, with every slice and
pointer followed: all that can be read through the pointer. -/
def Heap.loadConfiguration (h : Heap) (p : Addr) : configuration :=
  let c := h.configurations p
  { ID := c.ID, Mtu := c.Mtu, dbIndex := c.dbIndex, dbExists := c.dbExists,
    Internal := c.Internal, Parent := c.Parent, IpvlanMode := c.IpvlanMode,
    IpvlanFlag := c.IpvlanFlag,
    CreatedSlaveLink := c.CreatedSlaveLink, Ipv4Subnets := h.readSubnets c.Ipv4Subnets,
    Ipv6Subnets := h.readSubnets c.Ipv6Subnets }

/-- The endpoint record that a `*endpoint` refers to, with every slice and
pointer followed. -/
def Heap.loadEndpoint (h : Heap) (p : Addr) : endpoint :=
  let e := h.endpoints p
  { id := e.id, nid := e.nid, mac := h.readBytes e.mac, addr := h.readIPNet e.addr,
    addrv6 := h.readIPNet e.addrv6, srcName := e.srcName, dbIndex := e.dbIndex,
    dbExists := e.dbExists }

/-- The Go assignment `*p = c` to a `*configuration`; it covers the assignment
to any field of `*p`. -/
def Heap.storeConfiguration (h : Heap) (p : Addr) (c : configurationCell) : Heap :=
  { h with configurations := fun q => if q = p then c else h.configurations q }

/-- The Go assignment `*p = e` to a `*endpoint`; it covers the assignment to any
field of `*p`. -/
def Heap.storeEndpoint (h : Heap) (p : Addr) (e : endpointCell) : Heap :=
  { h with endpoints := fun q => if q = p then e else h.endpoints q }

/-- The pointer `s[i]` of a `[]*ipSubnet` slice. -/
def Heap.subnetPointer (h : Heap) (s : Slice) (i : Nat) : Addr :=
  ((h.pointerArrays s.array).drop s.off).getD i 0

/-- The Go assignment `p.GwIP = v` through a `*ipSubnet`. -/
def Heap.setGwIP (h : Heap) (p : Addr) (v : String) : Heap :=
  { h with subnets := fun q => if q = p then { h.subnets q with GwIP := v } else h.subnets q }

/-- The Go assignment `s[i] = b` to an element of a byte slice, `i` being less
than the length of the slice. -/
def Heap.setByte (h : Heap) (s : Slice) (i : Nat) (b : Fin 256) : Heap :=
  { h with byteArrays := fun a =>
      if a = s.array then (h.byteArrays a).set (s.off + i) b else h.byteArrays a }

/-- The method `configuration.CopyTo` on memory. The type assertion
`o.(*configuration)` panics when `o` holds an endpoint; `*dstNcfg = *config`
assigns the struct, its slice headers included, and panics on a nil pointer. -/
def configuration.CopyTo (h : Heap) (config : Addr) (o : KVRef) :
    Outcome (Option GoError) × Heap :=
  match o with
  | KVRef.endpoint _ =>
    (Outcome.panicked "interface conversion: interface is *endpoint, not *configuration", h)
  | KVRef.configuration dstNcfg =>
    if config = 0 ∨ dstNcfg = 0 then
      (Outcome.panicked "invalid memory address or nil pointer dereference", h)
    else (Outcome.ret none, h.storeConfiguration dstNcfg (h.configurations config))

/-- The method `endpoint.CopyTo` on memory. The type assertion `o.(*endpoint)`
panics when `o` holds a network record; `*dstEp = *ep` assigns the struct, its
slice header and its pointers included, and panics on a nil pointer. -/
def endpoint.CopyTo (h : Heap) (ep : Addr) (o : KVRef) : Outcome (Option GoError) × Heap :=
  match o with
  | KVRef.configuration _ =>
    (Outcome.panicked "interface conversion: interface is *configuration, not *endpoint", h)
  | KVRef.endpoint dstEp =>
    if ep = 0 ∨ dstEp = 0 then
      (Outcome.panicked "invalid memory address or nil pointer dereference", h)
    else (Outcome.ret none, h.storeEndpoint dstEp (h.endpoints ep))

/-! ### A heap for the examples -/

/-- A heap that holds the record `net1` at address 1, with its subnet list in
the array at address 10 and its subnet descriptor at address 20, the endpoint
`ep1` at address 1 with its MAC in the array at address 30, and records made
by `New()` at address 2. -/
def exHeap : Heap where
  configurations := fun p =>
    if p = 1 then
      { ID := "net1", Mtu := 1500, dbIndex := 1, dbExists := true, Internal := false,
        Parent := "eth0.10", IpvlanMode := "l2",
        IpvlanFlag := "bridge",
        CreatedSlaveLink := true,
        Ipv4Subnets := { array := 10, off := 0, len := 1 },
        Ipv6Subnets := { array := 0, off := 0, len := 0 } }
    else
      { ID := "", Mtu := 0, dbIndex := 0, dbExists := false, Internal := false,
        Parent := "", IpvlanMode := "",
        IpvlanFlag := "",
        CreatedSlaveLink := false,
        Ipv4Subnets := { array := 0, off := 0, len := 0 },
        Ipv6Subnets := { array := 0, off := 0, len := 0 } }
  endpoints := fun p =>
    if p = 1 then
      { id := "ep1", nid := "net1", mac := { array := 30, off := 0, len := 6 }, addr := 0,
        addrv6 := 0, srcName := "vethA", dbIndex := 1, dbExists := true }
    else
      { id := "", nid := "", mac := { array := 0, off := 0, len := 0 }, addr := 0,
        addrv6 := 0, srcName := "", dbIndex := 0, dbExists := false }
  subnets := fun p =>
    if p = 20 then { SubnetIP := "192.168.1.0/24", GwIP := "192.168.1.1" }
    else { SubnetIP := "", GwIP := "" }
  pointerArrays := fun a => if a = 10 then [20] else []
  byteArrays := fun a => if a = 30 then [2, 66, 172, 17, 0, 2] else []
  ipNets := fun _ =>
    { IP := { array := 0, off := 0, len := 0 }, Mask := { array := 0, off := 0, len := 0 } }

end ipvlan
/-! ## The macvlan records in memory -/

namespace macvlan

/-- The struct `configuration` as it lies in memory: the subnet slices are slice
headers; the strings are immutable and held by value. -/
structure configurationCell where
  ID : String
  Mtu : Int
  dbIndex : Nat
  dbExists : Bool
  Internal : Bool
  Parent : String
  MacvlanMode : String
  CreatedSlaveLink : Bool
  Ipv4Subnets : Slice
  Ipv6Subnets : Slice
deriving DecidableEq, Repr

/-- The struct `endpoint` as it lies in memory: `mac` is a byte slice and the
addresses are pointers to `net.IPNet`. -/
structure endpointCell where
  id : String
  nid : String
  mac : Slice
  addr : Addr
  addrv6 : Addr
  srcName : String
  dbIndex : Nat
  dbExists : Bool
deriving DecidableEq, Repr

/-- The heap: what lies at each address, by kind of object. `pointerArrays`
holds the backing arrays of the `[]*ipSubnet` slices and `byteArrays` those of
the byte slices. -/
structure Heap where
  configurations : Addr → configurationCell
  endpoints : Addr → endpointCell
  subnets : Addr → ipSubnet
  pointerArrays : Addr → List Addr
  byteArrays : Addr → List (Fin 256)
  ipNets : Addr → IPNetCell

/-- The elements of a `[]*ipSubnet` slice, each pointer followed to the struct
it refers to. -/
def Heap.readSubnets (h : Heap) (s : Slice) : List (Option ipSubnet) :=
  (((h.pointerArrays s.array).drop s.off).take s.len).map
    (fun p => if p = 0 then none else some (h.subnets p))

/-- The bytes of a byte slice. -/
def Heap.readBytes (h : Heap) (s : Slice) : Bytes :=
  ((h.byteArrays s.array).drop s.off).take s.len

/-- The `net.IPNet` a pointer refers to; nil refers to none. -/
def Heap.readIPNet (h : Heap) (p : Addr) : Option IPNet :=
  if p = 0 then none
  else some { IP := h.readBytes (h.ipNets p).IP, Mask := h.readBytes (h.ipNets p).Mask }

/-- The network record that a `*configuration` refers to, with every slice and
pointer followed: all that can be read through the pointer. -/
def Heap.loadConfiguration (h : Heap) (p : Addr) : configuration :=
  let c := h.configurations p
  { ID := c.ID, Mtu := c.Mtu, dbIndex := c.dbIndex, dbExists := c.dbExists,
    Internal := c.Internal, Parent := c.Parent, MacvlanMode := c.MacvlanMode,
    CreatedSlaveLink := c.CreatedSlaveLink, Ipv4Subnets := h.readSubnets c.Ipv4Subnets,
    Ipv6Subnets := h.readSubnets c.Ipv6Subnets }

/-- The endpoint record that a `*endpoint` refers to, with every slice and
pointer followed. -/
def Heap.loadEndpoint (h : Heap) (p : Addr) : endpoint :=
  let e := h.endpoints p
  { id := e.id, nid := e.nid, mac := h.readBytes e.mac, addr := h.readIPNet e.addr,
    addrv6 := h.readIPNet e.addrv6, srcName := e.srcName, dbIndex := e.dbIndex,
    dbExists := e.dbExists }

/-- The Go assignment `*p = c` to a `*configuration`; it covers the assignment
to any field of `*p`. -/
def Heap.storeConfiguration (h : Heap) (p : Addr) (c : configurationCell) : Heap :=
  { h with configurations := fun q => if q = p then c else h.configurations q }

/-- The Go assignment `*p = e` to a `*endpoint`; it covers the assignment to any
field of `*p`. -/
def Heap.storeEndpoint (h : Heap) (p : Addr) (e : endpointCell) : Heap :=
  { h with endpoints := fun q => if q = p then e else h.endpoints q }

/-- The pointer `s[i]` of a `[]*ipSubnet` slice. -/
def Heap.subnetPointer (h : Heap) (s : Slice) (i : Nat) : Addr :=
  ((h.pointerArrays s.array).drop s.off).getD i 0

/-- The Go assignment `p.GwIP = v` through a `*ipSubnet`. -/
def Heap.setGwIP (h : Heap) (p : Addr) (v : String) : Heap :=
  { h with subnets := fun q => if q = p then { h.subnets q with GwIP := v } else h.subnets q }

/-- The Go assignment `s[i] = b` to an element of a byte slice, `i` being less
than the length of the slice. -/
def Heap.setByte (h : Heap) (s : Slice) (i : Nat) (b : Fin 256) : Heap :=
  { h with byteArrays := fun a =>
      if a = s.array then (h.byteArrays a).set (s.off + i) b else h.byteArrays a }

/-- The method `configuration.CopyTo` on memory. The type assertion
`o.(*configuration)` panics when `o` holds an endpoint; `*dstNcfg = *config`
assigns the struct, its slice headers included, and panics on a nil pointer. -/
def configuration.CopyTo (h : Heap) (config : Addr) (o : KVRef) :
    Outcome (Option GoError) × Heap :=
  match o with
  | KVRef.endpoint _ =>
    (Outcome.panicked "interface conversion: interface is *endpoint, not *configuration", h)
  | KVRef.configuration dstNcfg =>
    if config = 0 ∨ dstNcfg = 0 then
      (Outcome.panicked "invalid memory address or nil pointer dereference", h)
    else (Outcome.ret none, h.storeConfiguration dstNcfg (h.configurations config))

/-- The method `endpoint.CopyTo` on memory. The type assertion `o.(*endpoint)`
panics when `o` holds a network record; `*dstEp = *ep` assigns the struct, its
slice header and its pointers included, and panics on a nil pointer. -/
def endpoint.CopyTo (h : Heap) (ep : Addr) (o : KVRef) : Outcome (Option GoError) × Heap :=
  match o with
  | KVRef.configuration _ =>
    (Outcome.panicked "interface conversion: interface is *configuration, not *endpoint", h)
  | KVRef.endpoint dstEp =>
    if ep = 0 ∨ dstEp = 0 then
      (Outcome.panicked "invalid memory address or nil pointer dereference", h)
    else (Outcome.ret none, h.storeEndpoint dstEp (h.endpoints ep))

/-! ### A heap for the examples -/

/-- A heap that holds the record `net1` at address 1, with its subnet list in
the array at address 10 and its subnet descriptor at address 20, the endpoint
`ep1` at address 1 with its MAC in the array at address 30, and records made
by `New()` at address 2. -/
def exHeap : Heap where
  configurations := fun p =>
    if p = 1 then
      { ID := "net1", Mtu := 1500, dbIndex := 1, dbExists := true, Internal := false,
        Parent := "eth0.10", MacvlanMode := "bridge",
        CreatedSlaveLink := true,
        Ipv4Subnets := { array := 10, off := 0, len := 1 },
        Ipv6Subnets := { array := 0, off := 0, len := 0 } }
    else
      { ID := "", Mtu := 0, dbIndex := 0, dbExists := false, Internal := false,
        Parent := "", MacvlanMode := "",
        CreatedSlaveLink := false,
        Ipv4Subnets := { array := 0, off := 0, len := 0 },
        Ipv6Subnets := { array := 0, off := 0, len := 0 } }
  endpoints := fun p =>
    if p = 1 then
      { id := "ep1", nid := "net1", mac := { array := 30, off := 0, len := 6 }, addr := 0,
        addrv6 := 0, srcName := "vethA", dbIndex := 1, dbExists := true }
    else
      { id := "", nid := "", mac := { array := 0, off := 0, len := 0 }, addr := 0,
        addrv6 := 0, srcName := "", dbIndex := 0, dbExists := false }
  subnets := fun p =>
    if p = 20 then { SubnetIP := "192.168.1.0/24", GwIP := "192.168.1.1" }
    else { SubnetIP := "", GwIP := "" }
  pointerArrays := fun a => if a = 10 then [20] else []
  byteArrays := fun a => if a = 30 then [2, 66, 172, 17, 0, 2] else []
  ipNets := fun _ =>
    { IP := { array := 0, off := 0, len := 0 }, Mask := { array := 0, off := 0, len := 0 } }

end macvlan
/-! ## Properties of the ipvlan records used by the restore pipeline -/

namespace ipvlan

/-- The invariant of the in-memory index: every endpoint held under
`networks[k].endpoints[i]` has `nid = k` and `id = i`. -/
def IndexInvariant (nets : networkTable) : Prop :=
  ∀ k i e, endpointAt nets k i = some e → e.nid = k ∧ e.id = i

/-- An endpoint record with a hardware address, the IPv4 address
`10.0.0.2/24`, held in 16 bytes, and the IPv6 address `2001:db8::1/64`. -/
def exEpAddressed : endpoint :=
  { id := "ep1", nid := "net1", mac := [2, 66, 172, 17, 0, 2],
    addr := some { IP := [0, 0, 0, 0, 0, 0, 0, 0, 0, 0, 255, 255, 10, 0, 0, 2],
                   Mask := [255, 255, 255, 0] },
    addrv6 := some { IP := [32, 1, 13, 184, 0, 0, 0, 0, 0, 0, 0, 0, 0, 0, 0, 1],
                     Mask := [255, 255, 255, 255, 255, 255, 255, 255, 0, 0, 0, 0, 0, 0, 0, 0] },
    srcName := "vethA", dbIndex := 3, dbExists := true }

/-- An endpoint record whose IPv4 address `10.0.0.2/24` is held in 4 bytes. -/
def exEpFourByte : endpoint :=
  { id := "ep1", nid := "net1", mac := [],
    addr := some { IP := [10, 0, 0, 2], Mask := [255, 255, 255, 0] }, addrv6 := none,
    srcName := "vethA", dbIndex := 3, dbExists := true }

/-- An endpoint record whose IPv6 address `2001:db8::1` has a mask of 4 bytes,
the prefix mask of 24 bits. -/
def exEpShortMask : endpoint :=
  { id := "ep1", nid := "net1", mac := [], addr := none,
    addrv6 := some { IP := [32, 1, 13, 184, 0, 0, 0, 0, 0, 0, 0, 0, 0, 0, 0, 1],
                     Mask := [255, 255, 255, 0] },
    srcName := "vethA", dbIndex := 3, dbExists := true }

end ipvlan
/-! ## Properties of the macvlan records used by the restore pipeline -/

namespace macvlan

/-- The invariant of the in-memory index: every endpoint held under
`networks[k].endpoints[i]` has `nid = k` and `id = i`. -/
def IndexInvariant (nets : networkTable) : Prop :=
  ∀ k i e, endpointAt nets k i = some e → e.nid = k ∧ e.id = i

/-- An endpoint record with a hardware address, the IPv4 address
`10.0.0.2/24`, held in 16 bytes, and the IPv6 address `2001:db8::1/64`. -/
def exEpAddressed : endpoint :=
  { id := "ep1", nid := "net1", mac := [2, 66, 172, 17, 0, 2],
    addr := some { IP := [0, 0, 0, 0, 0, 0, 0, 0, 0, 0, 255, 255, 10, 0, 0, 2],
                   Mask := [255, 255, 255, 0] },
    addrv6 := some { IP := [32, 1, 13, 184, 0, 0, 0, 0, 0, 0, 0, 0, 0, 0, 0, 1],
                     Mask := [255, 255, 255, 255, 255, 255, 255, 255, 0, 0, 0, 0, 0, 0, 0, 0] },
    srcName := "vethA", dbIndex := 3, dbExists := true }

/-- An endpoint record whose IPv4 address `10.0.0.2/24` is held in 4 bytes. -/
def exEpFourByte : endpoint :=
  { id := "ep1", nid := "net1", mac := [],
    addr := some { IP := [10, 0, 0, 2], Mask := [255, 255, 255, 0] }, addrv6 := none,
    srcName := "vethA", dbIndex := 3, dbExists := true }

/-- An endpoint record whose IPv6 address `2001:db8::1` has a mask of 4 bytes,
the prefix mask of 24 bits. -/
def exEpShortMask : endpoint :=
  { id := "ep1", nid := "net1", mac := [], addr := none,
    addrv6 := some { IP := [32, 1, 13, 184, 0, 0, 0, 0, 0, 0, 0, 0, 0, 0, 0, 1],
                     Mask := [255, 255, 255, 0] },
    srcName := "vethA", dbIndex := 3, dbExists := true }

end macvlan

/-! ## The host driver -/

namespace host

/-- Modelled from the spec: the state of the single-network driver, whose source
(`host.go`) is not among the sources. Section 4.2 gives its state machine: the
states are `Empty` and `Bound(networkID)`. The test reads the state through the
field `d.network`. -/
inductive State where
  | Empty : State
  | Bound (networkID : String) : State
deriving DecidableEq, Repr

/-- Modelled from the spec: the driver instance; `network` is the field the test
inspects. -/
structure driver where
  network : State
deriving DecidableEq, Repr

/-- Modelled from the spec: the zero value `&driver{}` the test starts from; the
initial state is `Empty`. -/
def driver.new : driver := { network := State.Empty }

/-- Modelled from the spec: `CreateNetwork` of the single-network driver. From
`Empty` the call succeeds and binds the driver to `id`; from `Bound`, every
call fails with a forbidden error, whatever its identifier. The options and
IPAM data of the call play no part. -/
def CreateNetwork (d : driver) (id : String) : Option GoError × driver :=
  match d.network with
  | State.Empty => (none, { d with network := State.Bound id })
  | State.Bound _ =>
    (some (GoError.ForbiddenError "only one instance of this network is allowed"), d)

/-- Modelled from the spec: `DeleteNetwork` of the single-network driver, which
forbids every deletion before looking at the identifier. -/
def DeleteNetwork (d : driver) (_nid : String) : Option GoError × driver :=
  (some (GoError.ForbiddenError "network of this type cannot be deleted"), d)

/-- The Go test `_, ok := err.(types.ForbiddenError)`. -/
def isForbidden (err : Option GoError) : Bool :=
  match err with
  | some (GoError.ForbiddenError _) => true
  | _ => false

/-- A lifecycle call made on the driver. -/
inductive Op where
  | CreateNetwork (id : String) : Op
  | DeleteNetwork (nid : String) : Op
deriving DecidableEq, Repr

/-- Makes one lifecycle call. -/
def step (d : driver) (op : Op) : Option GoError × driver :=
  match op with
  | Op.CreateNetwork id => CreateNetwork d id
  | Op.DeleteNetwork nid => DeleteNetwork d nid

/-- Makes the calls in turn and returns each call with the error it returned,
and the driver left at the end. -/
def run : driver → List Op → List (Op × Option GoError) × driver
  | d, [] => ([], d)
  | d, op :: ops =>
    let r := step d op
    let rest := run r.2 ops
    ((op, r.1) :: rest.1, rest.2)

/-- Whether a call of a run is a `CreateNetwork` that returned no error. -/
def createdOk (r : Op × Option GoError) : Bool :=
  match r with
  | (Op.CreateNetwork _, none) => true
  | _ => false

/-- Whether a call is a `CreateNetwork`. -/
def Op.isCreate (op : Op) : Bool :=
  match op with
  | Op.CreateNetwork _ => true
  | Op.DeleteNetwork _ => false

/-- The checks of `TestDriver` from `host_test.go` that concern network creation
and deletion, in order; `true` when none of them fails the test. -/
def TestDriver : Bool :=
  let d := driver.new
  let r1 := CreateNetwork d "first"
  if r1.1 ≠ none then false else
  if r1.2.network ≠ State.Bound "first" then false else
  let r2 := CreateNetwork r1.2 "second"
  if r2.1 = none then false else
  if ¬ isForbidden r2.1 then false else
  let r3 := DeleteNetwork r2.2 "first"
  if r3.1 = none then false else
  if ¬ isForbidden r3.1 then false else
  let r4 := DeleteNetwork r3.2 "unknown"
  if r4.1 = none then false else
  if ¬ isForbidden r4.1 then false else
  true

end host
/-! ## Registry credentials: `daemon/pkg/registry/auth.go` -/

namespace strings

/-- The Go call `strings.Index(s, substr)` on the characters of the strings:
the index of the first occurrence of `substr` in `s`; `none` is `-1`. The
separators used here are ASCII, for which the position of the first
occurrence is the same counted in characters and in bytes. -/
def Index : List Char → List Char → Option Nat
  | [], substr => if substr = [] then some 0 else none
  | c :: t, substr =>
    if substr.isPrefixOf (c :: t) then some 0 else (Index t substr).map (fun i => i + 1)

/-- The Go call `strings.Cut(s, sep)`: the text before and after the first
occurrence of `sep`, and whether `sep` occurs. -/
def Cut (s sep : String) : String × String × Bool :=
  match Index s.data sep.data with
  | some i => (String.mk (s.data.take i), String.mk (s.data.drop (i + sep.data.length)), true)
  | none => (s, "", false)

end strings

namespace registry

/-- The function `ConvertToHostname`. -/
def ConvertToHostname (maybeURL : String) : String :=
  let stripped := maybeURL
  let stripped :=
    match strings.Cut stripped "://" with
    | (scheme, remainder, true) =>
      if scheme = "http" ∨ scheme = "https" then remainder else stripped
    | (_, _, false) => stripped
  (strings.Cut stripped "/").1

end registry
/-! ## Resolving credentials -/

namespace registry

/-- The struct `registry.AuthConfig`, declared outside these files, with the
fields that `auth.go` reads and writes. -/
structure AuthConfig where
  Username : String
  Password : String
  IdentityToken : String
deriving DecidableEq, Repr

/-- The zero value `registry.AuthConfig{}`. -/
def AuthConfig.empty : AuthConfig := { Username := "", Password := "", IdentityToken := "" }

/-- The struct `registry.IndexInfo`, declared outside these files, with the
fields that decide which credentials belong to an index. -/
structure IndexInfo where
  Name : String
  Official : Bool
deriving DecidableEq, Repr

/-- The function `ResolveAuthConfig`. `GetAuthConfigKey` is defined outside
these files and is a parameter, and `index` is the struct the pointer refers
to. The order of the list `authConfigs` stands for the order in which `range`
visits the entries of the map, which Go leaves open: what is proved of this
function for every list holds for every order. -/
def ResolveAuthConfig (GetAuthConfigKey : IndexInfo → String) (authConfigs : GoMap AuthConfig)
    (index : IndexInfo) : AuthConfig :=
  let configKey := GetAuthConfigKey index
  let c := (GoMap.lookup authConfigs configKey).getD AuthConfig.empty
  let found := (GoMap.lookup authConfigs configKey).isSome
  if found ∨ index.Official then c
  else
    match authConfigs.find? (fun kv => decide (configKey = ConvertToHostname kv.1)) with
    | some (_, ac) => ac
    | none => AuthConfig.empty

/-- A `GetAuthConfigKey` for the examples, which gives the address of the
official index for an official index and the name of the index otherwise. -/
def exGetAuthConfigKey (index : IndexInfo) : String :=
  if index.Official then "https://index.docker.io/v1/" else index.Name

/-- Credentials kept under a legacy key, a URL with its scheme, and under a
host name. -/
def exAuthConfigs : GoMap AuthConfig :=
  [("https://registry.example.com/v1/",
      { Username := "legacy", Password := "pw1", IdentityToken := "" }),
   ("other.example.com", { Username := "other", Password := "pw2", IdentityToken := "" })]

end registry

/-! ## Example data

The store of the example in section 8 of the specification: network record
`net1`, endpoint records `ep1` (of `net1`) and `ep2` (of `net404`). -/

namespace ipvlan

/-- The network record `net1`. -/
def exConfig : configuration :=
  { ID := "net1", Mtu := 1500, dbIndex := 1, dbExists := true, Internal := false,
    Parent := "eth0.10", IpvlanMode := "l2", IpvlanFlag := "bridge", CreatedSlaveLink := true,
    Ipv4Subnets := [some { SubnetIP := "192.168.1.0/24", GwIP := "192.168.1.1" }],
    Ipv6Subnets := [] }

/-- A second network record, `net2`. -/
def exConfig2 : configuration :=
  { exConfig with ID := "net2", Parent := "eth0.20" }

/-- The endpoint record `ep1`, of network `net1`. -/
def exEp1 : endpoint :=
  { id := "ep1", nid := "net1", mac := [], addr := none, addrv6 := none, srcName := "vethA",
    dbIndex := 1, dbExists := true }

/-- The endpoint record `ep2`, of the missing network `net404`. -/
def exEp2 : endpoint :=
  { id := "ep2", nid := "net404", mac := [], addr := none, addrv6 := none, srcName := "vethB",
    dbIndex := 1, dbExists := true }

/-- The store of the example. -/
def exStore : MemStore := { configurations := [exConfig], endpoints := [exEp1, exEp2] }

/-- A driver that has just been constructed on the store of the example. -/
def exDriver : driver MemStore Unit :=
  { networks := [], store := some MemStore.store, backend := exStore, host := (), calls := [] }

/-- A driver that has just been constructed on the store of the example, on a
host without links. -/
def exDriverLinks : driver MemStore (List String) :=
  { networks := [], store := some MemStore.store, backend := exStore, host := [], calls := [] }

/-- The same driver once `net1` is in its index. -/
def exIndexed : driver MemStore Unit :=
  { exDriver with networks := [("net1", { id := "net1", endpoints := [], config := exConfig })] }

/-- A driver on a store that holds two network records and no endpoint. -/
def exDriver2 : driver MemStore Unit :=
  { exDriver with backend := { configurations := [exConfig, exConfig2], endpoints := [] } }

/-- A driver on a store that holds nothing. -/
def exDriverEmpty : driver MemStore Unit :=
  { exDriver with backend := { configurations := [], endpoints := [] } }

/-- Modelled from the spec: the in-memory store with a backend whose deletions
always fail and remove nothing. -/
def MemStore.failingDeletes : Store MemStore :=
  { MemStore.store with
    DeleteObject := fun _ s => (some (GoError.errorString "delete failed"), s) }

/-- The driver of the example on the store whose deletions fail. -/
def exDriverFailing : driver MemStore Unit :=
  { exDriver with store := some MemStore.failingDeletes }

/-- A network record as a daemon that did not know the flag wrote it: the text
has no member `IpvlanFlag`. -/
def exOldPayload : json.Text :=
  ("\x7b\"CreatedSubIface\":false,\"ID\":\"net1\",\"Internal\":false," ++
    "\"IpvlanMode\":\"l2\",\"Mtu\":1500,\"Parent\":\"eth0\"\x7d").data

/-- The map the text `exOldPayload` decodes to. -/
def exOldMap : GoMap json.JSON :=
  [("CreatedSubIface", json.JSON.bool false), ("ID", json.JSON.string "net1"),
   ("Internal", json.JSON.bool false), ("IpvlanMode", json.JSON.string "l2"),
   ("Mtu", json.JSON.number 1500 0), ("Parent", json.JSON.string "eth0")]

/-- A network record whose MTU is not a `float64`. -/
def exConfigLargeMtu : configuration := { exConfig with Mtu := 2 ^ 53 + 1 }

end ipvlan


namespace macvlan

/-- The network record `net1`. -/
def exConfig : configuration :=
  { ID := "net1", Mtu := 1500, dbIndex := 1, dbExists := true, Internal := false,
    Parent := "eth0.10", MacvlanMode := "bridge", CreatedSlaveLink := true,
    Ipv4Subnets := [some { SubnetIP := "192.168.1.0/24", GwIP := "192.168.1.1" }],
    Ipv6Subnets := [] }

/-- A second network record, `net2`. -/
def exConfig2 : configuration :=
  { exConfig with ID := "net2", Parent := "eth0.20" }

/-- The endpoint record `ep1`, of network `net1`. -/
def exEp1 : endpoint :=
  { id := "ep1", nid := "net1", mac := [], addr := none, addrv6 := none, srcName := "vethA",
    dbIndex := 1, dbExists := true }

/-- The endpoint record `ep2`, of the missing network `net404`. -/
def exEp2 : endpoint :=
  { id := "ep2", nid := "net404", mac := [], addr := none, addrv6 := none, srcName := "vethB",
    dbIndex := 1, dbExists := true }

/-- The store of the example. -/
def exStore : MemStore := { configurations := [exConfig], endpoints := [exEp1, exEp2] }

/-- A driver that has just been constructed on the store of the example. -/
def exDriver : driver MemStore Unit :=
  { networks := [], store := some MemStore.store, backend := exStore, host := (), calls := [] }

/-- A driver that has just been constructed on the store of the example, on a
host without links. -/
def exDriverLinks : driver MemStore (List String) :=
  { networks := [], store := some MemStore.store, backend := exStore, host := [], calls := [] }

/-- The same driver once `net1` is in its index. -/
def exIndexed : driver MemStore Unit :=
  { exDriver with networks := [("net1", { id := "net1", endpoints := [], config := exConfig })] }

/-- A driver on a store that holds two network records and no endpoint. -/
def exDriver2 : driver MemStore Unit :=
  { exDriver with backend := { configurations := [exConfig, exConfig2], endpoints := [] } }

/-- A driver on a store that holds nothing. -/
def exDriverEmpty : driver MemStore Unit :=
  { exDriver with backend := { configurations := [], endpoints := [] } }

/-- Modelled from the spec: the in-memory store with a backend whose deletions
always fail and remove nothing. -/
def MemStore.failingDeletes : Store MemStore :=
  { MemStore.store with
    DeleteObject := fun _ s => (some (GoError.errorString "delete failed"), s) }

/-- The driver of the example on the store whose deletions fail. -/
def exDriverFailing : driver MemStore Unit :=
  { exDriver with store := some MemStore.failingDeletes }

/-- A network record whose MTU is not a `float64`. -/
def exConfigLargeMtu : configuration := { exConfig with Mtu := 2 ^ 53 + 1 }

end macvlan
/-! ## Example data for the record methods -/

/-- The payload that is the empty JSON object. -/
def exEmptyObject : json.Text := "\x7b\x7d".data

/-- An endpoint payload whose hardware address is not one. -/
def exBadMacPayload : json.Text :=
  ("\x7b\"MacAddress\":\"zz\",\"SrcName\":\"vethA\",\"id\":\"ep1\"," ++
    "\"nid\":\"net1\"\x7d").data

/-- The map the text `exBadMacPayload` decodes to. -/
def exBadMacMap : GoMap json.JSON :=
  [("MacAddress", json.JSON.string "zz"), ("SrcName", json.JSON.string "vethA"),
   ("id", json.JSON.string "ep1"), ("nid", json.JSON.string "net1")]

/-- An endpoint payload without address members. -/
def exEpPayload : json.Text :=
  ("\x7b\"SrcName\":\"vethA\",\"id\":\"ep1\",\"nid\":\"net1\"\x7d").data

/-- The map the text `exEpPayload` decodes to. -/
def exEpMap : GoMap json.JSON :=
  [("SrcName", json.JSON.string "vethA"), ("id", json.JSON.string "ep1"),
   ("nid", json.JSON.string "net1")]

/-- An endpoint payload whose `MacAddress` is a number and whose `Addr` is not
an address. -/
def exBadAddrPayload : json.Text :=
  ("\x7b\"Addr\":\"bad\",\"MacAddress\":5,\"SrcName\":\"vethA\",\"id\":\"ep1\"," ++
    "\"nid\":\"net1\"\x7d").data

/-- The map the text `exBadAddrPayload` decodes to. -/
def exBadAddrMap : GoMap json.JSON :=
  [("Addr", json.JSON.string "bad"), ("MacAddress", json.JSON.number 5 0),
   ("SrcName", json.JSON.string "vethA"), ("id", json.JSON.string "ep1"),
   ("nid", json.JSON.string "net1")]

/-- An endpoint payload whose `MacAddress` is not a hardware address and that
carries a number outside the range of `float64`. -/
def exHugePayload : json.Text :=
  ("\x7b\"MacAddress\":\"zz\",\"SrcName\":\"vethA\",\"id\":\"ep1\"," ++
    "\"nid\":\"net1\",\"x\":1e999\x7d").data

/-- The members of the text `exHugePayload`. -/
def exHugeMembers : List (String × json.JSON) :=
  [("MacAddress", json.JSON.string "zz"), ("SrcName", json.JSON.string "vethA"),
   ("id", json.JSON.string "ep1"), ("nid", json.JSON.string "net1"),
   ("x", json.JSON.number 1 999)]

theorem GoMap.lookup_insert {V : Type} (m : GoMap V) (k k' : String) (v : V) :
    GoMap.lookup (GoMap.insert m k v) k' = if k' = k then some v else GoMap.lookup m k' := by
  induction m with
  | nil =>
    by_cases h : k' = k <;> simp [GoMap.insert, GoMap.lookup, h]
  | cons p m ih =>
    obtain ⟨k0, v0⟩ := p
    by_cases h0 : k = k0
    · subst h0
      by_cases h : k' = k <;> simp [GoMap.insert, GoMap.lookup, h]
    · by_cases h1 : k < k0
      · by_cases h : k' = k <;> simp [GoMap.insert, GoMap.lookup, h, h0, h1]
      · by_cases h : k' = k
        · subst h
          simp [GoMap.insert, GoMap.lookup, h0, h1, ih]
        · simp [GoMap.insert, GoMap.lookup, h0, h1, ih, h]

theorem GoMap.mem_keys_iff {V : Type} (m : GoMap V) (k : String) :
    k ∈ GoMap.keys m ↔ ∃ v, GoMap.lookup m k = some v := by
  induction m with
  | nil => simp [GoMap.keys, GoMap.lookup]
  | cons p m ih =>
    obtain ⟨k0, v0⟩ := p
    by_cases h : k = k0
    · subst h
      simp [GoMap.keys, GoMap.lookup]
    · have ih1 : k ∈ List.map Prod.fst m ↔ ∃ v, GoMap.lookup m k = some v := ih
      simp [GoMap.keys, GoMap.lookup, h, ih1]

theorem GoMap.not_mem_keys_iff {V : Type} (m : GoMap V) (k : String) :
    k ∉ GoMap.keys m ↔ GoMap.lookup m k = none := by
  rw [GoMap.mem_keys_iff]
  cases h : GoMap.lookup m k <;> simp

theorem GoMap.mem_keys_insert {V : Type} (m : GoMap V) (k k' : String) (v : V) :
    k' ∈ GoMap.keys (GoMap.insert m k v) ↔ k' = k ∨ k' ∈ GoMap.keys m := by
  rw [GoMap.mem_keys_iff, GoMap.mem_keys_iff, GoMap.lookup_insert]
  by_cases h : k' = k <;> simp [h]

namespace json

theorem parseStringBody_escapeChar_ofNat (n : Nat) (hn : n < 63 ∨ n = 92 ∨ n = 8232 ∨ n = 8233)
    (fuel : Nat) (rest : Text) :
    parseStringBody (fuel + 1) (escapeChar (Char.ofNat n) ++ rest) =
      (parseStringBody fuel rest).map (fun p => (Char.ofNat n :: p.1, p.2)) := by
  rcases hn with hn | hn | hn | hn
  · interval_cases n <;> rfl
  · subst hn; rfl
  · subst hn; rfl
  · subst hn; rfl

theorem escapeChar_plain (c : Char) (h : ¬ (c.toNat < 63 ∨ c.toNat = 92 ∨ c.toNat = 8232 ∨
    c.toNat = 8233)) : escapeChar c = [c] := by
  have h1 : ¬ c.toNat < 63 := fun hc => h (Or.inl hc)
  have h2 : ¬ c.toNat = 92 := fun hc => h (Or.inr (Or.inl hc))
  have h3 : ¬ c.toNat = 8232 := fun hc => h (Or.inr (Or.inr (Or.inl hc)))
  have h4 : ¬ c.toNat = 8233 := fun hc => h (Or.inr (Or.inr (Or.inr hc)))
  unfold escapeChar
  rw [if_neg (by omega), if_neg h2]
  iterate 9 rw [if_neg (by omega)]
  rw [if_neg h3, if_neg h4]

theorem parseStringBody_escapeChar (c : Char) (fuel : Nat) (rest : Text) :
    parseStringBody (fuel + 1) (escapeChar c ++ rest) =
      (parseStringBody fuel rest).map (fun p => (c :: p.1, p.2)) := by
  by_cases h : c.toNat < 63 ∨ c.toNat = 92 ∨ c.toNat = 8232 ∨ c.toNat = 8233
  · have := parseStringBody_escapeChar_ofNat c.toNat h fuel rest
    rwa [Char.ofNat_toNat] at this
  · rw [escapeChar_plain c h]
    have h1 : ¬ c.toNat = 34 := fun hc => h (Or.inl (by omega))
    have h2 : ¬ c.toNat = 92 := fun hc => h (Or.inr (Or.inl hc))
    have h3 : ¬ c.toNat < 32 := fun hc => h (Or.inl (by omega))
    simp only [List.cons_append, List.nil_append, parseStringBody, if_neg h1, if_neg h2,
      if_neg h3]
    rfl

theorem length_escapeChar (c : Char) : 1 ≤ (escapeChar c).length := by
  by_cases h : c.toNat < 63 ∨ c.toNat = 92 ∨ c.toNat = 8232 ∨ c.toNat = 8233
  · rw [← Char.ofNat_toNat c]
    generalize c.toNat = n at h
    rcases h with h | h | h | h
    · interval_cases n <;> decide
    · subst h; decide
    · subst h; decide
    · subst h; decide
  · rw [escapeChar_plain c h]
    exact Nat.le_refl 1

theorem length_escape (s : Text) : s.length ≤ (escape s).length := by
  induction s with
  | nil => simp [escape]
  | cons c s ih =>
    have := length_escapeChar c
    simp only [escape, List.length_cons, List.length_append]
    omega

theorem parseStringBody_escape (s : Text) (fuel : Nat) (rest : Text) (h : s.length < fuel) :
    parseStringBody fuel (escape s ++ '\"' :: rest) = some (s, rest) := by
  induction s generalizing fuel with
  | nil =>
    obtain ⟨f, rfl⟩ : ∃ f, fuel = f + 1 := ⟨fuel - 1, by omega⟩
    rfl
  | cons c s ih =>
    obtain ⟨f, rfl⟩ : ∃ f, fuel = f + 1 := ⟨fuel - 1, by omega⟩
    rw [escape, List.append_assoc, parseStringBody_escapeChar, ih f (by simpa using h)]
    rfl


theorem digit_char (k : Nat) (hk : k < 10) :
    isDigit (Char.ofNat (48 + k)) = true ∧ (Char.ofNat (48 + k)).toNat - 48 = k ∧
      ((Char.ofNat (48 + k)).toNat = 48 → k = 0) ∧ (Char.ofNat (48 + k)).toNat ≠ 45 := by
  interval_cases k <;> decide

theorem digitsVal_append (ds : Text) (c : Char) :
    digitsVal (ds ++ [c]) = 10 * digitsVal ds + (c.toNat - 48) := by
  simp [digitsVal, List.foldl_append]

/-- What `natDigitsAux` adds in front of its accumulator. -/
theorem natDigitsAux_spec (n : Nat) : ∀ (fuel : Nat) (acc : Text), n < fuel →
    ∃ ds : Text, natDigitsAux fuel n acc = ds ++ acc ∧ ds ≠ [] ∧
      (∀ c ∈ ds, isDigit c = true) ∧ digitsVal ds = n ∧
      (∀ c, ds.head? = some c → c.toNat = 48 → ds.length = 1) ∧
      (∀ c, ds.head? = some c → c.toNat ≠ 45) := by
  induction n using Nat.strong_induction_on with
  | _ n ih =>
    intro fuel acc hf
    obtain ⟨f, rfl⟩ : ∃ f, fuel = f + 1 := ⟨fuel - 1, by omega⟩
    by_cases h10 : n < 10
    · obtain ⟨hd, hv, h0, hm⟩ := digit_char n h10
      refine ⟨[Char.ofNat (48 + n)], ?_, by simp, ?_, ?_, ?_, ?_⟩
      · simp [natDigitsAux, h10]
      · intro c hc
        rw [List.mem_singleton] at hc
        rw [hc]; exact hd
      · simp [digitsVal, hv]
      · intro c _ _
        rfl
      · intro c hc
        simp only [List.head?_cons, Option.some.injEq] at hc
        rw [← hc]; exact hm
    · obtain ⟨ds, hds, hne, hall, hval, hhead, hminus⟩ :=
        ih (n / 10) (by omega) f (Char.ofNat (48 + n % 10) :: acc) (by omega)
      obtain ⟨hd, hv, _, _⟩ := digit_char (n % 10) (by omega)
      refine ⟨ds ++ [Char.ofNat (48 + n % 10)], ?_, by simp, ?_, ?_, ?_, ?_⟩
      · simp [natDigitsAux, h10, hds]
      · intro c hc
        rcases List.mem_append.1 hc with hc | hc
        · exact hall c hc
        · rw [List.mem_singleton] at hc
          rw [hc]; exact hd
      · rw [digitsVal_append, hval, hv]
        omega
      · intro c hc h48
        exfalso
        cases ds with
        | nil => exact hne rfl
        | cons c0 t =>
          simp only [List.cons_append, List.head?_cons, Option.some.injEq] at hc
          subst hc
          have hl := hhead c0 rfl h48
          simp only [List.length_cons, add_left_eq_self, List.length_eq_zero] at hl
          subst hl
          have hv0 : digitsVal [c0] = c0.toNat - 48 := by simp [digitsVal]
          rw [hv0, h48] at hval
          omega
      · intro c hc
        cases ds with
        | nil => exact absurd rfl hne
        | cons c0 t =>
          simp only [List.cons_append, List.head?_cons, Option.some.injEq] at hc
          subst hc
          exact hminus c0 rfl

theorem natDigits_spec (n : Nat) :
    natDigits n ≠ [] ∧ (∀ c ∈ natDigits n, isDigit c = true) ∧ digitsVal (natDigits n) = n ∧
      (∀ c, (natDigits n).head? = some c → c.toNat = 48 → (natDigits n).length = 1) ∧
      (∀ c, (natDigits n).head? = some c → c.toNat ≠ 45) := by
  obtain ⟨ds, hds, h⟩ := natDigitsAux_spec n (n + 1) [] (Nat.lt_succ_self n)
  have : natDigits n = ds := by rw [natDigits, hds, List.append_nil]
  rw [this]
  exact h

theorem takeWhile_digits (ds rest : Text) (hall : ∀ c ∈ ds, isDigit c = true)
    (hrest : ∀ c, rest.head? = some c → isDigit c = false) :
    (ds ++ rest).takeWhile isDigit = ds ∧ (ds ++ rest).dropWhile isDigit = rest := by
  induction ds with
  | nil =>
    cases rest with
    | nil => exact ⟨rfl, rfl⟩
    | cons c t =>
      have := hrest c rfl
      simp [List.takeWhile, List.dropWhile, this]
  | cons d ds ih =>
    have hd := hall d (List.mem_cons_self _ _)
    have := ih (fun c hc => hall c (List.mem_cons_of_mem _ hc))
    simp [List.takeWhile, List.dropWhile, hd, this.1, this.2]

theorem parseNumber_tail (ds rest : Text) (hne : ds ≠ [])
    (hall : ∀ c ∈ ds, isDigit c = true)
    (hzero : ∀ c, ds.head? = some c → c.toNat = 48 → ds.length = 1)
    (hend : numberEnd rest) (cs : Text) (neg : Bool)
    (hneg : decide (cs.head? = some '-') = neg)
    (hcs : (if neg = true then cs.tail else cs) = ds ++ rest) :
    parseNumber cs =
      some (JSON.number (if neg = true then -(digitsVal ds : Int) else (digitsVal ds : Int)) 0,
        rest) := by
  have htw := takeWhile_digits ds rest hall (fun c hc => (hend c hc).1)
  have hz : ¬ (ds = [] ∨ (ds.head? = some '0' ∧ 1 < ds.length)) := by
    rintro (h | ⟨h1, h2⟩)
    · exact hne h
    · have := hzero '0' h1 rfl
      omega
  have hdot : ¬ ((rest.head?.map Char.toNat) = some 46) := by
    cases rest with
    | nil => simp
    | cons c t =>
      have := (hend c rfl).2.1
      simpa using this
  have hexp : ¬ ((rest.head?.map Char.toNat) = some 101 ∨
      (rest.head?.map Char.toNat) = some 69) := by
    cases rest with
    | nil => simp
    | cons c t =>
      have := (hend c rfl).2.2
      simpa using this
  unfold parseNumber
  simp only [hneg, hcs, htw.1, htw.2, if_neg hz, if_neg hdot, if_neg hexp, List.append_nil,
    List.length_nil, Nat.cast_zero, sub_zero]

theorem parseNumber_encodeInt (n : Int) (rest : Text) (hend : numberEnd rest) :
    parseNumber (encodeInt n ++ rest) = some (JSON.number n 0, rest) := by
  obtain ⟨hne, hall, hval, hzero, hminus⟩ := natDigits_spec n.natAbs
  by_cases hn : n < 0
  · have h := parseNumber_tail (natDigits n.natAbs) rest hne hall hzero hend
      (encodeInt n ++ rest) true (by simp [encodeInt, hn]) (by simp [encodeInt, hn])
    rw [h, hval]
    simp only [if_true]
    rw [Int.ofNat_natAbs_of_nonpos (le_of_lt hn), neg_neg]
  · have hh : decide ((encodeInt n ++ rest).head? = some '-') = false := by
      simp only [encodeInt, hn, if_false, decide_eq_false_iff_not]
      cases hd : natDigits n.natAbs with
      | nil => exact absurd hd hne
      | cons c t =>
        have := hminus c (by rw [hd]; rfl)
        simp only [List.cons_append, List.head?_cons, Option.some.injEq]
        intro hc
        rw [hc] at this
        exact this rfl
    have h := parseNumber_tail (natDigits n.natAbs) rest hne hall hzero hend
      (encodeInt n ++ rest) false hh (by simp [encodeInt, hn])
    rw [h, hval]
    simp only [Bool.false_eq_true, if_false]
    rw [Int.natAbs_of_nonneg (not_lt.1 hn)]

theorem encodeInt_head (n : Int) :
    ∃ c t, encodeInt n = c :: t ∧ (c.toNat = 45 ∨ isDigit c = true) := by
  obtain ⟨hne, hall, _, _, _⟩ := natDigits_spec n.natAbs
  by_cases hn : n < 0
  · exact ⟨'-', natDigits n.natAbs, by simp [encodeInt, hn], Or.inl rfl⟩
  · cases hd : natDigits n.natAbs with
    | nil => exact absurd hd hne
    | cons c t =>
      exact ⟨c, t, by simp [encodeInt, hn, hd], Or.inr (hall c (by rw [hd]; exact List.mem_cons_self _ _))⟩


theorem skipWs_cons (c : Char) (cs : Text)
    (h : ¬ (c.toNat = 32 ∨ c.toNat = 9 ∨ c.toNat = 10 ∨ c.toNat = 13)) :
    skipWs (c :: cs) = c :: cs := by
  simp only [skipWs, if_neg h]

theorem isDigit_range (c : Char) (h : isDigit c = true) : 48 ≤ c.toNat ∧ c.toNat ≤ 57 := by
  simpa [isDigit] using h

/-- The first character of a printed value starts a value: it is not white
space and closes neither an array nor an object. -/
theorem encode_head (v : GoValue) :
    ∃ c t, encode v = c :: t ∧
      ¬ (c.toNat = 32 ∨ c.toNat = 9 ∨ c.toNat = 10 ∨ c.toNat = 13) ∧
      c.toNat ≠ 93 ∧ c.toNat ≠ 125 := by
  cases v with
  | nil => exact ⟨_, _, by rw [encode], by decide, by decide, by decide⟩
  | bool b => cases b <;> exact ⟨_, _, by rw [encode], by decide, by decide, by decide⟩
  | int n =>
    obtain ⟨c, t, h, hc⟩ := encodeInt_head n
    refine ⟨c, t, by rw [encode, h], ?_, ?_, ?_⟩ <;>
      rcases hc with hc | hc <;> first | omega | (have hr := isDigit_range c hc; omega)
  | string s => exact ⟨_, _, by rw [encode, encodeString], by decide, by decide, by decide⟩
  | slice xs =>
    cases xs with
    | nil => exact ⟨_, _, by rw [encode], by decide, by decide, by decide⟩
    | cons x xs => exact ⟨_, _, by rw [encode], by decide, by decide, by decide⟩
  | object fs =>
    cases fs with
    | nil => exact ⟨_, _, by rw [encode], by decide, by decide, by decide⟩
    | cons f fs =>
      obtain ⟨k, v⟩ := f
      exact ⟨_, _, by rw [encode], by decide, by decide, by decide⟩

theorem parseValue_number (fuel depth : Nat) (c : Char) (t : Text)
    (hc : c.toNat = 45 ∨ isDigit c = true) :
    parseValue (fuel + 1) depth (c :: t) = parseNumber (c :: t) := by
  have hr : c.toNat = 45 ∨ (48 ≤ c.toNat ∧ c.toNat ≤ 57) := by
    rcases hc with hc | hc
    · exact Or.inl hc
    · exact Or.inr (isDigit_range c hc)
  rw [parseValue, skipWs_cons c t (by omega)]
  simp only []
  iterate 6 rw [if_neg (by omega)]
  rw [if_pos hc]

theorem numberEnd_nil : numberEnd [] := by
  intro c hc
  simp at hc

theorem numberEnd_cons (c : Char) (t : Text)
    (h : c.toNat = 44 ∨ c.toNat = 93 ∨ c.toNat = 125) : numberEnd (c :: t) := by
  intro c' hc
  simp only [List.head?_cons, Option.some.injEq] at hc
  subst hc
  refine ⟨?_, by omega, by omega, by omega⟩
  simp only [isDigit, decide_eq_false_iff_not]
  omega

theorem numberEnd_encodeElems (xs : List GoValue) (rest : Text) :
    numberEnd (encodeElems xs ++ rest) := by
  cases xs with
  | nil => rw [encodeElems]; exact numberEnd_cons _ _ (by decide)
  | cons x xs => rw [encodeElems]; exact numberEnd_cons _ _ (by decide)

theorem numberEnd_encodeFields (fs : List (String × GoValue)) (rest : Text) :
    numberEnd (encodeFields fs ++ rest) := by
  cases fs with
  | nil => rw [encodeFields]; exact numberEnd_cons _ _ (by decide)
  | cons f fs =>
    obtain ⟨k, v⟩ := f
    rw [encodeFields]; exact numberEnd_cons _ _ (by decide)

theorem length_encodeString (s : String) : s.length + 2 ≤ (encodeString s).length := by
  have := length_escape s.data
  simp only [encodeString, List.length_cons, List.length_append, List.length_nil]
  have hl : s.length = s.data.length := rfl
  omega

theorem parseKey_encodeString (k : String) (fuel : Nat) (rest : Text) (h : k.length < fuel) :
    parseKey fuel (encodeString k ++ ':' :: rest) = some (k, rest) := by
  have hb := parseStringBody_escape k.data fuel (':' :: rest) h
  simp only [parseKey, encodeString, List.cons_append, List.append_assoc, List.nil_append]
  rw [skipWs_cons _ _ (by decide)]
  simp only []
  rw [if_pos (by decide), hb]
  simp only []
  rw [skipWs_cons _ _ (by decide)]
  simp only []
  rw [if_pos (by decide)]


/-- Parsing what `encode` printed gives back the document of the value, for
values, for the tail of a slice and for the tail of an object. -/
theorem parse_encode_aux (fuel : Nat) :
    (∀ (v : GoValue) (d : Nat) (rest : Text), (encode v ++ rest).length < fuel →
      d + depth v ≤ maxNestingDepth → numberEnd rest →
      parseValue fuel d (encode v ++ rest) = some (toDoc v, rest)) ∧
    (∀ (xs : List GoValue) (d : Nat) (rest : Text), (encodeElems xs ++ rest).length < fuel →
      d + depthElems xs ≤ maxNestingDepth →
      parseElems fuel d (encodeElems xs ++ rest) = some (toDocs xs, rest)) ∧
    (∀ (fs : List (String × GoValue)) (d : Nat) (rest : Text),
      (encodeFields fs ++ rest).length < fuel →
      d + depthFields fs ≤ maxNestingDepth →
      parseMembers fuel d (encodeFields fs ++ rest) = some (toDocFields fs, rest)) := by
  induction fuel with
  | zero =>
    exact ⟨fun _ _ _ h => absurd h (Nat.not_lt_zero _), fun _ _ _ h => absurd h (Nat.not_lt_zero _),
      fun _ _ _ h => absurd h (Nat.not_lt_zero _)⟩
  | succ f ih =>
    obtain ⟨ihv, ihe, ihm⟩ := ih
    refine ⟨?_, ?_, ?_⟩
    · intro v d rest hlen hdepth hend
      cases v with
      | nil =>
        simp only [encode, List.cons_append, List.nil_append, parseValue]
        rw [skipWs_cons _ _ (by decide)]
        simp only []
        rw [if_pos (by decide)]
        simp [expect, toDoc]
      | bool b =>
        cases b with
        | true =>
          simp only [encode, List.cons_append, List.nil_append, parseValue]
          rw [skipWs_cons _ _ (by decide)]
          simp only []
          rw [if_neg (by decide), if_pos (by decide)]
          simp [expect, toDoc]
        | false =>
          simp only [encode, List.cons_append, List.nil_append, parseValue]
          rw [skipWs_cons _ _ (by decide)]
          simp only []
          rw [if_neg (by decide), if_neg (by decide), if_pos (by decide)]
          simp [expect, toDoc]
      | int n =>
        obtain ⟨c, t, h, hc⟩ := encodeInt_head n
        have hp := parseNumber_encodeInt n rest hend
        rw [encode, toDoc]
        rw [h, List.cons_append] at hp ⊢
        rw [parseValue_number f d c _ hc, hp]
      | string s =>
        have hl := length_encodeString s
        have hlen' : s.data.length < f := by
          have hl2 : s.length = s.data.length := rfl
          simp only [encode, List.length_append] at hlen
          omega
        have hb := parseStringBody_escape s.data f rest hlen'
        simp only [encode, encodeString, List.cons_append, List.append_assoc, List.nil_append,
          parseValue]
        rw [skipWs_cons _ _ (by decide)]
        simp only []
        rw [if_neg (by decide), if_neg (by decide), if_neg (by decide), if_pos (by decide), hb]
        simp [toDoc]
      | slice xs =>
        cases xs with
        | nil =>
          simp only [encode, List.cons_append, List.nil_append, parseValue]
          rw [skipWs_cons _ _ (by decide)]
          simp only []
          have hd : ¬ maxNestingDepth ≤ d := by
            simp only [depth] at hdepth
            omega
          rw [if_neg (by decide), if_neg (by decide), if_neg (by decide), if_neg (by decide),
            if_pos (by decide), if_neg hd, skipWs_cons _ _ (by decide)]
          simp only []
          rw [if_pos (by decide)]
          simp [toDoc, toDocs]
        | cons x xs =>
          obtain ⟨c, t, hx, hws, h93, _⟩ := encode_head x
          have hd : ¬ maxNestingDepth ≤ d := by
            simp only [depth] at hdepth
            omega
          have hdx : d + 1 + depth x ≤ maxNestingDepth := by
            simp only [depth, depthElems] at hdepth
            have := le_max_left (depth x) (depthElems xs)
            omega
          have hdxs : d + 1 + depthElems xs ≤ maxNestingDepth := by
            simp only [depth, depthElems] at hdepth
            have := le_max_right (depth x) (depthElems xs)
            omega
          simp only [encode, List.cons_append, List.append_assoc, List.length_cons,
            List.length_append] at hlen
          have h1 := ihv x (d + 1) (encodeElems xs ++ rest)
            (by simp only [List.length_append]; omega) hdx (numberEnd_encodeElems xs rest)
          have h2 := ihe xs (d + 1) rest (by simp only [List.length_append]; omega) hdxs
          simp only [encode, List.cons_append, List.append_assoc, parseValue]
          rw [skipWs_cons _ _ (by decide)]
          simp only []
          rw [if_neg (by decide), if_neg (by decide), if_neg (by decide), if_neg (by decide),
            if_pos (by decide), if_neg hd]
          rw [h1]
          rw [hx, List.cons_append, skipWs_cons _ _ hws]
          simp only []
          rw [if_neg h93, h2]
          simp [toDoc, toDocs]
      | object fs =>
        cases fs with
        | nil =>
          simp only [encode, List.cons_append, List.nil_append, parseValue]
          rw [skipWs_cons _ _ (by decide)]
          simp only []
          have hd : ¬ maxNestingDepth ≤ d := by
            simp only [depth] at hdepth
            omega
          rw [if_neg (by decide), if_neg (by decide), if_neg (by decide), if_neg (by decide),
            if_neg (by decide), if_pos (by decide), if_neg hd, skipWs_cons _ _ (by decide)]
          simp only []
          rw [if_pos (by decide)]
          simp [toDoc, toDocFields]
        | cons p fs =>
          obtain ⟨k, x⟩ := p
          have hd : ¬ maxNestingDepth ≤ d := by
            simp only [depth] at hdepth
            omega
          have hdx : d + 1 + depth x ≤ maxNestingDepth := by
            simp only [depth, depthFields] at hdepth
            have := le_max_left (depth x) (depthFields fs)
            omega
          have hdxs : d + 1 + depthFields fs ≤ maxNestingDepth := by
            simp only [depth, depthFields] at hdepth
            have := le_max_right (depth x) (depthFields fs)
            omega
          have hlk := length_encodeString k
          simp only [encode, List.cons_append, List.append_assoc, List.length_cons,
            List.length_append] at hlen
          have h0 := parseKey_encodeString k f (encode x ++ (encodeFields fs ++ rest))
            (by omega)
          have h1 := ihv x (d + 1) (encodeFields fs ++ rest)
            (by simp only [List.length_append]; omega) hdx (numberEnd_encodeFields fs rest)
          have h2 := ihm fs (d + 1) rest (by simp only [List.length_append]; omega) hdxs
          simp only [encode, List.cons_append, List.append_assoc, parseValue]
          rw [skipWs_cons _ _ (by decide)]
          simp only []
          rw [if_neg (by decide), if_neg (by decide), if_neg (by decide), if_neg (by decide),
            if_neg (by decide), if_pos (by decide), if_neg hd]
          rw [h0]
          simp only [encodeString, List.cons_append]
          rw [skipWs_cons _ _ (by decide)]
          simp only []
          rw [if_neg (by decide), h1]
          simp only []
          rw [h2]
          simp [toDoc, toDocFields]
    · intro xs d rest hlen hdepth
      cases xs with
      | nil =>
        simp only [encodeElems, List.cons_append, List.nil_append, parseElems]
        rw [skipWs_cons _ _ (by decide)]
        simp only []
        rw [if_pos (by decide)]
        simp [toDocs]
      | cons x xs =>
        have hdx : d + depth x ≤ maxNestingDepth := by
          simp only [depthElems] at hdepth
          have := le_max_left (depth x) (depthElems xs)
          omega
        have hdxs : d + depthElems xs ≤ maxNestingDepth := by
          simp only [depthElems] at hdepth
          have := le_max_right (depth x) (depthElems xs)
          omega
        simp only [encodeElems, List.cons_append, List.append_assoc, List.length_cons,
          List.length_append] at hlen
        have h1 := ihv x d (encodeElems xs ++ rest)
          (by simp only [List.length_append]; omega) hdx (numberEnd_encodeElems xs rest)
        have h2 := ihe xs d rest (by simp only [List.length_append]; omega) hdxs
        simp only [encodeElems, List.cons_append, List.append_assoc, parseElems]
        rw [skipWs_cons _ _ (by decide)]
        simp only []
        rw [if_neg (by decide), if_pos (by decide), h1]
        simp only []
        rw [h2]
        simp [toDocs]
    · intro fs d rest hlen hdepth
      cases fs with
      | nil =>
        simp only [encodeFields, List.cons_append, List.nil_append, parseMembers]
        rw [skipWs_cons _ _ (by decide)]
        simp only []
        rw [if_pos (by decide)]
        simp [toDocFields]
      | cons p fs =>
        obtain ⟨k, x⟩ := p
        have hdx : d + depth x ≤ maxNestingDepth := by
          simp only [depthFields] at hdepth
          have := le_max_left (depth x) (depthFields fs)
          omega
        have hdxs : d + depthFields fs ≤ maxNestingDepth := by
          simp only [depthFields] at hdepth
          have := le_max_right (depth x) (depthFields fs)
          omega
        have hlk := length_encodeString k
        simp only [encodeFields, List.cons_append, List.append_assoc, List.length_cons,
          List.length_append] at hlen
        have h0 := parseKey_encodeString k f (encode x ++ (encodeFields fs ++ rest)) (by omega)
        have h1 := ihv x d (encodeFields fs ++ rest)
          (by simp only [List.length_append]; omega) hdx (numberEnd_encodeFields fs rest)
        have h2 := ihm fs d rest (by simp only [List.length_append]; omega) hdxs
        simp only [encodeFields, List.cons_append, List.append_assoc, parseMembers]
        rw [skipWs_cons _ _ (by decide)]
        simp only []
        rw [if_neg (by decide), if_pos (by decide), h0]
        simp only []
        rw [h1]
        simp only []
        rw [h2]
        simp [toDocFields]

/-- Parsing the text `json.Marshal` prints for a value gives the document of
the value. -/
theorem parse_encode (v : GoValue) (h : depth v ≤ maxNestingDepth) :
    parse (encode v) = some (toDoc v) := by
  have := (parse_encode_aux ((encode v).length + 1)).1 v 0 []
    (by simp) (by simpa using h) numberEnd_nil
  rw [List.append_nil] at this
  simp [parse, this, skipWs]

end json

namespace json

theorem Float64.ofRatio_small (neg : Bool) (N : Nat) (hN : N < 2 ^ 53) :
    ∃ f, Float64.ofRatio neg N 1 = some f ∧ f.neg = neg ∧
      (if 0 ≤ f.exp then f.mant * 2 ^ f.exp.toNat else f.mant / 2 ^ (-f.exp).toNat) = N := by
  by_cases h0 : N = 0
  · subst h0
    exact ⟨{ neg := neg, mant := 0, exp := 0 }, by simp [Float64.ofRatio], rfl, by simp⟩
  · have hlog : N.log2 < 53 := (Nat.log2_lt h0).2 hN
    have hle : 2 ^ N.log2 ≤ N := Nat.log2_self_le h0
    have hlog1 : Nat.log2 1 = 0 := by
      have := @Nat.log2_two_pow 0
      simpa using this
    have he0 : (0 : Int) ≤ (N.log2 : Int) - ((Nat.log2 1 : Nat) : Int) := by
      rw [hlog1]; simp
    have hbelow : ¬ (N < 1 * 2 ^ ((N.log2 : Int) - ((Nat.log2 1 : Nat) : Int)).toNat) := by
      rw [hlog1]
      simp only [Nat.cast_zero, sub_zero, Int.toNat_ofNat, one_mul, not_lt]
      exact hle
    unfold Float64.ofRatio
    simp only [if_neg h0, if_pos he0, hbelow, decide_False, Bool.false_eq_true, if_false]
    rw [hlog1]
    simp only [Nat.cast_zero, sub_zero]
    have hp : max ((N.log2 : Int) - 52) (-1074) = (N.log2 : Int) - 52 := by
      apply max_eq_left
      omega
    rw [hp]
    by_cases h52 : N.log2 = 52
    · rw [h52]
      refine ⟨{ neg := neg, mant := N, exp := 0 }, ?_, rfl, by simp⟩
      have hbig : ¬ ((2 : Nat) ^ 1024 ≤ N) := by
        have : (2 : Nat) ^ 53 ≤ 2 ^ 1024 := Nat.pow_le_pow_right (by decide) (by decide)
        omega
      simp only [Nat.cast_ofNat, sub_self, le_refl, if_true, Int.toNat_zero, pow_zero, mul_one,
        Nat.div_one, Nat.mod_one, Nat.mul_zero, Nat.not_lt_zero, false_and, or_false, if_false,
        true_and, false_or, OfNat.zero_ne_ofNat, zero_ne_one, if_neg hbig]
    · have hneg : ¬ ((0 : Int) ≤ (N.log2 : Int) - 52) := by omega
      simp only [if_neg hneg, Nat.div_one, Nat.mod_one, Nat.mul_zero, false_and, or_false,
        Nat.not_lt_zero, if_false, false_and, if_false]
      have hk : (-((N.log2 : Int) - 52)).toNat = 52 - N.log2 := by omega
      rw [hk]
      refine ⟨{ neg := neg, mant := N * 2 ^ (52 - N.log2), exp := (N.log2 : Int) - 52 }, ?_, rfl, ?_⟩
      · have hcond : ¬ ((0 : Int) ≤ (N.log2 : Int) - 52 ∧
            2 ^ 1024 ≤ N * 2 ^ (52 - N.log2) * 2 ^ ((N.log2 : Int) - 52).toNat) :=
          fun hc => hneg hc.1
        simp only [false_or, zero_ne_one, false_and, if_false]
        rw [if_neg hcond]
      · simp only [if_neg hneg, hk]
        exact Nat.mul_div_cancel _ (Nat.pos_pow_of_pos _ (by norm_num))

theorem Float64.ofRatio_two_pow_53 (neg : Bool) :
    Float64.ofRatio neg (2 ^ 53) 1 = some { neg := neg, mant := 2 ^ 52, exp := 1 } := by
  have hlog1 : Nat.log2 1 = 0 := by
    have := @Nat.log2_two_pow 0
    simpa using this
  have hlog : Nat.log2 (2 ^ 53) = 53 := Nat.log2_two_pow
  have ht1 : (53 : Int).toNat = 53 := rfl
  have ht2 : (1 : Int).toNat = 1 := rfl
  have hmax : max ((53 : Int) - 52) (-1074) = 1 := by norm_num
  unfold Float64.ofRatio
  rw [hlog, hlog1]
  simp only [Nat.cast_ofNat, Nat.cast_zero, sub_zero, ht1, hmax, ht2]
  norm_num

/-- An integer of magnitude at most `2 ^ 53` survives the conversion to
`float64` and back to `int`. -/
theorem Float64.ofDecimal_int (n : Int) (h : n.natAbs ≤ 2 ^ 53) :
    ∃ f, Float64.ofDecimal n 0 = some f ∧ f.toInt = n := by
  have hN : (n.natAbs : Int) ≤ 2 ^ 53 := by exact_mod_cast h
  have hsign : (if decide (n < 0) = true then -(n.natAbs : Int) else (n.natAbs : Int)) = n := by
    by_cases hn : n < 0
    · simp only [hn, decide_True, if_true]
      rw [Int.ofNat_natAbs_of_nonpos (le_of_lt hn), neg_neg]
    · simp only [hn, decide_False, Bool.false_eq_true, if_false]
      exact Int.natAbs_of_nonneg (not_lt.1 hn)
  have hrange : -(2 : Int) ^ 63 ≤ n ∧ n < (2 : Int) ^ 63 := by
    have h1 : (n.natAbs : Int) = |n| := Int.natCast_natAbs n
    have h2 := abs_le.1 (h1 ▸ hN)
    constructor <;> omega
  have hof : Float64.ofDecimal n 0 = Float64.ofRatio (decide (n < 0)) n.natAbs 1 := by
    simp [Float64.ofDecimal]
  rw [hof]
  rcases Nat.lt_or_eq_of_le h with hlt | heq
  · obtain ⟨f, hf, hneg, hmag⟩ := Float64.ofRatio_small (decide (n < 0)) n.natAbs hlt
    refine ⟨f, hf, ?_⟩
    unfold Float64.toInt
    simp only [hmag, hneg, hsign, hrange, and_self, if_true]
  · rw [heq, Float64.ofRatio_two_pow_53]
    refine ⟨_, rfl, ?_⟩
    unfold Float64.toInt
    have hmag : (if (0 : Int) ≤ 1 then 2 ^ 52 * 2 ^ (1 : Int).toNat else 2 ^ 52 / 2 ^ (-(1 : Int)).toNat)
        = n.natAbs := by
      rw [heq]; norm_num
    simp only [hmag, hsign, hrange, and_self, if_true]

/-- The integer `2 ^ 53 + 1` is not a `float64`: it is read as `2 ^ 53`. -/
theorem Float64.ofDecimal_two_pow_53_succ :
    Float64.ofDecimal (2 ^ 53 + 1) 0 = some { neg := false, mant := 2 ^ 52, exp := 1 } := by
  have hlog1 : Nat.log2 1 = 0 := by
    have := @Nat.log2_two_pow 0
    simpa using this
  have hlog : Nat.log2 (2 ^ 53 + 1) = 53 := by
    have h1 : 53 ≤ Nat.log2 (2 ^ 53 + 1) := (Nat.le_log2 (by norm_num)).2 (by norm_num)
    have h2 : Nat.log2 (2 ^ 53 + 1) < 54 := (Nat.log2_lt (by norm_num)).2 (by norm_num)
    omega
  have ht1 : (53 : Int).toNat = 53 := rfl
  have ht2 : (1 : Int).toNat = 1 := rfl
  have hmax : max ((53 : Int) - 52) (-1074) = 1 := by norm_num
  have habs : ((2 : Int) ^ 53 + 1).natAbs = 2 ^ 53 + 1 := by norm_num
  unfold Float64.ofDecimal
  rw [if_pos (le_refl 0), habs]
  simp only [Int.toNat_zero, pow_zero, mul_one]
  unfold Float64.ofRatio
  rw [hlog, hlog1]
  simp only [Nat.cast_ofNat, Nat.cast_zero, sub_zero, ht1, hmax, ht2]
  norm_num

/-- The number `1e999` is outside the range of `float64`. -/
theorem Float64.ofDecimal_huge : Float64.ofDecimal 1 999 = none := by
  have h1 : Nat.log2 (10 ^ 999) = 3318 := by
    have ha : 3318 ≤ Nat.log2 (10 ^ 999) := (Nat.le_log2 (by norm_num)).2 (by norm_num)
    have hb : Nat.log2 (10 ^ 999) < 3319 := (Nat.log2_lt (by norm_num)).2 (by norm_num)
    omega
  have h2 : Nat.log2 1 = 0 := by
    have h := @Nat.log2_two_pow 0
    simpa using h
  have h3 : ¬ (10 ^ 999 < 2 ^ 3318) := by norm_num
  have h4 : (2 : Nat) ^ 1024 ≤ (10 ^ 999 / 2 ^ 3266) * 2 ^ 3266 := by norm_num
  have h5 : (2 : Nat) ^ 1024 ≤ (10 ^ 999 / 2 ^ 3266 + 1) * 2 ^ 3266 := by norm_num
  unfold Float64.ofDecimal Float64.ofRatio
  have e1 : (1 : Int).natAbs * 10 ^ (999 : Int).toNat = 10 ^ 999 := by
    have a : (1 : Int).natAbs = 1 := rfl
    have b : (999 : Int).toNat = 999 := rfl
    rw [a, b, one_mul]
  have hz : ¬ ((10 : Nat) ^ 999 = 0) := by positivity
  simp only [e1, h1, h2, hz, if_false]
  have e2 : ((3318 : Nat) : Int) - ((0 : Nat) : Int) = 3318 := by norm_num
  simp only [e2]
  have e3 : (3318 : Int).toNat = 3318 := rfl
  have e4 : max ((3318 : Int) - 52) (-1074) = 3266 := by norm_num
  have e5 : (3266 : Int).toNat = 3266 := rfl
  have p1 : (0 : Int) ≤ 999 := by norm_num
  have p2 : (0 : Int) ≤ 3318 := by norm_num
  have p3 : (0 : Int) ≤ 3266 := by norm_num
  simp only [one_mul, p1, p2, if_true, e3, h3, decide_False, Bool.false_eq_true, if_false, e4,
    p3, e5, true_and]
  rw [if_pos]
  split
  · exact h5
  · exact h4

end json

/-! ## Sorted maps -/

theorem GoMap.sorted_nil {V : Type} : GoMap.Sorted ([] : GoMap V) := List.Pairwise.nil

theorem GoMap.mem_keys_insert_iff {V : Type} (m : GoMap V) (k k' : String) (v : V) :
    k' ∈ GoMap.keys (GoMap.insert m k v) ↔ k' = k ∨ k' ∈ GoMap.keys m :=
  GoMap.mem_keys_insert m k k' v

theorem GoMap.insert_sorted {V : Type} (m : GoMap V) (k : String) (v : V)
    (h : GoMap.Sorted m) : GoMap.Sorted (GoMap.insert m k v) := by
  induction m with
  | nil => simp [GoMap.insert, GoMap.Sorted, GoMap.keys]
  | cons p m ih =>
    obtain ⟨k0, v0⟩ := p
    have h' : (k0 :: GoMap.keys m).Pairwise (fun a b => a < b) := h
    rw [List.pairwise_cons] at h'
    obtain ⟨hk0, hm⟩ := h'
    unfold GoMap.insert
    by_cases h0 : k = k0
    · subst h0
      rw [if_pos rfl]
      exact h
    · rw [if_neg h0]
      by_cases h1 : k < k0
      · rw [if_pos h1]
        show (k :: k0 :: GoMap.keys m).Pairwise (fun a b => a < b)
        rw [List.pairwise_cons]
        refine ⟨?_, h⟩
        intro a ha
        rcases List.mem_cons.1 ha with ha | ha
        · rw [ha]; exact h1
        · exact lt_trans h1 (hk0 a ha)
      · rw [if_neg h1]
        show (k0 :: GoMap.keys (GoMap.insert m k v)).Pairwise (fun a b => a < b)
        rw [List.pairwise_cons]
        refine ⟨?_, ih hm⟩
        intro a ha
        rcases (GoMap.mem_keys_insert m k a v).1 ha with ha | ha
        · rw [ha]
          rcases lt_trichotomy k k0 with hlt | heq | hgt
          · exact absurd hlt h1
          · exact absurd heq h0
          · exact hgt
        · exact hk0 a ha

theorem GoMap.insert_append {V : Type} (acc : GoMap V) (k : String) (v : V)
    (h : ∀ a ∈ GoMap.keys acc, a < k) : GoMap.insert acc k v = acc ++ [(k, v)] := by
  induction acc with
  | nil => rfl
  | cons p acc ih =>
    obtain ⟨k0, v0⟩ := p
    have hk0 : k0 < k := h k0 (List.mem_cons_self _ _)
    have h0 : ¬ k = k0 := fun hc => lt_irrefl k (hc ▸ hk0)
    have h1 : ¬ k < k0 := fun hc => lt_asymm hc hk0
    unfold GoMap.insert
    rw [if_neg h0, if_neg h1, ih (fun a ha => h a (List.mem_cons_of_mem _ ha))]
    rfl

theorem GoMap.foldl_insert_sorted {V : Type} (ms acc : GoMap V)
    (h : GoMap.Sorted (acc ++ ms)) :
    ms.foldl (fun m kv => GoMap.insert m kv.1 kv.2) acc = acc ++ ms := by
  induction ms generalizing acc with
  | nil => simp
  | cons p ms ih =>
    obtain ⟨k, v⟩ := p
    have hp : (GoMap.keys acc ++ k :: GoMap.keys ms).Pairwise (fun a b => a < b) := by
      have := h
      simpa [GoMap.Sorted, GoMap.keys] using this
    have hlt : ∀ a ∈ GoMap.keys acc, a < k := by
      intro a ha
      exact (List.pairwise_append.1 hp).2.2 a ha k (List.mem_cons_self _ _)
    rw [List.foldl_cons, GoMap.insert_append acc k v hlt]
    rw [ih (acc ++ [(k, v)]) (by simpa using h)]
    simp

namespace json

theorem keys_toDocFields (fs : List (String × GoValue)) :
    GoMap.keys (toDocFields fs) = GoMap.keys fs := by
  induction fs with
  | nil => rfl
  | cons p fs ih =>
    obtain ⟨k, v⟩ := p
    simp only [toDocFields, GoMap.keys, List.map_cons] at ih ⊢
    rw [ih]

theorem lookup_toDocFields (fs : List (String × GoValue)) (k : String) :
    GoMap.lookup (toDocFields fs) k = (GoMap.lookup fs k).map toDoc := by
  induction fs with
  | nil => rfl
  | cons p fs ih =>
    obtain ⟨k0, v⟩ := p
    by_cases h : k = k0 <;> simp [toDocFields, GoMap.lookup, h, ih]

theorem toMap_toDocFields (fs : GoMap GoValue) (h : GoMap.Sorted fs) :
    toMap (toDocFields fs) = toDocFields fs := by
  unfold toMap
  rw [GoMap.foldl_insert_sorted (toDocFields fs) []]
  · rfl
  · show (GoMap.keys ([] ++ toDocFields fs)).Pairwise (fun a b => a < b)
    rw [List.nil_append, keys_toDocFields]
    exact h

theorem scalar_fields (fs : List (String × GoValue)) (h : ∀ kv ∈ fs, Scalar kv.2) :
    depthFields fs = 0 ∧ numbersFitMembers (toDocFields fs) = true := by
  induction fs with
  | nil => exact ⟨rfl, rfl⟩
  | cons p fs ih =>
    obtain ⟨k, v⟩ := p
    have hv := h (k, v) (List.mem_cons_self _ _)
    have := ih (fun kv hkv => h kv (List.mem_cons_of_mem _ hkv))
    simp only [depthFields, toDocFields, numbersFitMembers, hv.1, hv.2, this.1, this.2,
      max_self, Bool.and_self, and_self]

theorem mem_insert {V : Type} (m : GoMap V) (k : String) (v : V) (kv : String × V)
    (h : kv ∈ GoMap.insert m k v) : kv = (k, v) ∨ kv ∈ m := by
  induction m with
  | nil => simpa [GoMap.insert] using h
  | cons p m ih =>
    obtain ⟨k0, v0⟩ := p
    unfold GoMap.insert at h
    by_cases h0 : k = k0
    · rw [if_pos h0] at h
      rcases List.mem_cons.1 h with h | h
      · exact Or.inl h
      · exact Or.inr (List.mem_cons_of_mem _ h)
    · rw [if_neg h0] at h
      by_cases h1 : k < k0
      · rw [if_pos h1] at h
        rcases List.mem_cons.1 h with h | h
        · exact Or.inl h
        · exact Or.inr h
      · rw [if_neg h1] at h
        rcases List.mem_cons.1 h with h | h
        · exact Or.inr (h ▸ List.mem_cons_self _ _)
        · rcases ih h with h | h
          · exact Or.inl h
          · exact Or.inr (List.mem_cons_of_mem _ h)

/-- Decoding the printed form of a map of scalars into a
`map[string]interface{}` succeeds and gives, under each key, the document of
the value the map had there. -/
theorem unmarshalMap_encode (m : GoMap GoValue) (hs : GoMap.Sorted m)
    (hall : ∀ kv ∈ m, Scalar kv.2) :
    ∃ nMap, unmarshalMap (encode (GoValue.object m)) = Except.ok nMap ∧
      ∀ k, GoMap.lookup nMap k = (GoMap.lookup m k).map toDoc := by
  obtain ⟨hd, hfit⟩ := scalar_fields m hall
  have hp := parse_encode (GoValue.object m) (by
    simp only [depth, hd, maxNestingDepth]
    omega)
  refine ⟨toDocFields m, ?_, lookup_toDocFields m⟩
  unfold unmarshalMap
  rw [hp, toDoc]
  simp only [hfit, if_true]
  rw [toMap_toDocFields m hs]

end json

namespace json

theorem assertString_string (s : String) : assertString (some (JSON.string s)) = some s := rfl

theorem assertBool_bool (b : Bool) : assertBool (some (JSON.bool b)) = some b := rfl

theorem assertFloat64_number (m e : Int) :
    assertFloat64 (some (JSON.number m e)) = Float64.ofDecimal m e := rfl

end json

namespace json

theorem scalar_string (s : String) : Scalar (GoValue.string s) := ⟨rfl, rfl⟩

theorem scalar_bool (b : Bool) : Scalar (GoValue.bool b) := ⟨rfl, rfl⟩

theorem scalar_int (n : Int) (f : Float64) (hf : Float64.ofDecimal n 0 = some f) :
    Scalar (GoValue.int n) := by
  refine ⟨rfl, ?_⟩
  simp [toDoc, numbersFit, hf]

theorem lookup_mem {V : Type} (m : GoMap V) (k : String) (v : V)
    (h : GoMap.lookup m k = some v) : (k, v) ∈ m := by
  induction m with
  | nil => simp [GoMap.lookup] at h
  | cons p m ih =>
    obtain ⟨k0, v0⟩ := p
    unfold GoMap.lookup at h
    by_cases h0 : k = k0
    · rw [if_pos h0] at h
      simp only [Option.some.injEq] at h
      rw [h0, h]
      exact List.mem_cons_self _ _
    · rw [if_neg h0] at h
      exact List.mem_cons_of_mem _ (ih h)

theorem mem_foldl_insert (ms acc : GoMap JSON) (kv : String × JSON)
    (h : kv ∈ ms.foldl (fun m kv => GoMap.insert m kv.1 kv.2) acc) : kv ∈ acc ∨ kv ∈ ms := by
  induction ms generalizing acc with
  | nil => exact Or.inl h
  | cons p ms ih =>
    rw [List.foldl_cons] at h
    rcases ih _ h with h1 | h1
    · rcases mem_insert _ _ _ _ h1 with h2 | h2
      · exact Or.inr (h2 ▸ List.mem_cons_self _ _)
      · exact Or.inl h2
    · exact Or.inr (List.mem_cons_of_mem _ h1)

theorem numbersFit_of_mem (ms : List (String × JSON)) (h : numbersFitMembers ms = true)
    (kv : String × JSON) (hkv : kv ∈ ms) : numbersFit kv.2 = true := by
  induction ms with
  | nil => exact absurd hkv (List.not_mem_nil _)
  | cons p ms ih =>
    obtain ⟨k0, v0⟩ := p
    simp only [numbersFitMembers, Bool.and_eq_true] at h
    rcases List.mem_cons.1 hkv with h1 | h1
    · rw [h1]; exact h.1
    · exact ih h.2 h1

/-- A number found in a decoded map fits a `float64`. -/
theorem unmarshalMap_fits (b : Text) (nMap : GoMap JSON) (k : String) (m e : Int)
    (hu : unmarshalMap b = Except.ok nMap)
    (h : GoMap.lookup nMap k = some (JSON.number m e)) :
    ∃ f, Float64.ofDecimal m e = some f := by
  unfold unmarshalMap at hu
  cases hp : parse b with
  | none => rw [hp] at hu; simp at hu
  | some doc =>
    rw [hp] at hu
    cases doc with
    | null =>
      simp only [Except.ok.injEq] at hu
      rw [← hu] at h
      simp [GoMap.lookup] at h
    | object ms =>
      simp only [] at hu
      by_cases hfit : numbersFitMembers ms = true
      · rw [if_pos hfit] at hu
        simp only [Except.ok.injEq] at hu
        rw [← hu] at h
        have hm := lookup_mem _ _ _ h
        rcases mem_foldl_insert ms [] _ hm with h1 | h1
        · exact absurd h1 (List.not_mem_nil _)
        · have := numbersFit_of_mem ms hfit _ h1
          simp only [numbersFit] at this
          exact Option.isSome_iff_exists.1 this
      · rw [if_neg hfit] at hu
        simp at hu
    | bool _ => simp at hu
    | number _ _ => simp at hu
    | string _ => simp at hu
    | array _ => simp at hu

end json

/-! ## The state machine of the host driver -/

namespace host

theorem CreateNetwork_ok_bound (d0 d : driver) (id0 : String)
    (h : CreateNetwork d0 id0 = (none, d)) : d.network = State.Bound id0 := by
  unfold CreateNetwork at h
  cases hn : d0.network with
  | Empty =>
    rw [hn] at h
    simp only [Prod.mk.injEq, true_and] at h
    rw [← h]
  | Bound k =>
    rw [hn] at h
    simp at h

theorem CreateNetwork_of_bound (d : driver) (id0 id : String) (hb : d.network = State.Bound id0) :
    isForbidden (CreateNetwork d id).1 = true ∧ (CreateNetwork d id).2 = d := by
  unfold CreateNetwork
  rw [hb]
  exact ⟨rfl, rfl⟩

theorem step_of_bound (d : driver) (id0 : String) (hb : d.network = State.Bound id0) (op : Op) :
    isForbidden (step d op).1 = true ∧ (step d op).2 = d := by
  cases op with
  | CreateNetwork id => exact CreateNetwork_of_bound d id0 id hb
  | DeleteNetwork nid => exact ⟨rfl, rfl⟩

theorem run_of_bound (d : driver) (id0 : String) (hb : d.network = State.Bound id0)
    (ops : List Op) :
    (run d ops).2 = d ∧ (run d ops).1.filter createdOk = [] := by
  induction ops with
  | nil => exact ⟨rfl, rfl⟩
  | cons op ops ih =>
    have hs := step_of_bound d id0 hb op
    simp only [run]
    rw [hs.2]
    refine ⟨ih.1, ?_⟩
    rw [List.filter_cons]
    have hne : createdOk (op, (step d op).1) = false := by
      cases hr : (step d op).1 with
      | none => rw [hr] at hs; simp [isForbidden] at hs
      | some e => cases op <;> rfl
    simp [hne, ih.2]

theorem run_new_created (ops : List Op) :
    ((run driver.new ops).1.filter createdOk).length =
      if ops.any Op.isCreate then 1 else 0 := by
  induction ops with
  | nil => rfl
  | cons op ops ih =>
    cases op with
    | CreateNetwork id =>
      have hb := run_of_bound { network := State.Bound id } id rfl ops
      simp only [run, step, CreateNetwork, driver.new, List.filter_cons, createdOk, hb.2,
        List.any_cons, Op.isCreate, Bool.true_or, if_true, List.length_cons, List.length_nil]
    | DeleteNetwork nid =>
      simp only [run, step, DeleteNetwork, List.filter_cons, createdOk, List.any_cons,
        Op.isCreate, Bool.false_or]
      exact ih

theorem TestDriver_passes : TestDriver = true := by decide

end host
/-! ## Type assertions that succeed -/

theorem GoMap.keys_nil {V : Type} (k : String) : k ∉ GoMap.keys ([] : GoMap V) :=
  fun h => by cases h

namespace json
theorem assertString_eq_some (v : Option JSON) (s : String) (h : assertString v = some s) :
    v = some (JSON.string s) := by
  unfold assertString at h
  split at h
  · rw [Option.some.inj h]
  · exact absurd h (by simp)

theorem assertBool_eq_some (v : Option JSON) (b : Bool) (h : assertBool v = some b) :
    v = some (JSON.bool b) := by
  unfold assertBool at h
  split at h
  · rw [Option.some.inj h]
  · exact absurd h (by simp)

theorem assertFloat64_eq_some (v : Option JSON) (f : Float64) (h : assertFloat64 v = some f) :
    ∃ m e, v = some (JSON.number m e) ∧ Float64.ofDecimal m e = some f := by
  unfold assertFloat64 at h
  split at h
  · exact ⟨_, _, rfl, h⟩
  · exact absurd h (by simp)
/-- A text that parses to an object with increasing keys and numbers that fit
decodes to the map of its members. -/
theorem unmarshalMap_of_parse (b : Text) (ms : List (String × JSON))
    (hp : parse b = some (JSON.object ms)) (hs : GoMap.Sorted ms)
    (hn : numbersFitMembers ms = true) : unmarshalMap b = Except.ok ms := by
  have hm : toMap ms = ms := by
    unfold toMap
    rw [GoMap.foldl_insert_sorted ms [] hs]
    rfl
  unfold unmarshalMap
  rw [hp]
  simp only [hn, if_true, hm]

end json
/-! ## Host names of registry URLs -/

namespace strings

theorem Index_slash (h t : List Char) (hh : '/' ∉ h) : Index (h ++ '/' :: t) ['/'] = some h.length := by
  induction h with
  | nil => simp [Index, List.isPrefixOf]
  | cons c h ih =>
    have hc : c ≠ '/' := fun e => hh (by simp [e])
    have hh2 : '/' ∉ h := fun e => hh (by simp [e])
    simp [Index, List.isPrefixOf, ih hh2, Ne.symm hc]

theorem Index_none (h sep : List Char) (hh : '/' ∉ h) (hs : '/' ∈ sep) : Index h sep = none := by
  induction h with
  | nil =>
    have : sep ≠ [] := fun e => by rw [e] at hs; cases hs
    simp [Index, this]
  | cons c h ih =>
    have hh2 : '/' ∉ h := fun e => hh (by simp [e])
    have hp : sep.isPrefixOf (c :: h) = false := by
      cases hb : sep.isPrefixOf (c :: h) with
      | false => rfl
      | true =>
        have := List.isPrefixOf_iff_prefix.mp hb
        exact absurd (this.subset hs) hh
    simp [Index, hp, ih hh2]

theorem take_length_append (l t : List Char) : (l ++ t).take l.length = l := by
  induction l with
  | nil => simp
  | cons c l ih => simp [ih]

theorem drop_length_succ (l t : List Char) (c : Char) : (l ++ c :: t).drop (l.length + 1) = t := by
  induction l with
  | nil => simp
  | cons d l ih => simp [ih]

theorem Cut_slash (h p : String) (hh : '/' ∉ h.data) : Cut (h ++ "/" ++ p) "/" = (h, p, true) := by
  unfold Cut
  have hd : (h ++ "/" ++ p).data = h.data ++ '/' :: p.data := by
    simp [String.data_append]
  have hs : ("/" : String).data = ['/'] := rfl
  rw [hd, hs, Index_slash h.data p.data hh]
  simp only [List.length_singleton]
  rw [take_length_append, drop_length_succ]

theorem Cut_none (h sep : String) (hh : '/' ∉ h.data) (hs : '/' ∈ sep.data) :
    Cut h sep = (h, "", false) := by
  unfold Cut
  rw [Index_none h.data sep.data hh hs]

theorem Cut_scheme_http (r : String) : Cut ("http://" ++ r) "://" = ("http", r, true) := by
  unfold Cut
  have : ("http://" ++ r).data = 'h' :: 't' :: 't' :: 'p' :: ':' :: '/' :: '/' :: r.data := by
    simp [String.data_append]
  rw [this]
  have hd : ("://" : String).data = [':', '/', '/'] := rfl
  rw [hd]
  simp [Index, List.isPrefixOf]

theorem Cut_scheme_https (r : String) : Cut ("https://" ++ r) "://" = ("https", r, true) := by
  unfold Cut
  have : ("https://" ++ r).data = 'h' :: 't' :: 't' :: 'p' :: 's' :: ':' :: '/' :: '/' :: r.data := by
    simp [String.data_append]
  rw [this]
  have hd : ("://" : String).data = [':', '/', '/'] := rfl
  rw [hd]
  simp [Index, List.isPrefixOf]

end strings

namespace registry

theorem ConvertToHostname_plain (h : String) (hh : '/' ∉ h.data) : ConvertToHostname h = h := by
  unfold ConvertToHostname
  simp only [strings.Cut_none h "://" hh (by decide), strings.Cut_none h "/" hh (by decide)]

theorem ConvertToHostname_http (h p : String) (hh : '/' ∉ h.data) :
    ConvertToHostname ("http://" ++ h ++ "/" ++ p) = h := by
  have ha : "http://" ++ h ++ "/" ++ p = "http://" ++ (h ++ "/" ++ p) := by
    simp only [String.append_assoc]
  rw [ha]
  unfold ConvertToHostname
  simp only [strings.Cut_scheme_http, true_or, if_true, strings.Cut_slash h p hh]

theorem ConvertToHostname_https (h p : String) (hh : '/' ∉ h.data) :
    ConvertToHostname ("https://" ++ h ++ "/" ++ p) = h := by
  have ha : "https://" ++ h ++ "/" ++ p = "https://" ++ (h ++ "/" ++ p) := by
    simp only [String.append_assoc]
  rw [ha]
  unfold ConvertToHostname
  simp only [strings.Cut_scheme_https, or_true, if_true, strings.Cut_slash h p hh]

theorem ConvertToHostname_https_host (h : String) (hh : '/' ∉ h.data) :
    ConvertToHostname ("https://" ++ h) = h := by
  unfold ConvertToHostname
  simp only [strings.Cut_scheme_https, or_true, if_true, strings.Cut_none h "/" hh (by decide)]

end registry

namespace strings

theorem Index_singleton_none (l : List Char) (c : Char) (h : Index l [c] = none) : c ∉ l := by
  induction l with
  | nil => simp
  | cons d l ih =>
    unfold Index at h
    by_cases hp : [c].isPrefixOf (d :: l) = true
    · simp [hp] at h
    · simp only [hp, Bool.false_eq_true, if_false, Option.map_eq_none'] at h
      have hd : c ≠ d := fun e => hp (by simp [List.isPrefixOf, e])
      simp [hd, ih h]

theorem Index_singleton_some (l : List Char) (c : Char) (i : Nat) (h : Index l [c] = some i) :
    c ∉ l.take i := by
  induction l generalizing i with
  | nil => simp
  | cons d l ih =>
    unfold Index at h
    by_cases hp : [c].isPrefixOf (d :: l) = true
    · simp only [hp, if_true, Option.some.injEq] at h
      subst h
      simp
    · simp only [hp, Bool.false_eq_true, if_false, Option.map_eq_some'] at h
      obtain ⟨j, hj, hi⟩ := h
      subst hi
      have hd : c ≠ d := fun e => hp (by simp [List.isPrefixOf, e])
      simp [hd, ih j hj]

/-- The text before the first `/` has no `/`. -/
theorem Cut_slash_fst (s : String) : '/' ∉ (Cut s "/").1.data := by
  unfold Cut
  have hs : ("/" : String).data = ['/'] := rfl
  rw [hs]
  cases h : Index s.data ['/'] with
  | none => exact Index_singleton_none _ _ h
  | some i => exact Index_singleton_some _ _ i h

end strings

namespace registry

theorem ConvertToHostname_no_slash (s : String) : '/' ∉ (ConvertToHostname s).data := by
  unfold ConvertToHostname
  exact strings.Cut_slash_fst _

theorem ConvertToHostname_fixed (s : String) :
    ConvertToHostname (ConvertToHostname s) = ConvertToHostname s :=
  ConvertToHostname_plain _ (ConvertToHostname_no_slash s)

theorem find_lookup (m : GoMap AuthConfig) (p : String → Bool) (k : String) (ac : AuthConfig)
    (h : m.find? (fun kv => p kv.1) = some (k, ac)) :
    p k = true ∧ GoMap.lookup m k = some ac := by
  induction m with
  | nil => simp at h
  | cons x m ih =>
    obtain ⟨k', v⟩ := x
    rw [List.find?_cons] at h
    by_cases hp : p k' = true
    · simp only [hp] at h
      injection h with h
      injection h with h1 h2
      subst h1 h2
      exact ⟨hp, by simp [GoMap.lookup]⟩
    · have hp' : p k' = false := by simpa using hp
      simp only [hp'] at h
      obtain ⟨h1, h2⟩ := ih h
      refine ⟨h1, ?_⟩
      have hne : k ≠ k' := fun e => by rw [e] at h1; exact hp h1
      simp [GoMap.lookup, hne, h2]

theorem ResolveAuthConfig_spec (key : IndexInfo → String) (m : GoMap AuthConfig)
    (index : IndexInfo) :
    (∀ c, GoMap.lookup m (key index) = some c → ResolveAuthConfig key m index = c) ∧
    (GoMap.lookup m (key index) = none →
      (∀ k ∈ GoMap.keys m, ConvertToHostname k ≠ key index) →
      ResolveAuthConfig key m index = AuthConfig.empty) ∧
    (GoMap.lookup m (key index) = none → index.Official = false →
      (∃ k ∈ GoMap.keys m, ConvertToHostname k = key index) →
      ∃ k, k ∈ GoMap.keys m ∧ ConvertToHostname k = key index ∧
        GoMap.lookup m k = some (ResolveAuthConfig key m index)) := by
  refine ⟨?_, ?_, ?_⟩
  · intro c h
    simp [ResolveAuthConfig, h]
  · intro h hk
    unfold ResolveAuthConfig
    simp only [h, Option.getD_none, Option.isSome_none, Bool.false_eq_true, false_or]
    split
    · rfl
    · cases hf : m.find? (fun kv => decide (key index = ConvertToHostname kv.1)) with
      | none => rfl
      | some x =>
        obtain ⟨k, ac⟩ := x
        have hm := List.mem_of_find?_eq_some hf
        have hp := List.find?_some hf
        simp only [decide_eq_true_eq] at hp
        exact absurd hp.symm (hk k (List.mem_map_of_mem Prod.fst hm))
  · intro h ho hk
    obtain ⟨k0, hk0, hc0⟩ := hk
    unfold ResolveAuthConfig
    simp only [h, Option.getD_none, Option.isSome_none, Bool.false_eq_true, false_or, ho,
      if_false]
    cases hf : m.find? (fun kv => decide (key index = ConvertToHostname kv.1)) with
    | none =>
      rw [List.find?_eq_none] at hf
      obtain ⟨v, hv⟩ := (GoMap.mem_keys_iff m k0).1 hk0
      have := hf (k0, v) (json.lookup_mem m k0 v hv)
      simp [hc0] at this
    | some x =>
      obtain ⟨k, ac⟩ := x
      obtain ⟨hp, hl⟩ := find_lookup m (fun k => decide (key index = ConvertToHostname k)) k ac hf
      simp only [decide_eq_true_eq] at hp
      exact ⟨k, (GoMap.mem_keys_iff m k).2 ⟨ac, hl⟩, hp.symm, hl⟩

end registry
/-! ## The address functions of the Go library read back what they print -/

namespace net

theorem utf8EncodeChar_ascii (c : Char) (h : c.toNat < 128) :
    (String.utf8EncodeChar c).map UInt8.toNat = [c.toNat] := by
  have h0 : c.toNat = c.val.toNat := rfl
  have h1 : c.val ≤ 127 := by
    show c.val.toNat ≤ 127
    omega
  simp only [String.utf8EncodeChar, h1, if_true, List.map_cons, List.map_nil]
  congr 1
  show (c.val.toNat % 256) = c.toNat
  omega

/-- The bytes of a string of ASCII characters are the codes of its
characters. -/
theorem stringBytes_mk (cs : List Char) (h : ∀ c ∈ cs, c.toNat < 128) :
    stringBytes (String.mk cs) = cs.map Char.toNat := by
  unfold stringBytes
  show cs.flatMap _ = _
  induction cs with
  | nil => rfl
  | cons c cs ih =>
    rw [List.flatMap_cons, utf8EncodeChar_ascii c (h c (List.mem_cons_self _ _)),
      ih (fun x hx => h x (List.mem_cons_of_mem _ hx))]
    rfl

theorem hexDigit_toNat (n : Nat) (h : n < 16) : (hexDigit n).toNat = hexCode n := by
  interval_cases n <;> rfl

theorem hexVal_hexCode (n : Nat) (h : n < 16) : hexVal (hexCode n) = some n := by
  interval_cases n <;> rfl

theorem hexCode_lt (n : Nat) (h : n < 16) : hexCode n < 128 := by
  unfold hexCode
  split <;> omega

/-- The text of a hardware address after its first byte. -/
theorem HardwareAddr.String.loop_succ (a : Bytes) (i : Nat) :
    HardwareAddr.String.loop (i + 1) a = HardwareAddr.String.loop 1 a := by
  induction a generalizing i with
  | nil => rfl
  | cons b a ih =>
    simp only [HardwareAddr.String.loop, Nat.zero_lt_succ, if_true]
    rw [ih (i + 1), ih 1]

theorem HardwareAddr.String.loop_ascii (a : Bytes) (i : Nat) :
    ∀ c ∈ HardwareAddr.String.loop i a, c.toNat < 128 := by
  induction a generalizing i with
  | nil => intro c hc; cases hc
  | cons b a ih =>
    intro c hc
    simp only [HardwareAddr.String.loop, List.mem_append, List.mem_cons] at hc
    have hb := b.isLt
    rcases hc with hc | hc | hc | hc
    · split at hc
      · simp only [List.mem_singleton] at hc
        rw [hc]; decide
      · cases hc
    · rw [hc, hexDigit_toNat _ (by omega)]
      exact hexCode_lt _ (by omega)
    · rw [hc, hexDigit_toNat _ (by omega)]
      exact hexCode_lt _ (by omega)
    · exact ih _ c hc

theorem fin_ofNat_val (b : Fin 256) : (Fin.ofNat b.val : Fin 256) = b := by
  apply Fin.ext
  show b.val % 256 = b.val
  exact Nat.mod_eq_of_lt b.isLt

theorem xtoi_hex2 (b : Fin 256) :
    xtoi [hexCode (b.val / 16), hexCode (b.val % 16)] = (b.val, 2, true) := by
  have hb := b.isLt
  have h1 : ¬ big ≤ b.val / 16 := by unfold big; omega
  have h2 : ¬ big ≤ b.val / 16 * 16 + b.val % 16 := by unfold big; omega
  simp only [xtoi, xtoi.loop, hexVal_hexCode (b.val / 16) (by omega),
    hexVal_hexCode (b.val % 16) (by omega), Nat.zero_mul, Nat.zero_add, h1, h2, if_false]
  simp only [Nat.reduceAdd, OfNat.ofNat_ne_zero, if_false, Prod.mk.injEq, and_true]
  omega

/-- The loop of `ParseMAC` reads back the text of a hardware address. -/
theorem ParseMAC.colons_loop (a : Bytes) (b : Fin 256) :
    ParseMAC.colons 58 (a.length + 1)
      (hexCode (b.val / 16) :: hexCode (b.val % 16) ::
        (HardwareAddr.String.loop 1 a).map Char.toNat) = some (b :: a) := by
  induction a generalizing b with
  | nil =>
    simp only [HardwareAddr.String.loop, List.map_nil, List.length_nil, ParseMAC.colons, xtoi2,
      List.length_cons, List.take, xtoi_hex2]
    simp [fin_ofNat_val, Nat.mod_eq_of_lt b.isLt]
  | cons b2 a ih =>
    have h2 : (HardwareAddr.String.loop 1 (b2 :: a)).map Char.toNat =
        58 :: hexCode (b2.val / 16) :: hexCode (b2.val % 16) ::
          (HardwareAddr.String.loop 1 a).map Char.toNat := by
      have hb := b2.isLt
      simp only [HardwareAddr.String.loop, Nat.lt_one_iff, if_true, List.map_cons,
        List.cons_append, List.nil_append, HardwareAddr.String.loop_succ, Nat.zero_lt_one]
      rw [hexDigit_toNat _ (by omega), hexDigit_toNat _ (by omega)]
      rfl
    rw [h2]
    rw [List.length_cons, ParseMAC.colons]
    have hx : xtoi2 (hexCode (b.val / 16) :: hexCode (b.val % 16) :: 58 ::
        hexCode (b2.val / 16) :: hexCode (b2.val % 16) ::
          (HardwareAddr.String.loop 1 a).map Char.toNat) 58 = (b.val, true) := by
      simp only [xtoi2, List.getD_cons_succ, List.getD_cons_zero, ne_eq, not_true_eq_false,
        and_false, if_false, List.take, xtoi_hex2]
      simp [Nat.mod_eq_of_lt b.isLt]
    rw [hx]
    simp only [if_true, List.drop_succ_cons, List.drop_zero]
    rw [ih b2]
    simp [fin_ofNat_val]

theorem HardwareAddr.String.loop_length (a : Bytes) :
    (HardwareAddr.String.loop 1 a).length = 3 * a.length := by
  induction a with
  | nil => rfl
  | cons b a ih =>
    simp only [HardwareAddr.String.loop, Nat.zero_lt_one, if_true, List.length_cons,
      List.cons_append, List.nil_append, HardwareAddr.String.loop_succ, ih]
    omega

/-- `ParseMAC` reads back the text that `HardwareAddr.String` prints for a
hardware address of 6, 8 or 20 bytes. -/
theorem ParseMAC_String (a : Bytes) (h : a.length = 6 ∨ a.length = 8 ∨ a.length = 20) :
    ParseMAC (HardwareAddr.String a) = (a, none) := by
  obtain _ | ⟨b, _ | ⟨b2, a⟩⟩ := a
  · simp at h
  · simp at h
  have hb := b.isLt
  have hb2 := b2.isLt
  have hs : stringBytes (HardwareAddr.String (b :: b2 :: a)) =
      hexCode (b.val / 16) :: hexCode (b.val % 16) ::
        (HardwareAddr.String.loop 1 (b2 :: a)).map Char.toNat := by
    unfold HardwareAddr.String
    rw [stringBytes_mk _ (HardwareAddr.String.loop_ascii _ _)]
    have e : HardwareAddr.String.loop 0 (b :: b2 :: a) =
        hexDigit (b.val / 16) :: hexDigit (b.val % 16) ::
          HardwareAddr.String.loop 1 (b2 :: a) := rfl
    rw [e, List.map_cons, List.map_cons, hexDigit_toNat _ (by omega),
      hexDigit_toNat _ (by omega)]
  have hl : (stringBytes (HardwareAddr.String (b :: b2 :: a))).length =
      3 * (a.length + 2) - 1 := by
    rw [hs]
    simp only [List.length_cons, List.length_map, HardwareAddr.String.loop_length]
    omega
  have h2 : (stringBytes (HardwareAddr.String (b :: b2 :: a))).getD 2 0 = 58 := by
    rw [hs]
    simp only [HardwareAddr.String.loop, Nat.zero_lt_one, if_true, List.cons_append,
      List.nil_append, List.map_cons, List.getD_cons_succ, List.getD_cons_zero]
    rfl
  have hc := ParseMAC.colons_loop (b2 :: a) b
  rw [← hs] at hc
  simp only [List.length_cons] at h hc
  unfold ParseMAC
  simp only [hl, h2, true_or, if_true]
  have e1 : ¬ 3 * (a.length + 2) - 1 < 14 := by omega
  have e2 : (3 * (a.length + 2) - 1 + 1) % 3 = 0 := by omega
  have e3 : (3 * (a.length + 2) - 1 + 1) / 3 = a.length + 1 + 1 := by omega
  simp only [e1, if_false, e2, ne_eq, not_true_eq_false, e3, hc]
  rw [if_neg (by omega)]

theorem simpleMaskLength.ones_add (fuel v n : Nat) :
    simpleMaskLength.ones fuel v n =
      ((simpleMaskLength.ones fuel v 0).1, n + (simpleMaskLength.ones fuel v 0).2) := by
  induction fuel generalizing v n with
  | zero => rfl
  | succ fuel ih =>
    simp only [simpleMaskLength.ones]
    split
    · rw [ih _ (n + 1), ih _ (0 + 1)]
      simp only [Prod.mk.injEq, true_and]
      omega
    · rfl

set_option maxRecDepth 100000 in
theorem simpleMaskLength.ones_byte : ∀ v : Fin 256, v.val ≠ 255 →
    (simpleMaskLength.ones 8 v.val 0).1 = 0 →
    (simpleMaskLength.ones 8 v.val 0).2 < 8 ∧
      v = Fin.ofNat (255 - 255 / 2 ^ (simpleMaskLength.ones 8 v.val 0).2) := by
  decide

theorem CIDRMask.loop_zero (mask : Bytes) (h : mask.any (fun b => decide (b ≠ 0)) = false) :
    mask = CIDRMask.loop mask.length 0 := by
  induction mask with
  | nil => rfl
  | cons b mask ih =>
    simp only [List.any_cons, Bool.or_eq_false_iff, decide_eq_false_iff_not, ne_eq,
      not_not] at h
    rw [List.length_cons, CIDRMask.loop, if_neg (by omega), ← ih h.2, h.1]
    rfl

/-- A mask that `simpleMaskLength` accepts is the prefix mask of the length
it returns. -/
theorem simpleMaskLength.loop_spec (m : Bytes) (n l : Nat)
    (h : simpleMaskLength.loop m n = some l) :
    ∃ k, k ≤ 8 * m.length ∧ l = n + k ∧ m = CIDRMask.loop m.length k := by
  induction m generalizing n with
  | nil =>
    simp only [simpleMaskLength.loop, Option.some.injEq] at h
    exact ⟨0, by simp, by omega, rfl⟩
  | cons v m ih =>
    simp only [simpleMaskLength.loop] at h
    split at h
    · rename_i hv
      obtain ⟨k, hk, hl, hm⟩ := ih _ h
      refine ⟨k + 8, by simp only [List.length_cons]; omega, by omega, ?_⟩
      rw [List.length_cons, CIDRMask.loop, if_pos (by omega), Nat.add_sub_cancel, ← hm]
      congr 1
      exact Fin.ext hv
    · rename_i hv
      split at h
      · cases h
      rename_i h1
      split at h
      · cases h
      rename_i h2
      simp only [ne_eq, not_not] at h1
      rw [simpleMaskLength.ones_add] at h1 h
      simp only [Option.some.injEq] at h
      obtain ⟨hk, hvk⟩ := simpleMaskLength.ones_byte v hv h1
      refine ⟨(simpleMaskLength.ones 8 v.val 0).2, by simp only [List.length_cons]; omega,
        h.symm, ?_⟩
      rw [List.length_cons, CIDRMask.loop, if_neg (by omega), ← hvk,
        ← CIDRMask.loop_zero m (by simpa using h2)]

theorem CIDRMask_simpleMaskLength (m : Bytes) (l bits : Nat)
    (hb : bits = 32 ∨ bits = 128) (hm : 8 * m.length = bits)
    (h : simpleMaskLength m = some l) : l ≤ bits ∧ CIDRMask l bits = m := by
  obtain ⟨k, hk, hl, hmk⟩ := simpleMaskLength.loop_spec m 0 l h
  have : l = k := by omega
  subst this
  refine ⟨by omega, ?_⟩
  unfold CIDRMask
  rw [if_neg (by omega), if_neg (by omega)]
  have : bits / 8 = m.length := by omega
  rw [this, ← hmk]

theorem takeWhile_append_cons {α : Type} (p : α → Bool) (l r : List α) (c : α)
    (hl : ∀ x ∈ l, p x = true) (hc : p c = false) :
    (l ++ c :: r).takeWhile p = l ∧ (l ++ c :: r).dropWhile p = c :: r := by
  induction l with
  | nil => simp [List.takeWhile, List.dropWhile, hc]
  | cons x l ih =>
    have hx := hl x (List.mem_cons_self _ _)
    obtain ⟨i1, i2⟩ := ih (fun y hy => hl y (List.mem_cons_of_mem _ hy))
    simp [List.takeWhile, List.dropWhile, hx, i1, i2]

theorem takeWhile_all {α : Type} (p : α → Bool) (l : List α)
    (hl : ∀ x ∈ l, p x = true) : l.takeWhile p = l ∧ l.dropWhile p = [] := by
  induction l with
  | nil => simp
  | cons x l ih =>
    have hx := hl x (List.mem_cons_self _ _)
    obtain ⟨i1, i2⟩ := ih (fun y hy => hl y (List.mem_cons_of_mem _ hy))
    simp [List.takeWhile, List.dropWhile, hx, i1, i2]

set_option maxRecDepth 100000 in
theorem dtoi_uitoa : ∀ l : Fin 129,
    dtoi ((uitoa l.val).map Char.toNat) =
      (l.val, ((uitoa l.val).map Char.toNat).length, true) := by
  decide

theorem uitoa_digits (n : Nat) : ∀ c ∈ (uitoa n).map Char.toNat, 48 ≤ c ∧ c ≤ 57 := by
  intro c hc
  obtain ⟨x, hx, rfl⟩ := List.mem_map.1 hc
  have := (json.natDigits_spec n).2.1 x hx
  simpa [json.isDigit] using this

end net

namespace netip

theorem char_digit (k : Nat) (h : k < 10) : (Char.ofNat (48 + k)).toNat = 48 + k := by
  interval_cases k <;> rfl

theorem appendDecimal_codes (x : Nat) (h : x < 256) :
    (appendDecimal x).map Char.toNat =
      (if 100 ≤ x then [48 + x / 100] else []) ++
        (if 10 ≤ x then [48 + x / 10 % 10] else []) ++ [48 + x % 10] := by
  unfold appendDecimal
  simp only [List.map_append, List.map_cons, List.map_nil, apply_ite (List.map Char.toNat)]
  rw [char_digit (x / 100) (by omega), char_digit (x / 10 % 10) (by omega),
    char_digit (x % 10) (by omega)]

theorem appendDecimal_digits (x : Nat) (h : x < 256) :
    ∀ c ∈ (appendDecimal x).map Char.toNat, 48 ≤ c ∧ c ≤ 57 := by
  rw [appendDecimal_codes x h]
  intro c hc
  simp only [List.mem_append, List.mem_singleton] at hc
  rcases hc with (hc | hc) | hc
  · split at hc
    · simp only [List.mem_singleton] at hc; omega
    · cases hc
  · split at hc
    · simp only [List.mem_singleton] at hc; omega
    · cases hc
  · omega

theorem appendDecimal_ne_nil (x : Nat) : appendDecimal x ≠ [] := by
  unfold appendDecimal
  simp

/-- The loop of `parseIPv4Fields` reads the digits of a byte as that byte. -/
theorem parseIPv4Fields.loop_octet (x : Nat) (h : x < 256) (rest : List Nat)
    (prev : Option Nat) (pos : Nat) (fields : List Nat) :
    ∃ c dl, c ≠ 46 ∧
      parseIPv4Fields.loop ((appendDecimal x).map Char.toNat ++ rest) prev 0 pos 0 fields =
        parseIPv4Fields.loop rest (some c) x pos dl fields := by
  rw [appendDecimal_codes x h]
  by_cases h100 : 100 ≤ x
  · have h10 : 10 ≤ x := by omega
    refine ⟨48 + x % 10, 3, by omega, ?_⟩
    simp only [h100, h10, if_true, List.cons_append, List.nil_append, List.append_assoc,
      parseIPv4Fields.loop]
    rw [if_pos (by omega), if_neg (by omega), if_neg (by omega)]
    rw [if_pos (by omega), if_neg (by omega), if_neg (by omega)]
    rw [if_pos (by omega), if_neg (by omega), if_neg (by omega)]
    congr 1
    omega
  · by_cases h10 : 10 ≤ x
    · refine ⟨48 + x % 10, 2, by omega, ?_⟩
      simp only [h100, h10, if_true, if_false, List.cons_append, List.nil_append,
        parseIPv4Fields.loop]
      rw [if_pos (by omega), if_neg (by omega), if_neg (by omega)]
      rw [if_pos (by omega), if_neg (by omega), if_neg (by omega)]
      congr 1
      omega
    · refine ⟨48 + x % 10, 1, by omega, ?_⟩
      simp only [h100, h10, if_false, List.cons_append, List.nil_append,
        parseIPv4Fields.loop]
      rw [if_pos (by omega), if_neg (by omega), if_neg (by omega)]
      congr 1
      omega

theorem parseIPv4Fields.loop_dot (rest : List Nat) (c val pos dl : Nat) (fields : List Nat)
    (hc : c ≠ 46) (hr : rest ≠ []) (hp : pos ≠ 3) :
    parseIPv4Fields.loop (46 :: rest) (some c) val pos dl fields =
      parseIPv4Fields.loop rest (some 46) 0 (pos + 1) 0 (fields ++ [val]) := by
  rw [parseIPv4Fields.loop, if_neg (by omega), if_pos rfl, if_neg, if_neg hp]
  simp [hc, hr]

/-- `parseIPv4Fields` reads back the dotted text of four bytes. -/
theorem parseIPv4Fields_string4 (a b c d : Fin 256) :
    parseIPv4Fields ((string4 [a, b, c, d]).map Char.toNat) =
      some [a.val, b.val, c.val, d.val] := by
  have e : (string4 [a, b, c, d]).map Char.toNat =
      (appendDecimal a.val).map Char.toNat ++ (46 ::
        ((appendDecimal b.val).map Char.toNat ++ (46 ::
          ((appendDecimal c.val).map Char.toNat ++ (46 ::
            ((appendDecimal d.val).map Char.toNat ++ [])))))) := by
    simp [string4]
  rw [e]
  unfold parseIPv4Fields
  obtain ⟨c1, d1, hc1, e1⟩ := parseIPv4Fields.loop_octet a.val a.isLt
    (46 :: ((appendDecimal b.val).map Char.toNat ++ (46 ::
          ((appendDecimal c.val).map Char.toNat ++ (46 ::
            ((appendDecimal d.val).map Char.toNat ++ [])))))) none 0 []
  rw [e1, parseIPv4Fields.loop_dot _ _ _ _ _ _ hc1 (by simp [appendDecimal_ne_nil]) (by omega)]
  obtain ⟨c2, d2, hc2, e2⟩ := parseIPv4Fields.loop_octet b.val b.isLt
    (46 :: ((appendDecimal c.val).map Char.toNat ++ (46 ::
            ((appendDecimal d.val).map Char.toNat ++ [])))) (some 46) (0 + 1) ([] ++ [a.val])
  rw [e2, parseIPv4Fields.loop_dot _ _ _ _ _ _ hc2 (by simp [appendDecimal_ne_nil]) (by omega)]
  obtain ⟨c3, d3, hc3, e3⟩ := parseIPv4Fields.loop_octet c.val c.isLt
    (46 :: ((appendDecimal d.val).map Char.toNat ++ [])) (some 46) (0 + 1 + 1)
    ([] ++ [a.val] ++ [b.val])
  rw [e3, parseIPv4Fields.loop_dot _ _ _ _ _ _ hc3 (by simp [appendDecimal_ne_nil]) (by omega)]
  obtain ⟨c4, d4, hc4, e4⟩ := parseIPv4Fields.loop_octet d.val d.isLt
    [] (some 46) (0 + 1 + 1 + 1) ([] ++ [a.val] ++ [b.val] ++ [c.val])
  rw [e4, parseIPv4Fields.loop]
  simp

theorem hex4 (g : Nat) :
    (((0 * 16 + g / 4096) * 16 + g / 256 % 16) * 16 + g / 16 % 16) * 16 + g % 16 = g := by
  have e1 : g / 256 = g / 16 / 16 := by rw [Nat.div_div_eq_div_mul]
  have e2 : g / 4096 = g / 16 / 16 / 16 := by
    rw [Nat.div_div_eq_div_mul, Nat.div_div_eq_div_mul]
  have m1 := Nat.div_add_mod g 16
  have m2 := Nat.div_add_mod (g / 16) 16
  have m3 := Nat.div_add_mod (g / 16 / 16) 16
  rw [e1, e2]
  generalize g / 16 / 16 / 16 = d at *
  generalize g / 16 / 16 % 16 = r2 at *
  generalize g / 16 / 16 = b at *
  generalize g / 16 % 16 = r1 at *
  generalize g / 16 = c at *
  generalize g % 16 = r0 at *
  omega

theorem hex3 (g : Nat) (h : g < 4096) :
    ((0 * 16 + g / 256 % 16) * 16 + g / 16 % 16) * 16 + g % 16 = g := by
  have h4 := hex4 g
  have h0 : g / 4096 = 0 := by omega
  rw [h0] at h4
  exact h4

theorem appendHex_codes (g : Nat) (h : g < 65536) :
    (appendHex g).map Char.toNat =
      (if 0x1000 ≤ g then [net.hexCode (g / 0x1000)] else []) ++
        (if 0x100 ≤ g then [net.hexCode (g / 0x100 % 16)] else []) ++
        (if 0x10 ≤ g then [net.hexCode (g / 0x10 % 16)] else []) ++ [net.hexCode (g % 16)] := by
  unfold appendHex
  simp only [List.map_append, List.map_cons, List.map_nil, apply_ite (List.map Char.toNat)]
  rw [net.hexDigit_toNat (g / 0x1000) (by omega), net.hexDigit_toNat (g / 0x100 % 16) (by omega),
    net.hexDigit_toNat (g / 0x10 % 16) (by omega), net.hexDigit_toNat (g % 16) (by omega)]

/-- A byte that is a hexadecimal digit in lower case or a decimal digit. -/
theorem hexCode_range (n : Nat) (h : n < 16) :
    (48 ≤ net.hexCode n ∧ net.hexCode n ≤ 57) ∨ (97 ≤ net.hexCode n ∧ net.hexCode n ≤ 102) := by
  unfold net.hexCode
  split <;> omega

theorem appendHex_range (g : Nat) (h : g < 65536) :
    ∀ c ∈ (appendHex g).map Char.toNat, (48 ≤ c ∧ c ≤ 57) ∨ (97 ≤ c ∧ c ≤ 102) := by
  rw [appendHex_codes g h]
  intro c hc
  simp only [List.mem_append, List.mem_singleton] at hc
  rcases hc with ((hc | hc) | hc) | hc
  · split at hc
    · simp only [List.mem_singleton] at hc; rw [hc]; exact hexCode_range _ (by omega)
    · cases hc
  · split at hc
    · simp only [List.mem_singleton] at hc; rw [hc]; exact hexCode_range _ (by omega)
    · cases hc
  · split at hc
    · simp only [List.mem_singleton] at hc; rw [hc]; exact hexCode_range _ (by omega)
    · cases hc
  · rw [hc]; exact hexCode_range _ (by omega)

theorem appendHex_ne_nil (g : Nat) : appendHex g ≠ [] := by
  unfold appendHex
  simp

/-- The loop that reads a group reads the digits of a group as that group, and
stops at a byte that is no hexadecimal digit. -/
theorem parseIPv6.hex_appendHex (g : Nat) (h : g < 65536) (rest : List Nat)
    (hr : ∀ c, rest.head? = some c → net.hexVal c = none) :
    parseIPv6.hex ((appendHex g).map Char.toNat ++ rest) 0 0 =
      some (((appendHex g).map Char.toNat).length, g) := by
  have hstop : ∀ off acc, parseIPv6.hex rest off acc = some (off, acc) := by
    intro off acc
    cases rest with
    | nil => rfl
    | cons c rest =>
      rw [parseIPv6.hex, hr c rfl]
  rw [appendHex_codes g h]
  by_cases h3 : 0x1000 ≤ g
  · have h2 : 0x100 ≤ g := by omega
    have h1 : 0x10 ≤ g := by omega
    simp only [h3, h2, h1, if_true, List.cons_append, List.nil_append, parseIPv6.hex,
      net.hexVal_hexCode (g / 0x1000) (by omega), net.hexVal_hexCode (g / 0x100 % 16) (by omega),
      net.hexVal_hexCode (g / 0x10 % 16) (by omega), net.hexVal_hexCode (g % 16) (by omega)]
    iterate 8 rw [if_neg (by omega)]
    rw [hstop]
    simp only [List.length_cons, List.length_nil, Option.some.injEq, Prod.mk.injEq]
    exact ⟨trivial, hex4 g⟩
  · by_cases h2 : 0x100 ≤ g
    · have h1 : 0x10 ≤ g := by omega
      simp only [h3, h2, h1, if_true, if_false, List.cons_append, List.nil_append,
        parseIPv6.hex, net.hexVal_hexCode (g / 0x100 % 16) (by omega),
        net.hexVal_hexCode (g / 0x10 % 16) (by omega), net.hexVal_hexCode (g % 16) (by omega)]
      iterate 6 rw [if_neg (by omega)]
      rw [hstop]
      simp only [List.length_cons, List.length_nil, Option.some.injEq, Prod.mk.injEq]
      exact ⟨trivial, hex3 g (by omega)⟩
    · by_cases h1 : 0x10 ≤ g
      · simp only [h3, h2, h1, if_true, if_false, List.cons_append, List.nil_append,
          parseIPv6.hex, net.hexVal_hexCode (g / 0x10 % 16) (by omega),
          net.hexVal_hexCode (g % 16) (by omega)]
        iterate 4 rw [if_neg (by omega)]
        rw [hstop]
        simp only [List.length_cons, List.length_nil, Option.some.injEq, Prod.mk.injEq]
        refine ⟨trivial, ?_⟩
        omega
      · simp only [h3, h2, h1, if_false, List.cons_append, List.nil_append,
          parseIPv6.hex, net.hexVal_hexCode (g % 16) (by omega)]
        rw [if_neg (by omega), if_neg (by omega), hstop]
        simp only [List.length_cons, List.length_nil, Option.some.injEq, Prod.mk.injEq]
        refine ⟨trivial, ?_⟩
        omega



theorem parseIPv6.loop_step (g : Nat) (h : g < 65536) (rest : List Nat)
    (hr : ∀ c, rest.head? = some c → c = 58) (fuel : Nat) (ip : List Nat)
    (ellipsis : Option Nat) (hip : ip.length < 16) :
    parseIPv6.loop (fuel + 1) ((appendHex g).map Char.toNat ++ rest) ip ellipsis =
      if rest = [] then some ([], ip ++ [g / 256, g % 256], ellipsis)
      else if rest.length = 1 then none
      else if (rest.drop 1).head? = some 58 then
        if ellipsis ≠ none then none
        else if rest.drop 2 = [] then
          some ([], ip ++ [g / 256, g % 256], some (ip.length + 2))
        else
          parseIPv6.loop fuel (rest.drop 2) (ip ++ [g / 256, g % 256]) (some (ip.length + 2))
      else parseIPv6.loop fuel (rest.drop 1) (ip ++ [g / 256, g % 256]) ellipsis := by
  have hhex := parseIPv6.hex_appendHex g h rest (fun c hc => by rw [hr c hc]; rfl)
  have hlen : 0 < ((appendHex g).map Char.toNat).length := by
    rw [List.length_map]
    exact List.length_pos.2 (appendHex_ne_nil g)
  have hdrop : ∀ k, ((appendHex g).map Char.toNat ++ rest).drop
      (((appendHex g).map Char.toNat).length + k) = rest.drop k := by
    intro k
    rw [← List.drop_drop, List.drop_left]
  have hdrop0 : ((appendHex g).map Char.toNat ++ rest).drop
      ((appendHex g).map Char.toNat).length = rest := List.drop_left _ _
  have hget : ((appendHex g).map Char.toNat ++ rest).getD
      ((appendHex g).map Char.toNat).length 0 ≠ 46 := by
    rw [List.getD_eq_getElem?_getD, List.getElem?_append_right (le_refl _), Nat.sub_self]
    cases rest with
    | nil => simp
    | cons c rest =>
      have := hr c rfl
      subst this
      simp
  rw [parseIPv6.loop, if_neg (by omega), hhex]
  simp only []
  rw [if_neg (by omega), if_neg (fun hc => hget hc.2), hdrop0, hdrop 1, hdrop 2]
  cases rest with
  | nil => simp
  | cons c rest =>
    have := hr c rfl
    subst this
    simp



theorem joinGroups_head (g : Nat) (gs : List Nat) (h : g < 65536) :
    ∃ c r, (joinGroups (g :: gs)).map Char.toNat = c :: r ∧ c ≠ 58 := by
  have hne := appendHex_ne_nil g
  have hr := appendHex_range g h
  cases ha : (appendHex g).map Char.toNat with
  | nil => simp at ha; exact absurd ha hne
  | cons c r =>
    have hc := hr c (by rw [ha]; exact List.mem_cons_self _ _)
    cases gs with
    | nil => exact ⟨c, r, by rw [joinGroups, ha], by omega⟩
    | cons g2 gs =>
      exact ⟨c, r ++ 58 :: (joinGroups (g2 :: gs)).map Char.toNat, by
        rw [joinGroups, List.map_append, ha]; rfl, by omega⟩

theorem groupBytes_cons (g : Nat) (gs : List Nat) :
    groupBytes (g :: gs) = [g / 256, g % 256] ++ groupBytes gs := by
  simp [groupBytes]

theorem groupBytes_length (gs : List Nat) : (groupBytes gs).length = 2 * gs.length := by
  induction gs with
  | nil => rfl
  | cons g gs ih => rw [groupBytes_cons, List.length_append, ih]; simp; omega

/-- The loop of `parseIPv6` reads groups joined by colons, to the end of the
text. -/
theorem parseIPv6.loop_groups (gs : List Nat) (g : Nat) (h : ∀ x ∈ g :: gs, x < 65536)
    (fuel : Nat) (ip : List Nat) (ellipsis : Option Nat) (hf : gs.length + 1 ≤ fuel)
    (hip : ip.length + 2 * (gs.length + 1) ≤ 16) :
    parseIPv6.loop fuel ((joinGroups (g :: gs)).map Char.toNat) ip ellipsis =
      some ([], ip ++ groupBytes (g :: gs), ellipsis) := by
  induction gs generalizing g fuel ip with
  | nil =>
    obtain _ | fuel := fuel
    · omega
    have := parseIPv6.loop_step g (h g (List.mem_cons_self _ _)) [] (by simp) fuel ip ellipsis
      (by simp at hip; omega)
    rw [List.append_nil] at this
    rw [joinGroups, this]
    simp [groupBytes]
  | cons g2 gs ih =>
    obtain _ | fuel := fuel
    · omega
    obtain ⟨c, r, hcr, hc⟩ := joinGroups_head g2 gs (h g2 (by simp))
    have := parseIPv6.loop_step g (h g (List.mem_cons_self _ _))
      (58 :: (joinGroups (g2 :: gs)).map Char.toNat) (by simp) fuel ip ellipsis
      (by simp at hip; omega)
    rw [joinGroups, List.map_append, List.map_cons]
    rw [show ':'.toNat = 58 from rfl, this, hcr]
    simp only [reduceCtorEq, if_false, List.length_cons, List.drop_succ_cons, List.drop_zero,
      List.head?_cons, Option.some.injEq, hc]
    rw [if_neg (by omega), ← hcr]
    rw [ih g2 (fun x hx => h x (List.mem_cons_of_mem _ hx)) fuel _ (by simp at hf; omega)
      (by simp at hip ⊢; omega)]
    rw [groupBytes_cons g, List.append_assoc]

/-- The loop of `parseIPv6` reads groups joined by colons, then `::`, then
further groups to the end of the text. -/
theorem parseIPv6.loop_ellipsis (as : List Nat) (a : Nat) (bs : List Nat)
    (h : ∀ x ∈ a :: as, x < 65536) (hb : ∀ x ∈ bs, x < 65536)
    (fuel : Nat) (ip : List Nat) (hf : as.length + 1 + bs.length ≤ fuel)
    (hip : ip.length + 2 * (as.length + 1 + bs.length) ≤ 16) :
    parseIPv6.loop fuel
        ((joinGroups (a :: as) ++ ':' :: ':' :: joinGroups bs).map Char.toNat) ip none =
      some ([], ip ++ groupBytes (a :: as) ++ groupBytes bs,
        some (ip.length + 2 * (as.length + 1))) := by
  induction as generalizing a fuel ip with
  | nil =>
    obtain _ | fuel := fuel
    · omega
    have := parseIPv6.loop_step a (h a (List.mem_cons_self _ _))
      (58 :: 58 :: (joinGroups bs).map Char.toNat) (by simp) fuel ip none
      (by simp at hip; omega)
    rw [joinGroups, List.map_append, List.map_cons, List.map_cons]
    rw [show ':'.toNat = 58 from rfl, this]
    simp only [reduceCtorEq, if_false, List.length_cons, List.drop_succ_cons, List.drop_zero,
      List.head?_cons, if_true, ne_eq, not_true_eq_false]
    rw [if_neg (by omega)]
    cases bs with
    | nil => simp [joinGroups, groupBytes]
    | cons b bs =>
      obtain ⟨c, r, hcr, hc⟩ := joinGroups_head b bs (hb b (by simp))
      rw [hcr]
      simp only [reduceCtorEq, if_false]
      rw [← hcr, parseIPv6.loop_groups bs b hb fuel _ _ (by simp at hf; omega)
        (by simp at hip ⊢; omega)]
      simp [groupBytes]
  | cons a2 as ih =>
    obtain _ | fuel := fuel
    · omega
    obtain ⟨c, r, hcr, hc⟩ := joinGroups_head a2 as (h a2 (by simp))
    have := parseIPv6.loop_step a (h a (List.mem_cons_self _ _))
      (58 :: (joinGroups (a2 :: as) ++ ':' :: ':' :: joinGroups bs).map Char.toNat) (by simp)
      fuel ip none (by simp at hip; omega)
    rw [joinGroups, List.append_assoc, List.map_append, List.cons_append, List.map_cons]
    rw [show ':'.toNat = 58 from rfl, this]
    have hcr2 : (joinGroups (a2 :: as) ++ ':' :: ':' :: joinGroups bs).map Char.toNat =
        c :: (r ++ (':' :: ':' :: joinGroups bs).map Char.toNat) := by
      rw [List.map_append, hcr]; rfl
    rw [hcr2]
    simp only [reduceCtorEq, if_false, List.length_cons, List.drop_succ_cons, List.drop_zero,
      List.head?_cons, Option.some.injEq, hc]
    rw [if_neg (by omega), ← hcr2]
    rw [ih a2 (fun x hx => h x (List.mem_cons_of_mem _ hx)) fuel _ (by simp at hf ⊢; omega)
      (by simp at hip ⊢; omega)]
    simp only [groupBytes_cons a, List.append_assoc, List.length_append, List.length_cons,
      List.length_nil, Option.some.injEq, Prod.mk.injEq, true_and]
    omega



theorem joinGroups_range (gs : List Nat) (h : ∀ x ∈ gs, x < 65536) :
    ∀ c ∈ (joinGroups gs).map Char.toNat, (48 ≤ c ∧ c ≤ 58) ∨ (97 ≤ c ∧ c ≤ 102) := by
  induction gs with
  | nil => intro c hc; cases hc
  | cons g gs ih =>
    have hg := appendHex_range g (h g (List.mem_cons_self _ _))
    cases gs with
    | nil =>
      intro c hc
      rcases hg c hc with h1 | h1
      · left; omega
      · right; omega
    | cons g2 gs =>
      intro c hc
      rw [joinGroups, List.map_append, List.map_cons, List.mem_append, List.mem_cons] at hc
      rcases hc with hc | hc | hc
      · rcases hg c hc with h1 | h1
        · left; omega
        · right; omega
      · rw [hc]; left; decide
      · exact ih (fun x hx => h x (List.mem_cons_of_mem _ hx)) c hc

/-- `parseIPv6` reads eight groups joined by colons. -/
theorem parseIPv6_groups (gs : List Nat) (h : ∀ x ∈ gs, x < 65536) (hl : gs.length = 8) :
    parseIPv6 ((joinGroups gs).map Char.toNat) =
      some { as16 := (groupBytes gs).map (fun x => Fin.ofNat x), is4 := false, zone := [] } := by
  obtain _ | ⟨g, gs⟩ := gs
  · simp at hl
  have hclean := net.takeWhile_all (fun c => decide (c ≠ 37)) ((joinGroups (g :: gs)).map Char.toNat)
    (fun c hc => by
      have := joinGroups_range (g :: gs) h c hc
      simp only [ne_eq, decide_eq_true_eq]
      omega)
  obtain ⟨c, r, hcr, hc⟩ := joinGroups_head g gs (h g (List.mem_cons_self _ _))
  have hloop := parseIPv6.loop_groups gs g h 8 [] none (by simp at hl; omega)
    (by simp at hl ⊢; omega)
  unfold parseIPv6
  simp only [hclean.1, hclean.2, List.drop_nil, lt_self_iff_false, false_and, if_false]
  rw [if_neg (by rw [hcr]; simp [hc])]
  rw [hloop]
  simp only [List.nil_append, parseIPv6.finish, List.length_nil, ne_eq, not_true_eq_false,
    if_false, groupBytes_length]
  rw [if_neg (by simp at hl ⊢; omega)]

/-- `parseIPv6` reads groups joined by colons around one `::`, which stands
for the zero groups that are missing. -/
theorem parseIPv6_ellipsis (as bs : List Nat) (ha : ∀ x ∈ as, x < 65536)
    (hb : ∀ x ∈ bs, x < 65536) (hl : as.length + bs.length ≤ 7) :
    parseIPv6 ((joinGroups as ++ ':' :: ':' :: joinGroups bs).map Char.toNat) =
      some { as16 := (groupBytes as ++ List.replicate (16 - 2 * (as.length + bs.length)) 0 ++
          groupBytes bs).map (fun x => Fin.ofNat x), is4 := false, zone := [] } := by
  have hclean := net.takeWhile_all (fun c => decide (c ≠ 37))
    ((joinGroups as ++ ':' :: ':' :: joinGroups bs).map Char.toNat)
    (fun c hc => by
      rw [List.map_append, List.map_cons, List.map_cons, List.mem_append, List.mem_cons,
        List.mem_cons] at hc
      simp only [ne_eq, decide_eq_true_eq]
      rcases hc with hc | hc | hc | hc
      · have := joinGroups_range as ha c hc; omega
      · rw [hc]; decide
      · rw [hc]; decide
      · have := joinGroups_range bs hb c hc; omega)
  unfold parseIPv6
  simp only [hclean.1, hclean.2, List.drop_nil, lt_self_iff_false, false_and, if_false]
  obtain _ | ⟨a, as⟩ := as
  · -- a leading ellipsis
    simp only [joinGroups, List.nil_append, List.map_cons, List.length_cons, List.getD_cons_zero,
      List.getD_cons_succ, List.drop_succ_cons, List.drop_zero]
    rw [if_pos ⟨by omega, rfl, rfl⟩]
    obtain _ | ⟨b, bs⟩ := bs
    · simp [joinGroups, groupBytes]
      decide
    · obtain ⟨c, r, hcr, hc⟩ := joinGroups_head b bs (hb b (List.mem_cons_self _ _))
      rw [if_neg (by rw [hcr]; simp)]
      rw [parseIPv6.loop_groups bs b hb 8 [] (some 0) (by simp at hl; omega)
        (by simp at hl ⊢; omega)]
      simp only [List.nil_append, parseIPv6.finish, List.length_nil, ne_eq, not_true_eq_false,
        if_false, groupBytes_length, List.take_zero, List.drop_zero, List.length_cons]
      rw [if_pos (by simp at hl ⊢; omega)]
      simp [groupBytes]
  · obtain ⟨c, r, hcr, hc⟩ := joinGroups_head a as (ha a (List.mem_cons_self _ _))
    have hcr2 : (joinGroups (a :: as) ++ ':' :: ':' :: joinGroups bs).map Char.toNat =
        c :: (r ++ (':' :: ':' :: joinGroups bs).map Char.toNat) := by
      rw [List.map_append, hcr]; rfl
    rw [if_neg (by rw [hcr2]; simp [hc])]
    rw [parseIPv6.loop_ellipsis as a bs ha hb 8 [] (by simp at hl; omega)
      (by simp at hl ⊢; omega)]
    simp only [List.nil_append, parseIPv6.finish, List.length_nil, ne_eq, not_true_eq_false,
      if_false, List.length_append, groupBytes_length, List.length_cons]
    rw [if_pos (by simp at hl ⊢; omega)]
    simp only [Option.some.injEq, Addr.mk.injEq, and_true]
    congr 1
    have e1 : List.take (0 + 2 * (as.length + 1)) (groupBytes (a :: as) ++ groupBytes bs) =
        groupBytes (a :: as) := by
      rw [List.take_append_of_le_length (by rw [groupBytes_length]; simp)]
      exact List.take_of_length_le (by rw [groupBytes_length]; simp)
    have e2 : List.drop (0 + 2 * (as.length + 1)) (groupBytes (a :: as) ++ groupBytes bs) =
        groupBytes bs := by
      have : 0 + 2 * (as.length + 1) = (groupBytes (a :: as)).length := by
        rw [groupBytes_length]; simp
      rw [this, List.drop_left]
    rw [e1, e2]
    have e3 : 16 - (2 * (as.length + 1) + 2 * bs.length) =
        16 - 2 * (as.length + 1 + bs.length) := by omega
    rw [e3]



theorem string6.runEnd_spec (ip : Bytes) (fuel j : Nat) :
    j ≤ string6.runEnd ip fuel j ∧ (j ≤ 8 → string6.runEnd ip fuel j ≤ 8) ∧
      ∀ k, j ≤ k → k < string6.runEnd ip fuel j → v6u16 ip k = 0 := by
  induction fuel generalizing j with
  | zero => exact ⟨le_refl _, fun h => h, fun k h1 h2 => by simp [string6.runEnd] at h2; omega⟩
  | succ fuel ih =>
    rw [string6.runEnd]
    split
    · rename_i hj
      obtain ⟨i1, i2, i3⟩ := ih (j + 1)
      refine ⟨by omega, fun _ => i2 (by omega), fun k h1 h2 => ?_⟩
      by_cases hk : k = j
      · rw [hk]; exact hj.2
      · exact i3 k (by omega) h2
    · exact ⟨le_refl _, fun h => h, fun k h1 h2 => by omega⟩

theorem string6.search_spec (ip : Bytes) (fuel i : Nat) (z : Nat × Nat)
    (hz : string6.Run ip z) : string6.Run ip (string6.search ip fuel i z) := by
  induction fuel generalizing i z with
  | zero => exact hz
  | succ fuel ih =>
    rw [string6.search]
    split
    · exact hz
    rename_i hi
    split
    · rename_i hrun
      apply ih
      obtain ⟨r1, r2, r3⟩ := string6.runEnd_spec ip 8 i
      exact Or.inr ⟨by simp only []; omega, r2 (by omega), hrun.1, r3⟩
    · exact ih _ _ hz

theorem v6u16_lt (ip : Bytes) (i : Nat) : v6u16 ip i < 65536 := by
  unfold v6u16
  have h1 := (ip.getD (2 * i) 0).isLt
  have h2 := (ip.getD (2 * i + 1) 0).isLt
  omega

theorem groupBytes_v6u16 (ip : Bytes) (h : ip.length = 16) :
    (groupBytes [v6u16 ip 0, v6u16 ip 1, v6u16 ip 2, v6u16 ip 3, v6u16 ip 4, v6u16 ip 5,
      v6u16 ip 6, v6u16 ip 7]).map (fun x => (Fin.ofNat x : Fin 256)) = ip := by
  obtain _ | ⟨b0, _ | ⟨b1, _ | ⟨b2, _ | ⟨b3, _ | ⟨b4, _ | ⟨b5, _ | ⟨b6, _ | ⟨b7, _ | ⟨b8,
    _ | ⟨b9, _ | ⟨b10, _ | ⟨b11, _ | ⟨b12, _ | ⟨b13, _ | ⟨b14, _ | ⟨b15, _ | ⟨b16, ip⟩⟩⟩⟩⟩⟩⟩⟩⟩⟩⟩⟩⟩⟩⟩⟩⟩ :=
    ip <;> simp at h
  have key : ∀ x y : Fin 256, (Fin.ofNat ((x.val * 256 + y.val) / 256) : Fin 256) = x ∧
      (Fin.ofNat ((x.val * 256 + y.val) % 256) : Fin 256) = y := by
    intro x y
    have hx := x.isLt
    have hy := y.isLt
    constructor
    · apply Fin.ext
      show (x.val * 256 + y.val) / 256 % 256 = x.val
      omega
    · apply Fin.ext
      show (x.val * 256 + y.val) % 256 % 256 = y.val
      omega
  simp only [groupBytes, v6u16, List.flatMap_cons, List.flatMap_nil, List.getD_cons_zero,
    List.getD_cons_succ, Nat.mul_zero, Nat.mul_one, Nat.reduceMul, Nat.reduceAdd,
    List.cons_append, List.nil_append, List.map_cons, List.map_nil, List.append_nil,
    (key _ _).1, (key _ _).2]



theorem v6u16_map_lt (ip : Bytes) (js : List Nat) : ∀ x ∈ js.map (v6u16 ip), x < 65536 := by
  intro x hx
  obtain ⟨j, _, rfl⟩ := List.mem_map.1 hx
  exact v6u16_lt ip j

theorem string6.print_all (ip : Bytes) :
    string6.print ip 255 255 8 0 = joinGroups ((List.range 8).map (v6u16 ip)) := by
  simp [string6.print, joinGroups, List.range, List.range.loop]

theorem string6.print_run (ip : Bytes) (zs ze : Nat) (h1 : zs < ze) (h2 : ze ≤ 8)
    (h3 : 2 ≤ ze - zs) :
    string6.print ip zs ze 8 0 =
      joinGroups ((List.range zs).map (v6u16 ip)) ++
        ':' :: ':' :: joinGroups ((List.range' ze (8 - ze)).map (v6u16 ip)) := by
  interval_cases ze <;> interval_cases zs <;>
    first
    | omega
    | simp [string6.print, joinGroups, List.range, List.range.loop, List.range']

theorem string6.bytes_run (ip : Bytes) (zs ze : Nat) (h1 : zs < ze) (h2 : ze ≤ 8)
    (h3 : 2 ≤ ze - zs) (h4 : ∀ j, zs ≤ j → j < ze → v6u16 ip j = 0) :
    groupBytes ((List.range zs).map (v6u16 ip)) ++
        List.replicate (16 - 2 * (((List.range zs).map (v6u16 ip)).length +
          ((List.range' ze (8 - ze)).map (v6u16 ip)).length)) 0 ++
        groupBytes ((List.range' ze (8 - ze)).map (v6u16 ip)) =
      groupBytes ((List.range 8).map (v6u16 ip)) := by
  have z0 := h4 0
  have z1 := h4 1
  have z2 := h4 2
  have z3 := h4 3
  have z4 := h4 4
  have z5 := h4 5
  have z6 := h4 6
  have z7 := h4 7
  interval_cases ze <;> interval_cases zs <;>
    first
    | omega
    | (simp only [Nat.zero_le, Nat.one_le_ofNat, Nat.reduceLeDiff, Nat.ofNat_pos,
        Nat.reduceLT, Nat.lt_one_iff, forall_const, le_refl, Nat.lt_irrefl,
        IsEmpty.forall_iff, Nat.not_ofNat_le_one, Nat.one_lt_ofNat, OfNat.ofNat_ne_zero,
        Nat.not_succ_le_self, not_false_eq_true] at z0 z1 z2 z3 z4 z5 z6 z7
       simp [groupBytes, List.range, List.range.loop, List.range', *])

/-- `parseIPv6` reads back the text that `string6` prints for sixteen bytes. -/
theorem parseIPv6_string6 (ip : Bytes) (h : ip.length = 16) :
    parseIPv6 ((string6 ip).map Char.toNat) = some { as16 := ip, is4 := false, zone := [] } := by
  have hrun := string6.search_spec ip 8 0 (255, 255) (Or.inl rfl)
  have hg : (groupBytes ((List.range 8).map (v6u16 ip))).map
      (fun x => (Fin.ofNat x : Fin 256)) = ip := groupBytes_v6u16 ip h
  unfold string6
  generalize string6.search ip 8 0 (255, 255) = z at hrun
  obtain ⟨zs, ze⟩ := z
  rcases hrun with hz | ⟨h1, h2, h3, h4⟩
  · cases hz
    rw [string6.print_all, parseIPv6_groups _ (v6u16_map_lt ip _) (by simp), hg]
  · simp only [] at h1 h2 h3 h4
    rw [string6.print_run ip zs ze h1 h2 h3,
      parseIPv6_ellipsis _ _ (v6u16_map_lt ip _) (v6u16_map_lt ip _)
        (by simp only [List.length_map, List.length_range, List.length_range']; omega),
      string6.bytes_run ip zs ze h1 h2 h3 h4, hg]

end netip

namespace netip

theorem ParseAddr.scan_dot (text pre rest : List Nat)
    (hpre : ∀ c ∈ pre, c ≠ 46 ∧ c ≠ 58 ∧ c ≠ 37) :
    ParseAddr.scan text (pre ++ 46 :: rest) = parseIPv4 text := by
  induction pre with
  | nil => simp [ParseAddr.scan]
  | cons c pre ih =>
    obtain ⟨h1, h2, h3⟩ := hpre c (List.mem_cons_self _ _)
    rw [List.cons_append, ParseAddr.scan, if_neg h1, if_neg h2, if_neg h3,
      ih (fun x hx => hpre x (List.mem_cons_of_mem _ hx))]

theorem ParseAddr.scan_colon (text pre rest : List Nat)
    (hpre : ∀ c ∈ pre, c ≠ 46 ∧ c ≠ 58 ∧ c ≠ 37) :
    ParseAddr.scan text (pre ++ 58 :: rest) = parseIPv6 text := by
  induction pre with
  | nil => simp [ParseAddr.scan]
  | cons c pre ih =>
    obtain ⟨h1, h2, h3⟩ := hpre c (List.mem_cons_self _ _)
    rw [List.cons_append, ParseAddr.scan, if_neg h1, if_neg h2, if_neg h3,
      ih (fun x hx => hpre x (List.mem_cons_of_mem _ hx))]

theorem string4_codes (a b c d : Fin 256) :
    (string4 [a, b, c, d]).map Char.toNat =
      (appendDecimal a.val).map Char.toNat ++ 46 ::
        ((appendDecimal b.val).map Char.toNat ++ 46 ::
          ((appendDecimal c.val).map Char.toNat ++ 46 ::
            (appendDecimal d.val).map Char.toNat)) := by
  simp [string4]

theorem string4_range (a b c d : Fin 256) :
    ∀ x ∈ (string4 [a, b, c, d]).map Char.toNat, 46 ≤ x ∧ x ≤ 57 ∧ x ≠ 47 := by
  rw [string4_codes]
  intro x hx
  simp only [List.mem_append, List.mem_cons] at hx
  rcases hx with hx | hx | hx | hx | hx | hx | hx
  · have := appendDecimal_digits a.val a.isLt x hx; omega
  · omega
  · have := appendDecimal_digits b.val b.isLt x hx; omega
  · omega
  · have := appendDecimal_digits c.val c.isLt x hx; omega
  · omega
  · have := appendDecimal_digits d.val d.isLt x hx; omega

/-- `ParseAddr` reads back the dotted text of four bytes as an IPv4 address. -/
theorem ParseAddr_string4 (a b c d : Fin 256) :
    ParseAddr ((string4 [a, b, c, d]).map Char.toNat) =
      some { as16 := v4InV6Prefix ++ [a, b, c, d], is4 := true, zone := [] } := by
  unfold ParseAddr
  have hs := string4_codes a b c d
  have h1 := ParseAddr.scan_dot ((string4 [a, b, c, d]).map Char.toNat)
    ((appendDecimal a.val).map Char.toNat)
    ((appendDecimal b.val).map Char.toNat ++ 46 ::
      ((appendDecimal c.val).map Char.toNat ++ 46 :: (appendDecimal d.val).map Char.toNat))
    (fun x hx => by have := appendDecimal_digits a.val a.isLt x hx; omega)
  rw [← hs] at h1
  rw [h1, parseIPv4, parseIPv4Fields_string4]
  simp [net.fin_ofNat_val]

theorem ParseAddr.scan_first_colon (text s : List Nat)
    (hs : ∀ c ∈ s, c ≠ 46 ∧ c ≠ 37) (hc : 58 ∈ s) :
    ParseAddr.scan text s = parseIPv6 text := by
  induction s with
  | nil => cases hc
  | cons c s ih =>
    obtain ⟨h1, h3⟩ := hs c (List.mem_cons_self _ _)
    rw [ParseAddr.scan, if_neg h1]
    by_cases h2 : c = 58
    · rw [if_pos h2]
    · rw [if_neg h2, if_neg h3]
      rcases List.mem_cons.1 hc with hc | hc
      · exact absurd hc.symm h2
      · exact ih (fun x hx => hs x (List.mem_cons_of_mem _ hx)) hc

theorem joinGroups_colon (g g2 : Nat) (gs : List Nat) :
    58 ∈ (joinGroups (g :: g2 :: gs)).map Char.toNat := by
  rw [joinGroups, List.map_append, List.map_cons]
  exact List.mem_append_right _ (List.mem_cons_self _ _)

/-- The text that `string6` prints is made of hexadecimal digits and colons,
and has a colon. -/
theorem string6_text (ip : Bytes) :
    (∀ c ∈ (string6 ip).map Char.toNat, (48 ≤ c ∧ c ≤ 58) ∨ (97 ≤ c ∧ c ≤ 102)) ∧
      58 ∈ (string6 ip).map Char.toNat := by
  have hrun := string6.search_spec ip 8 0 (255, 255) (Or.inl rfl)
  unfold string6
  generalize string6.search ip 8 0 (255, 255) = z at hrun
  obtain ⟨zs, ze⟩ := z
  rcases hrun with hz | ⟨h1, h2, h3, h4⟩
  · cases hz
    rw [string6.print_all]
    exact ⟨joinGroups_range _ (v6u16_map_lt ip _), joinGroups_colon _ _ _⟩
  · simp only [] at h1 h2 h3 h4
    rw [string6.print_run ip zs ze h1 h2 h3]
    constructor
    · intro c hc
      rw [List.map_append, List.map_cons, List.map_cons, List.mem_append, List.mem_cons,
        List.mem_cons] at hc
      rcases hc with hc | hc | hc | hc
      · exact joinGroups_range _ (v6u16_map_lt ip _) c hc
      · rw [hc]; left; decide
      · rw [hc]; left; decide
      · exact joinGroups_range _ (v6u16_map_lt ip _) c hc
    · rw [List.map_append, List.map_cons]
      exact List.mem_append_right _ (List.mem_cons_self _ _)

/-- `ParseAddr` reads back the text that `string6` prints for sixteen bytes. -/
theorem ParseAddr_string6 (ip : Bytes) (h : ip.length = 16) :
    ParseAddr ((string6 ip).map Char.toNat) =
      some { as16 := ip, is4 := false, zone := [] } := by
  obtain ⟨h1, h2⟩ := string6_text ip
  unfold ParseAddr
  rw [ParseAddr.scan_first_colon _ _ (fun c hc => by have := h1 c hc; omega) h2,
    parseIPv6_string6 ip h]


end netip

namespace net

theorem IP.To4_prefix (ip : Bytes) (h : ip.length = 16) (h4 : (IP.To4 ip).length = 4) :
    netip.v4InV6Prefix ++ IP.To4 ip = ip := by
  obtain _ | ⟨b0, _ | ⟨b1, _ | ⟨b2, _ | ⟨b3, _ | ⟨b4, _ | ⟨b5, _ | ⟨b6, _ | ⟨b7, _ | ⟨b8,
    _ | ⟨b9, _ | ⟨b10, _ | ⟨b11, _ | ⟨b12, _ | ⟨b13, _ | ⟨b14, _ | ⟨b15, _ | ⟨b16, ip⟩⟩⟩⟩⟩⟩⟩⟩⟩⟩⟩⟩⟩⟩⟩⟩⟩ :=
    ip <;> simp at h
  unfold IP.To4 at h4 ⊢
  simp only [List.length_cons, List.length_nil, Nat.reduceAdd, Nat.reduceEqDiff, if_false,
    true_and] at h4 ⊢
  split at h4
  · rename_i hc
    rw [if_pos hc]
    simp only [List.take, List.all_cons, List.all_nil, Bool.and_true, Bool.and_eq_true,
      decide_eq_true_eq, List.getD_cons_succ, List.getD_cons_zero] at hc
    obtain ⟨⟨h0, h1, h2, h3, h4', h5, h6, h7, h8, h9⟩, h10, h11⟩ := hc
    subst h0 h1 h2 h3 h4' h5 h6 h7 h8 h9 h10 h11
    rfl
  · simp at h4

theorem length_four {α : Type} (l : List α) (h : l.length = 4) :
    ∃ a b c d, l = [a, b, c, d] := by
  obtain _ | ⟨a, _ | ⟨b, _ | ⟨c, _ | ⟨d, _ | ⟨e, r⟩⟩⟩⟩⟩ := l <;> simp at h
  exact ⟨a, b, c, d, rfl⟩

theorem codes_lt_of_range (cs : List Char) (h : ∀ x ∈ cs.map Char.toNat, x < 128) :
    ∀ c ∈ cs, c.toNat < 128 :=
  fun c hc => h c.toNat (List.mem_map_of_mem _ hc)

/-- `ParseCIDR` reads the text of an address, a slash and a prefix length. -/
theorem ParseCIDR_text (addrText : List Char) (l : Nat) (ipAddr : netip.Addr)
    (haddr : ∀ c ∈ addrText.map Char.toNat, c ≠ 47)
    (hparse : netip.ParseAddr (addrText.map Char.toNat) = some ipAddr)
    (hz : ipAddr.zone = []) (hl : l ≤ ipAddr.BitLen) (hl128 : l ≤ 128) :
    ParseCIDR ((addrText ++ '/' :: uitoa l).map Char.toNat) =
      some (ipAddr.as16, CIDRMask l ipAddr.BitLen) := by
  have hsplit := takeWhile_append_cons (fun c => decide (c ≠ 47)) (addrText.map Char.toNat)
    ((uitoa l).map Char.toNat) 47 (fun x hx => by simpa using haddr x hx) (by simp)
  have hd := dtoi_uitoa ⟨l, by omega⟩
  simp only [] at hd
  unfold ParseCIDR
  rw [List.map_append, List.map_cons, show '/'.toNat = 47 from rfl]
  simp only [hsplit.1, hsplit.2, List.drop_succ_cons, List.drop_zero, List.length_append,
    List.length_cons, hparse, hz, hd]
  rw [if_neg (by omega)]
  simp only [ne_eq, not_true_eq_false, if_false, Bool.true_eq_false, false_or]
  rw [if_neg (by omega)]

/-- `types.ParseCIDR` reads back the text that `IPNet.String` prints for a
well-formed network: the address comes back in its 16-byte form, with the
mask. -/
theorem ParseCIDR_String (n : IPNet) (h : IPNet.WellFormed n) :
    types.ParseCIDR (IPNet.String n) = (some { IP := IP.To16 n.IP, Mask := n.Mask }, none) := by
  obtain ⟨hform, hmask⟩ := h
  obtain ⟨l, hl⟩ := Option.ne_none_iff_exists'.1 hmask
  rcases hform with ⟨h4, hm⟩ | ⟨h0, h16, hm⟩
  · -- an IPv4 address
    obtain ⟨hl32, hcidr⟩ := CIDRMask_simpleMaskLength n.Mask l 32 (Or.inl rfl) (by omega) hl
    obtain ⟨a, b, c, d, h4e⟩ := length_four _ h4
    have hnn : networkNumberAndMask n = some ([a, b, c, d], n.Mask) := by
      unfold networkNumberAndMask
      simp [h4e, hm]
    have hstr : IP.String [a, b, c, d] = netip.string4 [a, b, c, d] := by
      simp [IP.String, IP.To4]
    have htext : IPNet.String n = String.mk (netip.string4 [a, b, c, d] ++ '/' :: uitoa l) := by
      unfold IPNet.String
      rw [hnn]
      simp only [hl, hstr]
    have hascii : ∀ x ∈ (netip.string4 [a, b, c, d] ++ '/' :: uitoa l).map Char.toNat,
        x < 128 := by
      intro x hx
      rw [List.map_append, List.map_cons, List.mem_append, List.mem_cons] at hx
      rcases hx with hx | hx | hx
      · have := netip.string4_range a b c d x hx; omega
      · rw [hx]; decide
      · have := uitoa_digits l x hx; omega
    have hto16 : IP.To16 n.IP = netip.v4InV6Prefix ++ [a, b, c, d] := by
      unfold IP.To16
      by_cases hlen : n.IP.length = 4
      · rw [if_pos hlen]
        have : IP.To4 n.IP = n.IP := by unfold IP.To4; rw [if_pos hlen]
        rw [← h4e, this]
      · rw [if_neg hlen]
        have hlen16 : n.IP.length = 16 := by
          unfold IP.To4 at h4e
          rw [if_neg hlen] at h4e
          split at h4e
          · rename_i hc; exact hc.1
          · cases h4e
        rw [if_pos hlen16, ← h4e, IP.To4_prefix n.IP hlen16 (by rw [h4e]; rfl)]
    unfold types.ParseCIDR
    rw [htext, stringBytes_mk _ (codes_lt_of_range _ hascii),
      ParseCIDR_text (netip.string4 [a, b, c, d]) l
        { as16 := netip.v4InV6Prefix ++ [a, b, c, d], is4 := true, zone := [] }
        (fun x hx => (netip.string4_range a b c d x hx).2.2) (netip.ParseAddr_string4 a b c d)
        rfl (by simpa [netip.Addr.BitLen] using hl32) (by omega)]
    simp only [netip.Addr.BitLen, if_true, hcidr, hto16]
  · -- an IPv6 address
    obtain ⟨hl128, hcidr⟩ := CIDRMask_simpleMaskLength n.Mask l 128 (Or.inr rfl) (by omega) hl
    have hnn : networkNumberAndMask n = some (n.IP, n.Mask) := by
      unfold networkNumberAndMask
      simp [h0, h16, hm]
    have hstr : IP.String n.IP = netip.string6 n.IP := by
      unfold IP.String
      rw [if_neg (by omega), if_neg (by omega), if_neg (by omega)]
    have htext : IPNet.String n = String.mk (netip.string6 n.IP ++ '/' :: uitoa l) := by
      unfold IPNet.String
      rw [hnn]
      simp only [hl, hstr]
    obtain ⟨hrange, _⟩ := netip.string6_text n.IP
    have hascii : ∀ x ∈ (netip.string6 n.IP ++ '/' :: uitoa l).map Char.toNat, x < 128 := by
      intro x hx
      rw [List.map_append, List.map_cons, List.mem_append, List.mem_cons] at hx
      rcases hx with hx | hx | hx
      · have := hrange x hx; omega
      · rw [hx]; decide
      · have := uitoa_digits l x hx; omega
    have hto16 : IP.To16 n.IP = n.IP := by
      unfold IP.To16
      rw [if_neg (by omega), if_pos h16]
    unfold types.ParseCIDR
    rw [htext, stringBytes_mk _ (codes_lt_of_range _ hascii),
      ParseCIDR_text (netip.string6 n.IP) l { as16 := n.IP, is4 := false, zone := [] }
        (fun x hx => by have := hrange x hx; omega) (netip.ParseAddr_string6 n.IP h16)
        rfl (by simpa [netip.Addr.BitLen] using hl128) (by omega)]
    simp only [netip.Addr.BitLen, Bool.false_eq_true, if_false, hcidr, hto16]

theorem IPNet.To16_of_length (n : IPNet) (h : n.IP.length = 16) : IPNet.To16 n = n := by
  unfold IPNet.To16 IP.To16
  rw [if_neg (by omega), if_pos h]

end net
/-! ## The restore pipeline of the ipvlan driver -/

namespace ipvlan

theorem storeDelete_of_store {σ ω : Type} (d : driver σ ω) (st : Store σ) (o : KVObject)
    (h : d.store = some st) :
    storeDelete d o = ((st.DeleteObject o d.backend).1,
      { d with backend := (st.DeleteObject o d.backend).2,
               calls := d.calls ++ [Call.DeleteObject o] }) := by
  simp [storeDelete, h]

theorem populateEndpoints_iter_store {σ ω : Type} (d : driver σ ω) (ep : endpoint) :
    (populateEndpoints.iter d ep).store = d.store := by
  unfold populateEndpoints.iter
  cases h : GoMap.lookup d.networks ep.nid with
  | none =>
    cases hs : d.store <;> simp [storeDelete, hs]
  | some n => simp

theorem populateEndpoints_iter_host {σ ω : Type} (d : driver σ ω) (ep : endpoint) :
    (populateEndpoints.iter d ep).host = d.host := by
  unfold populateEndpoints.iter
  cases h : GoMap.lookup d.networks ep.nid with
  | none =>
    cases hs : d.store <;> simp [storeDelete, hs]
  | some n => simp

theorem populateEndpoints_iter_mem_keys {σ ω : Type} (d : driver σ ω) (ep : endpoint)
    (k : String) :
    k ∈ GoMap.keys (populateEndpoints.iter d ep).networks ↔ k ∈ GoMap.keys d.networks := by
  unfold populateEndpoints.iter
  cases h : GoMap.lookup d.networks ep.nid with
  | none =>
    cases hs : d.store <;> simp [storeDelete, hs]
  | some n =>
    simp only [GoMap.mem_keys_insert]
    constructor
    · rintro (rfl | hk)
      · exact (GoMap.mem_keys_iff _ _).2 ⟨n, h⟩
      · exact hk
    · exact fun hk => Or.inr hk

theorem populateEndpoints_iter_calls {σ ω : Type} (d : driver σ ω) (st : Store σ)
    (ep : endpoint) (hs : d.store = some st) :
    (populateEndpoints.iter d ep).calls = d.calls ++ staleDeletes d.networks [ep] := by
  unfold populateEndpoints.iter
  cases h : GoMap.lookup d.networks ep.nid with
  | none =>
    have hk : ep.nid ∉ GoMap.keys d.networks := (GoMap.not_mem_keys_iff _ _).2 h
    simp [storeDelete, hs, staleDeletes, hk]
  | some n =>
    have hk : ep.nid ∈ GoMap.keys d.networks := (GoMap.mem_keys_iff _ _).2 ⟨n, h⟩
    simp [staleDeletes, hk]

theorem populateEndpoints_foldl_store {σ ω : Type} (eps : List endpoint) (d : driver σ ω) :
    (eps.foldl populateEndpoints.iter d).store = d.store := by
  induction eps generalizing d with
  | nil => rfl
  | cons e eps ih => rw [List.foldl_cons, ih, populateEndpoints_iter_store]

theorem populateEndpoints_foldl_host {σ ω : Type} (eps : List endpoint) (d : driver σ ω) :
    (eps.foldl populateEndpoints.iter d).host = d.host := by
  induction eps generalizing d with
  | nil => rfl
  | cons e eps ih => rw [List.foldl_cons, ih, populateEndpoints_iter_host]

theorem populateEndpoints_foldl_mem_keys {σ ω : Type} (eps : List endpoint) (d : driver σ ω)
    (k : String) :
    k ∈ GoMap.keys (eps.foldl populateEndpoints.iter d).networks ↔ k ∈ GoMap.keys d.networks := by
  induction eps generalizing d with
  | nil => rfl
  | cons e eps ih => rw [List.foldl_cons, ih, populateEndpoints_iter_mem_keys]

theorem staleDeletes_congr (nets nets' : networkTable) (eps : List endpoint)
    (h : ∀ k, k ∈ GoMap.keys nets ↔ k ∈ GoMap.keys nets') :
    staleDeletes nets eps = staleDeletes nets' eps := by
  unfold staleDeletes
  congr 1
  apply List.filter_congr
  intro e _
  simp [h]

theorem staleDeletes_cons (nets : networkTable) (e : endpoint) (eps : List endpoint) :
    staleDeletes nets (e :: eps) = staleDeletes nets [e] ++ staleDeletes nets eps := by
  unfold staleDeletes
  by_cases h : e.nid ∈ GoMap.keys nets <;> simp [List.filter_cons, h]

theorem populateEndpoints_foldl_calls {σ ω : Type} (eps : List endpoint) (d : driver σ ω)
    (st : Store σ) (hs : d.store = some st) :
    (eps.foldl populateEndpoints.iter d).calls = d.calls ++ staleDeletes d.networks eps := by
  induction eps generalizing d with
  | nil => simp [staleDeletes]
  | cons e eps ih =>
    rw [List.foldl_cons, ih _ (by rw [populateEndpoints_iter_store]; exact hs),
      populateEndpoints_iter_calls d st e hs, staleDeletes_cons d.networks e eps,
      staleDeletes_congr _ d.networks eps (populateEndpoints_iter_mem_keys d e), List.append_assoc]

theorem populateEndpoints_iter_endpointAt {σ ω : Type} (d : driver σ ω) (e : endpoint)
    (k i : String) :
    endpointAt (populateEndpoints.iter d e).networks k i =
      if k = e.nid ∧ i = e.id ∧ e.nid ∈ GoMap.keys d.networks then some e
      else endpointAt d.networks k i := by
  unfold populateEndpoints.iter
  cases h : GoMap.lookup d.networks e.nid with
  | none =>
    have hk : e.nid ∉ GoMap.keys d.networks := (GoMap.not_mem_keys_iff _ _).2 h
    cases hs : d.store <;> simp [storeDelete, hs, hk]
  | some n =>
    have hk : e.nid ∈ GoMap.keys d.networks := (GoMap.mem_keys_iff _ _).2 ⟨n, h⟩
    by_cases h1 : k = e.nid
    · subst h1
      by_cases h2 : i = e.id
      · simp [endpointAt, GoMap.lookup_insert, h2, hk]
      · simp [endpointAt, GoMap.lookup_insert, h2, h]
    · simp [endpointAt, GoMap.lookup_insert, h1]

theorem populateEndpoints_foldl_endpointAt_keep {σ ω : Type} (post : List endpoint)
    (d : driver σ ω) (ep : endpoint)
    (hat : endpointAt d.networks ep.nid ep.id = some ep)
    (hpost : ∀ e ∈ post, ¬ (e.nid = ep.nid ∧ e.id = ep.id)) :
    endpointAt (post.foldl populateEndpoints.iter d).networks ep.nid ep.id = some ep := by
  induction post generalizing d with
  | nil => exact hat
  | cons e post ih =>
    rw [List.foldl_cons]
    apply ih
    · rw [populateEndpoints_iter_endpointAt]
      have hne : ¬ (e.nid = ep.nid ∧ e.id = ep.id) := hpost e (List.mem_cons_self _ _)
      have hne2 : ¬ (ep.nid = e.nid ∧ ep.id = e.id ∧ e.nid ∈ GoMap.keys d.networks) :=
        fun hc => hne ⟨hc.1.symm, hc.2.1.symm⟩
      rw [if_neg hne2]
      exact hat
    · exact fun x hx => hpost x (List.mem_cons_of_mem _ hx)

theorem populateEndpoints_foldl_endpointAt_attach {σ ω : Type} (pre post : List endpoint)
    (d : driver σ ω) (ep : endpoint) (hk : ep.nid ∈ GoMap.keys d.networks)
    (hpost : ∀ e ∈ post, ¬ (e.nid = ep.nid ∧ e.id = ep.id)) :
    endpointAt ((pre ++ ep :: post).foldl populateEndpoints.iter d).networks ep.nid ep.id
      = some ep := by
  rw [List.foldl_append, List.foldl_cons]
  apply populateEndpoints_foldl_endpointAt_keep post _ ep _ hpost
  rw [populateEndpoints_iter_endpointAt]
  have hk1 : ep.nid ∈ GoMap.keys (pre.foldl populateEndpoints.iter d).networks :=
    (populateEndpoints_foldl_mem_keys pre d ep.nid).2 hk
  simp [hk1]

theorem populateEndpoints_foldl_endpointAt_origin {σ ω : Type} (eps : List endpoint)
    (d : driver σ ω) (k i : String) (x : endpoint)
    (h : endpointAt (eps.foldl populateEndpoints.iter d).networks k i = some x) :
    endpointAt d.networks k i = some x ∨
      (x ∈ eps ∧ x.nid = k ∧ x.id = i ∧ k ∈ GoMap.keys d.networks) := by
  induction eps generalizing d with
  | nil => exact Or.inl h
  | cons e eps ih =>
    rw [List.foldl_cons] at h
    rcases ih _ h with h1 | ⟨hx, hn, hi, hkk⟩
    · rw [populateEndpoints_iter_endpointAt] at h1
      by_cases hc : k = e.nid ∧ i = e.id ∧ e.nid ∈ GoMap.keys d.networks
      · rw [if_pos hc] at h1
        have hxe : e = x := Option.some.inj h1
        subst hxe
        exact Or.inr ⟨List.mem_cons_self _ _, hc.1.symm, hc.2.1.symm, hc.1 ▸ hc.2.2⟩
      · rw [if_neg hc] at h1
        exact Or.inl h1
    · exact Or.inr ⟨List.mem_cons_of_mem _ hx, hn, hi,
        (populateEndpoints_iter_mem_keys d e k).1 hkk⟩

theorem populateEndpoints_of_list {σ ω : Type} (d : driver σ ω) (st : Store σ)
    (eps : List endpoint) (hs : d.store = some st)
    (hl : (st.ListEndpoints d.backend).1 = (eps, none)) :
    populateEndpoints d = (Outcome.ret none,
      eps.foldl populateEndpoints.iter
        { d with backend := (st.ListEndpoints d.backend).2,
                 calls := d.calls ++ [Call.ListEndpoints] }) := by
  simp [populateEndpoints, hs, hl, errors.Is]

theorem listed_none_error {α : Type} (r : List α × Option GoError) (h : listed r = none) :
    ∃ e, r.2 = some e ∧ errors.Is r.2 GoError.ErrKeyNotFound = false := by
  obtain ⟨l, err⟩ := r
  cases err with
  | none => simp [listed, errors.Is] at h
  | some e =>
    by_cases h1 : GoError.is e GoError.ErrKeyNotFound = true
    · simp [listed, errors.Is, h1] at h
    · exact ⟨e, rfl, by simpa [errors.Is] using h1⟩

theorem populateNetworks_eq {σ ω : Type} (cn : CreateNetwork ω) (d : driver σ ω)
    (st : Store σ) (hs : d.store = some st) :
    populateNetworks cn d =
      match listed (st.ListConfigurations d.backend).1 with
      | some l =>
        (Outcome.ret none, l.foldl (populateNetworks.iter cn)
          { d with backend := (st.ListConfigurations d.backend).2,
                   calls := d.calls ++ [Call.ListConfigurations] })
      | none =>
        (Outcome.ret ((st.ListConfigurations d.backend).1.2.map
            (GoError.wrapError "failed to get ipvlan network configurations from store")),
          { d with backend := (st.ListConfigurations d.backend).2,
                   calls := d.calls ++ [Call.ListConfigurations] }) := by
  unfold populateNetworks listed
  rw [hs]
  rcases hr : st.ListConfigurations d.backend with ⟨⟨kvol, err⟩, b⟩
  cases err with
  | none => simp [hr, errors.Is]
  | some e =>
    by_cases h : GoError.is e GoError.ErrKeyNotFound = true <;> simp [hr, errors.Is, h]

theorem populateEndpoints_eq {σ ω : Type} (d : driver σ ω)
    (st : Store σ) (hs : d.store = some st) :
    populateEndpoints d =
      match listed (st.ListEndpoints d.backend).1 with
      | some l =>
        (Outcome.ret none, l.foldl populateEndpoints.iter
          { d with backend := (st.ListEndpoints d.backend).2,
                   calls := d.calls ++ [Call.ListEndpoints] })
      | none =>
        (Outcome.ret ((st.ListEndpoints d.backend).1.2.map
            (GoError.wrapError "failed to get ipvlan endpoints from store")),
          { d with backend := (st.ListEndpoints d.backend).2,
                   calls := d.calls ++ [Call.ListEndpoints] }) := by
  unfold populateEndpoints listed
  rw [hs]
  rcases hr : st.ListEndpoints d.backend with ⟨⟨kvol, err⟩, b⟩
  cases err with
  | none => simp [hr, errors.Is]
  | some e =>
    by_cases h : GoError.is e GoError.ErrKeyNotFound = true <;> simp [hr, errors.Is, h]

theorem populateNetworks_foldl_eq {σ ω : Type} (cn : CreateNetwork ω)
    (configs : List configuration) (d : driver σ ω) :
    configs.foldl (populateNetworks.iter cn) d =
      { d with networks := (restoreNetworks cn configs (d.networks, d.host)).1,
               host := (restoreNetworks cn configs (d.networks, d.host)).2,
               calls := d.calls ++ configs.map Call.createNetwork } := by
  induction configs generalizing d with
  | nil => simp [restoreNetworks]
  | cons c configs ih =>
    rw [List.foldl_cons, ih]
    simp [populateNetworks.iter, restoreNetworks]

theorem populateEndpoints_foldl_networks {σ ω : Type} (eps : List endpoint) (d : driver σ ω) :
    (eps.foldl populateEndpoints.iter d).networks = attachAll d.networks eps := by
  induction eps generalizing d with
  | nil => rfl
  | cons e eps ih =>
    rw [List.foldl_cons, ih]
    unfold attachAll populateEndpoints.iter
    rw [List.foldl_cons]
    cases h : GoMap.lookup d.networks e.nid with
    | none => cases hs : d.store <;> simp [storeDelete, hs]
    | some n => simp

theorem populateEndpoints_foldl_backend {σ ω : Type} (eps : List endpoint) (d : driver σ ω)
    (st : Store σ) (hs : d.store = some st) :
    (eps.foldl populateEndpoints.iter d).backend =
      deleteAll st (eps.filter (fun e => decide (e.nid ∉ GoMap.keys d.networks))) d.backend := by
  induction eps generalizing d with
  | nil => rfl
  | cons e eps ih =>
    rw [List.foldl_cons, ih _ (by rw [populateEndpoints_iter_store]; exact hs)]
    have hcongr : eps.filter (fun x =>
          decide (x.nid ∉ GoMap.keys (populateEndpoints.iter d e).networks))
        = eps.filter (fun x => decide (x.nid ∉ GoMap.keys d.networks)) := by
      apply List.filter_congr
      intro x _
      simp [populateEndpoints_iter_mem_keys]
    rw [hcongr]
    unfold populateEndpoints.iter
    cases h : GoMap.lookup d.networks e.nid with
    | none =>
      have hk : e.nid ∉ GoMap.keys d.networks := (GoMap.not_mem_keys_iff _ _).2 h
      simp [storeDelete, hs, List.filter_cons, hk, deleteAll]
    | some n =>
      have hk : e.nid ∈ GoMap.keys d.networks := (GoMap.mem_keys_iff _ _).2 ⟨n, h⟩
      simp [List.filter_cons, hk]

theorem attachAll_cons (nets : networkTable) (e : endpoint) (eps : List endpoint) :
    attachAll nets (e :: eps) =
      attachAll (match GoMap.lookup nets e.nid with
        | none => nets
        | some n =>
          GoMap.insert nets e.nid { n with endpoints := GoMap.insert n.endpoints e.id e }) eps := by
  simp [attachAll]

theorem attachAll_filter (nets : networkTable) (eps : List endpoint) :
    attachAll nets (eps.filter (fun e => decide (e.nid ∈ GoMap.keys nets))) = attachAll nets eps := by
  induction eps generalizing nets with
  | nil => rfl
  | cons e eps ih =>
    cases h : GoMap.lookup nets e.nid with
    | none =>
      have hk : e.nid ∉ GoMap.keys nets := (GoMap.not_mem_keys_iff _ _).2 h
      rw [List.filter_cons, attachAll_cons, h]
      simp only [hk, decide_False, Bool.false_eq_true, if_false]
      exact ih nets
    | some n =>
      have hk : e.nid ∈ GoMap.keys nets := (GoMap.mem_keys_iff _ _).2 ⟨n, h⟩
      rw [List.filter_cons, attachAll_cons, h]
      simp only [hk, decide_True, if_true]
      rw [attachAll_cons, h]
      simp only []
      rw [← ih]
      congr 1
      apply List.filter_congr
      intro x _
      simp only [GoMap.mem_keys_insert, decide_eq_decide]
      constructor
      · exact fun hx => Or.inr hx
      · rintro (hx | hx)
        · rw [hx]; exact hk
        · exact hx

theorem staleDeletes_filter (nets : networkTable) (eps : List endpoint) :
    staleDeletes nets (eps.filter (fun e => decide (e.nid ∈ GoMap.keys nets))) = [] := by
  unfold staleDeletes
  rw [List.filter_filter]
  simp

theorem deleteAll_listConfigurations {σ : Type} (st : Store σ) (law : st.DeletionsSucceed)
    (os : List endpoint) (s : σ) :
    (st.ListConfigurations (deleteAll st os s)).1 = (st.ListConfigurations s).1 := by
  induction os generalizing s with
  | nil => rfl
  | cons o os ih =>
    unfold deleteAll
    rw [List.foldl_cons]
    exact (ih _).trans (law.delete_configurations s o)

theorem deleteAll_listEndpoints {σ : Type} (st : Store σ) (law : st.DeletionsSucceed)
    (os : List endpoint) (s : σ) :
    listed (st.ListEndpoints (deleteAll st os s)).1 =
      (listed (st.ListEndpoints s).1).map
        (List.filter (fun x => decide (x.id ∉ os.map endpoint.id))) := by
  induction os generalizing s with
  | nil =>
    cases h : listed (st.ListEndpoints s).1 <;> simp [deleteAll, h]
  | cons o os ih =>
    unfold deleteAll
    rw [List.foldl_cons]
    refine (ih _).trans ?_
    rw [law.delete_endpoints s o]
    cases h : listed (st.ListEndpoints s).1 with
    | none => rfl
    | some l =>
      simp only [Option.map_some', List.filter_filter, Option.some.injEq]
      apply List.filter_congr
      intro x _
      by_cases h1 : x.id = o.id <;> by_cases h2 : x.id ∈ os.map endpoint.id <;> simp [h1, h2]

theorem filter_survivors (nets : networkTable) (eps : List endpoint)
    (hnd : (eps.map endpoint.id).Nodup) :
    eps.filter (fun x => decide (x.id ∉
        (eps.filter (fun e => decide (e.nid ∉ GoMap.keys nets))).map endpoint.id))
      = eps.filter (fun e => decide (e.nid ∈ GoMap.keys nets)) := by
  apply List.filter_congr
  intro x hx
  simp only [decide_eq_decide, List.mem_map, List.mem_filter, decide_eq_true_eq, not_exists,
    not_and]
  constructor
  · intro h
    by_contra hc
    exact h x ⟨hx, hc⟩ rfl
  · intro h y hy hxy
    have : y = x := List.inj_on_of_nodup_map hnd hy.1 hx hxy
    subst this
    exact hy.2 h

theorem restoreNetworks_host {ω : Type} (cn : CreateNetwork ω)
    (hcn : ∀ c nets h h', (cn c nets h).2.1 = (cn c nets h').2.1)
    (configs : List configuration) (nets : networkTable) (h h' : ω) :
    (restoreNetworks cn configs (nets, h)).1 = (restoreNetworks cn configs (nets, h')).1 := by
  induction configs generalizing nets h h' with
  | nil => rfl
  | cons c configs ih =>
    unfold restoreNetworks
    rw [List.foldl_cons, List.foldl_cons]
    have e1 : (cn c nets h).2 = ((cn c nets h).2.1, (cn c nets h).2.2) := rfl
    have e2 : (cn c nets h').2 = ((cn c nets h).2.1, (cn c nets h').2.2) := by
      rw [hcn c nets h h']
    rw [e1, e2]
    exact ih _ _ _

theorem populateEndpoints_foldl_eq {σ ω : Type} (eps : List endpoint) (d : driver σ ω)
    (st : Store σ) (hs : d.store = some st) :
    eps.foldl populateEndpoints.iter d =
      { networks := attachAll d.networks eps
        store := some st
        backend := deleteAll st
          (eps.filter (fun e => decide (e.nid ∉ GoMap.keys d.networks))) d.backend
        host := d.host
        calls := d.calls ++ staleDeletes d.networks eps } := by
  have h0 : eps.foldl populateEndpoints.iter d =
      ⟨(eps.foldl populateEndpoints.iter d).networks, (eps.foldl populateEndpoints.iter d).store,
        (eps.foldl populateEndpoints.iter d).backend, (eps.foldl populateEndpoints.iter d).host,
        (eps.foldl populateEndpoints.iter d).calls⟩ := rfl
  rw [h0, populateEndpoints_foldl_networks, populateEndpoints_foldl_store,
    populateEndpoints_foldl_backend eps d st hs, populateEndpoints_foldl_host,
    populateEndpoints_foldl_calls eps d st hs, hs]

theorem initStore_eq {σ ω : Type} (cn : CreateNetwork ω) (d : driver σ ω) (st : Store σ)
    (hs : d.store = some st) (law : st.DeletionsSucceed) :
    initStore cn d =
      match listed (st.ListConfigurations d.backend).1 with
      | none =>
        (Outcome.ret ((st.ListConfigurations d.backend).1.2.map
            (GoError.wrapError "failed to get ipvlan network configurations from store")),
          { d with calls := d.calls ++ [Call.ListConfigurations] })
      | some configs =>
        match listed (st.ListEndpoints d.backend).1 with
        | none =>
          (Outcome.ret ((st.ListEndpoints d.backend).1.2.map
              (GoError.wrapError "failed to get ipvlan endpoints from store")),
            { d with
              networks := (restoreNetworks cn configs (d.networks, d.host)).1
              host := (restoreNetworks cn configs (d.networks, d.host)).2
              calls := d.calls ++ [Call.ListConfigurations] ++ configs.map Call.createNetwork
                ++ [Call.ListEndpoints] })
        | some eps =>
          (Outcome.ret none,
            { networks := attachAll (restoreNetworks cn configs (d.networks, d.host)).1 eps
              store := some st
              backend := deleteAll st (eps.filter (fun e => decide (e.nid ∉
                GoMap.keys (restoreNetworks cn configs (d.networks, d.host)).1))) d.backend
              host := (restoreNetworks cn configs (d.networks, d.host)).2
              calls := d.calls ++ [Call.ListConfigurations] ++ configs.map Call.createNetwork
                ++ [Call.ListEndpoints]
                ++ staleDeletes (restoreNetworks cn configs (d.networks, d.host)).1 eps }) := by
  unfold initStore
  rw [populateNetworks_eq cn d st hs]
  cases hA : listed (st.ListConfigurations d.backend).1 with
  | none =>
    obtain ⟨e, he, _⟩ := listed_none_error _ hA
    simp [he, law.listConfigurations_backend]
  | some configs =>
    simp only [populateNetworks_foldl_eq, law.listConfigurations_backend]
    rw [hs, populateEndpoints_eq (driver.mk _ (some st) _ _ _) st rfl]
    simp only [law.listEndpoints_backend]
    cases hB : listed (st.ListEndpoints d.backend).1 with
    | none =>
      obtain ⟨e, he, _⟩ := listed_none_error _ hB
      simp [he]
    | some eps =>
      simp only []
      rw [populateEndpoints_foldl_eq eps (driver.mk _ (some st) _ _ _) st rfl]

theorem initStore_rerun {σ ω : Type} (cn : CreateNetwork ω) (d : driver σ ω) (st : Store σ)
    (hs : d.store = some st) (law : st.DeletionsSucceed)
    (hcn : (populateNetworks cn { d with
        backend := (initStore cn d).2.backend
        host := (initStore cn d).2.host
        calls := [] }).2.networks = (populateNetworks cn d).2.networks)
    (hnd : ∀ eps, listed (st.ListEndpoints d.backend).1 = some eps →
      (eps.map endpoint.id).Nodup) :
    (∀ o, Call.DeleteObject o ∉ (initStore cn { d with
        backend := (initStore cn d).2.backend
        host := (initStore cn d).2.host
        calls := [] }).2.calls) ∧
    (initStore cn { d with
        backend := (initStore cn d).2.backend
        host := (initStore cn d).2.host
        calls := [] }).2.networks = (initStore cn d).2.networks ∧
    (initStore cn { d with
        backend := (initStore cn d).2.backend
        host := (initStore cn d).2.host
        calls := [] }).2.backend = (initStore cn d).2.backend ∧
    (initStore cn { d with
        backend := (initStore cn d).2.backend
        host := (initStore cn d).2.host
        calls := [] }).1 = (initStore cn d).1 := by
  have h1 := initStore_eq cn d st hs law
  have hp := populateNetworks_eq cn d st hs
  cases hA : listed (st.ListConfigurations d.backend).1 with
  | none =>
    rw [hA] at h1
    simp only [] at h1
    rw [h1]
    simp only []
    rw [hs, initStore_eq cn (driver.mk _ (some st) _ _ _) st rfl law]
    simp only [hA]
    simp
  | some configs =>
    rw [hA] at h1 hp
    simp only [] at h1
    simp only [populateNetworks_foldl_eq] at hp
    rw [hp] at hcn
    simp only [] at hcn
    cases hB : listed (st.ListEndpoints d.backend).1 with
    | none =>
      rw [hB] at h1
      simp only [] at h1
      rw [h1] at hcn
      simp only [] at hcn
      rw [hs, populateNetworks_eq cn (driver.mk _ (some st) _ _ _) st rfl] at hcn
      simp only [hA, populateNetworks_foldl_eq] at hcn
      rw [h1]
      simp only []
      rw [hs, initStore_eq cn (driver.mk _ (some st) _ _ _) st rfl law]
      simp only [hA, hB]
      rw [hcn]
      simp
    | some eps =>
      rw [hB] at h1
      simp only [] at h1
      rw [h1] at hcn
      simp only [] at hcn
      rw [hs, populateNetworks_eq cn (driver.mk _ (some st) _ _ _) st rfl] at hcn
      simp only [deleteAll_listConfigurations st law, hA, populateNetworks_foldl_eq] at hcn
      rw [h1]
      simp only []
      rw [hs, initStore_eq cn (driver.mk _ (some st) _ _ _) st rfl law]
      simp only [deleteAll_listConfigurations st law, deleteAll_listEndpoints st law, hA, hB,
        Option.map_some']
      rw [hcn]
      rw [filter_survivors _ eps (hnd eps hB)]
      simp only [attachAll_filter, staleDeletes_filter, true_and]
      have hff : ∀ K : List String,
          List.filter (fun e : endpoint => decide (e.nid ∉ K))
            (List.filter (fun e : endpoint => decide (e.nid ∈ K)) eps) = [] := by
        intro K
        rw [List.filter_filter]
        simp
      rw [hff]
      simp [deleteAll]

/-- When the effect of `createNetwork` on the index does not depend on the
host, the network phase of a second run rebuilds the index of the first. -/
theorem populateNetworks_rerun_of_host {σ ω : Type} (cn : CreateNetwork ω) (d : driver σ ω)
    (st : Store σ) (hs : d.store = some st) (law : st.DeletionsSucceed)
    (hcn : ∀ c nets h h', (cn c nets h).2.1 = (cn c nets h').2.1) :
    (populateNetworks cn { d with
        backend := (initStore cn d).2.backend
        host := (initStore cn d).2.host
        calls := [] }).2.networks = (populateNetworks cn d).2.networks := by
  have h1 := initStore_eq cn d st hs law
  have hp := populateNetworks_eq cn d st hs
  cases hA : listed (st.ListConfigurations d.backend).1 with
  | none =>
    rw [hA] at h1 hp
    simp only [] at h1 hp
    rw [h1, hp]
    simp only []
    rw [hs, populateNetworks_eq cn (driver.mk _ (some st) _ _ _) st rfl]
    simp only [hA]
  | some configs =>
    rw [hA] at h1 hp
    simp only [] at h1
    simp only [populateNetworks_foldl_eq] at hp
    rw [hp]
    cases hB : listed (st.ListEndpoints d.backend).1 with
    | none =>
      rw [hB] at h1
      simp only [] at h1
      rw [h1]
      simp only []
      rw [hs, populateNetworks_eq cn (driver.mk _ (some st) _ _ _) st rfl]
      simp only [hA, populateNetworks_foldl_eq]
      exact restoreNetworks_host cn hcn configs d.networks _ d.host
    | some eps =>
      rw [hB] at h1
      simp only [] at h1
      rw [h1]
      simp only []
      rw [hs, populateNetworks_eq cn (driver.mk _ (some st) _ _ _) st rfl]
      simp only [deleteAll_listConfigurations st law, hA, populateNetworks_foldl_eq]
      exact restoreNetworks_host cn hcn configs d.networks _ d.host

theorem memStore_deletionsSucceed : MemStore.store.DeletionsSucceed where
  listConfigurations_backend := fun _ => rfl
  listEndpoints_backend := fun _ => rfl
  delete_ok := fun _ _ => rfl
  delete_configurations := fun _ _ => rfl
  delete_endpoints := by
    intro s e
    simp only [MemStore.store]
    by_cases h : s.endpoints = []
    · simp [h, listed, errors.Is, GoError.is]
    · by_cases h2 : s.endpoints.filter (fun x => decide (x.id ≠ e.id)) = []
      · rw [if_pos h2, if_neg h]
        simp only [listed, errors.Is, GoError.is, decide_True, if_true, Option.map_some']
        simp only [Bool.false_eq_true, if_false, Option.map_some', h2]
      · rw [if_neg h2, if_neg h]
        simp [listed, errors.Is]

theorem listed_eq_none_iff {α : Type} (r : List α × Option GoError) :
    listed r = none ↔ (r.2 ≠ none ∧ errors.Is r.2 GoError.ErrKeyNotFound = false) := by
  obtain ⟨l, err⟩ := r
  cases err with
  | none => simp [listed, errors.Is]
  | some e =>
    by_cases h1 : GoError.is e GoError.ErrKeyNotFound = true <;> simp [listed, errors.Is, h1]

theorem listed_of_ok {α : Type} (l : List α) : listed (l, (none : Option GoError)) = some l := by
  simp [listed, errors.Is]

theorem initStore_of_success {σ ω : Type} (cn : CreateNetwork ω) (d : driver σ ω)
    (h : (populateNetworks cn d).1 = Outcome.ret none) :
    initStore cn d = populateEndpoints (populateNetworks cn d).2 := by
  unfold initStore
  rcases hp : populateNetworks cn d with ⟨o, d1⟩
  rw [hp] at h
  simp only [] at h
  subst h
  simp only []
  rcases hq : populateEndpoints d1 with ⟨o2, d2⟩
  rcases o2 with (_ | e) | r <;> rfl

theorem initStore_of_failure {σ ω : Type} (cn : CreateNetwork ω) (d : driver σ ω)
    (h : (populateNetworks cn d).1 ≠ Outcome.ret none) :
    initStore cn d = populateNetworks cn d := by
  unfold initStore
  rcases hp : populateNetworks cn d with ⟨o, d1⟩
  rw [hp] at h
  rcases o with (_ | e) | r
  · exact absurd rfl h
  · rfl
  · rfl

theorem populateNetworks_backend {σ ω : Type} (cn : CreateNetwork ω) (d : driver σ ω)
    (st : Store σ) (hs : d.store = some st) :
    (populateNetworks cn d).2.backend = (st.ListConfigurations d.backend).2 ∧
      (populateNetworks cn d).2.store = some st := by
  rw [populateNetworks_eq cn d st hs]
  cases listed (st.ListConfigurations d.backend).1 with
  | none => exact ⟨rfl, hs⟩
  | some l =>
    simp only [populateNetworks_foldl_eq]
    exact ⟨trivial, hs⟩

theorem populateNetworks_success_iff {σ ω : Type} (cn : CreateNetwork ω) (d : driver σ ω)
    (st : Store σ) (hs : d.store = some st) :
    (populateNetworks cn d).1 = Outcome.ret none ↔
      listed (st.ListConfigurations d.backend).1 ≠ none := by
  rw [populateNetworks_eq cn d st hs]
  cases h : listed (st.ListConfigurations d.backend).1 with
  | none =>
    obtain ⟨e, he, _⟩ := listed_none_error _ h
    simp [he]
  | some l => simp

theorem populateEndpoints_success_iff {σ ω : Type} (d : driver σ ω)
    (st : Store σ) (hs : d.store = some st) :
    (populateEndpoints d).1 = Outcome.ret none ↔
      listed (st.ListEndpoints d.backend).1 ≠ none := by
  rw [populateEndpoints_eq d st hs]
  cases h : listed (st.ListEndpoints d.backend).1 with
  | none =>
    obtain ⟨e, he, _⟩ := listed_none_error _ h
    simp [he]
  | some l => simp

theorem populateNetworks_outcome {σ ω : Type} (cn : CreateNetwork ω) (d : driver σ ω)
    (st : Store σ) (hs : d.store = some st) :
    ∃ err, (populateNetworks cn d).1 = Outcome.ret err := by
  rw [populateNetworks_eq cn d st hs]
  cases listed (st.ListConfigurations d.backend).1 <;> exact ⟨_, rfl⟩

theorem populateEndpoints_outcome {σ ω : Type} (d : driver σ ω)
    (st : Store σ) (hs : d.store = some st) :
    ∃ err, (populateEndpoints d).1 = Outcome.ret err := by
  rw [populateEndpoints_eq d st hs]
  cases listed (st.ListEndpoints d.backend).1 <;> exact ⟨_, rfl⟩

theorem populateEndpoints_treats {σ ω : Type} (d : driver σ ω) (st : Store σ)
    (eps : List endpoint) (hs : d.store = some st)
    (hl : (st.ListEndpoints d.backend).1 = (eps, none)) :
    (populateEndpoints d).1 = Outcome.ret none ∧
    (populateEndpoints d).2.calls = d.calls ++ Call.ListEndpoints ::
      (eps.filter (fun e => decide (e.nid ∉ GoMap.keys d.networks))).map
        (fun e => Call.DeleteObject (KVObject.endpoint e)) ∧
    (∀ pre ep post, eps = pre ++ ep :: post → ep.nid ∈ GoMap.keys d.networks →
      (∀ e ∈ post, ¬ (e.nid = ep.nid ∧ e.id = ep.id)) →
      endpointAt (populateEndpoints d).2.networks ep.nid ep.id = some ep) ∧
    (∀ ep ∈ eps, ep.nid ∉ GoMap.keys d.networks →
      Call.DeleteObject (KVObject.endpoint ep) ∈ (populateEndpoints d).2.calls ∧
      ∀ k i, endpointAt (populateEndpoints d).2.networks k i = some ep →
        endpointAt d.networks k i = some ep) := by
  rw [populateEndpoints_of_list d st eps hs hl]
  have hs1 : ∀ b c, ({ d with backend := b, calls := c } : driver σ ω).store = some st :=
    fun _ _ => hs
  refine ⟨rfl, ?_, ?_, ?_⟩
  · simp only []
    rw [populateEndpoints_foldl_calls eps _ st (hs1 _ _)]
    simp [staleDeletes]
  · intro pre ep post he hk hpost
    subst he
    exact populateEndpoints_foldl_endpointAt_attach pre post _ ep hk hpost
  · intro ep hep hk
    constructor
    · simp only []
      rw [populateEndpoints_foldl_calls eps _ st (hs1 _ _)]
      simp only [staleDeletes, List.mem_append, List.mem_map, List.mem_filter]
      exact Or.inr ⟨ep, ⟨hep, by simpa using hk⟩, rfl⟩
    · intro k i h
      rcases populateEndpoints_foldl_endpointAt_origin eps _ k i ep h with h1 | ⟨_, hn, _, hkk⟩
      · exact h1
      · exact absurd (hn ▸ hkk) hk

theorem initStore_error_iff {σ ω : Type} (cn : CreateNetwork ω) (d : driver σ ω)
    (st : Store σ) (hs : d.store = some st) :
    ((∃ e, (initStore cn d).1 = Outcome.ret (some e)) ↔
      (((st.ListConfigurations d.backend).1.2 ≠ none ∧
          errors.Is (st.ListConfigurations d.backend).1.2 GoError.ErrKeyNotFound = false) ∨
        (¬ ((st.ListConfigurations d.backend).1.2 ≠ none ∧
            errors.Is (st.ListConfigurations d.backend).1.2 GoError.ErrKeyNotFound = false) ∧
          (st.ListEndpoints (st.ListConfigurations d.backend).2).1.2 ≠ none ∧
          errors.Is (st.ListEndpoints (st.ListConfigurations d.backend).2).1.2
            GoError.ErrKeyNotFound = false))) ∧
    (∃ err, (initStore cn d).1 = Outcome.ret err) := by
  obtain ⟨hb, hs1⟩ := populateNetworks_backend cn d st hs
  rw [← listed_eq_none_iff, ← listed_eq_none_iff]
  by_cases h : listed (st.ListConfigurations d.backend).1 = none
  · have hf : (populateNetworks cn d).1 ≠ Outcome.ret none :=
      fun hc => (populateNetworks_success_iff cn d st hs).1 hc h
    rw [initStore_of_failure cn d hf]
    obtain ⟨err, he⟩ := populateNetworks_outcome cn d st hs
    refine ⟨?_, err, he⟩
    rw [he]
    cases err with
    | none => exact absurd he hf
    | some e => simp [h]
  · have hok : (populateNetworks cn d).1 = Outcome.ret none :=
      (populateNetworks_success_iff cn d st hs).2 h
    rw [initStore_of_success cn d hok]
    obtain ⟨err, he⟩ := populateEndpoints_outcome _ st hs1
    refine ⟨?_, err, he⟩
    have hiff := populateEndpoints_success_iff _ st hs1
    rw [hb] at hiff
    rw [he] at hiff ⊢
    cases err with
    | none =>
      have := hiff.1 rfl
      simp [h, this]
    | some e =>
      have : listed (st.ListEndpoints (st.ListConfigurations d.backend).2).1 = none := by
        by_contra hc
        have := hiff.2 hc
        simp at this
      simp [h, this]

theorem populateNetworks_attempts {σ ω : Type} (cn : CreateNetwork ω) (d : driver σ ω)
    (st : Store σ) (rs : List configuration) (hs : d.store = some st)
    (hl : (st.ListConfigurations d.backend).1 = (rs, none)) :
    (populateNetworks cn d).1 = Outcome.ret none ∧
    (populateNetworks cn d).2.calls =
      d.calls ++ Call.ListConfigurations :: rs.map Call.createNetwork ∧
    ((populateNetworks cn d).2.networks, (populateNetworks cn d).2.host) =
      rs.foldl (fun s config => (cn config s.1 s.2).2) (d.networks, d.host) := by
  rw [populateNetworks_eq cn d st hs, hl, listed_of_ok]
  simp [populateNetworks_foldl_eq, restoreNetworks]

theorem populateNetworks_empty {σ ω : Type} (cn : CreateNetwork ω) (d : driver σ ω)
    (st : Store σ) (hs : d.store = some st)
    (h : errors.Is (st.ListConfigurations d.backend).1.2 GoError.ErrKeyNotFound = true ∨
      (st.ListConfigurations d.backend).1 = ([], none)) :
    populateNetworks cn d = (Outcome.ret none,
      { d with backend := (st.ListConfigurations d.backend).2
               calls := d.calls ++ [Call.ListConfigurations] }) := by
  have hl : listed (st.ListConfigurations d.backend).1 = some [] := by
    rcases h with h | h
    · simp [listed, h]
    · rw [h, listed_of_ok]
  rw [populateNetworks_eq cn d st hs, hl]
  rfl

theorem populateEndpoints_empty {σ ω : Type} (d : driver σ ω)
    (st : Store σ) (hs : d.store = some st)
    (h : errors.Is (st.ListEndpoints d.backend).1.2 GoError.ErrKeyNotFound = true ∨
      (st.ListEndpoints d.backend).1 = ([], none)) :
    populateEndpoints d = (Outcome.ret none,
      { d with backend := (st.ListEndpoints d.backend).2
               calls := d.calls ++ [Call.ListEndpoints] }) := by
  have hl : listed (st.ListEndpoints d.backend).1 = some [] := by
    rcases h with h | h
    · simp [listed, h]
    · rw [h, listed_of_ok]
  rw [populateEndpoints_eq d st hs, hl]
  rfl

theorem initStore_order {σ ω : Type} (cn : CreateNetwork ω) (d : driver σ ω)
    (st : Store σ) (hs : d.store = some st) :
    (listed (st.ListConfigurations d.backend).1 = none →
      (∃ e, (populateNetworks cn d).1 = Outcome.ret (some e)) ∧
      initStore cn d = populateNetworks cn d ∧
      (initStore cn d).2.calls = d.calls ++ [Call.ListConfigurations] ∧
      (initStore cn d).2.networks = d.networks) ∧
    (∀ configs, listed (st.ListConfigurations d.backend).1 = some configs →
      (populateNetworks cn d).1 = Outcome.ret none ∧
      (populateNetworks cn d).2.calls =
        d.calls ++ Call.ListConfigurations :: configs.map Call.createNetwork ∧
      ((populateNetworks cn d).2.networks, (populateNetworks cn d).2.host) =
        restoreNetworks cn configs (d.networks, d.host) ∧
      initStore cn d = populateEndpoints (populateNetworks cn d).2 ∧
      (listed (st.ListEndpoints (populateNetworks cn d).2.backend).1 = none →
        (initStore cn d).2.calls = (populateNetworks cn d).2.calls ++ [Call.ListEndpoints] ∧
        (initStore cn d).2.networks = (populateNetworks cn d).2.networks) ∧
      (∀ eps, listed (st.ListEndpoints (populateNetworks cn d).2.backend).1 = some eps →
        (initStore cn d).2.calls = (populateNetworks cn d).2.calls ++ Call.ListEndpoints ::
          (eps.filter (fun e =>
              decide (e.nid ∉ GoMap.keys (populateNetworks cn d).2.networks))).map
            (fun e => Call.DeleteObject (KVObject.endpoint e)) ∧
        (initStore cn d).2.networks = attachAll (populateNetworks cn d).2.networks eps)) := by
  obtain ⟨_, hs1⟩ := populateNetworks_backend cn d st hs
  constructor
  · intro hA
    have hne : (populateNetworks cn d).1 ≠ Outcome.ret none := fun h =>
      (populateNetworks_success_iff cn d st hs).1 h hA
    have hi := initStore_of_failure cn d hne
    have hp := populateNetworks_eq cn d st hs
    rw [hA] at hp
    obtain ⟨e, he, _⟩ := listed_none_error _ hA
    refine ⟨⟨GoError.wrapError "failed to get ipvlan network configurations from store" e, ?_⟩,
      hi, ?_, ?_⟩
    · rw [hp, he]; rfl
    · rw [hi, hp]
    · rw [hi, hp]
  · intro configs hA
    have hp := populateNetworks_eq cn d st hs
    rw [hA] at hp
    simp only [populateNetworks_foldl_eq] at hp
    have hok : (populateNetworks cn d).1 = Outcome.ret none := by rw [hp]
    have hi := initStore_of_success cn d hok
    have hpe := populateEndpoints_eq (populateNetworks cn d).2 st hs1
    refine ⟨hok, ?_, ?_, hi, ?_, ?_⟩
    · rw [hp]; simp
    · rw [hp]
    · intro hl
      rw [hl] at hpe
      rw [hi, hpe]
      exact ⟨rfl, rfl⟩
    · intro eps hl
      rw [hl] at hpe
      constructor
      · rw [hi, hpe]
        simp only []
        rw [hs1, populateEndpoints_foldl_calls eps (driver.mk _ (some st) _ _ _) st rfl]
        simp [staleDeletes]
      · rw [hi, hpe]
        simp only []
        rw [populateEndpoints_foldl_networks]

theorem depth_subnetsValue (l : List (Option ipSubnet)) :
    json.depth (subnetsValue l) ≤ 2 := by
  have h : ∀ l : List (Option ipSubnet), json.depthElems (l.map (fun p =>
      match p with
      | none => json.GoValue.nil
      | some s =>
        json.GoValue.object
          [("SubnetIP", json.GoValue.string s.SubnetIP),
           ("GwIP", json.GoValue.string s.GwIP)])) ≤ 1 := by
    intro l
    induction l with
    | nil => simp [json.depthElems]
    | cons p l ih =>
      cases p with
      | none =>
        simp only [List.map_cons, json.depthElems, json.depth]
        exact max_le (by omega) ih
      | some s =>
        simp only [List.map_cons, json.depthElems, json.depth, json.depthFields]
        exact max_le (by simp) ih
  simp only [subnetsValue, json.depth]
  have := h l
  omega

theorem decodeSubnets_toDocs (l : List (Option ipSubnet)) :
    decodeSubnets [] (json.toDocs (l.map (fun p =>
      match p with
      | none => json.GoValue.nil
      | some s =>
        json.GoValue.object
          [("SubnetIP", json.GoValue.string s.SubnetIP),
           ("GwIP", json.GoValue.string s.GwIP)]))) = (l, none) := by
  induction l with
  | nil => rfl
  | cons p l ih =>
    cases p with
    | none =>
      simp only [List.map_cons, json.toDocs, json.toDoc, decodeSubnets, List.head?_nil,
        Option.join, List.tail_nil, ih, decodeSubnet]
      rfl
    | some s =>
      simp only [List.map_cons, json.toDocs, json.toDoc, json.toDocFields, decodeSubnets,
        List.head?_nil, List.tail_nil, ih, decodeSubnet, List.foldl_cons, List.foldl_nil,
        setSubnetField]
      simp

/-- Decoding the printed form of a subnet slice into an empty slice gives the
slice back. -/
theorem unmarshalSubnets_encode (l : List (Option ipSubnet)) :
    unmarshalSubnets [] [] (json.encode (subnetsValue l)) = (l, none) := by
  have hp := json.parse_encode (subnetsValue l) (by
    have := depth_subnetsValue l
    simp only [json.maxNestingDepth]
    omega)
  unfold unmarshalSubnets
  rw [hp]
  simp only [subnetsValue, json.toDoc]
  exact decodeSubnets_toDocs l

/-- A slice without capacity has none after a decode either. -/
theorem spareAfter_nil (b : json.Text) : spareAfter [] [] b = [] := by
  unfold spareAfter
  split <;> rfl

end ipvlan
/-! ## The restore pipeline of the macvlan driver -/

namespace macvlan

theorem storeDelete_of_store_mv {σ ω : Type} (d : driver σ ω) (st : Store σ) (o : KVObject)
    (h : d.store = some st) :
    storeDelete d o = ((st.DeleteObject o d.backend).1,
      { d with backend := (st.DeleteObject o d.backend).2,
               calls := d.calls ++ [Call.DeleteObject o] }) := by
  simp [storeDelete, h]

theorem populateEndpoints_iter_store_mv {σ ω : Type} (d : driver σ ω) (ep : endpoint) :
    (populateEndpoints.iter d ep).store = d.store := by
  unfold populateEndpoints.iter
  cases h : GoMap.lookup d.networks ep.nid with
  | none =>
    cases hs : d.store <;> simp [storeDelete, hs]
  | some n => simp

theorem populateEndpoints_iter_host_mv {σ ω : Type} (d : driver σ ω) (ep : endpoint) :
    (populateEndpoints.iter d ep).host = d.host := by
  unfold populateEndpoints.iter
  cases h : GoMap.lookup d.networks ep.nid with
  | none =>
    cases hs : d.store <;> simp [storeDelete, hs]
  | some n => simp

theorem populateEndpoints_iter_mem_keys_mv {σ ω : Type} (d : driver σ ω) (ep : endpoint)
    (k : String) :
    k ∈ GoMap.keys (populateEndpoints.iter d ep).networks ↔ k ∈ GoMap.keys d.networks := by
  unfold populateEndpoints.iter
  cases h : GoMap.lookup d.networks ep.nid with
  | none =>
    cases hs : d.store <;> simp [storeDelete, hs]
  | some n =>
    simp only [GoMap.mem_keys_insert]
    constructor
    · rintro (rfl | hk)
      · exact (GoMap.mem_keys_iff _ _).2 ⟨n, h⟩
      · exact hk
    · exact fun hk => Or.inr hk

theorem populateEndpoints_iter_calls_mv {σ ω : Type} (d : driver σ ω) (st : Store σ)
    (ep : endpoint) (hs : d.store = some st) :
    (populateEndpoints.iter d ep).calls = d.calls ++ staleDeletes d.networks [ep] := by
  unfold populateEndpoints.iter
  cases h : GoMap.lookup d.networks ep.nid with
  | none =>
    have hk : ep.nid ∉ GoMap.keys d.networks := (GoMap.not_mem_keys_iff _ _).2 h
    simp [storeDelete, hs, staleDeletes, hk]
  | some n =>
    have hk : ep.nid ∈ GoMap.keys d.networks := (GoMap.mem_keys_iff _ _).2 ⟨n, h⟩
    simp [staleDeletes, hk]

theorem populateEndpoints_foldl_store_mv {σ ω : Type} (eps : List endpoint) (d : driver σ ω) :
    (eps.foldl populateEndpoints.iter d).store = d.store := by
  induction eps generalizing d with
  | nil => rfl
  | cons e eps ih => rw [List.foldl_cons, ih, populateEndpoints_iter_store_mv]

theorem populateEndpoints_foldl_host_mv {σ ω : Type} (eps : List endpoint) (d : driver σ ω) :
    (eps.foldl populateEndpoints.iter d).host = d.host := by
  induction eps generalizing d with
  | nil => rfl
  | cons e eps ih => rw [List.foldl_cons, ih, populateEndpoints_iter_host_mv]

theorem populateEndpoints_foldl_mem_keys_mv {σ ω : Type} (eps : List endpoint) (d : driver σ ω)
    (k : String) :
    k ∈ GoMap.keys (eps.foldl populateEndpoints.iter d).networks ↔ k ∈ GoMap.keys d.networks := by
  induction eps generalizing d with
  | nil => rfl
  | cons e eps ih => rw [List.foldl_cons, ih, populateEndpoints_iter_mem_keys_mv]

theorem staleDeletes_congr_mv (nets nets' : networkTable) (eps : List endpoint)
    (h : ∀ k, k ∈ GoMap.keys nets ↔ k ∈ GoMap.keys nets') :
    staleDeletes nets eps = staleDeletes nets' eps := by
  unfold staleDeletes
  congr 1
  apply List.filter_congr
  intro e _
  simp [h]

theorem staleDeletes_cons_mv (nets : networkTable) (e : endpoint) (eps : List endpoint) :
    staleDeletes nets (e :: eps) = staleDeletes nets [e] ++ staleDeletes nets eps := by
  unfold staleDeletes
  by_cases h : e.nid ∈ GoMap.keys nets <;> simp [List.filter_cons, h]

theorem populateEndpoints_foldl_calls_mv {σ ω : Type} (eps : List endpoint) (d : driver σ ω)
    (st : Store σ) (hs : d.store = some st) :
    (eps.foldl populateEndpoints.iter d).calls = d.calls ++ staleDeletes d.networks eps := by
  induction eps generalizing d with
  | nil => simp [staleDeletes]
  | cons e eps ih =>
    rw [List.foldl_cons, ih _ (by rw [populateEndpoints_iter_store_mv]; exact hs),
      populateEndpoints_iter_calls_mv d st e hs, staleDeletes_cons_mv d.networks e eps,
      staleDeletes_congr_mv _ d.networks eps (populateEndpoints_iter_mem_keys_mv d e), List.append_assoc]

theorem populateEndpoints_iter_endpointAt_mv {σ ω : Type} (d : driver σ ω) (e : endpoint)
    (k i : String) :
    endpointAt (populateEndpoints.iter d e).networks k i =
      if k = e.nid ∧ i = e.id ∧ e.nid ∈ GoMap.keys d.networks then some e
      else endpointAt d.networks k i := by
  unfold populateEndpoints.iter
  cases h : GoMap.lookup d.networks e.nid with
  | none =>
    have hk : e.nid ∉ GoMap.keys d.networks := (GoMap.not_mem_keys_iff _ _).2 h
    cases hs : d.store <;> simp [storeDelete, hs, hk]
  | some n =>
    have hk : e.nid ∈ GoMap.keys d.networks := (GoMap.mem_keys_iff _ _).2 ⟨n, h⟩
    by_cases h1 : k = e.nid
    · subst h1
      by_cases h2 : i = e.id
      · simp [endpointAt, GoMap.lookup_insert, h2, hk]
      · simp [endpointAt, GoMap.lookup_insert, h2, h]
    · simp [endpointAt, GoMap.lookup_insert, h1]

theorem populateEndpoints_foldl_endpointAt_keep_mv {σ ω : Type} (post : List endpoint)
    (d : driver σ ω) (ep : endpoint)
    (hat : endpointAt d.networks ep.nid ep.id = some ep)
    (hpost : ∀ e ∈ post, ¬ (e.nid = ep.nid ∧ e.id = ep.id)) :
    endpointAt (post.foldl populateEndpoints.iter d).networks ep.nid ep.id = some ep := by
  induction post generalizing d with
  | nil => exact hat
  | cons e post ih =>
    rw [List.foldl_cons]
    apply ih
    · rw [populateEndpoints_iter_endpointAt_mv]
      have hne : ¬ (e.nid = ep.nid ∧ e.id = ep.id) := hpost e (List.mem_cons_self _ _)
      have hne2 : ¬ (ep.nid = e.nid ∧ ep.id = e.id ∧ e.nid ∈ GoMap.keys d.networks) :=
        fun hc => hne ⟨hc.1.symm, hc.2.1.symm⟩
      rw [if_neg hne2]
      exact hat
    · exact fun x hx => hpost x (List.mem_cons_of_mem _ hx)

theorem populateEndpoints_foldl_endpointAt_attach_mv {σ ω : Type} (pre post : List endpoint)
    (d : driver σ ω) (ep : endpoint) (hk : ep.nid ∈ GoMap.keys d.networks)
    (hpost : ∀ e ∈ post, ¬ (e.nid = ep.nid ∧ e.id = ep.id)) :
    endpointAt ((pre ++ ep :: post).foldl populateEndpoints.iter d).networks ep.nid ep.id
      = some ep := by
  rw [List.foldl_append, List.foldl_cons]
  apply populateEndpoints_foldl_endpointAt_keep_mv post _ ep _ hpost
  rw [populateEndpoints_iter_endpointAt_mv]
  have hk1 : ep.nid ∈ GoMap.keys (pre.foldl populateEndpoints.iter d).networks :=
    (populateEndpoints_foldl_mem_keys_mv pre d ep.nid).2 hk
  simp [hk1]

theorem populateEndpoints_foldl_endpointAt_origin_mv {σ ω : Type} (eps : List endpoint)
    (d : driver σ ω) (k i : String) (x : endpoint)
    (h : endpointAt (eps.foldl populateEndpoints.iter d).networks k i = some x) :
    endpointAt d.networks k i = some x ∨
      (x ∈ eps ∧ x.nid = k ∧ x.id = i ∧ k ∈ GoMap.keys d.networks) := by
  induction eps generalizing d with
  | nil => exact Or.inl h
  | cons e eps ih =>
    rw [List.foldl_cons] at h
    rcases ih _ h with h1 | ⟨hx, hn, hi, hkk⟩
    · rw [populateEndpoints_iter_endpointAt_mv] at h1
      by_cases hc : k = e.nid ∧ i = e.id ∧ e.nid ∈ GoMap.keys d.networks
      · rw [if_pos hc] at h1
        have hxe : e = x := Option.some.inj h1
        subst hxe
        exact Or.inr ⟨List.mem_cons_self _ _, hc.1.symm, hc.2.1.symm, hc.1 ▸ hc.2.2⟩
      · rw [if_neg hc] at h1
        exact Or.inl h1
    · exact Or.inr ⟨List.mem_cons_of_mem _ hx, hn, hi,
        (populateEndpoints_iter_mem_keys_mv d e k).1 hkk⟩

theorem populateEndpoints_of_list_mv {σ ω : Type} (d : driver σ ω) (st : Store σ)
    (eps : List endpoint) (hs : d.store = some st)
    (hl : (st.ListEndpoints d.backend).1 = (eps, none)) :
    populateEndpoints d = (Outcome.ret none,
      eps.foldl populateEndpoints.iter
        { d with backend := (st.ListEndpoints d.backend).2,
                 calls := d.calls ++ [Call.ListEndpoints] }) := by
  simp [populateEndpoints, hs, hl, errors.Is]

theorem listed_none_error_mv {α : Type} (r : List α × Option GoError) (h : listed r = none) :
    ∃ e, r.2 = some e ∧ errors.Is r.2 GoError.ErrKeyNotFound = false := by
  obtain ⟨l, err⟩ := r
  cases err with
  | none => simp [listed, errors.Is] at h
  | some e =>
    by_cases h1 : GoError.is e GoError.ErrKeyNotFound = true
    · simp [listed, errors.Is, h1] at h
    · exact ⟨e, rfl, by simpa [errors.Is] using h1⟩

theorem populateNetworks_eq_mv {σ ω : Type} (cn : CreateNetwork ω) (d : driver σ ω)
    (st : Store σ) (hs : d.store = some st) :
    populateNetworks cn d =
      match listed (st.ListConfigurations d.backend).1 with
      | some l =>
        (Outcome.ret none, l.foldl (populateNetworks.iter cn)
          { d with backend := (st.ListConfigurations d.backend).2,
                   calls := d.calls ++ [Call.ListConfigurations] })
      | none =>
        (Outcome.ret ((st.ListConfigurations d.backend).1.2.map
            (GoError.wrapError "failed to get macvlan network configurations from store")),
          { d with backend := (st.ListConfigurations d.backend).2,
                   calls := d.calls ++ [Call.ListConfigurations] }) := by
  unfold populateNetworks listed
  rw [hs]
  rcases hr : st.ListConfigurations d.backend with ⟨⟨kvol, err⟩, b⟩
  cases err with
  | none => simp [hr, errors.Is]
  | some e =>
    by_cases h : GoError.is e GoError.ErrKeyNotFound = true <;> simp [hr, errors.Is, h]

theorem populateEndpoints_eq_mv {σ ω : Type} (d : driver σ ω)
    (st : Store σ) (hs : d.store = some st) :
    populateEndpoints d =
      match listed (st.ListEndpoints d.backend).1 with
      | some l =>
        (Outcome.ret none, l.foldl populateEndpoints.iter
          { d with backend := (st.ListEndpoints d.backend).2,
                   calls := d.calls ++ [Call.ListEndpoints] })
      | none =>
        (Outcome.ret ((st.ListEndpoints d.backend).1.2.map
            (GoError.wrapError "failed to get macvlan endpoints from store")),
          { d with backend := (st.ListEndpoints d.backend).2,
                   calls := d.calls ++ [Call.ListEndpoints] }) := by
  unfold populateEndpoints listed
  rw [hs]
  rcases hr : st.ListEndpoints d.backend with ⟨⟨kvol, err⟩, b⟩
  cases err with
  | none => simp [hr, errors.Is]
  | some e =>
    by_cases h : GoError.is e GoError.ErrKeyNotFound = true <;> simp [hr, errors.Is, h]

theorem populateNetworks_foldl_eq_mv {σ ω : Type} (cn : CreateNetwork ω)
    (configs : List configuration) (d : driver σ ω) :
    configs.foldl (populateNetworks.iter cn) d =
      { d with networks := (restoreNetworks cn configs (d.networks, d.host)).1,
               host := (restoreNetworks cn configs (d.networks, d.host)).2,
               calls := d.calls ++ configs.map Call.createNetwork } := by
  induction configs generalizing d with
  | nil => simp [restoreNetworks]
  | cons c configs ih =>
    rw [List.foldl_cons, ih]
    simp [populateNetworks.iter, restoreNetworks]

theorem populateEndpoints_foldl_networks_mv {σ ω : Type} (eps : List endpoint) (d : driver σ ω) :
    (eps.foldl populateEndpoints.iter d).networks = attachAll d.networks eps := by
  induction eps generalizing d with
  | nil => rfl
  | cons e eps ih =>
    rw [List.foldl_cons, ih]
    unfold attachAll populateEndpoints.iter
    rw [List.foldl_cons]
    cases h : GoMap.lookup d.networks e.nid with
    | none => cases hs : d.store <;> simp [storeDelete, hs]
    | some n => simp

theorem populateEndpoints_foldl_backend_mv {σ ω : Type} (eps : List endpoint) (d : driver σ ω)
    (st : Store σ) (hs : d.store = some st) :
    (eps.foldl populateEndpoints.iter d).backend =
      deleteAll st (eps.filter (fun e => decide (e.nid ∉ GoMap.keys d.networks))) d.backend := by
  induction eps generalizing d with
  | nil => rfl
  | cons e eps ih =>
    rw [List.foldl_cons, ih _ (by rw [populateEndpoints_iter_store_mv]; exact hs)]
    have hcongr : eps.filter (fun x =>
          decide (x.nid ∉ GoMap.keys (populateEndpoints.iter d e).networks))
        = eps.filter (fun x => decide (x.nid ∉ GoMap.keys d.networks)) := by
      apply List.filter_congr
      intro x _
      simp [populateEndpoints_iter_mem_keys_mv]
    rw [hcongr]
    unfold populateEndpoints.iter
    cases h : GoMap.lookup d.networks e.nid with
    | none =>
      have hk : e.nid ∉ GoMap.keys d.networks := (GoMap.not_mem_keys_iff _ _).2 h
      simp [storeDelete, hs, List.filter_cons, hk, deleteAll]
    | some n =>
      have hk : e.nid ∈ GoMap.keys d.networks := (GoMap.mem_keys_iff _ _).2 ⟨n, h⟩
      simp [List.filter_cons, hk]

theorem attachAll_cons_mv (nets : networkTable) (e : endpoint) (eps : List endpoint) :
    attachAll nets (e :: eps) =
      attachAll (match GoMap.lookup nets e.nid with
        | none => nets
        | some n =>
          GoMap.insert nets e.nid { n with endpoints := GoMap.insert n.endpoints e.id e }) eps := by
  simp [attachAll]

theorem attachAll_filter_mv (nets : networkTable) (eps : List endpoint) :
    attachAll nets (eps.filter (fun e => decide (e.nid ∈ GoMap.keys nets))) = attachAll nets eps := by
  induction eps generalizing nets with
  | nil => rfl
  | cons e eps ih =>
    cases h : GoMap.lookup nets e.nid with
    | none =>
      have hk : e.nid ∉ GoMap.keys nets := (GoMap.not_mem_keys_iff _ _).2 h
      rw [List.filter_cons, attachAll_cons_mv, h]
      simp only [hk, decide_False, Bool.false_eq_true, if_false]
      exact ih nets
    | some n =>
      have hk : e.nid ∈ GoMap.keys nets := (GoMap.mem_keys_iff _ _).2 ⟨n, h⟩
      rw [List.filter_cons, attachAll_cons_mv, h]
      simp only [hk, decide_True, if_true]
      rw [attachAll_cons_mv, h]
      simp only []
      rw [← ih]
      congr 1
      apply List.filter_congr
      intro x _
      simp only [GoMap.mem_keys_insert, decide_eq_decide]
      constructor
      · exact fun hx => Or.inr hx
      · rintro (hx | hx)
        · rw [hx]; exact hk
        · exact hx

theorem staleDeletes_filter_mv (nets : networkTable) (eps : List endpoint) :
    staleDeletes nets (eps.filter (fun e => decide (e.nid ∈ GoMap.keys nets))) = [] := by
  unfold staleDeletes
  rw [List.filter_filter]
  simp

theorem deleteAll_listConfigurations_mv {σ : Type} (st : Store σ) (law : st.DeletionsSucceed)
    (os : List endpoint) (s : σ) :
    (st.ListConfigurations (deleteAll st os s)).1 = (st.ListConfigurations s).1 := by
  induction os generalizing s with
  | nil => rfl
  | cons o os ih =>
    unfold deleteAll
    rw [List.foldl_cons]
    exact (ih _).trans (law.delete_configurations s o)

theorem deleteAll_listEndpoints_mv {σ : Type} (st : Store σ) (law : st.DeletionsSucceed)
    (os : List endpoint) (s : σ) :
    listed (st.ListEndpoints (deleteAll st os s)).1 =
      (listed (st.ListEndpoints s).1).map
        (List.filter (fun x => decide (x.id ∉ os.map endpoint.id))) := by
  induction os generalizing s with
  | nil =>
    cases h : listed (st.ListEndpoints s).1 <;> simp [deleteAll, h]
  | cons o os ih =>
    unfold deleteAll
    rw [List.foldl_cons]
    refine (ih _).trans ?_
    rw [law.delete_endpoints s o]
    cases h : listed (st.ListEndpoints s).1 with
    | none => rfl
    | some l =>
      simp only [Option.map_some', List.filter_filter, Option.some.injEq]
      apply List.filter_congr
      intro x _
      by_cases h1 : x.id = o.id <;> by_cases h2 : x.id ∈ os.map endpoint.id <;> simp [h1, h2]

theorem filter_survivors_mv (nets : networkTable) (eps : List endpoint)
    (hnd : (eps.map endpoint.id).Nodup) :
    eps.filter (fun x => decide (x.id ∉
        (eps.filter (fun e => decide (e.nid ∉ GoMap.keys nets))).map endpoint.id))
      = eps.filter (fun e => decide (e.nid ∈ GoMap.keys nets)) := by
  apply List.filter_congr
  intro x hx
  simp only [decide_eq_decide, List.mem_map, List.mem_filter, decide_eq_true_eq, not_exists,
    not_and]
  constructor
  · intro h
    by_contra hc
    exact h x ⟨hx, hc⟩ rfl
  · intro h y hy hxy
    have : y = x := List.inj_on_of_nodup_map hnd hy.1 hx hxy
    subst this
    exact hy.2 h

theorem restoreNetworks_host_mv {ω : Type} (cn : CreateNetwork ω)
    (hcn : ∀ c nets h h', (cn c nets h).2.1 = (cn c nets h').2.1)
    (configs : List configuration) (nets : networkTable) (h h' : ω) :
    (restoreNetworks cn configs (nets, h)).1 = (restoreNetworks cn configs (nets, h')).1 := by
  induction configs generalizing nets h h' with
  | nil => rfl
  | cons c configs ih =>
    unfold restoreNetworks
    rw [List.foldl_cons, List.foldl_cons]
    have e1 : (cn c nets h).2 = ((cn c nets h).2.1, (cn c nets h).2.2) := rfl
    have e2 : (cn c nets h').2 = ((cn c nets h).2.1, (cn c nets h').2.2) := by
      rw [hcn c nets h h']
    rw [e1, e2]
    exact ih _ _ _

theorem populateEndpoints_foldl_eq_mv {σ ω : Type} (eps : List endpoint) (d : driver σ ω)
    (st : Store σ) (hs : d.store = some st) :
    eps.foldl populateEndpoints.iter d =
      { networks := attachAll d.networks eps
        store := some st
        backend := deleteAll st
          (eps.filter (fun e => decide (e.nid ∉ GoMap.keys d.networks))) d.backend
        host := d.host
        calls := d.calls ++ staleDeletes d.networks eps } := by
  have h0 : eps.foldl populateEndpoints.iter d =
      ⟨(eps.foldl populateEndpoints.iter d).networks, (eps.foldl populateEndpoints.iter d).store,
        (eps.foldl populateEndpoints.iter d).backend, (eps.foldl populateEndpoints.iter d).host,
        (eps.foldl populateEndpoints.iter d).calls⟩ := rfl
  rw [h0, populateEndpoints_foldl_networks_mv, populateEndpoints_foldl_store_mv,
    populateEndpoints_foldl_backend_mv eps d st hs, populateEndpoints_foldl_host_mv,
    populateEndpoints_foldl_calls_mv eps d st hs, hs]

theorem initStore_eq_mv {σ ω : Type} (cn : CreateNetwork ω) (d : driver σ ω) (st : Store σ)
    (hs : d.store = some st) (law : st.DeletionsSucceed) :
    initStore cn d =
      match listed (st.ListConfigurations d.backend).1 with
      | none =>
        (Outcome.ret ((st.ListConfigurations d.backend).1.2.map
            (GoError.wrapError "failed to get macvlan network configurations from store")),
          { d with calls := d.calls ++ [Call.ListConfigurations] })
      | some configs =>
        match listed (st.ListEndpoints d.backend).1 with
        | none =>
          (Outcome.ret ((st.ListEndpoints d.backend).1.2.map
              (GoError.wrapError "failed to get macvlan endpoints from store")),
            { d with
              networks := (restoreNetworks cn configs (d.networks, d.host)).1
              host := (restoreNetworks cn configs (d.networks, d.host)).2
              calls := d.calls ++ [Call.ListConfigurations] ++ configs.map Call.createNetwork
                ++ [Call.ListEndpoints] })
        | some eps =>
          (Outcome.ret none,
            { networks := attachAll (restoreNetworks cn configs (d.networks, d.host)).1 eps
              store := some st
              backend := deleteAll st (eps.filter (fun e => decide (e.nid ∉
                GoMap.keys (restoreNetworks cn configs (d.networks, d.host)).1))) d.backend
              host := (restoreNetworks cn configs (d.networks, d.host)).2
              calls := d.calls ++ [Call.ListConfigurations] ++ configs.map Call.createNetwork
                ++ [Call.ListEndpoints]
                ++ staleDeletes (restoreNetworks cn configs (d.networks, d.host)).1 eps }) := by
  unfold initStore
  rw [populateNetworks_eq_mv cn d st hs]
  cases hA : listed (st.ListConfigurations d.backend).1 with
  | none =>
    obtain ⟨e, he, _⟩ := listed_none_error_mv _ hA
    simp [he, law.listConfigurations_backend]
  | some configs =>
    simp only [populateNetworks_foldl_eq_mv, law.listConfigurations_backend]
    rw [hs, populateEndpoints_eq_mv (driver.mk _ (some st) _ _ _) st rfl]
    simp only [law.listEndpoints_backend]
    cases hB : listed (st.ListEndpoints d.backend).1 with
    | none =>
      obtain ⟨e, he, _⟩ := listed_none_error_mv _ hB
      simp [he]
    | some eps =>
      simp only []
      rw [populateEndpoints_foldl_eq_mv eps (driver.mk _ (some st) _ _ _) st rfl]

theorem initStore_rerun_mv {σ ω : Type} (cn : CreateNetwork ω) (d : driver σ ω) (st : Store σ)
    (hs : d.store = some st) (law : st.DeletionsSucceed)
    (hcn : (populateNetworks cn { d with
        backend := (initStore cn d).2.backend
        host := (initStore cn d).2.host
        calls := [] }).2.networks = (populateNetworks cn d).2.networks)
    (hnd : ∀ eps, listed (st.ListEndpoints d.backend).1 = some eps →
      (eps.map endpoint.id).Nodup) :
    (∀ o, Call.DeleteObject o ∉ (initStore cn { d with
        backend := (initStore cn d).2.backend
        host := (initStore cn d).2.host
        calls := [] }).2.calls) ∧
    (initStore cn { d with
        backend := (initStore cn d).2.backend
        host := (initStore cn d).2.host
        calls := [] }).2.networks = (initStore cn d).2.networks ∧
    (initStore cn { d with
        backend := (initStore cn d).2.backend
        host := (initStore cn d).2.host
        calls := [] }).2.backend = (initStore cn d).2.backend ∧
    (initStore cn { d with
        backend := (initStore cn d).2.backend
        host := (initStore cn d).2.host
        calls := [] }).1 = (initStore cn d).1 := by
  have h1 := initStore_eq_mv cn d st hs law
  have hp := populateNetworks_eq_mv cn d st hs
  cases hA : listed (st.ListConfigurations d.backend).1 with
  | none =>
    rw [hA] at h1
    simp only [] at h1
    rw [h1]
    simp only []
    rw [hs, initStore_eq_mv cn (driver.mk _ (some st) _ _ _) st rfl law]
    simp only [hA]
    simp
  | some configs =>
    rw [hA] at h1 hp
    simp only [] at h1
    simp only [populateNetworks_foldl_eq_mv] at hp
    rw [hp] at hcn
    simp only [] at hcn
    cases hB : listed (st.ListEndpoints d.backend).1 with
    | none =>
      rw [hB] at h1
      simp only [] at h1
      rw [h1] at hcn
      simp only [] at hcn
      rw [hs, populateNetworks_eq_mv cn (driver.mk _ (some st) _ _ _) st rfl] at hcn
      simp only [hA, populateNetworks_foldl_eq_mv] at hcn
      rw [h1]
      simp only []
      rw [hs, initStore_eq_mv cn (driver.mk _ (some st) _ _ _) st rfl law]
      simp only [hA, hB]
      rw [hcn]
      simp
    | some eps =>
      rw [hB] at h1
      simp only [] at h1
      rw [h1] at hcn
      simp only [] at hcn
      rw [hs, populateNetworks_eq_mv cn (driver.mk _ (some st) _ _ _) st rfl] at hcn
      simp only [deleteAll_listConfigurations_mv st law, hA, populateNetworks_foldl_eq_mv] at hcn
      rw [h1]
      simp only []
      rw [hs, initStore_eq_mv cn (driver.mk _ (some st) _ _ _) st rfl law]
      simp only [deleteAll_listConfigurations_mv st law, deleteAll_listEndpoints_mv st law, hA, hB,
        Option.map_some']
      rw [hcn]
      rw [filter_survivors_mv _ eps (hnd eps hB)]
      simp only [attachAll_filter_mv, staleDeletes_filter_mv, true_and]
      have hff : ∀ K : List String,
          List.filter (fun e : endpoint => decide (e.nid ∉ K))
            (List.filter (fun e : endpoint => decide (e.nid ∈ K)) eps) = [] := by
        intro K
        rw [List.filter_filter]
        simp
      rw [hff]
      simp [deleteAll]

/-- When the effect of `createNetwork` on the index does not depend on the
host, the network phase of a second run rebuilds the index of the first. -/
theorem populateNetworks_rerun_of_host_mv {σ ω : Type} (cn : CreateNetwork ω) (d : driver σ ω)
    (st : Store σ) (hs : d.store = some st) (law : st.DeletionsSucceed)
    (hcn : ∀ c nets h h', (cn c nets h).2.1 = (cn c nets h').2.1) :
    (populateNetworks cn { d with
        backend := (initStore cn d).2.backend
        host := (initStore cn d).2.host
        calls := [] }).2.networks = (populateNetworks cn d).2.networks := by
  have h1 := initStore_eq_mv cn d st hs law
  have hp := populateNetworks_eq_mv cn d st hs
  cases hA : listed (st.ListConfigurations d.backend).1 with
  | none =>
    rw [hA] at h1 hp
    simp only [] at h1 hp
    rw [h1, hp]
    simp only []
    rw [hs, populateNetworks_eq_mv cn (driver.mk _ (some st) _ _ _) st rfl]
    simp only [hA]
  | some configs =>
    rw [hA] at h1 hp
    simp only [] at h1
    simp only [populateNetworks_foldl_eq_mv] at hp
    rw [hp]
    cases hB : listed (st.ListEndpoints d.backend).1 with
    | none =>
      rw [hB] at h1
      simp only [] at h1
      rw [h1]
      simp only []
      rw [hs, populateNetworks_eq_mv cn (driver.mk _ (some st) _ _ _) st rfl]
      simp only [hA, populateNetworks_foldl_eq_mv]
      exact restoreNetworks_host_mv cn hcn configs d.networks _ d.host
    | some eps =>
      rw [hB] at h1
      simp only [] at h1
      rw [h1]
      simp only []
      rw [hs, populateNetworks_eq_mv cn (driver.mk _ (some st) _ _ _) st rfl]
      simp only [deleteAll_listConfigurations_mv st law, hA, populateNetworks_foldl_eq_mv]
      exact restoreNetworks_host_mv cn hcn configs d.networks _ d.host

theorem memStore_deletionsSucceed_mv : MemStore.store.DeletionsSucceed where
  listConfigurations_backend := fun _ => rfl
  listEndpoints_backend := fun _ => rfl
  delete_ok := fun _ _ => rfl
  delete_configurations := fun _ _ => rfl
  delete_endpoints := by
    intro s e
    simp only [MemStore.store]
    by_cases h : s.endpoints = []
    · simp [h, listed, errors.Is, GoError.is]
    · by_cases h2 : s.endpoints.filter (fun x => decide (x.id ≠ e.id)) = []
      · rw [if_pos h2, if_neg h]
        simp only [listed, errors.Is, GoError.is, decide_True, if_true, Option.map_some']
        simp only [Bool.false_eq_true, if_false, Option.map_some', h2]
      · rw [if_neg h2, if_neg h]
        simp [listed, errors.Is]

theorem listed_eq_none_iff_mv {α : Type} (r : List α × Option GoError) :
    listed r = none ↔ (r.2 ≠ none ∧ errors.Is r.2 GoError.ErrKeyNotFound = false) := by
  obtain ⟨l, err⟩ := r
  cases err with
  | none => simp [listed, errors.Is]
  | some e =>
    by_cases h1 : GoError.is e GoError.ErrKeyNotFound = true <;> simp [listed, errors.Is, h1]

theorem listed_of_ok_mv {α : Type} (l : List α) : listed (l, (none : Option GoError)) = some l := by
  simp [listed, errors.Is]

theorem initStore_of_success_mv {σ ω : Type} (cn : CreateNetwork ω) (d : driver σ ω)
    (h : (populateNetworks cn d).1 = Outcome.ret none) :
    initStore cn d = populateEndpoints (populateNetworks cn d).2 := by
  unfold initStore
  rcases hp : populateNetworks cn d with ⟨o, d1⟩
  rw [hp] at h
  simp only [] at h
  subst h
  simp only []
  rcases hq : populateEndpoints d1 with ⟨o2, d2⟩
  rcases o2 with (_ | e) | r <;> rfl

theorem initStore_of_failure_mv {σ ω : Type} (cn : CreateNetwork ω) (d : driver σ ω)
    (h : (populateNetworks cn d).1 ≠ Outcome.ret none) :
    initStore cn d = populateNetworks cn d := by
  unfold initStore
  rcases hp : populateNetworks cn d with ⟨o, d1⟩
  rw [hp] at h
  rcases o with (_ | e) | r
  · exact absurd rfl h
  · rfl
  · rfl

theorem populateNetworks_backend_mv {σ ω : Type} (cn : CreateNetwork ω) (d : driver σ ω)
    (st : Store σ) (hs : d.store = some st) :
    (populateNetworks cn d).2.backend = (st.ListConfigurations d.backend).2 ∧
      (populateNetworks cn d).2.store = some st := by
  rw [populateNetworks_eq_mv cn d st hs]
  cases listed (st.ListConfigurations d.backend).1 with
  | none => exact ⟨rfl, hs⟩
  | some l =>
    simp only [populateNetworks_foldl_eq_mv]
    exact ⟨trivial, hs⟩

theorem populateNetworks_success_iff_mv {σ ω : Type} (cn : CreateNetwork ω) (d : driver σ ω)
    (st : Store σ) (hs : d.store = some st) :
    (populateNetworks cn d).1 = Outcome.ret none ↔
      listed (st.ListConfigurations d.backend).1 ≠ none := by
  rw [populateNetworks_eq_mv cn d st hs]
  cases h : listed (st.ListConfigurations d.backend).1 with
  | none =>
    obtain ⟨e, he, _⟩ := listed_none_error_mv _ h
    simp [he]
  | some l => simp

theorem populateEndpoints_success_iff_mv {σ ω : Type} (d : driver σ ω)
    (st : Store σ) (hs : d.store = some st) :
    (populateEndpoints d).1 = Outcome.ret none ↔
      listed (st.ListEndpoints d.backend).1 ≠ none := by
  rw [populateEndpoints_eq_mv d st hs]
  cases h : listed (st.ListEndpoints d.backend).1 with
  | none =>
    obtain ⟨e, he, _⟩ := listed_none_error_mv _ h
    simp [he]
  | some l => simp

theorem populateNetworks_outcome_mv {σ ω : Type} (cn : CreateNetwork ω) (d : driver σ ω)
    (st : Store σ) (hs : d.store = some st) :
    ∃ err, (populateNetworks cn d).1 = Outcome.ret err := by
  rw [populateNetworks_eq_mv cn d st hs]
  cases listed (st.ListConfigurations d.backend).1 <;> exact ⟨_, rfl⟩

theorem populateEndpoints_outcome_mv {σ ω : Type} (d : driver σ ω)
    (st : Store σ) (hs : d.store = some st) :
    ∃ err, (populateEndpoints d).1 = Outcome.ret err := by
  rw [populateEndpoints_eq_mv d st hs]
  cases listed (st.ListEndpoints d.backend).1 <;> exact ⟨_, rfl⟩

theorem populateEndpoints_treats_mv {σ ω : Type} (d : driver σ ω) (st : Store σ)
    (eps : List endpoint) (hs : d.store = some st)
    (hl : (st.ListEndpoints d.backend).1 = (eps, none)) :
    (populateEndpoints d).1 = Outcome.ret none ∧
    (populateEndpoints d).2.calls = d.calls ++ Call.ListEndpoints ::
      (eps.filter (fun e => decide (e.nid ∉ GoMap.keys d.networks))).map
        (fun e => Call.DeleteObject (KVObject.endpoint e)) ∧
    (∀ pre ep post, eps = pre ++ ep :: post → ep.nid ∈ GoMap.keys d.networks →
      (∀ e ∈ post, ¬ (e.nid = ep.nid ∧ e.id = ep.id)) →
      endpointAt (populateEndpoints d).2.networks ep.nid ep.id = some ep) ∧
    (∀ ep ∈ eps, ep.nid ∉ GoMap.keys d.networks →
      Call.DeleteObject (KVObject.endpoint ep) ∈ (populateEndpoints d).2.calls ∧
      ∀ k i, endpointAt (populateEndpoints d).2.networks k i = some ep →
        endpointAt d.networks k i = some ep) := by
  rw [populateEndpoints_of_list_mv d st eps hs hl]
  have hs1 : ∀ b c, ({ d with backend := b, calls := c } : driver σ ω).store = some st :=
    fun _ _ => hs
  refine ⟨rfl, ?_, ?_, ?_⟩
  · simp only []
    rw [populateEndpoints_foldl_calls_mv eps _ st (hs1 _ _)]
    simp [staleDeletes]
  · intro pre ep post he hk hpost
    subst he
    exact populateEndpoints_foldl_endpointAt_attach_mv pre post _ ep hk hpost
  · intro ep hep hk
    constructor
    · simp only []
      rw [populateEndpoints_foldl_calls_mv eps _ st (hs1 _ _)]
      simp only [staleDeletes, List.mem_append, List.mem_map, List.mem_filter]
      exact Or.inr ⟨ep, ⟨hep, by simpa using hk⟩, rfl⟩
    · intro k i h
      rcases populateEndpoints_foldl_endpointAt_origin_mv eps _ k i ep h with h1 | ⟨_, hn, _, hkk⟩
      · exact h1
      · exact absurd (hn ▸ hkk) hk

theorem initStore_error_iff_mv {σ ω : Type} (cn : CreateNetwork ω) (d : driver σ ω)
    (st : Store σ) (hs : d.store = some st) :
    ((∃ e, (initStore cn d).1 = Outcome.ret (some e)) ↔
      (((st.ListConfigurations d.backend).1.2 ≠ none ∧
          errors.Is (st.ListConfigurations d.backend).1.2 GoError.ErrKeyNotFound = false) ∨
        (¬ ((st.ListConfigurations d.backend).1.2 ≠ none ∧
            errors.Is (st.ListConfigurations d.backend).1.2 GoError.ErrKeyNotFound = false) ∧
          (st.ListEndpoints (st.ListConfigurations d.backend).2).1.2 ≠ none ∧
          errors.Is (st.ListEndpoints (st.ListConfigurations d.backend).2).1.2
            GoError.ErrKeyNotFound = false))) ∧
    (∃ err, (initStore cn d).1 = Outcome.ret err) := by
  obtain ⟨hb, hs1⟩ := populateNetworks_backend_mv cn d st hs
  rw [← listed_eq_none_iff_mv, ← listed_eq_none_iff_mv]
  by_cases h : listed (st.ListConfigurations d.backend).1 = none
  · have hf : (populateNetworks cn d).1 ≠ Outcome.ret none :=
      fun hc => (populateNetworks_success_iff_mv cn d st hs).1 hc h
    rw [initStore_of_failure_mv cn d hf]
    obtain ⟨err, he⟩ := populateNetworks_outcome_mv cn d st hs
    refine ⟨?_, err, he⟩
    rw [he]
    cases err with
    | none => exact absurd he hf
    | some e => simp [h]
  · have hok : (populateNetworks cn d).1 = Outcome.ret none :=
      (populateNetworks_success_iff_mv cn d st hs).2 h
    rw [initStore_of_success_mv cn d hok]
    obtain ⟨err, he⟩ := populateEndpoints_outcome_mv _ st hs1
    refine ⟨?_, err, he⟩
    have hiff := populateEndpoints_success_iff_mv _ st hs1
    rw [hb] at hiff
    rw [he] at hiff ⊢
    cases err with
    | none =>
      have := hiff.1 rfl
      simp [h, this]
    | some e =>
      have : listed (st.ListEndpoints (st.ListConfigurations d.backend).2).1 = none := by
        by_contra hc
        have := hiff.2 hc
        simp at this
      simp [h, this]

theorem populateNetworks_attempts_mv {σ ω : Type} (cn : CreateNetwork ω) (d : driver σ ω)
    (st : Store σ) (rs : List configuration) (hs : d.store = some st)
    (hl : (st.ListConfigurations d.backend).1 = (rs, none)) :
    (populateNetworks cn d).1 = Outcome.ret none ∧
    (populateNetworks cn d).2.calls =
      d.calls ++ Call.ListConfigurations :: rs.map Call.createNetwork ∧
    ((populateNetworks cn d).2.networks, (populateNetworks cn d).2.host) =
      rs.foldl (fun s config => (cn config s.1 s.2).2) (d.networks, d.host) := by
  rw [populateNetworks_eq_mv cn d st hs, hl, listed_of_ok_mv]
  simp [populateNetworks_foldl_eq_mv, restoreNetworks]

theorem populateNetworks_empty_mv {σ ω : Type} (cn : CreateNetwork ω) (d : driver σ ω)
    (st : Store σ) (hs : d.store = some st)
    (h : errors.Is (st.ListConfigurations d.backend).1.2 GoError.ErrKeyNotFound = true ∨
      (st.ListConfigurations d.backend).1 = ([], none)) :
    populateNetworks cn d = (Outcome.ret none,
      { d with backend := (st.ListConfigurations d.backend).2
               calls := d.calls ++ [Call.ListConfigurations] }) := by
  have hl : listed (st.ListConfigurations d.backend).1 = some [] := by
    rcases h with h | h
    · simp [listed, h]
    · rw [h, listed_of_ok_mv]
  rw [populateNetworks_eq_mv cn d st hs, hl]
  rfl

theorem populateEndpoints_empty_mv {σ ω : Type} (d : driver σ ω)
    (st : Store σ) (hs : d.store = some st)
    (h : errors.Is (st.ListEndpoints d.backend).1.2 GoError.ErrKeyNotFound = true ∨
      (st.ListEndpoints d.backend).1 = ([], none)) :
    populateEndpoints d = (Outcome.ret none,
      { d with backend := (st.ListEndpoints d.backend).2
               calls := d.calls ++ [Call.ListEndpoints] }) := by
  have hl : listed (st.ListEndpoints d.backend).1 = some [] := by
    rcases h with h | h
    · simp [listed, h]
    · rw [h, listed_of_ok_mv]
  rw [populateEndpoints_eq_mv d st hs, hl]
  rfl

theorem initStore_order_mv {σ ω : Type} (cn : CreateNetwork ω) (d : driver σ ω)
    (st : Store σ) (hs : d.store = some st) :
    (listed (st.ListConfigurations d.backend).1 = none →
      (∃ e, (populateNetworks cn d).1 = Outcome.ret (some e)) ∧
      initStore cn d = populateNetworks cn d ∧
      (initStore cn d).2.calls = d.calls ++ [Call.ListConfigurations] ∧
      (initStore cn d).2.networks = d.networks) ∧
    (∀ configs, listed (st.ListConfigurations d.backend).1 = some configs →
      (populateNetworks cn d).1 = Outcome.ret none ∧
      (populateNetworks cn d).2.calls =
        d.calls ++ Call.ListConfigurations :: configs.map Call.createNetwork ∧
      ((populateNetworks cn d).2.networks, (populateNetworks cn d).2.host) =
        restoreNetworks cn configs (d.networks, d.host) ∧
      initStore cn d = populateEndpoints (populateNetworks cn d).2 ∧
      (listed (st.ListEndpoints (populateNetworks cn d).2.backend).1 = none →
        (initStore cn d).2.calls = (populateNetworks cn d).2.calls ++ [Call.ListEndpoints] ∧
        (initStore cn d).2.networks = (populateNetworks cn d).2.networks) ∧
      (∀ eps, listed (st.ListEndpoints (populateNetworks cn d).2.backend).1 = some eps →
        (initStore cn d).2.calls = (populateNetworks cn d).2.calls ++ Call.ListEndpoints ::
          (eps.filter (fun e =>
              decide (e.nid ∉ GoMap.keys (populateNetworks cn d).2.networks))).map
            (fun e => Call.DeleteObject (KVObject.endpoint e)) ∧
        (initStore cn d).2.networks = attachAll (populateNetworks cn d).2.networks eps)) := by
  obtain ⟨_, hs1⟩ := populateNetworks_backend_mv cn d st hs
  constructor
  · intro hA
    have hne : (populateNetworks cn d).1 ≠ Outcome.ret none := fun h =>
      (populateNetworks_success_iff_mv cn d st hs).1 h hA
    have hi := initStore_of_failure_mv cn d hne
    have hp := populateNetworks_eq_mv cn d st hs
    rw [hA] at hp
    obtain ⟨e, he, _⟩ := listed_none_error_mv _ hA
    refine ⟨⟨GoError.wrapError "failed to get macvlan network configurations from store" e, ?_⟩,
      hi, ?_, ?_⟩
    · rw [hp, he]; rfl
    · rw [hi, hp]
    · rw [hi, hp]
  · intro configs hA
    have hp := populateNetworks_eq_mv cn d st hs
    rw [hA] at hp
    simp only [populateNetworks_foldl_eq_mv] at hp
    have hok : (populateNetworks cn d).1 = Outcome.ret none := by rw [hp]
    have hi := initStore_of_success_mv cn d hok
    have hpe := populateEndpoints_eq_mv (populateNetworks cn d).2 st hs1
    refine ⟨hok, ?_, ?_, hi, ?_, ?_⟩
    · rw [hp]; simp
    · rw [hp]
    · intro hl
      rw [hl] at hpe
      rw [hi, hpe]
      exact ⟨rfl, rfl⟩
    · intro eps hl
      rw [hl] at hpe
      constructor
      · rw [hi, hpe]
        simp only []
        rw [hs1, populateEndpoints_foldl_calls_mv eps (driver.mk _ (some st) _ _ _) st rfl]
        simp [staleDeletes]
      · rw [hi, hpe]
        simp only []
        rw [populateEndpoints_foldl_networks_mv]

theorem depth_subnetsValue_mv (l : List (Option ipSubnet)) :
    json.depth (subnetsValue l) ≤ 2 := by
  have h : ∀ l : List (Option ipSubnet), json.depthElems (l.map (fun p =>
      match p with
      | none => json.GoValue.nil
      | some s =>
        json.GoValue.object
          [("SubnetIP", json.GoValue.string s.SubnetIP),
           ("GwIP", json.GoValue.string s.GwIP)])) ≤ 1 := by
    intro l
    induction l with
    | nil => simp [json.depthElems]
    | cons p l ih =>
      cases p with
      | none =>
        simp only [List.map_cons, json.depthElems, json.depth]
        exact max_le (by omega) ih
      | some s =>
        simp only [List.map_cons, json.depthElems, json.depth, json.depthFields]
        exact max_le (by simp) ih
  simp only [subnetsValue, json.depth]
  have := h l
  omega

theorem decodeSubnets_toDocs_mv (l : List (Option ipSubnet)) :
    decodeSubnets [] (json.toDocs (l.map (fun p =>
      match p with
      | none => json.GoValue.nil
      | some s =>
        json.GoValue.object
          [("SubnetIP", json.GoValue.string s.SubnetIP),
           ("GwIP", json.GoValue.string s.GwIP)]))) = (l, none) := by
  induction l with
  | nil => rfl
  | cons p l ih =>
    cases p with
    | none =>
      simp only [List.map_cons, json.toDocs, json.toDoc, decodeSubnets, List.head?_nil,
        Option.join, List.tail_nil, ih, decodeSubnet]
      rfl
    | some s =>
      simp only [List.map_cons, json.toDocs, json.toDoc, json.toDocFields, decodeSubnets,
        List.head?_nil, List.tail_nil, ih, decodeSubnet, List.foldl_cons, List.foldl_nil,
        setSubnetField]
      simp

/-- Decoding the printed form of a subnet slice into an empty slice gives the
slice back. -/
theorem unmarshalSubnets_encode_mv (l : List (Option ipSubnet)) :
    unmarshalSubnets [] [] (json.encode (subnetsValue l)) = (l, none) := by
  have hp := json.parse_encode (subnetsValue l) (by
    have := depth_subnetsValue_mv l
    simp only [json.maxNestingDepth]
    omega)
  unfold unmarshalSubnets
  rw [hp]
  simp only [subnetsValue, json.toDoc]
  exact decodeSubnets_toDocs_mv l

/-- A slice without capacity has none after a decode either. -/
theorem spareAfter_nil_mv (b : json.Text) : spareAfter [] [] b = [] := by
  unfold spareAfter
  split <;> rfl

end macvlan

/-! ## Serialization of the ipvlan network record: round trip -/

namespace ipvlan

/-- What `UnmarshalJSON` does with a payload that decodes to a map in which
every type assertion succeeds and the subnet lists decode: it returns no
error and sets every serialized field from the map. -/
theorem configuration.UnmarshalJSON_ok (config : configuration) (b : json.Text)
    (nMap : GoMap json.JSON) (id parent mode flag : String) (m e : Int) (f : json.Float64)
    (internal created : Bool) (v4 v6 s4 s6 : List (Option ipSubnet))
    (hu : json.unmarshalMap b = Except.ok nMap)
    (hID : GoMap.lookup nMap "ID" = some (json.JSON.string id))
    (hMtu : GoMap.lookup nMap "Mtu" = some (json.JSON.number m e))
    (hf : json.Float64.ofDecimal m e = some f)
    (hParent : GoMap.lookup nMap "Parent" = some (json.JSON.string parent))
    (hMode : GoMap.lookup nMap "IpvlanMode" = some (json.JSON.string mode))
    (hFlag : (match GoMap.lookup nMap "IpvlanFlag" with
              | some v => json.assertString (some v)
              | none => some flagBridge) = some flag)
    (hInternal : GoMap.lookup nMap "Internal" = some (json.JSON.bool internal))
    (hCreated : GoMap.lookup nMap "CreatedSubIface" = some (json.JSON.bool created))
    (h4 : (match GoMap.lookup nMap "Ipv4Subnets" with
           | some v =>
             match json.assertString (some v) with
             | none => none
             | some s =>
               some (unmarshalSubnets config.Ipv4Subnets config.Ipv4Spare s.data,
                 spareAfter config.Ipv4Subnets config.Ipv4Spare s.data)
           | none => some ((config.Ipv4Subnets, none), config.Ipv4Spare))
        = some ((v4, none), s4))
    (h6 : (match GoMap.lookup nMap "Ipv6Subnets" with
           | some v =>
             match json.assertString (some v) with
             | none => none
             | some s =>
               some (unmarshalSubnets config.Ipv6Subnets config.Ipv6Spare s.data,
                 spareAfter config.Ipv6Subnets config.Ipv6Spare s.data)
           | none => some ((config.Ipv6Subnets, none), config.Ipv6Spare))
        = some ((v6, none), s6)) :
    configuration.UnmarshalJSON config b = (Outcome.ret none,
      { config with
        ID := id, Mtu := f.toInt, Parent := parent, IpvlanMode := mode, IpvlanFlag := flag,
        Internal := internal, CreatedSlaveLink := created, Ipv4Subnets := v4,
        Ipv6Subnets := v6, Ipv4Spare := s4, Ipv6Spare := s6 }) := by
  unfold configuration.UnmarshalJSON
  simp only [hu, hID, hMtu, hParent, hMode, hInternal, hCreated, json.assertString_string,
    json.assertFloat64_number, json.assertBool_bool, hf]
  rw [hFlag]
  simp only []
  rw [h4]
  simp only []
  rw [h6]

theorem configuration.MarshalJSON_eq (c : configuration) :
    configuration.MarshalJSON c = (json.encode (json.GoValue.object (configuration.nMap c)), none) :=
  rfl

theorem configuration.nMap_sorted (c : configuration) : GoMap.Sorted (configuration.nMap c) := by
  unfold configuration.nMap
  simp only []
  split_ifs <;> repeat' apply GoMap.insert_sorted
  all_goals exact GoMap.sorted_nil

theorem configuration.nMap_scalar (c : configuration) (f : json.Float64)
    (hf : json.Float64.ofDecimal c.Mtu 0 = some f) :
    ∀ kv ∈ configuration.nMap c, json.Scalar kv.2 := by
  have hi := json.scalar_int c.Mtu f hf
  intro kv hkv
  unfold configuration.nMap at hkv
  simp only [] at hkv
  split_ifs at hkv <;>
    repeat' (first
      | (rcases json.mem_insert _ _ _ _ hkv with hkv | hkv)
      | (rw [hkv]; first | exact json.scalar_string _ | exact json.scalar_bool _ | exact hi)
      | (exact absurd hkv (List.not_mem_nil _)))

theorem configuration.nMap_lookup (c : configuration) :
    GoMap.lookup (configuration.nMap c) "ID" = some (json.GoValue.string c.ID) ∧
    GoMap.lookup (configuration.nMap c) "Mtu" = some (json.GoValue.int c.Mtu) ∧
    GoMap.lookup (configuration.nMap c) "Parent" = some (json.GoValue.string c.Parent) ∧
    GoMap.lookup (configuration.nMap c) "IpvlanMode" = some (json.GoValue.string c.IpvlanMode) ∧
    GoMap.lookup (configuration.nMap c) "IpvlanFlag" = some (json.GoValue.string c.IpvlanFlag) ∧
    GoMap.lookup (configuration.nMap c) "Internal" = some (json.GoValue.bool c.Internal) ∧
    GoMap.lookup (configuration.nMap c) "CreatedSubIface"
      = some (json.GoValue.bool c.CreatedSlaveLink) ∧
    GoMap.lookup (configuration.nMap c) "Ipv4Subnets" =
      (if 0 < c.Ipv4Subnets.length then
        some (json.GoValue.string (String.mk (json.encode (subnetsValue c.Ipv4Subnets))))
       else none) ∧
    GoMap.lookup (configuration.nMap c) "Ipv6Subnets" =
      (if 0 < c.Ipv6Subnets.length then
        some (json.GoValue.string (String.mk (json.encode (subnetsValue c.Ipv6Subnets))))
       else none) := by
  unfold configuration.nMap
  simp only []
  split_ifs <;> simp [GoMap.lookup_insert, GoMap.lookup]

theorem configuration.subnets_field (old spare l : List (Option ipSubnet))
    (nMap : GoMap json.JSON) (k : String) (hold : old = []) (hspare : spare = [])
    (h : GoMap.lookup nMap k = (if 0 < l.length then
        some (json.GoValue.string (String.mk (json.encode (subnetsValue l)))) else none).map
          json.toDoc) :
    (match GoMap.lookup nMap k with
     | some v =>
       match json.assertString (some v) with
       | none => none
       | some s => some (unmarshalSubnets old spare s.data, spareAfter old spare s.data)
     | none => some ((old, none), spare)) = some ((l, none), []) := by
  subst hold
  subst hspare
  cases l with
  | nil =>
    simp only [List.length_nil, lt_self_iff_false, if_false, Option.map_none'] at h
    rw [h]
  | cons x xs =>
    simp only [List.length_cons, Nat.zero_lt_succ, if_true, Option.map_some', json.toDoc] at h
    rw [h]
    simp only [json.assertString_string]
    rw [unmarshalSubnets_encode, spareAfter_nil]

/-- `SetValue` of the text `Value` printed, on a fresh record, succeeds and
gives the record back but for the MTU, which has gone through `float64`, and
with the version stamp, the existence flag and the slice capacity of a fresh
record. -/
theorem configuration.SetValue_Value_float (c : configuration) (f : json.Float64)
    (hf : json.Float64.ofDecimal c.Mtu 0 = some f) :
    configuration.SetValue (configuration.New c) (configuration.Value c) =
      (Outcome.ret none,
        { c with
          Mtu := f.toInt, dbIndex := 0, dbExists := false, Ipv4Spare := [], Ipv6Spare := [] }) := by
  obtain ⟨nMap, hu, hl⟩ := json.unmarshalMap_encode (configuration.nMap c)
    (configuration.nMap_sorted c) (configuration.nMap_scalar c f hf)
  obtain ⟨h1, h2, h3, h4, h5, h6, h7, h8, h9⟩ := configuration.nMap_lookup c
  have hv : configuration.Value c = json.encode (json.GoValue.object (configuration.nMap c)) := rfl
  have hparse : json.parse (configuration.Value c) ≠ none := by
    intro hc
    rw [hv] at hc
    simp [json.unmarshalMap, hc] at hu
  unfold configuration.SetValue
  cases hp : json.parse (configuration.Value c) with
  | none => exact absurd hp hparse
  | some doc =>
    simp only []
    rw [hv] at *
    rw [configuration.UnmarshalJSON_ok (configuration.New c) _ nMap c.ID c.Parent c.IpvlanMode
      c.IpvlanFlag c.Mtu 0 f c.Internal c.CreatedSlaveLink c.Ipv4Subnets c.Ipv6Subnets [] [] hu
      (by rw [hl, h1]; rfl) (by rw [hl, h2]; rfl) hf (by rw [hl, h3]; rfl) (by rw [hl, h4]; rfl)
      (by rw [hl, h5]; rfl) (by rw [hl, h6]; rfl) (by rw [hl, h7]; rfl)
      (configuration.subnets_field _ _ c.Ipv4Subnets nMap "Ipv4Subnets" rfl rfl (by rw [hl, h8]))
      (configuration.subnets_field _ _ c.Ipv6Subnets nMap "Ipv6Subnets" rfl rfl (by rw [hl, h9]))]
    rfl

/-- `SetValue` of the text `Value` printed, on a fresh record, succeeds and
gives the record back, with the version stamp, the existence flag and the
slice capacity of a fresh record. -/
theorem configuration.SetValue_Value (c : configuration) (h : c.Mtu.natAbs ≤ 2 ^ 53) :
    configuration.SetValue (configuration.New c) (configuration.Value c) =
      (Outcome.ret none,
        { c with dbIndex := 0, dbExists := false, Ipv4Spare := [], Ipv6Spare := [] }) := by
  obtain ⟨f, hf, hfi⟩ := json.Float64.ofDecimal_int c.Mtu h
  rw [configuration.SetValue_Value_float c f hf, hfi]

/-- Beyond `2 ^ 53` the MTU does not survive: a record with MTU `2 ^ 53 + 1`
comes back with MTU `2 ^ 53`. -/
theorem configuration.SetValue_Value_large :
    configuration.SetValue (configuration.New exConfigLargeMtu)
        (configuration.Value exConfigLargeMtu) =
      (Outcome.ret none, { exConfigLargeMtu with Mtu := 2 ^ 53, dbIndex := 0, dbExists := false }) := by
  rw [configuration.SetValue_Value_float exConfigLargeMtu _ json.Float64.ofDecimal_two_pow_53_succ]
  rfl

/-- A payload that is well formed but for the flag decodes without error; the
flag is the baseline value when the member is absent and the member when it
is a string. -/
theorem configuration.UnmarshalJSON_flag (config : configuration) (b : json.Text)
    (nMap : GoMap json.JSON) (hu : json.unmarshalMap b = Except.ok nMap)
    (hw : configuration.WellFormedButFlag config nMap) :
    (GoMap.lookup nMap "IpvlanFlag" = none →
      ∃ c, configuration.UnmarshalJSON config b = (Outcome.ret none, c) ∧
        c.IpvlanFlag = flagBridge) ∧
    (∀ s, GoMap.lookup nMap "IpvlanFlag" = some (json.JSON.string s) →
      ∃ c, configuration.UnmarshalJSON config b = (Outcome.ret none, c) ∧
        c.IpvlanFlag = s) := by
  obtain ⟨⟨id, hID⟩, ⟨m, e, hMtu⟩, ⟨parent, hParent⟩, ⟨mode, hMode⟩, ⟨internal, hInternal⟩,
    ⟨created, hCreated⟩, h4, h6⟩ := hw
  obtain ⟨f, hf⟩ := json.unmarshalMap_fits b nMap "Mtu" m e hu hMtu
  have h4' : ∃ v4 s4, (match GoMap.lookup nMap "Ipv4Subnets" with
           | some v =>
             match json.assertString (some v) with
             | none => none
             | some s =>
               some (unmarshalSubnets config.Ipv4Subnets config.Ipv4Spare s.data,
                 spareAfter config.Ipv4Subnets config.Ipv4Spare s.data)
           | none => some ((config.Ipv4Subnets, none), config.Ipv4Spare))
        = some ((v4, none), s4) := by
    rcases h4 with h | ⟨s, h, herr⟩
    · exact ⟨config.Ipv4Subnets, config.Ipv4Spare, by rw [h]⟩
    · refine ⟨(unmarshalSubnets config.Ipv4Subnets config.Ipv4Spare s.data).1,
        spareAfter config.Ipv4Subnets config.Ipv4Spare s.data, ?_⟩
      rw [h]
      simp only [json.assertString_string]
      rw [← herr]
  have h6' : ∃ v6 s6, (match GoMap.lookup nMap "Ipv6Subnets" with
           | some v =>
             match json.assertString (some v) with
             | none => none
             | some s =>
               some (unmarshalSubnets config.Ipv6Subnets config.Ipv6Spare s.data,
                 spareAfter config.Ipv6Subnets config.Ipv6Spare s.data)
           | none => some ((config.Ipv6Subnets, none), config.Ipv6Spare))
        = some ((v6, none), s6) := by
    rcases h6 with h | ⟨s, h, herr⟩
    · exact ⟨config.Ipv6Subnets, config.Ipv6Spare, by rw [h]⟩
    · refine ⟨(unmarshalSubnets config.Ipv6Subnets config.Ipv6Spare s.data).1,
        spareAfter config.Ipv6Subnets config.Ipv6Spare s.data, ?_⟩
      rw [h]
      simp only [json.assertString_string]
      rw [← herr]
  obtain ⟨v4, s4, h4'⟩ := h4'
  obtain ⟨v6, s6, h6'⟩ := h6'
  constructor
  · intro hflag
    exact ⟨_, configuration.UnmarshalJSON_ok config b nMap id parent mode flagBridge m e f
      internal created v4 v6 s4 s6 hu hID hMtu hf hParent hMode (by rw [hflag]) hInternal hCreated
      h4' h6', rfl⟩
  · intro s hflag
    exact ⟨_, configuration.UnmarshalJSON_ok config b nMap id parent mode s m e f
      internal created v4 v6 s4 s6 hu hID hMtu hf hParent hMode (by rw [hflag]; rfl) hInternal
      hCreated h4' h6', rfl⟩

theorem exOldPayload_decodes : json.unmarshalMap exOldPayload = Except.ok exOldMap := by
  have hp : json.parse exOldPayload = some (json.JSON.object exOldMap) := rfl
  obtain ⟨f, hf, _⟩ := json.Float64.ofDecimal_int 1500 (by decide)
  unfold json.unmarshalMap
  rw [hp]
  have hs : GoMap.Sorted exOldMap := by
    unfold GoMap.Sorted GoMap.keys exOldMap
    simp only [List.map, List.pairwise_cons, List.mem_cons, forall_eq_or_imp, List.mem_singleton,
      forall_eq, List.Pairwise.nil, List.not_mem_nil, and_true]
    simp only [String.reduceLT]
    simp
  have hm : json.toMap exOldMap = exOldMap := by
    unfold json.toMap
    rw [GoMap.foldl_insert_sorted exOldMap [] hs]
    rfl
  have hn : json.numbersFitMembers exOldMap = true := by
    simp [exOldMap, json.numbersFitMembers, json.numbersFit, hf]
  simp only [hn, if_true, hm]

theorem exOldMap_wellFormed : configuration.WellFormedButFlag exConfig exOldMap :=
  ⟨⟨_, rfl⟩, ⟨_, _, rfl⟩, ⟨_, rfl⟩, ⟨_, rfl⟩, ⟨_, rfl⟩, ⟨_, rfl⟩, Or.inl rfl, Or.inl rfl⟩

end ipvlan

/-! ## Serialization of the macvlan network record: round trip -/

namespace macvlan

/-- What `UnmarshalJSON` does with a payload that decodes to a map in which
every type assertion succeeds and the subnet lists decode: it returns no
error and sets every serialized field from the map. -/
theorem configuration.UnmarshalJSON_ok_mv (config : configuration) (b : json.Text)
    (nMap : GoMap json.JSON) (id parent mode : String) (m e : Int) (f : json.Float64)
    (internal created : Bool) (v4 v6 s4 s6 : List (Option ipSubnet))
    (hu : json.unmarshalMap b = Except.ok nMap)
    (hID : GoMap.lookup nMap "ID" = some (json.JSON.string id))
    (hMtu : GoMap.lookup nMap "Mtu" = some (json.JSON.number m e))
    (hf : json.Float64.ofDecimal m e = some f)
    (hParent : GoMap.lookup nMap "Parent" = some (json.JSON.string parent))
    (hMode : GoMap.lookup nMap "MacvlanMode" = some (json.JSON.string mode))
    (hInternal : GoMap.lookup nMap "Internal" = some (json.JSON.bool internal))
    (hCreated : GoMap.lookup nMap "CreatedSubIface" = some (json.JSON.bool created))
    (h4 : (match GoMap.lookup nMap "Ipv4Subnets" with
           | some v =>
             match json.assertString (some v) with
             | none => none
             | some s =>
               some (unmarshalSubnets config.Ipv4Subnets config.Ipv4Spare s.data,
                 spareAfter config.Ipv4Subnets config.Ipv4Spare s.data)
           | none => some ((config.Ipv4Subnets, none), config.Ipv4Spare))
        = some ((v4, none), s4))
    (h6 : (match GoMap.lookup nMap "Ipv6Subnets" with
           | some v =>
             match json.assertString (some v) with
             | none => none
             | some s =>
               some (unmarshalSubnets config.Ipv6Subnets config.Ipv6Spare s.data,
                 spareAfter config.Ipv6Subnets config.Ipv6Spare s.data)
           | none => some ((config.Ipv6Subnets, none), config.Ipv6Spare))
        = some ((v6, none), s6)) :
    configuration.UnmarshalJSON config b = (Outcome.ret none,
      { config with
        ID := id, Mtu := f.toInt, Parent := parent, MacvlanMode := mode,
        Internal := internal, CreatedSlaveLink := created, Ipv4Subnets := v4,
        Ipv6Subnets := v6, Ipv4Spare := s4, Ipv6Spare := s6 }) := by
  unfold configuration.UnmarshalJSON
  simp only [hu, hID, hMtu, hParent, hMode, hInternal, hCreated, json.assertString_string,
    json.assertFloat64_number, json.assertBool_bool, hf]
  rw [h4]
  simp only []
  rw [h6]

theorem configuration.MarshalJSON_eq_mv (c : configuration) :
    configuration.MarshalJSON c = (json.encode (json.GoValue.object (configuration.nMap c)), none) :=
  rfl

theorem configuration.nMap_sorted_mv (c : configuration) : GoMap.Sorted (configuration.nMap c) := by
  unfold configuration.nMap
  simp only []
  split_ifs <;> repeat' apply GoMap.insert_sorted
  all_goals exact GoMap.sorted_nil

theorem configuration.nMap_scalar_mv (c : configuration) (f : json.Float64)
    (hf : json.Float64.ofDecimal c.Mtu 0 = some f) :
    ∀ kv ∈ configuration.nMap c, json.Scalar kv.2 := by
  have hi := json.scalar_int c.Mtu f hf
  intro kv hkv
  unfold configuration.nMap at hkv
  simp only [] at hkv
  split_ifs at hkv <;>
    repeat' (first
      | (rcases json.mem_insert _ _ _ _ hkv with hkv | hkv)
      | (rw [hkv]; first | exact json.scalar_string _ | exact json.scalar_bool _ | exact hi)
      | (exact absurd hkv (List.not_mem_nil _)))

theorem configuration.nMap_lookup_mv (c : configuration) :
    GoMap.lookup (configuration.nMap c) "ID" = some (json.GoValue.string c.ID) ∧
    GoMap.lookup (configuration.nMap c) "Mtu" = some (json.GoValue.int c.Mtu) ∧
    GoMap.lookup (configuration.nMap c) "Parent" = some (json.GoValue.string c.Parent) ∧
    GoMap.lookup (configuration.nMap c) "MacvlanMode" = some (json.GoValue.string c.MacvlanMode) ∧
    GoMap.lookup (configuration.nMap c) "Internal" = some (json.GoValue.bool c.Internal) ∧
    GoMap.lookup (configuration.nMap c) "CreatedSubIface"
      = some (json.GoValue.bool c.CreatedSlaveLink) ∧
    GoMap.lookup (configuration.nMap c) "Ipv4Subnets" =
      (if 0 < c.Ipv4Subnets.length then
        some (json.GoValue.string (String.mk (json.encode (subnetsValue c.Ipv4Subnets))))
       else none) ∧
    GoMap.lookup (configuration.nMap c) "Ipv6Subnets" =
      (if 0 < c.Ipv6Subnets.length then
        some (json.GoValue.string (String.mk (json.encode (subnetsValue c.Ipv6Subnets))))
       else none) := by
  unfold configuration.nMap
  simp only []
  split_ifs <;> simp [GoMap.lookup_insert, GoMap.lookup]

theorem configuration.subnets_field_mv (old spare l : List (Option ipSubnet))
    (nMap : GoMap json.JSON) (k : String) (hold : old = []) (hspare : spare = [])
    (h : GoMap.lookup nMap k = (if 0 < l.length then
        some (json.GoValue.string (String.mk (json.encode (subnetsValue l)))) else none).map
          json.toDoc) :
    (match GoMap.lookup nMap k with
     | some v =>
       match json.assertString (some v) with
       | none => none
       | some s => some (unmarshalSubnets old spare s.data, spareAfter old spare s.data)
     | none => some ((old, none), spare)) = some ((l, none), []) := by
  subst hold
  subst hspare
  cases l with
  | nil =>
    simp only [List.length_nil, lt_self_iff_false, if_false, Option.map_none'] at h
    rw [h]
  | cons x xs =>
    simp only [List.length_cons, Nat.zero_lt_succ, if_true, Option.map_some', json.toDoc] at h
    rw [h]
    simp only [json.assertString_string]
    rw [unmarshalSubnets_encode_mv, spareAfter_nil_mv]

/-- `SetValue` of the text `Value` printed, on a fresh record, succeeds and
gives the record back but for the MTU, which has gone through `float64`, and
with the version stamp, the existence flag and the slice capacity of a fresh
record. -/
theorem configuration.SetValue_Value_float_mv (c : configuration) (f : json.Float64)
    (hf : json.Float64.ofDecimal c.Mtu 0 = some f) :
    configuration.SetValue (configuration.New c) (configuration.Value c) =
      (Outcome.ret none,
        { c with
          Mtu := f.toInt, dbIndex := 0, dbExists := false, Ipv4Spare := [], Ipv6Spare := [] }) := by
  obtain ⟨nMap, hu, hl⟩ := json.unmarshalMap_encode (configuration.nMap c)
    (configuration.nMap_sorted_mv c) (configuration.nMap_scalar_mv c f hf)
  obtain ⟨h1, h2, h3, h4, h6, h7, h8, h9⟩ := configuration.nMap_lookup_mv c
  have hv : configuration.Value c = json.encode (json.GoValue.object (configuration.nMap c)) := rfl
  have hparse : json.parse (configuration.Value c) ≠ none := by
    intro hc
    rw [hv] at hc
    simp [json.unmarshalMap, hc] at hu
  unfold configuration.SetValue
  cases hp : json.parse (configuration.Value c) with
  | none => exact absurd hp hparse
  | some doc =>
    simp only []
    rw [hv] at *
    rw [configuration.UnmarshalJSON_ok_mv (configuration.New c) _ nMap c.ID c.Parent c.MacvlanMode
      c.Mtu 0 f c.Internal c.CreatedSlaveLink c.Ipv4Subnets c.Ipv6Subnets [] [] hu
      (by rw [hl, h1]; rfl) (by rw [hl, h2]; rfl) hf (by rw [hl, h3]; rfl) (by rw [hl, h4]; rfl)
      (by rw [hl, h6]; rfl) (by rw [hl, h7]; rfl)
      (configuration.subnets_field_mv _ _ c.Ipv4Subnets nMap "Ipv4Subnets" rfl rfl (by rw [hl, h8]))
      (configuration.subnets_field_mv _ _ c.Ipv6Subnets nMap "Ipv6Subnets" rfl rfl (by rw [hl, h9]))]
    rfl

/-- `SetValue` of the text `Value` printed, on a fresh record, succeeds and
gives the record back, with the version stamp, the existence flag and the
slice capacity of a fresh record. -/
theorem configuration.SetValue_Value_mv (c : configuration) (h : c.Mtu.natAbs ≤ 2 ^ 53) :
    configuration.SetValue (configuration.New c) (configuration.Value c) =
      (Outcome.ret none,
        { c with dbIndex := 0, dbExists := false, Ipv4Spare := [], Ipv6Spare := [] }) := by
  obtain ⟨f, hf, hfi⟩ := json.Float64.ofDecimal_int c.Mtu h
  rw [configuration.SetValue_Value_float_mv c f hf, hfi]

/-- Beyond `2 ^ 53` the MTU does not survive: a record with MTU `2 ^ 53 + 1`
comes back with MTU `2 ^ 53`. -/
theorem configuration.SetValue_Value_large_mv :
    configuration.SetValue (configuration.New exConfigLargeMtu)
        (configuration.Value exConfigLargeMtu) =
      (Outcome.ret none, { exConfigLargeMtu with Mtu := 2 ^ 53, dbIndex := 0, dbExists := false }) := by
  rw [configuration.SetValue_Value_float_mv exConfigLargeMtu _ json.Float64.ofDecimal_two_pow_53_succ]
  rfl

end macvlan
/-! ## Decoding of the ipvlan records -/

namespace ipvlan

theorem configuration.UnmarshalJSON_success (config r : configuration) (b : json.Text)
    (nMap : GoMap json.JSON) (hu : json.unmarshalMap b = Except.ok nMap)
    (hr : configuration.UnmarshalJSON config b = (Outcome.ret none, r)) :
    GoMap.lookup nMap "ID" = some (json.JSON.string r.ID) ∧
    (∃ m e f, GoMap.lookup nMap "Mtu" = some (json.JSON.number m e) ∧
      json.Float64.ofDecimal m e = some f ∧ r.Mtu = f.toInt) ∧
    GoMap.lookup nMap "Parent" = some (json.JSON.string r.Parent) ∧
    GoMap.lookup nMap "IpvlanMode" = some (json.JSON.string r.IpvlanMode) ∧
    ((GoMap.lookup nMap "IpvlanFlag" = none ∧ r.IpvlanFlag = flagBridge) ∨
      GoMap.lookup nMap "IpvlanFlag" = some (json.JSON.string r.IpvlanFlag)) ∧
    GoMap.lookup nMap "Internal" = some (json.JSON.bool r.Internal) ∧
    GoMap.lookup nMap "CreatedSubIface" = some (json.JSON.bool r.CreatedSlaveLink) ∧
    ((GoMap.lookup nMap "Ipv4Subnets" = none ∧ r.Ipv4Subnets = config.Ipv4Subnets ∧
        r.Ipv4Spare = config.Ipv4Spare) ∨
      ∃ s, GoMap.lookup nMap "Ipv4Subnets" = some (json.JSON.string s) ∧
        unmarshalSubnets config.Ipv4Subnets config.Ipv4Spare s.data = (r.Ipv4Subnets, none) ∧
        r.Ipv4Spare = spareAfter config.Ipv4Subnets config.Ipv4Spare s.data) ∧
    ((GoMap.lookup nMap "Ipv6Subnets" = none ∧ r.Ipv6Subnets = config.Ipv6Subnets ∧
        r.Ipv6Spare = config.Ipv6Spare) ∨
      ∃ s, GoMap.lookup nMap "Ipv6Subnets" = some (json.JSON.string s) ∧
        unmarshalSubnets config.Ipv6Subnets config.Ipv6Spare s.data = (r.Ipv6Subnets, none) ∧
        r.Ipv6Spare = spareAfter config.Ipv6Subnets config.Ipv6Spare s.data) ∧
    r.dbIndex = config.dbIndex ∧ r.dbExists = config.dbExists := by
  unfold configuration.UnmarshalJSON at hr
  simp only [hu] at hr
  split at hr
  · exact absurd (congrArg Prod.fst hr) (by simp)
  rename_i id h1
  split at hr
  · exact absurd (congrArg Prod.fst hr) (by simp)
  rename_i f h2
  split at hr
  · exact absurd (congrArg Prod.fst hr) (by simp)
  rename_i parent h3
  split at hr
  · exact absurd (congrArg Prod.fst hr) (by simp)
  rename_i mode h4
  split at hr
  · exact absurd (congrArg Prod.fst hr) (by simp)
  rename_i flag h5
  split at hr
  · exact absurd (congrArg Prod.fst hr) (by simp)
  rename_i internal h6
  split at hr
  · exact absurd (congrArg Prod.fst hr) (by simp)
  rename_i created h7
  split at hr
  · exact absurd (congrArg Prod.fst hr) (by simp)
  · exact absurd (congrArg Prod.fst hr) (by simp)
  rename_i v4 spare4 h8
  split at hr
  · exact absurd (congrArg Prod.fst hr) (by simp)
  · exact absurd (congrArg Prod.fst hr) (by simp)
  rename_i v6 spare6 h9
  have hr2 := (congrArg Prod.snd hr).symm
  simp only [] at hr2
  subst hr2
  obtain ⟨m, e, hm, hf⟩ := json.assertFloat64_eq_some _ _ h2
  refine ⟨json.assertString_eq_some _ _ h1, ⟨m, e, f, hm, hf, rfl⟩,
    json.assertString_eq_some _ _ h3, json.assertString_eq_some _ _ h4, ?_,
    json.assertBool_eq_some _ _ h6, json.assertBool_eq_some _ _ h7, ?_, ?_, rfl, rfl⟩
  · cases hl : GoMap.lookup nMap "IpvlanFlag" with
    | none =>
      rw [hl] at h5
      exact Or.inl ⟨rfl, (Option.some.inj h5).symm⟩
    | some v =>
      rw [hl] at h5
      exact Or.inr (json.assertString_eq_some _ _ h5)
  · cases hl : GoMap.lookup nMap "Ipv4Subnets" with
    | none =>
      rw [hl] at h8
      have hh := Option.some.inj h8
      exact Or.inl ⟨rfl, (congrArg (fun x => x.1.1) hh).symm, (congrArg Prod.snd hh).symm⟩
    | some v =>
      rw [hl] at h8
      simp only [] at h8
      split at h8
      · exact absurd h8 (by simp)
      · rename_i s hs
        have hh := Option.some.inj h8
        exact Or.inr ⟨s, json.assertString_eq_some _ _ hs, congrArg Prod.fst hh,
          (congrArg Prod.snd hh).symm⟩
  · cases hl : GoMap.lookup nMap "Ipv6Subnets" with
    | none =>
      rw [hl] at h9
      have hh := Option.some.inj h9
      exact Or.inl ⟨rfl, (congrArg (fun x => x.1.1) hh).symm, (congrArg Prod.snd hh).symm⟩
    | some v =>
      rw [hl] at h9
      simp only [] at h9
      split at h9
      · exact absurd h9 (by simp)
      · rename_i s hs
        have hh := Option.some.inj h9
        exact Or.inr ⟨s, json.assertString_eq_some _ _ hs, congrArg Prod.fst hh,
          (congrArg Prod.snd hh).symm⟩

theorem endpoint.unmarshal_success (lib : AddrLib) (ep r : endpoint) (b : json.Text)
    (epMap : GoMap json.JSON) (hu : json.unmarshalMap b = Except.ok epMap)
    (hr : endpoint.UnmarshalJSON lib ep b = (Outcome.ret none, r)) :
    ((GoMap.lookup epMap "MacAddress" = none ∧ r.mac = ep.mac) ∨
      ∃ s, GoMap.lookup epMap "MacAddress" = some (json.JSON.string s) ∧
        lib.ParseMAC s = (r.mac, none)) ∧
    ((GoMap.lookup epMap "Addr" = none ∧ r.addr = ep.addr) ∨
      ∃ s, GoMap.lookup epMap "Addr" = some (json.JSON.string s) ∧
        lib.ParseCIDR s = (r.addr, none)) ∧
    ((GoMap.lookup epMap "Addrv6" = none ∧ r.addrv6 = ep.addrv6) ∨
      ∃ s, GoMap.lookup epMap "Addrv6" = some (json.JSON.string s) ∧
        lib.ParseCIDR s = (r.addrv6, none)) ∧
    GoMap.lookup epMap "id" = some (json.JSON.string r.id) ∧
    GoMap.lookup epMap "nid" = some (json.JSON.string r.nid) ∧
    GoMap.lookup epMap "SrcName" = some (json.JSON.string r.srcName) ∧
    r.dbIndex = ep.dbIndex ∧ r.dbExists = ep.dbExists := by
  unfold endpoint.UnmarshalJSON at hr
  simp only [hu] at hr
  split at hr
  · exact absurd (congrArg Prod.fst hr) (by simp)
  · exact absurd (congrArg Prod.fst hr) (by simp)
  rename_i mac h1
  split at hr
  · exact absurd (congrArg Prod.fst hr) (by simp)
  · exact absurd (congrArg Prod.fst hr) (by simp)
  rename_i addr h2
  split at hr
  · exact absurd (congrArg Prod.fst hr) (by simp)
  · exact absurd (congrArg Prod.fst hr) (by simp)
  rename_i addrv6 h3
  split at hr
  · exact absurd (congrArg Prod.fst hr) (by simp)
  rename_i id h4
  split at hr
  · exact absurd (congrArg Prod.fst hr) (by simp)
  rename_i nid h5
  split at hr
  · exact absurd (congrArg Prod.fst hr) (by simp)
  rename_i srcName h6
  have hr2 := (congrArg Prod.snd hr).symm
  simp only [] at hr2
  subst hr2
  refine ⟨?_, ?_, ?_, json.assertString_eq_some _ _ h4, json.assertString_eq_some _ _ h5,
    json.assertString_eq_some _ _ h6, rfl, rfl⟩
  · cases hl : GoMap.lookup epMap "MacAddress" with
    | none =>
      rw [hl] at h1
      exact Or.inl ⟨rfl, (congrArg Prod.fst (Option.some.inj h1)).symm⟩
    | some v =>
      rw [hl] at h1
      simp only [] at h1
      split at h1
      · exact absurd h1 (by simp)
      · rename_i s hs
        exact Or.inr ⟨s, json.assertString_eq_some _ _ hs, Option.some.inj h1⟩
  · cases hl : GoMap.lookup epMap "Addr" with
    | none =>
      rw [hl] at h2
      exact Or.inl ⟨rfl, (congrArg Prod.fst (Option.some.inj h2)).symm⟩
    | some v =>
      rw [hl] at h2
      simp only [] at h2
      split at h2
      · exact absurd h2 (by simp)
      · rename_i s hs
        exact Or.inr ⟨s, json.assertString_eq_some _ _ hs, Option.some.inj h2⟩
  · cases hl : GoMap.lookup epMap "Addrv6" with
    | none =>
      rw [hl] at h3
      exact Or.inl ⟨rfl, (congrArg Prod.fst (Option.some.inj h3)).symm⟩
    | some v =>
      rw [hl] at h3
      simp only [] at h3
      split at h3
      · exact absurd h3 (by simp)
      · rename_i s hs
        exact Or.inr ⟨s, json.assertString_eq_some _ _ hs, Option.some.inj h3⟩

theorem endpoint.unmarshal_panics (lib : AddrLib) (ep : endpoint) (b : json.Text)
    (epMap : GoMap json.JSON) (hu : json.unmarshalMap b = Except.ok epMap)
    (h1 : GoMap.lookup epMap "MacAddress" = none) (h2 : GoMap.lookup epMap "Addr" = none)
    (h3 : GoMap.lookup epMap "Addrv6" = none) (hr : ¬ endpoint.RequiredTyped epMap) :
    ∃ reason r, endpoint.UnmarshalJSON lib ep b = (Outcome.panicked reason, r) := by
  unfold endpoint.UnmarshalJSON
  simp only [hu, h1, h2, h3]
  split
  · exact ⟨_, _, rfl⟩
  rename_i id h4
  split
  · exact ⟨_, _, rfl⟩
  rename_i nid h5
  split
  · exact ⟨_, _, rfl⟩
  rename_i srcName h6
  exact absurd ⟨⟨_, json.assertString_eq_some _ _ h4⟩, ⟨_, json.assertString_eq_some _ _ h5⟩,
    ⟨_, json.assertString_eq_some _ _ h6⟩⟩ hr

theorem endpoint.unmarshal_internal (lib : AddrLib) (ep : endpoint) (b : json.Text)
    (epMap : GoMap json.JSON) (hu : json.unmarshalMap b = Except.ok epMap) :
    (∀ s, GoMap.lookup epMap "MacAddress" = some (json.JSON.string s) →
      (lib.ParseMAC s).2 ≠ none →
      ∃ msg r, endpoint.UnmarshalJSON lib ep b =
        (Outcome.ret (some (GoError.InternalError msg)), r)) ∧
    ((GoMap.lookup epMap "MacAddress" = none ∨
        ∃ s, GoMap.lookup epMap "MacAddress" = some (json.JSON.string s)) →
      ∀ s, GoMap.lookup epMap "Addr" = some (json.JSON.string s) →
      (lib.ParseCIDR s).2 ≠ none →
      ∃ msg r, endpoint.UnmarshalJSON lib ep b =
        (Outcome.ret (some (GoError.InternalError msg)), r)) ∧
    ((GoMap.lookup epMap "MacAddress" = none ∨
        ∃ s, GoMap.lookup epMap "MacAddress" = some (json.JSON.string s)) →
      (GoMap.lookup epMap "Addr" = none ∨
        ∃ s, GoMap.lookup epMap "Addr" = some (json.JSON.string s)) →
      ∀ s, GoMap.lookup epMap "Addrv6" = some (json.JSON.string s) →
      (lib.ParseCIDR s).2 ≠ none →
      ∃ msg r, endpoint.UnmarshalJSON lib ep b =
        (Outcome.ret (some (GoError.InternalError msg)), r)) := by
  refine ⟨?_, ?_, ?_⟩
  · intro s h1 hp
    unfold endpoint.UnmarshalJSON
    simp only [hu, h1, json.assertString_string]
    rcases hq : lib.ParseMAC s with ⟨mac, _ | e⟩
    · rw [hq] at hp
      exact absurd rfl hp
    · exact ⟨_, _, rfl⟩
  · intro h1 s h2 hp
    unfold endpoint.UnmarshalJSON
    simp only [hu, h2, json.assertString_string]
    rcases hq : lib.ParseCIDR s with ⟨addr, _ | e⟩
    · rw [hq] at hp
      exact absurd rfl hp
    rcases h1 with h1 | ⟨s1, h1⟩
    all_goals rw [h1]
    all_goals simp only [json.assertString_string]
    all_goals repeat' split
    all_goals first
      | exact ⟨_, _, rfl⟩
      | (rename_i h; exact absurd h (by simp))
  · intro h1 h2 s h3 hp
    unfold endpoint.UnmarshalJSON
    simp only [hu, h3, json.assertString_string]
    rcases hq : lib.ParseCIDR s with ⟨addr, _ | e⟩
    · rw [hq] at hp
      exact absurd rfl hp
    rcases h1 with h1 | ⟨s1, h1⟩
    all_goals rw [h1]
    all_goals simp only [json.assertString_string]
    all_goals rcases h2 with h2 | ⟨s2, h2⟩
    all_goals rw [h2]
    all_goals simp only [json.assertString_string]
    all_goals repeat' split
    all_goals first
      | exact ⟨_, _, rfl⟩
      | (rename_i h; exact absurd h (by simp))

/-- On a text that does not decode to a field map `endpoint.UnmarshalJSON`
returns the error of the decoder, wrapped, and leaves the receiver. -/
theorem endpoint.unmarshal_of_error (lib : AddrLib) (ep : endpoint) (b : json.Text)
    (e : GoError) (hu : json.unmarshalMap b = Except.error e) :
    endpoint.UnmarshalJSON lib ep b =
      (Outcome.ret (some (GoError.errorString "Failed to unmarshal to ipvlan endpoint")),
        ep) := by
  unfold endpoint.UnmarshalJSON
  rw [hu]

/-- A text that decodes to a map is JSON, so `SetValue` hands it to
`UnmarshalJSON`. -/
theorem configuration.SetValue_of_map (config : configuration) (value : json.Text)
    (nMap : GoMap json.JSON) (hu : json.unmarshalMap value = Except.ok nMap) :
    configuration.SetValue config value = configuration.UnmarshalJSON config value := by
  unfold configuration.SetValue
  cases hp : json.parse value with
  | none =>
    unfold json.unmarshalMap at hu
    rw [hp] at hu
    exact absurd hu (by simp)
  | some doc => rfl

theorem endpoint.setValue_of_map (lib : AddrLib) (ep : endpoint) (value : json.Text)
    (epMap : GoMap json.JSON) (hu : json.unmarshalMap value = Except.ok epMap) :
    endpoint.SetValue lib ep value = endpoint.UnmarshalJSON lib ep value := by
  unfold endpoint.SetValue
  cases hp : json.parse value with
  | none =>
    unfold json.unmarshalMap at hu
    rw [hp] at hu
    exact absurd hu (by simp)
  | some doc => rfl

/-- When `SetValue` returns no error the payload decodes to a field map. -/
theorem configuration.SetValue_success_map (config r : configuration) (value : json.Text)
    (h : configuration.SetValue config value = (Outcome.ret none, r)) :
    ∃ nMap, json.unmarshalMap value = Except.ok nMap ∧
      configuration.UnmarshalJSON config value = (Outcome.ret none, r) := by
  unfold configuration.SetValue at h
  split at h
  · exact absurd (congrArg Prod.fst h) (by simp)
  cases hu : json.unmarshalMap value with
  | error e =>
    unfold configuration.UnmarshalJSON at h
    rw [hu] at h
    exact absurd (congrArg Prod.fst h) (by simp)
  | ok nMap => exact ⟨nMap, rfl, h⟩

theorem endpoint.setValue_success_map (lib : AddrLib) (ep r : endpoint) (value : json.Text)
    (h : endpoint.SetValue lib ep value = (Outcome.ret none, r)) :
    ∃ epMap, json.unmarshalMap value = Except.ok epMap ∧
      endpoint.UnmarshalJSON lib ep value = (Outcome.ret none, r) := by
  unfold endpoint.SetValue at h
  split at h
  · exact absurd (congrArg Prod.fst h) (by simp)
  cases hu : json.unmarshalMap value with
  | error e =>
    unfold endpoint.UnmarshalJSON at h
    rw [hu] at h
    exact absurd (congrArg Prod.fst h) (by simp)
  | ok epMap => exact ⟨epMap, rfl, h⟩

/-- Two successful decodings of one payload agree on every fixed field, and on
a subnet slice when the receivers agreed on it, elements and spare capacity. -/
theorem configuration.SetValue_determined (c1 c2 r1 r2 : configuration) (p : json.Text)
    (h1 : configuration.SetValue c1 p = (Outcome.ret none, r1))
    (h2 : configuration.SetValue c2 p = (Outcome.ret none, r2)) :
    r1.ID = r2.ID ∧ r1.Mtu = r2.Mtu ∧ r1.Parent = r2.Parent ∧
    r1.IpvlanMode = r2.IpvlanMode ∧
    r1.IpvlanFlag = r2.IpvlanFlag ∧
    r1.Internal = r2.Internal ∧ r1.CreatedSlaveLink = r2.CreatedSlaveLink ∧
    (c1.Ipv4Subnets = c2.Ipv4Subnets → c1.Ipv4Spare = c2.Ipv4Spare →
      r1.Ipv4Subnets = r2.Ipv4Subnets ∧ r1.Ipv4Spare = r2.Ipv4Spare) ∧
    (c1.Ipv6Subnets = c2.Ipv6Subnets → c1.Ipv6Spare = c2.Ipv6Spare →
      r1.Ipv6Subnets = r2.Ipv6Subnets ∧ r1.Ipv6Spare = r2.Ipv6Spare) := by
  obtain ⟨nMap, hu, hr1⟩ := configuration.SetValue_success_map c1 r1 p h1
  obtain ⟨nMap2, hu2, hr2⟩ := configuration.SetValue_success_map c2 r2 p h2
  rw [hu] at hu2
  cases hu2
  have s1 := configuration.UnmarshalJSON_success c1 r1 p nMap hu hr1
  have s2 := configuration.UnmarshalJSON_success c2 r2 p nMap hu hr2
  obtain ⟨a1, ⟨m, e, f, am, af, a2⟩, a3, a4, s1⟩ := s1
  obtain ⟨b1, ⟨m2, e2, f2, bm, bf, b2⟩, b3, b4, s2⟩ := s2
  obtain ⟨aFlag, s1⟩ := s1
  obtain ⟨bFlag, s2⟩ := s2
  obtain ⟨a6, a7, a8, a9, _, _⟩ := s1
  obtain ⟨b6, b7, b8, b9, _, _⟩ := s2
  have e1 : r1.ID = r2.ID := by
    have := a1.symm.trans b1
    injection this with this
    injection this
  have e2 : r1.Mtu = r2.Mtu := by
    have := am.symm.trans bm
    injection this with this
    injection this with hm he
    subst hm he
    rw [af] at bf
    injection bf with bf
    rw [a2, b2, bf]
  have e3 : r1.Parent = r2.Parent := by
    have := a3.symm.trans b3
    injection this with this
    injection this
  have e4 : r1.IpvlanMode = r2.IpvlanMode := by
    have := a4.symm.trans b4
    injection this with this
    injection this
  have eFlag : r1.IpvlanFlag = r2.IpvlanFlag := by
    rcases aFlag with ⟨an, af⟩ | as <;> rcases bFlag with ⟨bn, bf⟩ | bs
    · rw [af, bf]
    · rw [an] at bs; exact absurd bs (by simp)
    · rw [bn] at as; exact absurd as (by simp)
    · have := as.symm.trans bs
      injection this with this
      injection this
  have e6 : r1.Internal = r2.Internal := by
    have := a6.symm.trans b6
    injection this with this
    injection this
  have e7 : r1.CreatedSlaveLink = r2.CreatedSlaveLink := by
    have := a7.symm.trans b7
    injection this with this
    injection this
  refine ⟨e1, e2, e3, e4,
    eFlag,
    e6, e7, ?_, ?_⟩
  · intro hc hsp
    rcases a8 with ⟨an, ar, ap⟩ | ⟨s, as, ar, ap⟩ <;>
      rcases b8 with ⟨bn, br, bp⟩ | ⟨t, bs, br, bp⟩
    · exact ⟨by rw [ar, br, hc], by rw [ap, bp, hsp]⟩
    · rw [an] at bs; exact absurd bs (by simp)
    · rw [bn] at as; exact absurd as (by simp)
    · have := as.symm.trans bs
      injection this with this
      injection this with this
      subst this
      rw [hc, hsp, br] at ar
      exact ⟨(congrArg Prod.fst ar).symm, by rw [ap, bp, hc, hsp]⟩
  · intro hc hsp
    rcases a9 with ⟨an, ar, ap⟩ | ⟨s, as, ar, ap⟩ <;>
      rcases b9 with ⟨bn, br, bp⟩ | ⟨t, bs, br, bp⟩
    · exact ⟨by rw [ar, br, hc], by rw [ap, bp, hsp]⟩
    · rw [an] at bs; exact absurd bs (by simp)
    · rw [bn] at as; exact absurd as (by simp)
    · have := as.symm.trans bs
      injection this with this
      injection this with this
      subst this
      rw [hc, hsp, br] at ar
      exact ⟨(congrArg Prod.fst ar).symm, by rw [ap, bp, hc, hsp]⟩

/-- A subnet slice that the payload does not carry is left as the receiver had
it. -/
theorem configuration.SetValue_keeps (c r : configuration) (p : json.Text)
    (nMap : GoMap json.JSON) (hu : json.unmarshalMap p = Except.ok nMap)
    (h : configuration.SetValue c p = (Outcome.ret none, r)) :
    (GoMap.lookup nMap "Ipv4Subnets" = none →
      r.Ipv4Subnets = c.Ipv4Subnets ∧ r.Ipv4Spare = c.Ipv4Spare) ∧
    (GoMap.lookup nMap "Ipv6Subnets" = none →
      r.Ipv6Subnets = c.Ipv6Subnets ∧ r.Ipv6Spare = c.Ipv6Spare) := by
  rw [configuration.SetValue_of_map c p nMap hu] at h
  obtain ⟨_, _, _, _, s⟩ := configuration.UnmarshalJSON_success c r p nMap hu h
  obtain ⟨_hFlag, s⟩ := s
  obtain ⟨_, _, s8, s9, _, _⟩ := s
  refine ⟨fun hn => ?_, fun hn => ?_⟩
  · rcases s8 with ⟨_, hr⟩ | ⟨s, hs, _⟩
    · exact hr
    · rw [hn] at hs; exact absurd hs (by simp)
  · rcases s9 with ⟨_, hr⟩ | ⟨s, hs, _⟩
    · exact hr
    · rw [hn] at hs; exact absurd hs (by simp)

/-- Two successful decodings of one endpoint payload agree on the fixed fields
and on every address the payload carries; an address it does not carry is
left as the receiver had it. -/
theorem endpoint.setValue_determined (lib : AddrLib) (e1 e2 r1 r2 : endpoint) (p : json.Text)
    (epMap : GoMap json.JSON) (hu : json.unmarshalMap p = Except.ok epMap)
    (h1 : endpoint.SetValue lib e1 p = (Outcome.ret none, r1))
    (h2 : endpoint.SetValue lib e2 p = (Outcome.ret none, r2)) :
    r1.id = r2.id ∧ r1.nid = r2.nid ∧ r1.srcName = r2.srcName ∧
    (GoMap.lookup epMap "MacAddress" ≠ none → r1.mac = r2.mac) ∧
    (GoMap.lookup epMap "Addr" ≠ none → r1.addr = r2.addr) ∧
    (GoMap.lookup epMap "Addrv6" ≠ none → r1.addrv6 = r2.addrv6) ∧
    (GoMap.lookup epMap "MacAddress" = none → r1.mac = e1.mac) ∧
    (GoMap.lookup epMap "Addr" = none → r1.addr = e1.addr) ∧
    (GoMap.lookup epMap "Addrv6" = none → r1.addrv6 = e1.addrv6) := by
  rw [endpoint.setValue_of_map lib e1 p epMap hu] at h1
  rw [endpoint.setValue_of_map lib e2 p epMap hu] at h2
  obtain ⟨a1, a2, a3, a4, a5, a6, _, _⟩ := endpoint.unmarshal_success lib e1 r1 p epMap hu h1
  obtain ⟨b1, b2, b3, b4, b5, b6, _, _⟩ := endpoint.unmarshal_success lib e2 r2 p epMap hu h2
  refine ⟨?_, ?_, ?_, fun hp => ?_, fun hp => ?_, fun hp => ?_, fun hn => ?_, fun hn => ?_,
    fun hn => ?_⟩
  · have := a4.symm.trans b4
    injection this with this
    injection this
  · have := a5.symm.trans b5
    injection this with this
    injection this
  · have := a6.symm.trans b6
    injection this with this
    injection this
  · rcases a1 with ⟨an, _⟩ | ⟨s, as, ar⟩
    · exact absurd an hp
    rcases b1 with ⟨bn, _⟩ | ⟨t, bs, br⟩
    · exact absurd bn hp
    have := as.symm.trans bs
    injection this with this
    injection this with this
    subst this
    rw [br] at ar
    exact (congrArg Prod.fst ar).symm
  · rcases a2 with ⟨an, _⟩ | ⟨s, as, ar⟩
    · exact absurd an hp
    rcases b2 with ⟨bn, _⟩ | ⟨t, bs, br⟩
    · exact absurd bn hp
    have := as.symm.trans bs
    injection this with this
    injection this with this
    subst this
    rw [br] at ar
    exact (congrArg Prod.fst ar).symm
  · rcases a3 with ⟨an, _⟩ | ⟨s, as, ar⟩
    · exact absurd an hp
    rcases b3 with ⟨bn, _⟩ | ⟨t, bs, br⟩
    · exact absurd bn hp
    have := as.symm.trans bs
    injection this with this
    injection this with this
    subst this
    rw [br] at ar
    exact (congrArg Prod.fst ar).symm
  · rcases a1 with ⟨_, hr⟩ | ⟨s, hs, _⟩
    · exact hr
    · rw [hn] at hs; exact absurd hs (by simp)
  · rcases a2 with ⟨_, hr⟩ | ⟨s, hs, _⟩
    · exact hr
    · rw [hn] at hs; exact absurd hs (by simp)
  · rcases a3 with ⟨_, hr⟩ | ⟨s, hs, _⟩
    · exact hr
    · rw [hn] at hs; exact absurd hs (by simp)

/-- Which members the map of a network record has. -/
theorem configuration.nMap_keys (c : configuration) :
    ("Ipv4Subnets" ∈ GoMap.keys (configuration.nMap c) ↔ c.Ipv4Subnets ≠ []) ∧
    ("Ipv6Subnets" ∈ GoMap.keys (configuration.nMap c) ↔ c.Ipv6Subnets ≠ []) ∧
    "ID" ∈ GoMap.keys (configuration.nMap c) ∧
    "Mtu" ∈ GoMap.keys (configuration.nMap c) ∧
    "Parent" ∈ GoMap.keys (configuration.nMap c) ∧
    "IpvlanMode" ∈ GoMap.keys (configuration.nMap c) ∧
    "IpvlanFlag" ∈ GoMap.keys (configuration.nMap c) ∧
    "Internal" ∈ GoMap.keys (configuration.nMap c) ∧
    "CreatedSubIface" ∈ GoMap.keys (configuration.nMap c) := by
  unfold configuration.nMap
  simp only []
  cases h4 : c.Ipv4Subnets <;> cases h6 : c.Ipv6Subnets <;>
    simp [GoMap.mem_keys_insert, GoMap.keys_nil]

/-- Which members the map of an endpoint record has. -/
theorem endpoint.epMap_keys (lib : AddrLib) (ep : endpoint) :
    ("MacAddress" ∈ GoMap.keys (endpoint.epMap lib ep) ↔ ep.mac ≠ []) ∧
    ("Addr" ∈ GoMap.keys (endpoint.epMap lib ep) ↔ ep.addr ≠ none) ∧
    ("Addrv6" ∈ GoMap.keys (endpoint.epMap lib ep) ↔ ep.addrv6 ≠ none) ∧
    "id" ∈ GoMap.keys (endpoint.epMap lib ep) ∧
    "nid" ∈ GoMap.keys (endpoint.epMap lib ep) ∧
    "SrcName" ∈ GoMap.keys (endpoint.epMap lib ep) := by
  unfold endpoint.epMap
  simp only []
  cases h1 : ep.mac <;> cases h2 : ep.addr <;> cases h3 : ep.addrv6 <;>
    simp [GoMap.mem_keys_insert, GoMap.keys_nil]

theorem endpoint.marshalJSON_eq (lib : AddrLib) (ep : endpoint) :
    endpoint.MarshalJSON lib ep = (json.encode (json.GoValue.object (endpoint.epMap lib ep)), none) :=
  rfl

/-- `UnmarshalJSON` never assigns the version stamp or the existence flag,
whatever it returns. -/
theorem configuration.UnmarshalJSON_index (config : configuration) (b : json.Text) :
    (configuration.UnmarshalJSON config b).2.dbIndex = config.dbIndex ∧
    (configuration.UnmarshalJSON config b).2.dbExists = config.dbExists := by
  have key : ∀ r, configuration.UnmarshalJSON config b = r →
      r.2.dbIndex = config.dbIndex ∧ r.2.dbExists = config.dbExists := by
    intro r hr
    unfold configuration.UnmarshalJSON at hr
    cases hu : json.unmarshalMap b with
    | error e =>
      simp only [hu] at hr
      subst hr
      exact ⟨rfl, rfl⟩
    | ok nMap =>
      simp only [hu] at hr
      repeat (split at hr; all_goals (try (subst hr; exact ⟨rfl, rfl⟩)))
  exact key _ rfl

theorem endpoint.unmarshal_index (lib : AddrLib) (ep : endpoint) (b : json.Text) :
    (endpoint.UnmarshalJSON lib ep b).2.dbIndex = ep.dbIndex ∧
    (endpoint.UnmarshalJSON lib ep b).2.dbExists = ep.dbExists := by
  have key : ∀ r, endpoint.UnmarshalJSON lib ep b = r →
      r.2.dbIndex = ep.dbIndex ∧ r.2.dbExists = ep.dbExists := by
    intro r hr
    unfold endpoint.UnmarshalJSON at hr
    cases hu : json.unmarshalMap b with
    | error e =>
      simp only [hu] at hr
      subst hr
      exact ⟨rfl, rfl⟩
    | ok epMap =>
      simp only [hu] at hr
      repeat (split at hr; all_goals (try (subst hr; exact ⟨rfl, rfl⟩)))
  exact key _ rfl

theorem configuration.SetValue_index (config : configuration) (value : json.Text) :
    (configuration.SetValue config value).2.dbIndex = config.dbIndex ∧
    (configuration.SetValue config value).2.dbExists = config.dbExists := by
  unfold configuration.SetValue
  split
  · exact ⟨rfl, rfl⟩
  · exact configuration.UnmarshalJSON_index config value

theorem endpoint.setValue_index (lib : AddrLib) (ep : endpoint) (value : json.Text) :
    (endpoint.SetValue lib ep value).2.dbIndex = ep.dbIndex ∧
    (endpoint.SetValue lib ep value).2.dbExists = ep.dbExists := by
  unfold endpoint.SetValue
  split
  · exact ⟨rfl, rfl⟩
  · exact endpoint.unmarshal_index lib ep value

theorem configuration.Value_index (c : configuration) (n : Nat) (b : Bool) :
    configuration.Value { c with dbIndex := n, dbExists := b } = configuration.Value c := rfl

theorem endpoint.value_index (lib : AddrLib) (e : endpoint) (n : Nat) (b : Bool) :
    endpoint.Value lib { e with dbIndex := n, dbExists := b } = endpoint.Value lib e := rfl

theorem endpoint.epMap_sorted (lib : AddrLib) (ep : endpoint) :
    GoMap.Sorted (endpoint.epMap lib ep) := by
  unfold endpoint.epMap
  simp only []
  split <;> split <;> split_ifs <;> repeat' apply GoMap.insert_sorted
  all_goals exact GoMap.sorted_nil

theorem endpoint.epMap_scalar (lib : AddrLib) (ep : endpoint) :
    ∀ kv ∈ endpoint.epMap lib ep, json.Scalar kv.2 := by
  intro kv hkv
  unfold endpoint.epMap at hkv
  simp only [] at hkv
  split at hkv <;> split at hkv <;> split_ifs at hkv <;>
    repeat' (first
      | (rcases json.mem_insert _ _ _ _ hkv with hkv | hkv)
      | (rw [hkv]; exact json.scalar_string _)
      | (exact absurd hkv (List.not_mem_nil _)))

theorem endpoint.epMap_lookup (lib : AddrLib) (ep : endpoint) :
    GoMap.lookup (endpoint.epMap lib ep) "id" = some (json.GoValue.string ep.id) ∧
    GoMap.lookup (endpoint.epMap lib ep) "nid" = some (json.GoValue.string ep.nid) ∧
    GoMap.lookup (endpoint.epMap lib ep) "SrcName" = some (json.GoValue.string ep.srcName) ∧
    GoMap.lookup (endpoint.epMap lib ep) "MacAddress" =
      (if ep.mac = [] then none else some (json.GoValue.string (lib.macString ep.mac))) ∧
    GoMap.lookup (endpoint.epMap lib ep) "Addr" =
      ep.addr.map (fun a => json.GoValue.string (lib.ipNetString a)) ∧
    GoMap.lookup (endpoint.epMap lib ep) "Addrv6" =
      ep.addrv6.map (fun a => json.GoValue.string (lib.ipNetString a)) := by
  unfold endpoint.epMap
  simp only []
  cases h1 : ep.mac <;> cases h2 : ep.addr <;> cases h3 : ep.addrv6 <;>
    simp [GoMap.lookup_insert, GoMap.lookup]

/-- What `endpoint.UnmarshalJSON` does with a payload that decodes to a map in
which every assertion succeeds and every address that is present parses: it
returns no error and sets every serialized field. -/
theorem endpoint.unmarshal_ok (lib : AddrLib) (ep : endpoint) (b : json.Text)
    (epMap : GoMap json.JSON) (id nid srcName : String) (mac : Bytes)
    (addr addrv6 : Option IPNet)
    (hu : json.unmarshalMap b = Except.ok epMap)
    (h1 : (GoMap.lookup epMap "MacAddress" = none ∧ mac = ep.mac) ∨
      ∃ s, GoMap.lookup epMap "MacAddress" = some (json.JSON.string s) ∧
        lib.ParseMAC s = (mac, none))
    (h2 : (GoMap.lookup epMap "Addr" = none ∧ addr = ep.addr) ∨
      ∃ s, GoMap.lookup epMap "Addr" = some (json.JSON.string s) ∧
        lib.ParseCIDR s = (addr, none))
    (h3 : (GoMap.lookup epMap "Addrv6" = none ∧ addrv6 = ep.addrv6) ∨
      ∃ s, GoMap.lookup epMap "Addrv6" = some (json.JSON.string s) ∧
        lib.ParseCIDR s = (addrv6, none))
    (hid : GoMap.lookup epMap "id" = some (json.JSON.string id))
    (hnid : GoMap.lookup epMap "nid" = some (json.JSON.string nid))
    (hsrc : GoMap.lookup epMap "SrcName" = some (json.JSON.string srcName)) :
    endpoint.UnmarshalJSON lib ep b = (Outcome.ret none,
      { ep with id := id, nid := nid, mac := mac, addr := addr, addrv6 := addrv6,
                srcName := srcName }) := by
  unfold endpoint.UnmarshalJSON
  simp only [hu, hid, hnid, hsrc, json.assertString_string]
  rcases h1 with ⟨h1, e1⟩ | ⟨s1, h1, e1⟩ <;>
    rcases h2 with ⟨h2, e2⟩ | ⟨s2, h2, e2⟩ <;>
    rcases h3 with ⟨h3, e3⟩ | ⟨s3, h3, e3⟩ <;>
    simp only [h1, h2, h3, e1, e2, e3, json.assertString_string]

/-- `SetValue` of the text `Value` printed, on a fresh endpoint, succeeds when
the parsers of the address library accept what its printers print: the
record comes back with the addresses the parsers return, and with the version
stamp and the existence flag of a fresh record. -/
theorem endpoint.setValue_value_of (lib : AddrLib) (ep : endpoint) (addr addrv6 : Option IPNet)
    (hmac : ep.mac ≠ [] → lib.ParseMAC (lib.macString ep.mac) = (ep.mac, none))
    (haddr : (ep.addr = none ∧ addr = none) ∨
      ∃ a, ep.addr = some a ∧ lib.ParseCIDR (lib.ipNetString a) = (addr, none))
    (haddr6 : (ep.addrv6 = none ∧ addrv6 = none) ∨
      ∃ a, ep.addrv6 = some a ∧ lib.ParseCIDR (lib.ipNetString a) = (addrv6, none)) :
    endpoint.SetValue lib (endpoint.New ep) (endpoint.Value lib ep) =
      (Outcome.ret none,
        { ep with dbIndex := 0, dbExists := false, addr := addr, addrv6 := addrv6 }) := by
  obtain ⟨epMap, hu, hl⟩ := json.unmarshalMap_encode (endpoint.epMap lib ep)
    (endpoint.epMap_sorted lib ep) (endpoint.epMap_scalar lib ep)
  obtain ⟨l1, l2, l3, l4, l5, l6⟩ := endpoint.epMap_lookup lib ep
  have hv : endpoint.Value lib ep = json.encode (json.GoValue.object (endpoint.epMap lib ep)) :=
    rfl
  rw [hv] at *
  rw [endpoint.setValue_of_map lib _ _ epMap hu,
    endpoint.unmarshal_ok lib (endpoint.New ep) _ epMap ep.id ep.nid ep.srcName ep.mac addr
      addrv6 hu ?_ ?_ ?_ (by rw [hl, l1]; rfl) (by rw [hl, l2]; rfl) (by rw [hl, l3]; rfl)]
  · rfl
  · rw [hl, l4]
    by_cases hm : ep.mac = []
    · exact Or.inl ⟨by simp [hm], by rw [hm]; rfl⟩
    · exact Or.inr ⟨_, by simp [hm, json.toDoc], hmac hm⟩
  · rw [hl, l5]
    rcases haddr with ⟨ha, hr⟩ | ⟨a, ha, hr⟩
    · rw [ha, hr]; exact Or.inl ⟨rfl, rfl⟩
    · rw [ha]; exact Or.inr ⟨_, rfl, hr⟩
  · rw [hl, l6]
    rcases haddr6 with ⟨ha, hr⟩ | ⟨a, ha, hr⟩
    · rw [ha, hr]; exact Or.inl ⟨rfl, rfl⟩
    · rw [ha]; exact Or.inr ⟨_, rfl, hr⟩

/-- `SetValue` of the text `Value` printed, on a fresh endpoint, with the
address functions of the Go library: for a hardware address that is empty or
has 6, 8 or 20 bytes and addresses that are absent or well formed, it
succeeds, and the record comes back with its addresses in the 16-byte form
and with the version stamp and the existence flag of a fresh record. -/
theorem endpoint.setValue_value (ep : endpoint)
    (hmac : ep.mac = [] ∨ ep.mac.length = 6 ∨ ep.mac.length = 8 ∨ ep.mac.length = 20)
    (haddr : ∀ a, ep.addr = some a → net.IPNet.WellFormed a)
    (haddr6 : ∀ a, ep.addrv6 = some a → net.IPNet.WellFormed a) :
    endpoint.SetValue netLib (endpoint.New ep) (endpoint.Value netLib ep) =
      (Outcome.ret none,
        { ep with
          dbIndex := 0, dbExists := false, addr := ep.addr.map net.IPNet.To16,
          addrv6 := ep.addrv6.map net.IPNet.To16 }) := by
  apply endpoint.setValue_value_of
  · intro hm
    rcases hmac with h | h
    · exact absurd h hm
    · exact net.ParseMAC_String ep.mac h
  · cases ha : ep.addr with
    | none => exact Or.inl ⟨rfl, rfl⟩
    | some a => exact Or.inr ⟨a, rfl, net.ParseCIDR_String a (haddr a ha)⟩
  · cases ha : ep.addrv6 with
    | none => exact Or.inl ⟨rfl, rfl⟩
    | some a => exact Or.inr ⟨a, rfl, net.ParseCIDR_String a (haddr6 a ha)⟩

/-- When the addresses of the record are held in 16 bytes the record comes
back as it was. -/
theorem endpoint.setValue_value_exact (ep : endpoint)
    (hmac : ep.mac = [] ∨ ep.mac.length = 6 ∨ ep.mac.length = 8 ∨ ep.mac.length = 20)
    (haddr : ∀ a, ep.addr = some a → net.IPNet.WellFormed a)
    (haddr6 : ∀ a, ep.addrv6 = some a → net.IPNet.WellFormed a)
    (h16 : ∀ a, ep.addr = some a → a.IP.length = 16)
    (h16v6 : ∀ a, ep.addrv6 = some a → a.IP.length = 16) :
    endpoint.SetValue netLib (endpoint.New ep) (endpoint.Value netLib ep) =
      (Outcome.ret none, { ep with dbIndex := 0, dbExists := false }) := by
  rw [endpoint.setValue_value ep hmac haddr haddr6]
  have e1 : ep.addr.map net.IPNet.To16 = ep.addr := by
    cases ha : ep.addr with
    | none => rfl
    | some a => rw [Option.map_some', net.IPNet.To16_of_length a (h16 a ha)]
  have e2 : ep.addrv6.map net.IPNet.To16 = ep.addrv6 := by
    cases ha : ep.addrv6 with
    | none => rfl
    | some a => rw [Option.map_some', net.IPNet.To16_of_length a (h16v6 a ha)]
  rw [e1, e2]

/-- When the parser rejects what the printer prints for the IPv6 address of a
record without hardware address and without IPv4 address, `SetValue` of the
text `Value` printed returns an Internal error. -/
theorem endpoint.setValue_value_rejected (lib : AddrLib) (ep : endpoint) (a : IPNet)
    (hmac : ep.mac = []) (haddr : ep.addr = none) (haddr6 : ep.addrv6 = some a)
    (hbad : (lib.ParseCIDR (lib.ipNetString a)).2 ≠ none) :
    ∃ msg r, endpoint.SetValue lib (endpoint.New ep) (endpoint.Value lib ep) =
      (Outcome.ret (some (GoError.InternalError msg)), r) := by
  obtain ⟨epMap, hu, hl⟩ := json.unmarshalMap_encode (endpoint.epMap lib ep)
    (endpoint.epMap_sorted lib ep) (endpoint.epMap_scalar lib ep)
  obtain ⟨l1, l2, l3, l4, l5, l6⟩ := endpoint.epMap_lookup lib ep
  have hv : endpoint.Value lib ep = json.encode (json.GoValue.object (endpoint.epMap lib ep)) :=
    rfl
  rw [hv] at *
  rw [endpoint.setValue_of_map lib _ _ epMap hu]
  refine (endpoint.unmarshal_internal lib (endpoint.New ep) _ epMap hu).2.2
    (Or.inl (by rw [hl, l4, hmac]; rfl)) (Or.inl (by rw [hl, l5, haddr]; rfl))
    (lib.ipNetString a) (by rw [hl, l6, haddr6]; rfl) hbad

/-- `populateEndpoints` keeps the invariant of the index and the keys of the
index, whatever the store holds and whatever it returns. -/
theorem populateEndpoints_invariant {σ ω : Type} (d : driver σ ω) :
    (IndexInvariant d.networks → IndexInvariant (populateEndpoints d).2.networks) ∧
    (∀ k, k ∈ GoMap.keys (populateEndpoints d).2.networks ↔ k ∈ GoMap.keys d.networks) := by
  cases hs : d.store with
  | none =>
    have h : populateEndpoints d =
        (Outcome.panicked "invalid memory address or nil pointer dereference", d) := by
      simp [populateEndpoints, hs]
    rw [h]
    exact ⟨fun hi => hi, fun _ => Iff.rfl⟩
  | some st =>
    rw [populateEndpoints_eq d st hs]
    cases listed (st.ListEndpoints d.backend).1 with
    | none => exact ⟨fun hi => hi, fun _ => Iff.rfl⟩
    | some l =>
      refine ⟨fun hi k i e he => ?_, fun k => ?_⟩
      · rcases populateEndpoints_foldl_endpointAt_origin l _ k i e he with h | ⟨_, h1, h2, _⟩
        · exact hi k i e h
        · exact ⟨h1, h2⟩
      · exact populateEndpoints_foldl_mem_keys l _ k

end ipvlan
/-! ## Decoding of the macvlan records -/

namespace macvlan

theorem configuration.UnmarshalJSON_success_mv (config r : configuration) (b : json.Text)
    (nMap : GoMap json.JSON) (hu : json.unmarshalMap b = Except.ok nMap)
    (hr : configuration.UnmarshalJSON config b = (Outcome.ret none, r)) :
    GoMap.lookup nMap "ID" = some (json.JSON.string r.ID) ∧
    (∃ m e f, GoMap.lookup nMap "Mtu" = some (json.JSON.number m e) ∧
      json.Float64.ofDecimal m e = some f ∧ r.Mtu = f.toInt) ∧
    GoMap.lookup nMap "Parent" = some (json.JSON.string r.Parent) ∧
    GoMap.lookup nMap "MacvlanMode" = some (json.JSON.string r.MacvlanMode) ∧
    GoMap.lookup nMap "Internal" = some (json.JSON.bool r.Internal) ∧
    GoMap.lookup nMap "CreatedSubIface" = some (json.JSON.bool r.CreatedSlaveLink) ∧
    ((GoMap.lookup nMap "Ipv4Subnets" = none ∧ r.Ipv4Subnets = config.Ipv4Subnets ∧
        r.Ipv4Spare = config.Ipv4Spare) ∨
      ∃ s, GoMap.lookup nMap "Ipv4Subnets" = some (json.JSON.string s) ∧
        unmarshalSubnets config.Ipv4Subnets config.Ipv4Spare s.data = (r.Ipv4Subnets, none) ∧
        r.Ipv4Spare = spareAfter config.Ipv4Subnets config.Ipv4Spare s.data) ∧
    ((GoMap.lookup nMap "Ipv6Subnets" = none ∧ r.Ipv6Subnets = config.Ipv6Subnets ∧
        r.Ipv6Spare = config.Ipv6Spare) ∨
      ∃ s, GoMap.lookup nMap "Ipv6Subnets" = some (json.JSON.string s) ∧
        unmarshalSubnets config.Ipv6Subnets config.Ipv6Spare s.data = (r.Ipv6Subnets, none) ∧
        r.Ipv6Spare = spareAfter config.Ipv6Subnets config.Ipv6Spare s.data) ∧
    r.dbIndex = config.dbIndex ∧ r.dbExists = config.dbExists := by
  unfold configuration.UnmarshalJSON at hr
  simp only [hu] at hr
  split at hr
  · exact absurd (congrArg Prod.fst hr) (by simp)
  rename_i id h1
  split at hr
  · exact absurd (congrArg Prod.fst hr) (by simp)
  rename_i f h2
  split at hr
  · exact absurd (congrArg Prod.fst hr) (by simp)
  rename_i parent h3
  split at hr
  · exact absurd (congrArg Prod.fst hr) (by simp)
  rename_i mode h4
  split at hr
  · exact absurd (congrArg Prod.fst hr) (by simp)
  rename_i internal h6
  split at hr
  · exact absurd (congrArg Prod.fst hr) (by simp)
  rename_i created h7
  split at hr
  · exact absurd (congrArg Prod.fst hr) (by simp)
  · exact absurd (congrArg Prod.fst hr) (by simp)
  rename_i v4 spare4 h8
  split at hr
  · exact absurd (congrArg Prod.fst hr) (by simp)
  · exact absurd (congrArg Prod.fst hr) (by simp)
  rename_i v6 spare6 h9
  have hr2 := (congrArg Prod.snd hr).symm
  simp only [] at hr2
  subst hr2
  obtain ⟨m, e, hm, hf⟩ := json.assertFloat64_eq_some _ _ h2
  refine ⟨json.assertString_eq_some _ _ h1, ⟨m, e, f, hm, hf, rfl⟩,
    json.assertString_eq_some _ _ h3, json.assertString_eq_some _ _ h4,
    json.assertBool_eq_some _ _ h6, json.assertBool_eq_some _ _ h7, ?_, ?_, rfl, rfl⟩
  · cases hl : GoMap.lookup nMap "Ipv4Subnets" with
    | none =>
      rw [hl] at h8
      have hh := Option.some.inj h8
      exact Or.inl ⟨rfl, (congrArg (fun x => x.1.1) hh).symm, (congrArg Prod.snd hh).symm⟩
    | some v =>
      rw [hl] at h8
      simp only [] at h8
      split at h8
      · exact absurd h8 (by simp)
      · rename_i s hs
        have hh := Option.some.inj h8
        exact Or.inr ⟨s, json.assertString_eq_some _ _ hs, congrArg Prod.fst hh,
          (congrArg Prod.snd hh).symm⟩
  · cases hl : GoMap.lookup nMap "Ipv6Subnets" with
    | none =>
      rw [hl] at h9
      have hh := Option.some.inj h9
      exact Or.inl ⟨rfl, (congrArg (fun x => x.1.1) hh).symm, (congrArg Prod.snd hh).symm⟩
    | some v =>
      rw [hl] at h9
      simp only [] at h9
      split at h9
      · exact absurd h9 (by simp)
      · rename_i s hs
        have hh := Option.some.inj h9
        exact Or.inr ⟨s, json.assertString_eq_some _ _ hs, congrArg Prod.fst hh,
          (congrArg Prod.snd hh).symm⟩

theorem endpoint.unmarshal_success_mv (lib : AddrLib) (ep r : endpoint) (b : json.Text)
    (epMap : GoMap json.JSON) (hu : json.unmarshalMap b = Except.ok epMap)
    (hr : endpoint.UnmarshalJSON lib ep b = (Outcome.ret none, r)) :
    ((GoMap.lookup epMap "MacAddress" = none ∧ r.mac = ep.mac) ∨
      ∃ s, GoMap.lookup epMap "MacAddress" = some (json.JSON.string s) ∧
        lib.ParseMAC s = (r.mac, none)) ∧
    ((GoMap.lookup epMap "Addr" = none ∧ r.addr = ep.addr) ∨
      ∃ s, GoMap.lookup epMap "Addr" = some (json.JSON.string s) ∧
        lib.ParseCIDR s = (r.addr, none)) ∧
    ((GoMap.lookup epMap "Addrv6" = none ∧ r.addrv6 = ep.addrv6) ∨
      ∃ s, GoMap.lookup epMap "Addrv6" = some (json.JSON.string s) ∧
        lib.ParseCIDR s = (r.addrv6, none)) ∧
    GoMap.lookup epMap "id" = some (json.JSON.string r.id) ∧
    GoMap.lookup epMap "nid" = some (json.JSON.string r.nid) ∧
    GoMap.lookup epMap "SrcName" = some (json.JSON.string r.srcName) ∧
    r.dbIndex = ep.dbIndex ∧ r.dbExists = ep.dbExists := by
  unfold endpoint.UnmarshalJSON at hr
  simp only [hu] at hr
  split at hr
  · exact absurd (congrArg Prod.fst hr) (by simp)
  · exact absurd (congrArg Prod.fst hr) (by simp)
  rename_i mac h1
  split at hr
  · exact absurd (congrArg Prod.fst hr) (by simp)
  · exact absurd (congrArg Prod.fst hr) (by simp)
  rename_i addr h2
  split at hr
  · exact absurd (congrArg Prod.fst hr) (by simp)
  · exact absurd (congrArg Prod.fst hr) (by simp)
  rename_i addrv6 h3
  split at hr
  · exact absurd (congrArg Prod.fst hr) (by simp)
  rename_i id h4
  split at hr
  · exact absurd (congrArg Prod.fst hr) (by simp)
  rename_i nid h5
  split at hr
  · exact absurd (congrArg Prod.fst hr) (by simp)
  rename_i srcName h6
  have hr2 := (congrArg Prod.snd hr).symm
  simp only [] at hr2
  subst hr2
  refine ⟨?_, ?_, ?_, json.assertString_eq_some _ _ h4, json.assertString_eq_some _ _ h5,
    json.assertString_eq_some _ _ h6, rfl, rfl⟩
  · cases hl : GoMap.lookup epMap "MacAddress" with
    | none =>
      rw [hl] at h1
      exact Or.inl ⟨rfl, (congrArg Prod.fst (Option.some.inj h1)).symm⟩
    | some v =>
      rw [hl] at h1
      simp only [] at h1
      split at h1
      · exact absurd h1 (by simp)
      · rename_i s hs
        exact Or.inr ⟨s, json.assertString_eq_some _ _ hs, Option.some.inj h1⟩
  · cases hl : GoMap.lookup epMap "Addr" with
    | none =>
      rw [hl] at h2
      exact Or.inl ⟨rfl, (congrArg Prod.fst (Option.some.inj h2)).symm⟩
    | some v =>
      rw [hl] at h2
      simp only [] at h2
      split at h2
      · exact absurd h2 (by simp)
      · rename_i s hs
        exact Or.inr ⟨s, json.assertString_eq_some _ _ hs, Option.some.inj h2⟩
  · cases hl : GoMap.lookup epMap "Addrv6" with
    | none =>
      rw [hl] at h3
      exact Or.inl ⟨rfl, (congrArg Prod.fst (Option.some.inj h3)).symm⟩
    | some v =>
      rw [hl] at h3
      simp only [] at h3
      split at h3
      · exact absurd h3 (by simp)
      · rename_i s hs
        exact Or.inr ⟨s, json.assertString_eq_some _ _ hs, Option.some.inj h3⟩

theorem endpoint.unmarshal_panics_mv (lib : AddrLib) (ep : endpoint) (b : json.Text)
    (epMap : GoMap json.JSON) (hu : json.unmarshalMap b = Except.ok epMap)
    (h1 : GoMap.lookup epMap "MacAddress" = none) (h2 : GoMap.lookup epMap "Addr" = none)
    (h3 : GoMap.lookup epMap "Addrv6" = none) (hr : ¬ endpoint.RequiredTyped epMap) :
    ∃ reason r, endpoint.UnmarshalJSON lib ep b = (Outcome.panicked reason, r) := by
  unfold endpoint.UnmarshalJSON
  simp only [hu, h1, h2, h3]
  split
  · exact ⟨_, _, rfl⟩
  rename_i id h4
  split
  · exact ⟨_, _, rfl⟩
  rename_i nid h5
  split
  · exact ⟨_, _, rfl⟩
  rename_i srcName h6
  exact absurd ⟨⟨_, json.assertString_eq_some _ _ h4⟩, ⟨_, json.assertString_eq_some _ _ h5⟩,
    ⟨_, json.assertString_eq_some _ _ h6⟩⟩ hr

theorem endpoint.unmarshal_internal_mv (lib : AddrLib) (ep : endpoint) (b : json.Text)
    (epMap : GoMap json.JSON) (hu : json.unmarshalMap b = Except.ok epMap) :
    (∀ s, GoMap.lookup epMap "MacAddress" = some (json.JSON.string s) →
      (lib.ParseMAC s).2 ≠ none →
      ∃ msg r, endpoint.UnmarshalJSON lib ep b =
        (Outcome.ret (some (GoError.InternalError msg)), r)) ∧
    ((GoMap.lookup epMap "MacAddress" = none ∨
        ∃ s, GoMap.lookup epMap "MacAddress" = some (json.JSON.string s)) →
      ∀ s, GoMap.lookup epMap "Addr" = some (json.JSON.string s) →
      (lib.ParseCIDR s).2 ≠ none →
      ∃ msg r, endpoint.UnmarshalJSON lib ep b =
        (Outcome.ret (some (GoError.InternalError msg)), r)) ∧
    ((GoMap.lookup epMap "MacAddress" = none ∨
        ∃ s, GoMap.lookup epMap "MacAddress" = some (json.JSON.string s)) →
      (GoMap.lookup epMap "Addr" = none ∨
        ∃ s, GoMap.lookup epMap "Addr" = some (json.JSON.string s)) →
      ∀ s, GoMap.lookup epMap "Addrv6" = some (json.JSON.string s) →
      (lib.ParseCIDR s).2 ≠ none →
      ∃ msg r, endpoint.UnmarshalJSON lib ep b =
        (Outcome.ret (some (GoError.InternalError msg)), r)) := by
  refine ⟨?_, ?_, ?_⟩
  · intro s h1 hp
    unfold endpoint.UnmarshalJSON
    simp only [hu, h1, json.assertString_string]
    rcases hq : lib.ParseMAC s with ⟨mac, _ | e⟩
    · rw [hq] at hp
      exact absurd rfl hp
    · exact ⟨_, _, rfl⟩
  · intro h1 s h2 hp
    unfold endpoint.UnmarshalJSON
    simp only [hu, h2, json.assertString_string]
    rcases hq : lib.ParseCIDR s with ⟨addr, _ | e⟩
    · rw [hq] at hp
      exact absurd rfl hp
    rcases h1 with h1 | ⟨s1, h1⟩
    all_goals rw [h1]
    all_goals simp only [json.assertString_string]
    all_goals repeat' split
    all_goals first
      | exact ⟨_, _, rfl⟩
      | (rename_i h; exact absurd h (by simp))
  · intro h1 h2 s h3 hp
    unfold endpoint.UnmarshalJSON
    simp only [hu, h3, json.assertString_string]
    rcases hq : lib.ParseCIDR s with ⟨addr, _ | e⟩
    · rw [hq] at hp
      exact absurd rfl hp
    rcases h1 with h1 | ⟨s1, h1⟩
    all_goals rw [h1]
    all_goals simp only [json.assertString_string]
    all_goals rcases h2 with h2 | ⟨s2, h2⟩
    all_goals rw [h2]
    all_goals simp only [json.assertString_string]
    all_goals repeat' split
    all_goals first
      | exact ⟨_, _, rfl⟩
      | (rename_i h; exact absurd h (by simp))

/-- On a text that does not decode to a field map `endpoint.UnmarshalJSON`
returns the error of the decoder, wrapped, and leaves the receiver. -/
theorem endpoint.unmarshal_of_error_mv (lib : AddrLib) (ep : endpoint) (b : json.Text)
    (e : GoError) (hu : json.unmarshalMap b = Except.error e) :
    endpoint.UnmarshalJSON lib ep b =
      (Outcome.ret (some (GoError.errorString "Failed to unmarshal to macvlan endpoint")),
        ep) := by
  unfold endpoint.UnmarshalJSON
  rw [hu]

/-- A text that decodes to a map is JSON, so `SetValue` hands it to
`UnmarshalJSON`. -/
theorem configuration.SetValue_of_map_mv (config : configuration) (value : json.Text)
    (nMap : GoMap json.JSON) (hu : json.unmarshalMap value = Except.ok nMap) :
    configuration.SetValue config value = configuration.UnmarshalJSON config value := by
  unfold configuration.SetValue
  cases hp : json.parse value with
  | none =>
    unfold json.unmarshalMap at hu
    rw [hp] at hu
    exact absurd hu (by simp)
  | some doc => rfl

theorem endpoint.setValue_of_map_mv (lib : AddrLib) (ep : endpoint) (value : json.Text)
    (epMap : GoMap json.JSON) (hu : json.unmarshalMap value = Except.ok epMap) :
    endpoint.SetValue lib ep value = endpoint.UnmarshalJSON lib ep value := by
  unfold endpoint.SetValue
  cases hp : json.parse value with
  | none =>
    unfold json.unmarshalMap at hu
    rw [hp] at hu
    exact absurd hu (by simp)
  | some doc => rfl

/-- When `SetValue` returns no error the payload decodes to a field map. -/
theorem configuration.SetValue_success_map_mv (config r : configuration) (value : json.Text)
    (h : configuration.SetValue config value = (Outcome.ret none, r)) :
    ∃ nMap, json.unmarshalMap value = Except.ok nMap ∧
      configuration.UnmarshalJSON config value = (Outcome.ret none, r) := by
  unfold configuration.SetValue at h
  split at h
  · exact absurd (congrArg Prod.fst h) (by simp)
  cases hu : json.unmarshalMap value with
  | error e =>
    unfold configuration.UnmarshalJSON at h
    rw [hu] at h
    exact absurd (congrArg Prod.fst h) (by simp)
  | ok nMap => exact ⟨nMap, rfl, h⟩

theorem endpoint.setValue_success_map_mv (lib : AddrLib) (ep r : endpoint) (value : json.Text)
    (h : endpoint.SetValue lib ep value = (Outcome.ret none, r)) :
    ∃ epMap, json.unmarshalMap value = Except.ok epMap ∧
      endpoint.UnmarshalJSON lib ep value = (Outcome.ret none, r) := by
  unfold endpoint.SetValue at h
  split at h
  · exact absurd (congrArg Prod.fst h) (by simp)
  cases hu : json.unmarshalMap value with
  | error e =>
    unfold endpoint.UnmarshalJSON at h
    rw [hu] at h
    exact absurd (congrArg Prod.fst h) (by simp)
  | ok epMap => exact ⟨epMap, rfl, h⟩

/-- Two successful decodings of one payload agree on every fixed field, and on
a subnet slice when the receivers agreed on it, elements and spare capacity. -/
theorem configuration.SetValue_determined_mv (c1 c2 r1 r2 : configuration) (p : json.Text)
    (h1 : configuration.SetValue c1 p = (Outcome.ret none, r1))
    (h2 : configuration.SetValue c2 p = (Outcome.ret none, r2)) :
    r1.ID = r2.ID ∧ r1.Mtu = r2.Mtu ∧ r1.Parent = r2.Parent ∧
    r1.MacvlanMode = r2.MacvlanMode ∧
    r1.Internal = r2.Internal ∧ r1.CreatedSlaveLink = r2.CreatedSlaveLink ∧
    (c1.Ipv4Subnets = c2.Ipv4Subnets → c1.Ipv4Spare = c2.Ipv4Spare →
      r1.Ipv4Subnets = r2.Ipv4Subnets ∧ r1.Ipv4Spare = r2.Ipv4Spare) ∧
    (c1.Ipv6Subnets = c2.Ipv6Subnets → c1.Ipv6Spare = c2.Ipv6Spare →
      r1.Ipv6Subnets = r2.Ipv6Subnets ∧ r1.Ipv6Spare = r2.Ipv6Spare) := by
  obtain ⟨nMap, hu, hr1⟩ := configuration.SetValue_success_map_mv c1 r1 p h1
  obtain ⟨nMap2, hu2, hr2⟩ := configuration.SetValue_success_map_mv c2 r2 p h2
  rw [hu] at hu2
  cases hu2
  have s1 := configuration.UnmarshalJSON_success_mv c1 r1 p nMap hu hr1
  have s2 := configuration.UnmarshalJSON_success_mv c2 r2 p nMap hu hr2
  obtain ⟨a1, ⟨m, e, f, am, af, a2⟩, a3, a4, s1⟩ := s1
  obtain ⟨b1, ⟨m2, e2, f2, bm, bf, b2⟩, b3, b4, s2⟩ := s2
  obtain ⟨a6, a7, a8, a9, _, _⟩ := s1
  obtain ⟨b6, b7, b8, b9, _, _⟩ := s2
  have e1 : r1.ID = r2.ID := by
    have := a1.symm.trans b1
    injection this with this
    injection this
  have e2 : r1.Mtu = r2.Mtu := by
    have := am.symm.trans bm
    injection this with this
    injection this with hm he
    subst hm he
    rw [af] at bf
    injection bf with bf
    rw [a2, b2, bf]
  have e3 : r1.Parent = r2.Parent := by
    have := a3.symm.trans b3
    injection this with this
    injection this
  have e4 : r1.MacvlanMode = r2.MacvlanMode := by
    have := a4.symm.trans b4
    injection this with this
    injection this
  have e6 : r1.Internal = r2.Internal := by
    have := a6.symm.trans b6
    injection this with this
    injection this
  have e7 : r1.CreatedSlaveLink = r2.CreatedSlaveLink := by
    have := a7.symm.trans b7
    injection this with this
    injection this
  refine ⟨e1, e2, e3, e4,
    e6, e7, ?_, ?_⟩
  · intro hc hsp
    rcases a8 with ⟨an, ar, ap⟩ | ⟨s, as, ar, ap⟩ <;>
      rcases b8 with ⟨bn, br, bp⟩ | ⟨t, bs, br, bp⟩
    · exact ⟨by rw [ar, br, hc], by rw [ap, bp, hsp]⟩
    · rw [an] at bs; exact absurd bs (by simp)
    · rw [bn] at as; exact absurd as (by simp)
    · have := as.symm.trans bs
      injection this with this
      injection this with this
      subst this
      rw [hc, hsp, br] at ar
      exact ⟨(congrArg Prod.fst ar).symm, by rw [ap, bp, hc, hsp]⟩
  · intro hc hsp
    rcases a9 with ⟨an, ar, ap⟩ | ⟨s, as, ar, ap⟩ <;>
      rcases b9 with ⟨bn, br, bp⟩ | ⟨t, bs, br, bp⟩
    · exact ⟨by rw [ar, br, hc], by rw [ap, bp, hsp]⟩
    · rw [an] at bs; exact absurd bs (by simp)
    · rw [bn] at as; exact absurd as (by simp)
    · have := as.symm.trans bs
      injection this with this
      injection this with this
      subst this
      rw [hc, hsp, br] at ar
      exact ⟨(congrArg Prod.fst ar).symm, by rw [ap, bp, hc, hsp]⟩

/-- A subnet slice that the payload does not carry is left as the receiver had
it. -/
theorem configuration.SetValue_keeps_mv (c r : configuration) (p : json.Text)
    (nMap : GoMap json.JSON) (hu : json.unmarshalMap p = Except.ok nMap)
    (h : configuration.SetValue c p = (Outcome.ret none, r)) :
    (GoMap.lookup nMap "Ipv4Subnets" = none →
      r.Ipv4Subnets = c.Ipv4Subnets ∧ r.Ipv4Spare = c.Ipv4Spare) ∧
    (GoMap.lookup nMap "Ipv6Subnets" = none →
      r.Ipv6Subnets = c.Ipv6Subnets ∧ r.Ipv6Spare = c.Ipv6Spare) := by
  rw [configuration.SetValue_of_map_mv c p nMap hu] at h
  obtain ⟨_, _, _, _, s⟩ := configuration.UnmarshalJSON_success_mv c r p nMap hu h
  obtain ⟨_, _, s8, s9, _, _⟩ := s
  refine ⟨fun hn => ?_, fun hn => ?_⟩
  · rcases s8 with ⟨_, hr⟩ | ⟨s, hs, _⟩
    · exact hr
    · rw [hn] at hs; exact absurd hs (by simp)
  · rcases s9 with ⟨_, hr⟩ | ⟨s, hs, _⟩
    · exact hr
    · rw [hn] at hs; exact absurd hs (by simp)

/-- Two successful decodings of one endpoint payload agree on the fixed fields
and on every address the payload carries; an address it does not carry is
left as the receiver had it. -/
theorem endpoint.setValue_determined_mv (lib : AddrLib) (e1 e2 r1 r2 : endpoint) (p : json.Text)
    (epMap : GoMap json.JSON) (hu : json.unmarshalMap p = Except.ok epMap)
    (h1 : endpoint.SetValue lib e1 p = (Outcome.ret none, r1))
    (h2 : endpoint.SetValue lib e2 p = (Outcome.ret none, r2)) :
    r1.id = r2.id ∧ r1.nid = r2.nid ∧ r1.srcName = r2.srcName ∧
    (GoMap.lookup epMap "MacAddress" ≠ none → r1.mac = r2.mac) ∧
    (GoMap.lookup epMap "Addr" ≠ none → r1.addr = r2.addr) ∧
    (GoMap.lookup epMap "Addrv6" ≠ none → r1.addrv6 = r2.addrv6) ∧
    (GoMap.lookup epMap "MacAddress" = none → r1.mac = e1.mac) ∧
    (GoMap.lookup epMap "Addr" = none → r1.addr = e1.addr) ∧
    (GoMap.lookup epMap "Addrv6" = none → r1.addrv6 = e1.addrv6) := by
  rw [endpoint.setValue_of_map_mv lib e1 p epMap hu] at h1
  rw [endpoint.setValue_of_map_mv lib e2 p epMap hu] at h2
  obtain ⟨a1, a2, a3, a4, a5, a6, _, _⟩ := endpoint.unmarshal_success_mv lib e1 r1 p epMap hu h1
  obtain ⟨b1, b2, b3, b4, b5, b6, _, _⟩ := endpoint.unmarshal_success_mv lib e2 r2 p epMap hu h2
  refine ⟨?_, ?_, ?_, fun hp => ?_, fun hp => ?_, fun hp => ?_, fun hn => ?_, fun hn => ?_,
    fun hn => ?_⟩
  · have := a4.symm.trans b4
    injection this with this
    injection this
  · have := a5.symm.trans b5
    injection this with this
    injection this
  · have := a6.symm.trans b6
    injection this with this
    injection this
  · rcases a1 with ⟨an, _⟩ | ⟨s, as, ar⟩
    · exact absurd an hp
    rcases b1 with ⟨bn, _⟩ | ⟨t, bs, br⟩
    · exact absurd bn hp
    have := as.symm.trans bs
    injection this with this
    injection this with this
    subst this
    rw [br] at ar
    exact (congrArg Prod.fst ar).symm
  · rcases a2 with ⟨an, _⟩ | ⟨s, as, ar⟩
    · exact absurd an hp
    rcases b2 with ⟨bn, _⟩ | ⟨t, bs, br⟩
    · exact absurd bn hp
    have := as.symm.trans bs
    injection this with this
    injection this with this
    subst this
    rw [br] at ar
    exact (congrArg Prod.fst ar).symm
  · rcases a3 with ⟨an, _⟩ | ⟨s, as, ar⟩
    · exact absurd an hp
    rcases b3 with ⟨bn, _⟩ | ⟨t, bs, br⟩
    · exact absurd bn hp
    have := as.symm.trans bs
    injection this with this
    injection this with this
    subst this
    rw [br] at ar
    exact (congrArg Prod.fst ar).symm
  · rcases a1 with ⟨_, hr⟩ | ⟨s, hs, _⟩
    · exact hr
    · rw [hn] at hs; exact absurd hs (by simp)
  · rcases a2 with ⟨_, hr⟩ | ⟨s, hs, _⟩
    · exact hr
    · rw [hn] at hs; exact absurd hs (by simp)
  · rcases a3 with ⟨_, hr⟩ | ⟨s, hs, _⟩
    · exact hr
    · rw [hn] at hs; exact absurd hs (by simp)

/-- Which members the map of a network record has. -/
theorem configuration.nMap_keys_mv (c : configuration) :
    ("Ipv4Subnets" ∈ GoMap.keys (configuration.nMap c) ↔ c.Ipv4Subnets ≠ []) ∧
    ("Ipv6Subnets" ∈ GoMap.keys (configuration.nMap c) ↔ c.Ipv6Subnets ≠ []) ∧
    "ID" ∈ GoMap.keys (configuration.nMap c) ∧
    "Mtu" ∈ GoMap.keys (configuration.nMap c) ∧
    "Parent" ∈ GoMap.keys (configuration.nMap c) ∧
    "MacvlanMode" ∈ GoMap.keys (configuration.nMap c) ∧
    "Internal" ∈ GoMap.keys (configuration.nMap c) ∧
    "CreatedSubIface" ∈ GoMap.keys (configuration.nMap c) := by
  unfold configuration.nMap
  simp only []
  cases h4 : c.Ipv4Subnets <;> cases h6 : c.Ipv6Subnets <;>
    simp [GoMap.mem_keys_insert, GoMap.keys_nil]

/-- Which members the map of an endpoint record has. -/
theorem endpoint.epMap_keys_mv (lib : AddrLib) (ep : endpoint) :
    ("MacAddress" ∈ GoMap.keys (endpoint.epMap lib ep) ↔ ep.mac ≠ []) ∧
    ("Addr" ∈ GoMap.keys (endpoint.epMap lib ep) ↔ ep.addr ≠ none) ∧
    ("Addrv6" ∈ GoMap.keys (endpoint.epMap lib ep) ↔ ep.addrv6 ≠ none) ∧
    "id" ∈ GoMap.keys (endpoint.epMap lib ep) ∧
    "nid" ∈ GoMap.keys (endpoint.epMap lib ep) ∧
    "SrcName" ∈ GoMap.keys (endpoint.epMap lib ep) := by
  unfold endpoint.epMap
  simp only []
  cases h1 : ep.mac <;> cases h2 : ep.addr <;> cases h3 : ep.addrv6 <;>
    simp [GoMap.mem_keys_insert, GoMap.keys_nil]

theorem endpoint.marshalJSON_eq_mv (lib : AddrLib) (ep : endpoint) :
    endpoint.MarshalJSON lib ep = (json.encode (json.GoValue.object (endpoint.epMap lib ep)), none) :=
  rfl

/-- `UnmarshalJSON` never assigns the version stamp or the existence flag,
whatever it returns. -/
theorem configuration.UnmarshalJSON_index_mv (config : configuration) (b : json.Text) :
    (configuration.UnmarshalJSON config b).2.dbIndex = config.dbIndex ∧
    (configuration.UnmarshalJSON config b).2.dbExists = config.dbExists := by
  have key : ∀ r, configuration.UnmarshalJSON config b = r →
      r.2.dbIndex = config.dbIndex ∧ r.2.dbExists = config.dbExists := by
    intro r hr
    unfold configuration.UnmarshalJSON at hr
    cases hu : json.unmarshalMap b with
    | error e =>
      simp only [hu] at hr
      subst hr
      exact ⟨rfl, rfl⟩
    | ok nMap =>
      simp only [hu] at hr
      repeat (split at hr; all_goals (try (subst hr; exact ⟨rfl, rfl⟩)))
  exact key _ rfl

theorem endpoint.unmarshal_index_mv (lib : AddrLib) (ep : endpoint) (b : json.Text) :
    (endpoint.UnmarshalJSON lib ep b).2.dbIndex = ep.dbIndex ∧
    (endpoint.UnmarshalJSON lib ep b).2.dbExists = ep.dbExists := by
  have key : ∀ r, endpoint.UnmarshalJSON lib ep b = r →
      r.2.dbIndex = ep.dbIndex ∧ r.2.dbExists = ep.dbExists := by
    intro r hr
    unfold endpoint.UnmarshalJSON at hr
    cases hu : json.unmarshalMap b with
    | error e =>
      simp only [hu] at hr
      subst hr
      exact ⟨rfl, rfl⟩
    | ok epMap =>
      simp only [hu] at hr
      repeat (split at hr; all_goals (try (subst hr; exact ⟨rfl, rfl⟩)))
  exact key _ rfl

theorem configuration.SetValue_index_mv (config : configuration) (value : json.Text) :
    (configuration.SetValue config value).2.dbIndex = config.dbIndex ∧
    (configuration.SetValue config value).2.dbExists = config.dbExists := by
  unfold configuration.SetValue
  split
  · exact ⟨rfl, rfl⟩
  · exact configuration.UnmarshalJSON_index_mv config value

theorem endpoint.setValue_index_mv (lib : AddrLib) (ep : endpoint) (value : json.Text) :
    (endpoint.SetValue lib ep value).2.dbIndex = ep.dbIndex ∧
    (endpoint.SetValue lib ep value).2.dbExists = ep.dbExists := by
  unfold endpoint.SetValue
  split
  · exact ⟨rfl, rfl⟩
  · exact endpoint.unmarshal_index_mv lib ep value

theorem configuration.Value_index_mv (c : configuration) (n : Nat) (b : Bool) :
    configuration.Value { c with dbIndex := n, dbExists := b } = configuration.Value c := rfl

theorem endpoint.value_index_mv (lib : AddrLib) (e : endpoint) (n : Nat) (b : Bool) :
    endpoint.Value lib { e with dbIndex := n, dbExists := b } = endpoint.Value lib e := rfl

theorem endpoint.epMap_sorted_mv (lib : AddrLib) (ep : endpoint) :
    GoMap.Sorted (endpoint.epMap lib ep) := by
  unfold endpoint.epMap
  simp only []
  split <;> split <;> split_ifs <;> repeat' apply GoMap.insert_sorted
  all_goals exact GoMap.sorted_nil

theorem endpoint.epMap_scalar_mv (lib : AddrLib) (ep : endpoint) :
    ∀ kv ∈ endpoint.epMap lib ep, json.Scalar kv.2 := by
  intro kv hkv
  unfold endpoint.epMap at hkv
  simp only [] at hkv
  split at hkv <;> split at hkv <;> split_ifs at hkv <;>
    repeat' (first
      | (rcases json.mem_insert _ _ _ _ hkv with hkv | hkv)
      | (rw [hkv]; exact json.scalar_string _)
      | (exact absurd hkv (List.not_mem_nil _)))

theorem endpoint.epMap_lookup_mv (lib : AddrLib) (ep : endpoint) :
    GoMap.lookup (endpoint.epMap lib ep) "id" = some (json.GoValue.string ep.id) ∧
    GoMap.lookup (endpoint.epMap lib ep) "nid" = some (json.GoValue.string ep.nid) ∧
    GoMap.lookup (endpoint.epMap lib ep) "SrcName" = some (json.GoValue.string ep.srcName) ∧
    GoMap.lookup (endpoint.epMap lib ep) "MacAddress" =
      (if ep.mac = [] then none else some (json.GoValue.string (lib.macString ep.mac))) ∧
    GoMap.lookup (endpoint.epMap lib ep) "Addr" =
      ep.addr.map (fun a => json.GoValue.string (lib.ipNetString a)) ∧
    GoMap.lookup (endpoint.epMap lib ep) "Addrv6" =
      ep.addrv6.map (fun a => json.GoValue.string (lib.ipNetString a)) := by
  unfold endpoint.epMap
  simp only []
  cases h1 : ep.mac <;> cases h2 : ep.addr <;> cases h3 : ep.addrv6 <;>
    simp [GoMap.lookup_insert, GoMap.lookup]

/-- What `endpoint.UnmarshalJSON` does with a payload that decodes to a map in
which every assertion succeeds and every address that is present parses: it
returns no error and sets every serialized field. -/
theorem endpoint.unmarshal_ok_mv (lib : AddrLib) (ep : endpoint) (b : json.Text)
    (epMap : GoMap json.JSON) (id nid srcName : String) (mac : Bytes)
    (addr addrv6 : Option IPNet)
    (hu : json.unmarshalMap b = Except.ok epMap)
    (h1 : (GoMap.lookup epMap "MacAddress" = none ∧ mac = ep.mac) ∨
      ∃ s, GoMap.lookup epMap "MacAddress" = some (json.JSON.string s) ∧
        lib.ParseMAC s = (mac, none))
    (h2 : (GoMap.lookup epMap "Addr" = none ∧ addr = ep.addr) ∨
      ∃ s, GoMap.lookup epMap "Addr" = some (json.JSON.string s) ∧
        lib.ParseCIDR s = (addr, none))
    (h3 : (GoMap.lookup epMap "Addrv6" = none ∧ addrv6 = ep.addrv6) ∨
      ∃ s, GoMap.lookup epMap "Addrv6" = some (json.JSON.string s) ∧
        lib.ParseCIDR s = (addrv6, none))
    (hid : GoMap.lookup epMap "id" = some (json.JSON.string id))
    (hnid : GoMap.lookup epMap "nid" = some (json.JSON.string nid))
    (hsrc : GoMap.lookup epMap "SrcName" = some (json.JSON.string srcName)) :
    endpoint.UnmarshalJSON lib ep b = (Outcome.ret none,
      { ep with id := id, nid := nid, mac := mac, addr := addr, addrv6 := addrv6,
                srcName := srcName }) := by
  unfold endpoint.UnmarshalJSON
  simp only [hu, hid, hnid, hsrc, json.assertString_string]
  rcases h1 with ⟨h1, e1⟩ | ⟨s1, h1, e1⟩ <;>
    rcases h2 with ⟨h2, e2⟩ | ⟨s2, h2, e2⟩ <;>
    rcases h3 with ⟨h3, e3⟩ | ⟨s3, h3, e3⟩ <;>
    simp only [h1, h2, h3, e1, e2, e3, json.assertString_string]

/-- `SetValue` of the text `Value` printed, on a fresh endpoint, succeeds when
the parsers of the address library accept what its printers print: the
record comes back with the addresses the parsers return, and with the version
stamp and the existence flag of a fresh record. -/
theorem endpoint.setValue_value_of_mv (lib : AddrLib) (ep : endpoint) (addr addrv6 : Option IPNet)
    (hmac : ep.mac ≠ [] → lib.ParseMAC (lib.macString ep.mac) = (ep.mac, none))
    (haddr : (ep.addr = none ∧ addr = none) ∨
      ∃ a, ep.addr = some a ∧ lib.ParseCIDR (lib.ipNetString a) = (addr, none))
    (haddr6 : (ep.addrv6 = none ∧ addrv6 = none) ∨
      ∃ a, ep.addrv6 = some a ∧ lib.ParseCIDR (lib.ipNetString a) = (addrv6, none)) :
    endpoint.SetValue lib (endpoint.New ep) (endpoint.Value lib ep) =
      (Outcome.ret none,
        { ep with dbIndex := 0, dbExists := false, addr := addr, addrv6 := addrv6 }) := by
  obtain ⟨epMap, hu, hl⟩ := json.unmarshalMap_encode (endpoint.epMap lib ep)
    (endpoint.epMap_sorted_mv lib ep) (endpoint.epMap_scalar_mv lib ep)
  obtain ⟨l1, l2, l3, l4, l5, l6⟩ := endpoint.epMap_lookup_mv lib ep
  have hv : endpoint.Value lib ep = json.encode (json.GoValue.object (endpoint.epMap lib ep)) :=
    rfl
  rw [hv] at *
  rw [endpoint.setValue_of_map_mv lib _ _ epMap hu,
    endpoint.unmarshal_ok_mv lib (endpoint.New ep) _ epMap ep.id ep.nid ep.srcName ep.mac addr
      addrv6 hu ?_ ?_ ?_ (by rw [hl, l1]; rfl) (by rw [hl, l2]; rfl) (by rw [hl, l3]; rfl)]
  · rfl
  · rw [hl, l4]
    by_cases hm : ep.mac = []
    · exact Or.inl ⟨by simp [hm], by rw [hm]; rfl⟩
    · exact Or.inr ⟨_, by simp [hm, json.toDoc], hmac hm⟩
  · rw [hl, l5]
    rcases haddr with ⟨ha, hr⟩ | ⟨a, ha, hr⟩
    · rw [ha, hr]; exact Or.inl ⟨rfl, rfl⟩
    · rw [ha]; exact Or.inr ⟨_, rfl, hr⟩
  · rw [hl, l6]
    rcases haddr6 with ⟨ha, hr⟩ | ⟨a, ha, hr⟩
    · rw [ha, hr]; exact Or.inl ⟨rfl, rfl⟩
    · rw [ha]; exact Or.inr ⟨_, rfl, hr⟩

/-- `SetValue` of the text `Value` printed, on a fresh endpoint, with the
address functions of the Go library: for a hardware address that is empty or
has 6, 8 or 20 bytes and addresses that are absent or well formed, it
succeeds, and the record comes back with its addresses in the 16-byte form
and with the version stamp and the existence flag of a fresh record. -/
theorem endpoint.setValue_value_mv (ep : endpoint)
    (hmac : ep.mac = [] ∨ ep.mac.length = 6 ∨ ep.mac.length = 8 ∨ ep.mac.length = 20)
    (haddr : ∀ a, ep.addr = some a → net.IPNet.WellFormed a)
    (haddr6 : ∀ a, ep.addrv6 = some a → net.IPNet.WellFormed a) :
    endpoint.SetValue netLib (endpoint.New ep) (endpoint.Value netLib ep) =
      (Outcome.ret none,
        { ep with
          dbIndex := 0, dbExists := false, addr := ep.addr.map net.IPNet.To16,
          addrv6 := ep.addrv6.map net.IPNet.To16 }) := by
  apply endpoint.setValue_value_of_mv
  · intro hm
    rcases hmac with h | h
    · exact absurd h hm
    · exact net.ParseMAC_String ep.mac h
  · cases ha : ep.addr with
    | none => exact Or.inl ⟨rfl, rfl⟩
    | some a => exact Or.inr ⟨a, rfl, net.ParseCIDR_String a (haddr a ha)⟩
  · cases ha : ep.addrv6 with
    | none => exact Or.inl ⟨rfl, rfl⟩
    | some a => exact Or.inr ⟨a, rfl, net.ParseCIDR_String a (haddr6 a ha)⟩

/-- When the addresses of the record are held in 16 bytes the record comes
back as it was. -/
theorem endpoint.setValue_value_exact_mv (ep : endpoint)
    (hmac : ep.mac = [] ∨ ep.mac.length = 6 ∨ ep.mac.length = 8 ∨ ep.mac.length = 20)
    (haddr : ∀ a, ep.addr = some a → net.IPNet.WellFormed a)
    (haddr6 : ∀ a, ep.addrv6 = some a → net.IPNet.WellFormed a)
    (h16 : ∀ a, ep.addr = some a → a.IP.length = 16)
    (h16v6 : ∀ a, ep.addrv6 = some a → a.IP.length = 16) :
    endpoint.SetValue netLib (endpoint.New ep) (endpoint.Value netLib ep) =
      (Outcome.ret none, { ep with dbIndex := 0, dbExists := false }) := by
  rw [endpoint.setValue_value_mv ep hmac haddr haddr6]
  have e1 : ep.addr.map net.IPNet.To16 = ep.addr := by
    cases ha : ep.addr with
    | none => rfl
    | some a => rw [Option.map_some', net.IPNet.To16_of_length a (h16 a ha)]
  have e2 : ep.addrv6.map net.IPNet.To16 = ep.addrv6 := by
    cases ha : ep.addrv6 with
    | none => rfl
    | some a => rw [Option.map_some', net.IPNet.To16_of_length a (h16v6 a ha)]
  rw [e1, e2]

/-- When the parser rejects what the printer prints for the IPv6 address of a
record without hardware address and without IPv4 address, `SetValue` of the
text `Value` printed returns an Internal error. -/
theorem endpoint.setValue_value_rejected_mv (lib : AddrLib) (ep : endpoint) (a : IPNet)
    (hmac : ep.mac = []) (haddr : ep.addr = none) (haddr6 : ep.addrv6 = some a)
    (hbad : (lib.ParseCIDR (lib.ipNetString a)).2 ≠ none) :
    ∃ msg r, endpoint.SetValue lib (endpoint.New ep) (endpoint.Value lib ep) =
      (Outcome.ret (some (GoError.InternalError msg)), r) := by
  obtain ⟨epMap, hu, hl⟩ := json.unmarshalMap_encode (endpoint.epMap lib ep)
    (endpoint.epMap_sorted_mv lib ep) (endpoint.epMap_scalar_mv lib ep)
  obtain ⟨l1, l2, l3, l4, l5, l6⟩ := endpoint.epMap_lookup_mv lib ep
  have hv : endpoint.Value lib ep = json.encode (json.GoValue.object (endpoint.epMap lib ep)) :=
    rfl
  rw [hv] at *
  rw [endpoint.setValue_of_map_mv lib _ _ epMap hu]
  refine (endpoint.unmarshal_internal_mv lib (endpoint.New ep) _ epMap hu).2.2
    (Or.inl (by rw [hl, l4, hmac]; rfl)) (Or.inl (by rw [hl, l5, haddr]; rfl))
    (lib.ipNetString a) (by rw [hl, l6, haddr6]; rfl) hbad

/-- `populateEndpoints` keeps the invariant of the index and the keys of the
index, whatever the store holds and whatever it returns. -/
theorem populateEndpoints_invariant_mv {σ ω : Type} (d : driver σ ω) :
    (IndexInvariant d.networks → IndexInvariant (populateEndpoints d).2.networks) ∧
    (∀ k, k ∈ GoMap.keys (populateEndpoints d).2.networks ↔ k ∈ GoMap.keys d.networks) := by
  cases hs : d.store with
  | none =>
    have h : populateEndpoints d =
        (Outcome.panicked "invalid memory address or nil pointer dereference", d) := by
      simp [populateEndpoints, hs]
    rw [h]
    exact ⟨fun hi => hi, fun _ => Iff.rfl⟩
  | some st =>
    rw [populateEndpoints_eq_mv d st hs]
    cases listed (st.ListEndpoints d.backend).1 with
    | none => exact ⟨fun hi => hi, fun _ => Iff.rfl⟩
    | some l =>
      refine ⟨fun hi k i e he => ?_, fun k => ?_⟩
      · rcases populateEndpoints_foldl_endpointAt_origin_mv l _ k i e he with h | ⟨_, h1, h2, _⟩
        · exact hi k i e h
        · exact ⟨h1, h2⟩
      · exact populateEndpoints_foldl_mem_keys_mv l _ k

end macvlan
/-! ## The example payloads -/

theorem exBadMacPayload_decodes : json.unmarshalMap exBadMacPayload = Except.ok exBadMacMap := by
  refine json.unmarshalMap_of_parse exBadMacPayload exBadMacMap rfl ?_ ?_
  · unfold GoMap.Sorted GoMap.keys exBadMacMap
    simp only [List.map, List.pairwise_cons, List.mem_cons, forall_eq_or_imp, List.mem_singleton,
      forall_eq, List.Pairwise.nil, List.not_mem_nil, and_true]
    simp only [String.reduceLT]
    simp
  · rfl

theorem exEpPayload_decodes : json.unmarshalMap exEpPayload = Except.ok exEpMap := by
  refine json.unmarshalMap_of_parse exEpPayload exEpMap rfl ?_ ?_
  · unfold GoMap.Sorted GoMap.keys exEpMap
    simp only [List.map, List.pairwise_cons, List.mem_cons, forall_eq_or_imp, List.mem_singleton,
      forall_eq, List.Pairwise.nil, List.not_mem_nil, and_true]
    simp only [String.reduceLT]
    simp
  · rfl

theorem exBadAddrPayload_decodes :
    json.unmarshalMap exBadAddrPayload = Except.ok exBadAddrMap := by
  obtain ⟨f, hf, _⟩ := json.Float64.ofDecimal_int 5 (by decide)
  refine json.unmarshalMap_of_parse exBadAddrPayload exBadAddrMap rfl ?_ ?_
  · unfold GoMap.Sorted GoMap.keys exBadAddrMap
    simp only [List.map, List.pairwise_cons, List.mem_cons, forall_eq_or_imp, List.mem_singleton,
      forall_eq, List.Pairwise.nil, List.not_mem_nil, and_true]
    simp only [String.reduceLT]
    simp
  · simp [exBadAddrMap, json.numbersFitMembers, json.numbersFit, hf]

theorem exHugePayload_fails :
    json.unmarshalMap exHugePayload =
      Except.error (GoError.UnmarshalTypeError "cannot unmarshal number into float64") := by
  have hp : json.parse exHugePayload = some (json.JSON.object exHugeMembers) := rfl
  have hn : json.numbersFitMembers exHugeMembers = false := by
    simp [exHugeMembers, json.numbersFitMembers, json.numbersFit, json.Float64.ofDecimal_huge]
  unfold json.unmarshalMap
  rw [hp]
  simp only [hn, Bool.false_eq_true, if_false]

theorem exEmptyObject_decodes : json.unmarshalMap exEmptyObject = Except.ok [] := rfl

namespace ipvlan

/-- The payload without subnets decodes into the record `net1`, which keeps its
subnet, and into a fresh record, which has none. -/
theorem exOldPayload_keeps_subnets :
    configuration.SetValue exConfig exOldPayload =
      (Outcome.ret none,
        { exConfig with
          Parent := "eth0", IpvlanFlag := flagBridge, CreatedSlaveLink := false }) ∧
    configuration.SetValue (configuration.New exConfig) exOldPayload =
      (Outcome.ret none,
        { exConfig with
          Parent := "eth0", IpvlanFlag := flagBridge, CreatedSlaveLink := false,
          Ipv4Subnets := [], dbIndex := 0, dbExists := false }) := by
  obtain ⟨f, hf, hfi⟩ := json.Float64.ofDecimal_int 1500 (by decide)
  constructor
  · rw [configuration.SetValue_of_map _ _ _ exOldPayload_decodes,
      configuration.UnmarshalJSON_ok exConfig exOldPayload exOldMap "net1" "eth0" "l2" flagBridge
        1500 0 f false false exConfig.Ipv4Subnets exConfig.Ipv6Subnets [] [] exOldPayload_decodes
        rfl rfl hf rfl rfl rfl rfl rfl rfl rfl, hfi]
    rfl
  · rw [configuration.SetValue_of_map _ _ _ exOldPayload_decodes,
      configuration.UnmarshalJSON_ok (configuration.New exConfig) exOldPayload exOldMap "net1"
        "eth0" "l2" flagBridge 1500 0 f false false [] [] [] [] exOldPayload_decodes
        rfl rfl hf rfl rfl rfl rfl rfl rfl rfl, hfi]
    rfl

/-- The decoder decodes into what the backing array of the slice holds in its
spare capacity. A slice of two subnets is decoded, then a slice of one, which
leaves the second descriptor in the spare capacity, then a slice of two whose
second element has no `SubnetIP`: it is decoded into the descriptor left
there, and keeps its `SubnetIP`. -/
theorem unmarshalSubnets_reuses_spare :
    unmarshalSubnets [] []
        ("[\x7b\"SubnetIP\":\"a\",\"GwIP\":\"n0\"\x7d," ++
          "\x7b\"SubnetIP\":\"stale\",\"GwIP\":\"x\"\x7d]").data =
      ([some { SubnetIP := "a", GwIP := "n0" }, some { SubnetIP := "stale", GwIP := "x" }],
        none) ∧
    unmarshalSubnets
        [some { SubnetIP := "a", GwIP := "n0" }, some { SubnetIP := "stale", GwIP := "x" }] []
        "[\x7b\"SubnetIP\":\"a\",\"GwIP\":\"n0\"\x7d]".data =
      ([some { SubnetIP := "a", GwIP := "n0" }], none) ∧
    spareAfter
        [some { SubnetIP := "a", GwIP := "n0" }, some { SubnetIP := "stale", GwIP := "x" }] []
        "[\x7b\"SubnetIP\":\"a\",\"GwIP\":\"n0\"\x7d]".data =
      [some { SubnetIP := "stale", GwIP := "x" }] ∧
    unmarshalSubnets [some { SubnetIP := "a", GwIP := "n0" }]
        [some { SubnetIP := "stale", GwIP := "x" }]
        "[\x7b\"SubnetIP\":\"a\",\"GwIP\":\"n0\"\x7d,\x7b\"GwIP\":\"n1\"\x7d]".data =
      ([some { SubnetIP := "a", GwIP := "n0" }, some { SubnetIP := "stale", GwIP := "n1" }],
        none) := by
  decide

/-- The addresses of the addressed endpoint are well formed. -/
theorem exEpAddressed_wellFormed :
    (∀ a, exEpAddressed.addr = some a → net.IPNet.WellFormed a) ∧
    (∀ a, exEpAddressed.addrv6 = some a → net.IPNet.WellFormed a) := by
  constructor
  · intro a ha
    cases ha
    exact ⟨Or.inl ⟨by decide, by decide⟩, by decide⟩
  · intro a ha
    cases ha
    exact ⟨Or.inr ⟨by decide, by decide, by decide⟩, by decide⟩

/-- The round trip of the endpoint whose IPv4 address is held in 4 bytes. -/
theorem exEpFourByte_roundtrip :
    endpoint.SetValue netLib (endpoint.New exEpFourByte) (endpoint.Value netLib exEpFourByte) =
      (Outcome.ret none,
        { exEpFourByte with
          dbIndex := 0, dbExists := false,
          addr := some { IP := [0, 0, 0, 0, 0, 0, 0, 0, 0, 0, 255, 255, 10, 0, 0, 2],
                         Mask := [255, 255, 255, 0] } }) := by
  rw [endpoint.setValue_value exEpFourByte (Or.inl rfl)
    (fun a ha => by
      cases ha
      exact ⟨Or.inl ⟨by decide, by decide⟩, by decide⟩)
    (fun a ha => by cases ha)]
  rfl

/-- The round trip of the endpoint whose IPv6 address has a mask of 4 bytes
fails. -/
theorem exEpShortMask_fails :
    ∃ msg r, endpoint.SetValue netLib (endpoint.New exEpShortMask)
        (endpoint.Value netLib exEpShortMask) =
      (Outcome.ret (some (GoError.InternalError msg)), r) :=
  endpoint.setValue_value_rejected netLib exEpShortMask _ rfl rfl rfl (by decide)

end ipvlan
/-! ## `CopyTo` on memory -/

namespace ipvlan

/-- What `configuration.CopyTo` leaves in memory. -/
theorem configuration.CopyTo_spec (h : Heap) (config dst : Addr) (hc : config ≠ 0)
    (hd : dst ≠ 0) :
    ∃ h2, configuration.CopyTo h config (KVRef.configuration dst) = (Outcome.ret none, h2) ∧
      h2.configurations dst = h.configurations config ∧
      h2.loadConfiguration dst = h.loadConfiguration config ∧
      (∀ p, p ≠ dst → h2.configurations p = h.configurations p) ∧
      (∀ p, p ≠ dst → h2.loadConfiguration p = h.loadConfiguration p) ∧
      h2.loadConfiguration config = h.loadConfiguration config ∧
      (∀ p, h2.loadEndpoint p = h.loadEndpoint p) ∧
      (config ≠ dst → ∀ c, (h2.storeConfiguration dst c).loadConfiguration config
        = h.loadConfiguration config) := by
  refine ⟨h.storeConfiguration dst (h.configurations config), ?_, ?_, ?_, ?_, ?_, ?_, ?_, ?_⟩
  · simp [configuration.CopyTo, hc, hd]
  · simp [Heap.storeConfiguration]
  · simp [Heap.storeConfiguration, Heap.loadConfiguration, Heap.readSubnets]
  · intro p hp
    simp [Heap.storeConfiguration, hp]
  · intro p hp
    simp [Heap.storeConfiguration, Heap.loadConfiguration, Heap.readSubnets, hp]
  · by_cases he : config = dst
    · subst he
      simp [Heap.storeConfiguration, Heap.loadConfiguration, Heap.readSubnets]
    · simp [Heap.storeConfiguration, Heap.loadConfiguration, Heap.readSubnets, he]
  · intro p
    rfl
  · intro he c
    simp [Heap.storeConfiguration, Heap.loadConfiguration, Heap.readSubnets, he]

/-- What `endpoint.CopyTo` leaves in memory. -/
theorem endpoint.copyTo_spec (h : Heap) (ep dst : Addr) (hc : ep ≠ 0) (hd : dst ≠ 0) :
    ∃ h2, endpoint.CopyTo h ep (KVRef.endpoint dst) = (Outcome.ret none, h2) ∧
      h2.endpoints dst = h.endpoints ep ∧
      h2.loadEndpoint dst = h.loadEndpoint ep ∧
      (∀ p, p ≠ dst → h2.endpoints p = h.endpoints p) ∧
      (∀ p, p ≠ dst → h2.loadEndpoint p = h.loadEndpoint p) ∧
      h2.loadEndpoint ep = h.loadEndpoint ep ∧
      (∀ p, h2.loadConfiguration p = h.loadConfiguration p) ∧
      (ep ≠ dst → ∀ e, (h2.storeEndpoint dst e).loadEndpoint ep = h.loadEndpoint ep) := by
  refine ⟨h.storeEndpoint dst (h.endpoints ep), ?_, ?_, ?_, ?_, ?_, ?_, ?_, ?_⟩
  · simp [endpoint.CopyTo, hc, hd]
  · simp [Heap.storeEndpoint]
  · simp [Heap.storeEndpoint, Heap.loadEndpoint, Heap.readBytes, Heap.readIPNet]
  · intro p hp
    simp [Heap.storeEndpoint, hp]
  · intro p hp
    simp [Heap.storeEndpoint, Heap.loadEndpoint, Heap.readBytes, Heap.readIPNet, hp]
  · by_cases he : ep = dst
    · subst he
      simp [Heap.storeEndpoint, Heap.loadEndpoint, Heap.readBytes, Heap.readIPNet]
    · simp [Heap.storeEndpoint, Heap.loadEndpoint, Heap.readBytes, Heap.readIPNet, he]
  · intro p
    rfl
  · intro he e
    simp [Heap.storeEndpoint, Heap.loadEndpoint, Heap.readBytes, Heap.readIPNet, he]

end ipvlan
/-! ## `CopyTo` on memory -/

namespace macvlan

/-- What `configuration.CopyTo` leaves in memory. -/
theorem configuration.CopyTo_spec_mv (h : Heap) (config dst : Addr) (hc : config ≠ 0)
    (hd : dst ≠ 0) :
    ∃ h2, configuration.CopyTo h config (KVRef.configuration dst) = (Outcome.ret none, h2) ∧
      h2.configurations dst = h.configurations config ∧
      h2.loadConfiguration dst = h.loadConfiguration config ∧
      (∀ p, p ≠ dst → h2.configurations p = h.configurations p) ∧
      (∀ p, p ≠ dst → h2.loadConfiguration p = h.loadConfiguration p) ∧
      h2.loadConfiguration config = h.loadConfiguration config ∧
      (∀ p, h2.loadEndpoint p = h.loadEndpoint p) ∧
      (config ≠ dst → ∀ c, (h2.storeConfiguration dst c).loadConfiguration config
        = h.loadConfiguration config) := by
  refine ⟨h.storeConfiguration dst (h.configurations config), ?_, ?_, ?_, ?_, ?_, ?_, ?_, ?_⟩
  · simp [configuration.CopyTo, hc, hd]
  · simp [Heap.storeConfiguration]
  · simp [Heap.storeConfiguration, Heap.loadConfiguration, Heap.readSubnets]
  · intro p hp
    simp [Heap.storeConfiguration, hp]
  · intro p hp
    simp [Heap.storeConfiguration, Heap.loadConfiguration, Heap.readSubnets, hp]
  · by_cases he : config = dst
    · subst he
      simp [Heap.storeConfiguration, Heap.loadConfiguration, Heap.readSubnets]
    · simp [Heap.storeConfiguration, Heap.loadConfiguration, Heap.readSubnets, he]
  · intro p
    rfl
  · intro he c
    simp [Heap.storeConfiguration, Heap.loadConfiguration, Heap.readSubnets, he]

/-- What `endpoint.CopyTo` leaves in memory. -/
theorem endpoint.copyTo_spec_mv (h : Heap) (ep dst : Addr) (hc : ep ≠ 0) (hd : dst ≠ 0) :
    ∃ h2, endpoint.CopyTo h ep (KVRef.endpoint dst) = (Outcome.ret none, h2) ∧
      h2.endpoints dst = h.endpoints ep ∧
      h2.loadEndpoint dst = h.loadEndpoint ep ∧
      (∀ p, p ≠ dst → h2.endpoints p = h.endpoints p) ∧
      (∀ p, p ≠ dst → h2.loadEndpoint p = h.loadEndpoint p) ∧
      h2.loadEndpoint ep = h.loadEndpoint ep ∧
      (∀ p, h2.loadConfiguration p = h.loadConfiguration p) ∧
      (ep ≠ dst → ∀ e, (h2.storeEndpoint dst e).loadEndpoint ep = h.loadEndpoint ep) := by
  refine ⟨h.storeEndpoint dst (h.endpoints ep), ?_, ?_, ?_, ?_, ?_, ?_, ?_, ?_⟩
  · simp [endpoint.CopyTo, hc, hd]
  · simp [Heap.storeEndpoint]
  · simp [Heap.storeEndpoint, Heap.loadEndpoint, Heap.readBytes, Heap.readIPNet]
  · intro p hp
    simp [Heap.storeEndpoint, hp]
  · intro p hp
    simp [Heap.storeEndpoint, Heap.loadEndpoint, Heap.readBytes, Heap.readIPNet, hp]
  · by_cases he : ep = dst
    · subst he
      simp [Heap.storeEndpoint, Heap.loadEndpoint, Heap.readBytes, Heap.readIPNet]
    · simp [Heap.storeEndpoint, Heap.loadEndpoint, Heap.readBytes, Heap.readIPNet, he]
  · intro p
    rfl
  · intro he e
    simp [Heap.storeEndpoint, Heap.loadEndpoint, Heap.readBytes, Heap.readIPNet, he]

end macvlan

/-! ## The claims -/

/-- C1. `populateEndpoints` of the ipvlan and of the macvlan driver, when the
store lists the endpoint records `eps` without error, returns no error and
treats each record as follows. A record whose `nid` is a key of the index is
stored as `networks[ep.nid].endpoints[ep.id]`, and is found there at the end
unless a later record of the listing has the same `nid` and `id`. A record
whose `nid` is not a key of the index is deleted from the store (the calls made
are the listing followed by one `DeleteObject` per such record, in order) and
is not added to the endpoints of any network: wherever it is found at the end,
it was there before the call. -/
theorem populateEndpoints_attaches_or_deletes :
    (∀ {σ ω : Type} (d : ipvlan.driver σ ω) (st : ipvlan.Store σ) (eps : List ipvlan.endpoint),
      d.store = some st → (st.ListEndpoints d.backend).1 = (eps, none) →
      (ipvlan.populateEndpoints d).1 = Outcome.ret none ∧
      (ipvlan.populateEndpoints d).2.calls = d.calls ++ ipvlan.Call.ListEndpoints ::
        (eps.filter (fun e => decide (e.nid ∉ GoMap.keys d.networks))).map
          (fun e => ipvlan.Call.DeleteObject (ipvlan.KVObject.endpoint e)) ∧
      (∀ pre ep post, eps = pre ++ ep :: post → ep.nid ∈ GoMap.keys d.networks →
        (∀ e ∈ post, ¬ (e.nid = ep.nid ∧ e.id = ep.id)) →
        ipvlan.endpointAt (ipvlan.populateEndpoints d).2.networks ep.nid ep.id = some ep) ∧
      (∀ ep ∈ eps, ep.nid ∉ GoMap.keys d.networks →
        ipvlan.Call.DeleteObject (ipvlan.KVObject.endpoint ep) ∈
          (ipvlan.populateEndpoints d).2.calls ∧
        ∀ k i, ipvlan.endpointAt (ipvlan.populateEndpoints d).2.networks k i = some ep →
          ipvlan.endpointAt d.networks k i = some ep)) ∧
    (∀ {σ ω : Type} (d : macvlan.driver σ ω) (st : macvlan.Store σ) (eps : List macvlan.endpoint),
      d.store = some st → (st.ListEndpoints d.backend).1 = (eps, none) →
      (macvlan.populateEndpoints d).1 = Outcome.ret none ∧
      (macvlan.populateEndpoints d).2.calls = d.calls ++ macvlan.Call.ListEndpoints ::
        (eps.filter (fun e => decide (e.nid ∉ GoMap.keys d.networks))).map
          (fun e => macvlan.Call.DeleteObject (macvlan.KVObject.endpoint e)) ∧
      (∀ pre ep post, eps = pre ++ ep :: post → ep.nid ∈ GoMap.keys d.networks →
        (∀ e ∈ post, ¬ (e.nid = ep.nid ∧ e.id = ep.id)) →
        macvlan.endpointAt (macvlan.populateEndpoints d).2.networks ep.nid ep.id = some ep) ∧
      (∀ ep ∈ eps, ep.nid ∉ GoMap.keys d.networks →
        macvlan.Call.DeleteObject (macvlan.KVObject.endpoint ep) ∈
          (macvlan.populateEndpoints d).2.calls ∧
        ∀ k i, macvlan.endpointAt (macvlan.populateEndpoints d).2.networks k i = some ep →
          macvlan.endpointAt d.networks k i = some ep)) :=
  ⟨fun d st eps hs hl => ipvlan.populateEndpoints_treats d st eps hs hl,
   fun d st eps hs hl => macvlan.populateEndpoints_treats_mv d st eps hs hl⟩

/-- Witness of C1 on the example store: `ep1` is attached to `net1` and `ep2`,
whose network `net404` is not in the index, is deleted from the store. -/
theorem populateEndpoints_attaches_or_deletes_witness :
    (ipvlan.exIndexed.store = some ipvlan.MemStore.store ∧
      (ipvlan.MemStore.store.ListEndpoints ipvlan.exIndexed.backend).1
        = ([ipvlan.exEp1, ipvlan.exEp2], none) ∧
      (ipvlan.populateEndpoints ipvlan.exIndexed).1 = Outcome.ret none ∧
      ipvlan.endpointAt (ipvlan.populateEndpoints ipvlan.exIndexed).2.networks "net1" "ep1"
        = some ipvlan.exEp1 ∧
      ipvlan.Call.DeleteObject (ipvlan.KVObject.endpoint ipvlan.exEp2) ∈
        (ipvlan.populateEndpoints ipvlan.exIndexed).2.calls) ∧
    (macvlan.exIndexed.store = some macvlan.MemStore.store ∧
      (macvlan.MemStore.store.ListEndpoints macvlan.exIndexed.backend).1
        = ([macvlan.exEp1, macvlan.exEp2], none) ∧
      (macvlan.populateEndpoints macvlan.exIndexed).1 = Outcome.ret none ∧
      macvlan.endpointAt (macvlan.populateEndpoints macvlan.exIndexed).2.networks "net1" "ep1"
        = some macvlan.exEp1 ∧
      macvlan.Call.DeleteObject (macvlan.KVObject.endpoint macvlan.exEp2) ∈
        (macvlan.populateEndpoints macvlan.exIndexed).2.calls) := by
  have hi := populateEndpoints_attaches_or_deletes.1 ipvlan.exIndexed ipvlan.MemStore.store
    [ipvlan.exEp1, ipvlan.exEp2] rfl rfl
  have hm := populateEndpoints_attaches_or_deletes.2 macvlan.exIndexed macvlan.MemStore.store
    [macvlan.exEp1, macvlan.exEp2] rfl rfl
  exact ⟨⟨rfl, rfl, hi.1,
      hi.2.2.1 [] ipvlan.exEp1 [ipvlan.exEp2] rfl (by decide) (by decide),
      (hi.2.2.2 ipvlan.exEp2 (by decide) (by decide)).1⟩,
    ⟨rfl, rfl, hm.1,
      hm.2.2.1 [] macvlan.exEp1 [macvlan.exEp2] rfl (by decide) (by decide),
      (hm.2.2.2 macvlan.exEp2 (by decide) (by decide)).1⟩⟩

/-- C2. For every network record `c` of the ipvlan and of the macvlan driver
whose MTU is at most `2 ^ 53` in magnitude, `SetValue(c.Value())` on a fresh
record returns no error and leaves the record equal to `c` in every
serialized field: ID, Mtu, Parent, the mode string, IpvlanFlag (ipvlan),
Internal, CreatedSlaveLink and both subnet lists, element by element; the
version stamp and the existence flag, which are not serialized, are those of
the fresh record, and so is the spare capacity of the two slices, which is no
field of the record: there is none. -/
theorem configuration_value_roundtrip :
    (∀ c : ipvlan.configuration, c.Mtu.natAbs ≤ 2 ^ 53 →
      ipvlan.configuration.SetValue (ipvlan.configuration.New c) (ipvlan.configuration.Value c) =
        (Outcome.ret none,
          { c with dbIndex := 0, dbExists := false, Ipv4Spare := [], Ipv6Spare := [] })) ∧
    (∀ c : macvlan.configuration, c.Mtu.natAbs ≤ 2 ^ 53 →
      macvlan.configuration.SetValue (macvlan.configuration.New c) (macvlan.configuration.Value c) =
        (Outcome.ret none,
          { c with dbIndex := 0, dbExists := false, Ipv4Spare := [], Ipv6Spare := [] })) :=
  ⟨fun c h => ipvlan.configuration.SetValue_Value c h,
   fun c h => macvlan.configuration.SetValue_Value_mv c h⟩

/-- Witness of C2 on the record `net1` of the example. -/
theorem configuration_value_roundtrip_witness :
    (ipvlan.exConfig.Mtu.natAbs ≤ 2 ^ 53 ∧
      ipvlan.configuration.SetValue (ipvlan.configuration.New ipvlan.exConfig)
          (ipvlan.configuration.Value ipvlan.exConfig) =
        (Outcome.ret none, { ipvlan.exConfig with dbIndex := 0, dbExists := false })) ∧
    (macvlan.exConfig.Mtu.natAbs ≤ 2 ^ 53 ∧
      macvlan.configuration.SetValue (macvlan.configuration.New macvlan.exConfig)
          (macvlan.configuration.Value macvlan.exConfig) =
        (Outcome.ret none, { macvlan.exConfig with dbIndex := 0, dbExists := false })) :=
  ⟨⟨by decide, configuration_value_roundtrip.1 ipvlan.exConfig (by decide)⟩,
   ⟨by decide, configuration_value_roundtrip.2 macvlan.exConfig (by decide)⟩⟩

/-- C3. For every payload of an ipvlan network record that decodes to a map
well formed but for the flag, `UnmarshalJSON` returns no error; when the
payload has no member `IpvlanFlag` it sets the flag to the baseline value
`flagBridge`, and when the member is a string it sets the flag to exactly
that string. -/
theorem unmarshal_flag_default :
    ∀ (config : ipvlan.configuration) (b : json.Text) (nMap : GoMap json.JSON),
      json.unmarshalMap b = Except.ok nMap →
      ipvlan.configuration.WellFormedButFlag config nMap →
      (GoMap.lookup nMap "IpvlanFlag" = none →
        ∃ c, ipvlan.configuration.UnmarshalJSON config b = (Outcome.ret none, c) ∧
          c.IpvlanFlag = ipvlan.flagBridge) ∧
      (∀ s, GoMap.lookup nMap "IpvlanFlag" = some (json.JSON.string s) →
        ∃ c, ipvlan.configuration.UnmarshalJSON config b = (Outcome.ret none, c) ∧
          c.IpvlanFlag = s) :=
  fun config b nMap hu hw => ipvlan.configuration.UnmarshalJSON_flag config b nMap hu hw

/-- Witness of C3: a record written without the flag decodes, into a fresh
record, with the flag set to `flagBridge`. -/
theorem unmarshal_flag_default_witness :
    json.unmarshalMap ipvlan.exOldPayload = Except.ok ipvlan.exOldMap ∧
    ipvlan.configuration.WellFormedButFlag ipvlan.exConfig ipvlan.exOldMap ∧
    GoMap.lookup ipvlan.exOldMap "IpvlanFlag" = none ∧
    ∃ c, ipvlan.configuration.UnmarshalJSON ipvlan.exConfig ipvlan.exOldPayload
        = (Outcome.ret none, c) ∧ c.IpvlanFlag = ipvlan.flagBridge :=
  ⟨ipvlan.exOldPayload_decodes, ipvlan.exOldMap_wellFormed, rfl,
    (unmarshal_flag_default ipvlan.exConfig ipvlan.exOldPayload ipvlan.exOldMap
      ipvlan.exOldPayload_decodes ipvlan.exOldMap_wellFormed).1 rfl⟩

/-- C4. The single-network (host) driver: on a fresh driver `CreateNetwork(id)`
succeeds and records `id`; after a successful `CreateNetwork`, whatever calls
follow, the recorded network stays the same and every `CreateNetwork` fails
with a forbidden error, whatever its identifier; and in any sequence of calls
made on a fresh driver exactly one `CreateNetwork` succeeds when the sequence
has one, and none otherwise. -/
theorem host_single_network :
    (∀ id : String,
      host.CreateNetwork host.driver.new id = (none, { network := host.State.Bound id })) ∧
    (∀ (d0 d : host.driver) (id0 : String), host.CreateNetwork d0 id0 = (none, d) →
      ∀ (ops : List host.Op) (id : String),
        (host.run d ops).2 = d ∧
        host.isForbidden (host.CreateNetwork (host.run d ops).2 id).1 = true ∧
        (host.CreateNetwork (host.run d ops).2 id).2 = d) ∧
    (∀ ops : List host.Op,
      ((host.run host.driver.new ops).1.filter host.createdOk).length =
        if ops.any host.Op.isCreate then 1 else 0) := by
  refine ⟨fun id => rfl, ?_, ?_⟩
  · intro d0 d id0 h ops id
    have hb : d.network = host.State.Bound id0 := host.CreateNetwork_ok_bound d0 d id0 h
    have hr := host.run_of_bound d id0 hb ops
    rw [hr.1]
    exact ⟨rfl, host.CreateNetwork_of_bound d id0 id hb⟩
  · exact host.run_new_created

/-- Witness of C4: the calls of `TestDriver`. After `CreateNetwork("first")` the
driver refuses `CreateNetwork("second")`, also after a refused deletion, and
keeps `first`. -/
theorem host_single_network_witness :
    host.CreateNetwork host.driver.new "first"
      = (none, { network := host.State.Bound "first" }) ∧
    (host.run { network := host.State.Bound "first" } [host.Op.DeleteNetwork "first"]).2
      = { network := host.State.Bound "first" } ∧
    host.isForbidden (host.CreateNetwork
      (host.run { network := host.State.Bound "first" } [host.Op.DeleteNetwork "first"]).2
      "second").1 = true ∧
    (host.CreateNetwork
      (host.run { network := host.State.Bound "first" } [host.Op.DeleteNetwork "first"]).2
      "second").2 = { network := host.State.Bound "first" } :=
  ⟨rfl, host_single_network.2.1 host.driver.new { network := host.State.Bound "first" } "first"
    rfl [host.Op.DeleteNetwork "first"] "second"⟩

/-- C5. The single-network (host) driver: `DeleteNetwork(nid)` fails with a
forbidden error for every identifier and in every state of the driver, and
leaves the recorded network unchanged. -/
theorem host_delete_forbidden :
    ∀ (d : host.driver) (nid : String),
      host.isForbidden (host.DeleteNetwork d nid).1 = true ∧
      (∃ msg, (host.DeleteNetwork d nid).1 = some (GoError.ForbiddenError msg)) ∧
      (host.DeleteNetwork d nid).2 = d :=
  fun _ _ => ⟨rfl, ⟨_, rfl⟩, rfl⟩

/-- C6. `initStore` of the ipvlan and of the macvlan driver, on a driver with a
store and for every behaviour of `createNetwork` and of the store, returns an
error exactly when the listing of network records fails with an error other
than `ErrKeyNotFound`, or that is not the case and the listing of endpoint
records (made on the store as the first listing left it) fails with an error
other than `ErrKeyNotFound`; and it always returns. -/
theorem initStore_error_iff_list_fails :
    (∀ {σ ω : Type} (cn : ipvlan.CreateNetwork ω) (d : ipvlan.driver σ ω) (st : ipvlan.Store σ),
      d.store = some st →
      ((∃ e, (ipvlan.initStore cn d).1 = Outcome.ret (some e)) ↔
        (((st.ListConfigurations d.backend).1.2 ≠ none ∧
            errors.Is (st.ListConfigurations d.backend).1.2 GoError.ErrKeyNotFound = false) ∨
          (¬ ((st.ListConfigurations d.backend).1.2 ≠ none ∧
              errors.Is (st.ListConfigurations d.backend).1.2 GoError.ErrKeyNotFound = false) ∧
            (st.ListEndpoints (st.ListConfigurations d.backend).2).1.2 ≠ none ∧
            errors.Is (st.ListEndpoints (st.ListConfigurations d.backend).2).1.2
              GoError.ErrKeyNotFound = false))) ∧
      (∃ err, (ipvlan.initStore cn d).1 = Outcome.ret err)) ∧
    (∀ {σ ω : Type} (cn : macvlan.CreateNetwork ω) (d : macvlan.driver σ ω) (st : macvlan.Store σ),
      d.store = some st →
      ((∃ e, (macvlan.initStore cn d).1 = Outcome.ret (some e)) ↔
        (((st.ListConfigurations d.backend).1.2 ≠ none ∧
            errors.Is (st.ListConfigurations d.backend).1.2 GoError.ErrKeyNotFound = false) ∨
          (¬ ((st.ListConfigurations d.backend).1.2 ≠ none ∧
              errors.Is (st.ListConfigurations d.backend).1.2 GoError.ErrKeyNotFound = false) ∧
            (st.ListEndpoints (st.ListConfigurations d.backend).2).1.2 ≠ none ∧
            errors.Is (st.ListEndpoints (st.ListConfigurations d.backend).2).1.2
              GoError.ErrKeyNotFound = false))) ∧
      (∃ err, (macvlan.initStore cn d).1 = Outcome.ret err)) :=
  ⟨fun cn d st hs => ipvlan.initStore_error_iff cn d st hs,
   fun cn d st hs => macvlan.initStore_error_iff_mv cn d st hs⟩

/-- Witness of C6: on the example store with a `createNetwork` that fails for
every record and a backend whose deletions fail, `initStore` returns no
error. -/
theorem initStore_error_iff_list_fails_witness :
    (ipvlan.exDriverFailing.store = some ipvlan.MemStore.failingDeletes ∧
      ¬ (∃ e, (ipvlan.initStore ipvlan.createNetworkFail ipvlan.exDriverFailing).1
        = Outcome.ret (some e))) ∧
    (macvlan.exDriverFailing.store = some macvlan.MemStore.failingDeletes ∧
      ¬ (∃ e, (macvlan.initStore macvlan.createNetworkFail macvlan.exDriverFailing).1
        = Outcome.ret (some e))) :=
  ⟨⟨rfl, fun h => absurd ((initStore_error_iff_list_fails.1 ipvlan.createNetworkFail
      ipvlan.exDriverFailing ipvlan.MemStore.failingDeletes rfl).1.1 h) (by decide)⟩,
   ⟨rfl, fun h => absurd ((initStore_error_iff_list_fails.2 macvlan.createNetworkFail
      macvlan.exDriverFailing macvlan.MemStore.failingDeletes rfl).1.1 h) (by decide)⟩⟩

/-- C7. `populateNetworks` of the ipvlan and of the macvlan driver, when the
store lists the records `rs` without error, returns no error and calls
`createNetwork` exactly once on every record, in list order, whatever the
earlier calls returned: the calls made are the listing followed by one
`createNetwork` per record, and each call receives the index and host left by
the call before it. -/
theorem populateNetworks_attempts_every_record :
    (∀ {σ ω : Type} (cn : ipvlan.CreateNetwork ω) (d : ipvlan.driver σ ω) (st : ipvlan.Store σ)
        (rs : List ipvlan.configuration),
      d.store = some st → (st.ListConfigurations d.backend).1 = (rs, none) →
      (ipvlan.populateNetworks cn d).1 = Outcome.ret none ∧
      (ipvlan.populateNetworks cn d).2.calls =
        d.calls ++ ipvlan.Call.ListConfigurations :: rs.map ipvlan.Call.createNetwork ∧
      ((ipvlan.populateNetworks cn d).2.networks, (ipvlan.populateNetworks cn d).2.host) =
        rs.foldl (fun s config => (cn config s.1 s.2).2) (d.networks, d.host)) ∧
    (∀ {σ ω : Type} (cn : macvlan.CreateNetwork ω) (d : macvlan.driver σ ω) (st : macvlan.Store σ)
        (rs : List macvlan.configuration),
      d.store = some st → (st.ListConfigurations d.backend).1 = (rs, none) →
      (macvlan.populateNetworks cn d).1 = Outcome.ret none ∧
      (macvlan.populateNetworks cn d).2.calls =
        d.calls ++ macvlan.Call.ListConfigurations :: rs.map macvlan.Call.createNetwork ∧
      ((macvlan.populateNetworks cn d).2.networks, (macvlan.populateNetworks cn d).2.host) =
        rs.foldl (fun s config => (cn config s.1 s.2).2) (d.networks, d.host)) :=
  ⟨fun cn d st rs hs hl => ipvlan.populateNetworks_attempts cn d st rs hs hl,
   fun cn d st rs hs hl => macvlan.populateNetworks_attempts_mv cn d st rs hs hl⟩

/-- Witness of C7: with two stored records and a `createNetwork` that fails for
every record, both records are attempted, in order. -/
theorem populateNetworks_attempts_every_record_witness :
    (ipvlan.exDriver2.store = some ipvlan.MemStore.store ∧
      (ipvlan.MemStore.store.ListConfigurations ipvlan.exDriver2.backend).1
        = ([ipvlan.exConfig, ipvlan.exConfig2], none) ∧
      (ipvlan.populateNetworks ipvlan.createNetworkFail ipvlan.exDriver2).1 = Outcome.ret none ∧
      (ipvlan.populateNetworks ipvlan.createNetworkFail ipvlan.exDriver2).2.calls =
        ipvlan.exDriver2.calls ++ ipvlan.Call.ListConfigurations ::
          [ipvlan.exConfig, ipvlan.exConfig2].map ipvlan.Call.createNetwork) ∧
    (macvlan.exDriver2.store = some macvlan.MemStore.store ∧
      (macvlan.MemStore.store.ListConfigurations macvlan.exDriver2.backend).1
        = ([macvlan.exConfig, macvlan.exConfig2], none) ∧
      (macvlan.populateNetworks macvlan.createNetworkFail macvlan.exDriver2).1
        = Outcome.ret none ∧
      (macvlan.populateNetworks macvlan.createNetworkFail macvlan.exDriver2).2.calls =
        macvlan.exDriver2.calls ++ macvlan.Call.ListConfigurations ::
          [macvlan.exConfig, macvlan.exConfig2].map macvlan.Call.createNetwork) := by
  have hi := populateNetworks_attempts_every_record.1 ipvlan.createNetworkFail ipvlan.exDriver2
    ipvlan.MemStore.store [ipvlan.exConfig, ipvlan.exConfig2] rfl rfl
  have hm := populateNetworks_attempts_every_record.2 macvlan.createNetworkFail
    macvlan.exDriver2 macvlan.MemStore.store [macvlan.exConfig, macvlan.exConfig2] rfl rfl
  exact ⟨⟨rfl, rfl, hi.1, hi.2.1⟩, ⟨rfl, rfl, hm.1, hm.2.1⟩⟩

/-- C8. When the listing reports `ErrKeyNotFound`, and equally when it returns
an empty sequence without error, `populateNetworks` and `populateEndpoints` of
the ipvlan and of the macvlan driver return success and leave the driver as it
was but for the listing itself: the index is unchanged and no `createNetwork`
and no store deletion is called. -/
theorem populate_key_not_found_is_empty :
    (∀ {σ ω : Type} (cn : ipvlan.CreateNetwork ω) (d : ipvlan.driver σ ω) (st : ipvlan.Store σ),
      d.store = some st →
      ((errors.Is (st.ListConfigurations d.backend).1.2 GoError.ErrKeyNotFound = true ∨
          (st.ListConfigurations d.backend).1 = ([], none)) →
        ipvlan.populateNetworks cn d = (Outcome.ret none,
          { d with backend := (st.ListConfigurations d.backend).2
                   calls := d.calls ++ [ipvlan.Call.ListConfigurations] })) ∧
      ((errors.Is (st.ListEndpoints d.backend).1.2 GoError.ErrKeyNotFound = true ∨
          (st.ListEndpoints d.backend).1 = ([], none)) →
        ipvlan.populateEndpoints d = (Outcome.ret none,
          { d with backend := (st.ListEndpoints d.backend).2
                   calls := d.calls ++ [ipvlan.Call.ListEndpoints] }))) ∧
    (∀ {σ ω : Type} (cn : macvlan.CreateNetwork ω) (d : macvlan.driver σ ω) (st : macvlan.Store σ),
      d.store = some st →
      ((errors.Is (st.ListConfigurations d.backend).1.2 GoError.ErrKeyNotFound = true ∨
          (st.ListConfigurations d.backend).1 = ([], none)) →
        macvlan.populateNetworks cn d = (Outcome.ret none,
          { d with backend := (st.ListConfigurations d.backend).2
                   calls := d.calls ++ [macvlan.Call.ListConfigurations] })) ∧
      ((errors.Is (st.ListEndpoints d.backend).1.2 GoError.ErrKeyNotFound = true ∨
          (st.ListEndpoints d.backend).1 = ([], none)) →
        macvlan.populateEndpoints d = (Outcome.ret none,
          { d with backend := (st.ListEndpoints d.backend).2
                   calls := d.calls ++ [macvlan.Call.ListEndpoints] }))) :=
  ⟨fun cn d st hs => ⟨ipvlan.populateNetworks_empty cn d st hs,
      ipvlan.populateEndpoints_empty d st hs⟩,
   fun cn d st hs => ⟨macvlan.populateNetworks_empty_mv cn d st hs,
      macvlan.populateEndpoints_empty_mv d st hs⟩⟩

/-- Witness of C8: on a store that holds nothing both listings report
`ErrKeyNotFound`; both functions succeed and only the listing is called. -/
theorem populate_key_not_found_is_empty_witness :
    (ipvlan.exDriverEmpty.store = some ipvlan.MemStore.store ∧
      errors.Is (ipvlan.MemStore.store.ListConfigurations ipvlan.exDriverEmpty.backend).1.2
        GoError.ErrKeyNotFound = true ∧
      errors.Is (ipvlan.MemStore.store.ListEndpoints ipvlan.exDriverEmpty.backend).1.2
        GoError.ErrKeyNotFound = true ∧
      (ipvlan.populateNetworks ipvlan.createNetworkOk ipvlan.exDriverEmpty).2.calls
        = [ipvlan.Call.ListConfigurations] ∧
      (ipvlan.populateEndpoints ipvlan.exDriverEmpty).2.calls = [ipvlan.Call.ListEndpoints]) ∧
    (macvlan.exDriverEmpty.store = some macvlan.MemStore.store ∧
      errors.Is (macvlan.MemStore.store.ListConfigurations macvlan.exDriverEmpty.backend).1.2
        GoError.ErrKeyNotFound = true ∧
      errors.Is (macvlan.MemStore.store.ListEndpoints macvlan.exDriverEmpty.backend).1.2
        GoError.ErrKeyNotFound = true ∧
      (macvlan.populateNetworks macvlan.createNetworkOk macvlan.exDriverEmpty).2.calls
        = [macvlan.Call.ListConfigurations] ∧
      (macvlan.populateEndpoints macvlan.exDriverEmpty).2.calls
        = [macvlan.Call.ListEndpoints]) := by
  have hi := populate_key_not_found_is_empty.1 ipvlan.createNetworkOk ipvlan.exDriverEmpty
    ipvlan.MemStore.store rfl
  have hm := populate_key_not_found_is_empty.2 macvlan.createNetworkOk macvlan.exDriverEmpty
    macvlan.MemStore.store rfl
  refine ⟨⟨rfl, rfl, rfl, ?_, ?_⟩, ⟨rfl, rfl, rfl, ?_, ?_⟩⟩
  · rw [hi.1 (Or.inl rfl)]; rfl
  · rw [hi.2 (Or.inl rfl)]; rfl
  · rw [hm.1 (Or.inl rfl)]; rfl
  · rw [hm.2 (Or.inl rfl)]; rfl

/-- C9. In `initStore` of the ipvlan and of the macvlan driver, on a driver with
a store, every call that concerns endpoints comes after `populateNetworks` has
processed every network record the store lists. When the listing of network
records fails (with an error other than `ErrKeyNotFound`), `populateNetworks`
returns an error and `initStore` stops there: its result and state are those
of `populateNetworks`, the only call made is that listing and the index is
untouched, so no endpoint is listed, attached or deleted. When the listing
yields the records `configs` (none for `ErrKeyNotFound`), `populateNetworks`
returns success, its calls are the listing and one `createNetwork` per record
of `configs`, in order, the index and host it leaves are those of calling
`createNetwork` on each record of `configs` in turn, and `initStore` is
`populateEndpoints` run on that state. The endpoint listing is made on the
store `populateNetworks` left; with `eps` the records it yields, the calls of
`initStore` are those of `populateNetworks`, then the endpoint listing, then
one `DeleteObject` per record of `eps` whose network is not a key of the
index `populateNetworks` produced, and the final index is that index with the
other records of `eps` attached. -/
theorem initStore_networks_before_endpoints :
    (∀ {σ ω : Type} (cn : ipvlan.CreateNetwork ω) (d : ipvlan.driver σ ω) (st : ipvlan.Store σ),
      d.store = some st →
      (ipvlan.listed (st.ListConfigurations d.backend).1 = none →
        (∃ e, (ipvlan.populateNetworks cn d).1 = Outcome.ret (some e)) ∧
        ipvlan.initStore cn d = ipvlan.populateNetworks cn d ∧
        (ipvlan.initStore cn d).2.calls = d.calls ++ [ipvlan.Call.ListConfigurations] ∧
        (ipvlan.initStore cn d).2.networks = d.networks) ∧
      (∀ configs, ipvlan.listed (st.ListConfigurations d.backend).1 = some configs →
        (ipvlan.populateNetworks cn d).1 = Outcome.ret none ∧
        (ipvlan.populateNetworks cn d).2.calls =
          d.calls ++ ipvlan.Call.ListConfigurations :: configs.map ipvlan.Call.createNetwork ∧
        ((ipvlan.populateNetworks cn d).2.networks, (ipvlan.populateNetworks cn d).2.host) =
          ipvlan.restoreNetworks cn configs (d.networks, d.host) ∧
        ipvlan.initStore cn d = ipvlan.populateEndpoints (ipvlan.populateNetworks cn d).2 ∧
        (ipvlan.listed (st.ListEndpoints (ipvlan.populateNetworks cn d).2.backend).1 = none →
          (ipvlan.initStore cn d).2.calls =
            (ipvlan.populateNetworks cn d).2.calls ++ [ipvlan.Call.ListEndpoints] ∧
          (ipvlan.initStore cn d).2.networks = (ipvlan.populateNetworks cn d).2.networks) ∧
        (∀ eps, ipvlan.listed (st.ListEndpoints (ipvlan.populateNetworks cn d).2.backend).1
            = some eps →
          (ipvlan.initStore cn d).2.calls =
            (ipvlan.populateNetworks cn d).2.calls ++ ipvlan.Call.ListEndpoints ::
              (eps.filter (fun e =>
                  decide (e.nid ∉ GoMap.keys (ipvlan.populateNetworks cn d).2.networks))).map
                (fun e => ipvlan.Call.DeleteObject (ipvlan.KVObject.endpoint e)) ∧
          (ipvlan.initStore cn d).2.networks =
            ipvlan.attachAll (ipvlan.populateNetworks cn d).2.networks eps))) ∧
    (∀ {σ ω : Type} (cn : macvlan.CreateNetwork ω) (d : macvlan.driver σ ω) (st : macvlan.Store σ),
      d.store = some st →
      (macvlan.listed (st.ListConfigurations d.backend).1 = none →
        (∃ e, (macvlan.populateNetworks cn d).1 = Outcome.ret (some e)) ∧
        macvlan.initStore cn d = macvlan.populateNetworks cn d ∧
        (macvlan.initStore cn d).2.calls = d.calls ++ [macvlan.Call.ListConfigurations] ∧
        (macvlan.initStore cn d).2.networks = d.networks) ∧
      (∀ configs, macvlan.listed (st.ListConfigurations d.backend).1 = some configs →
        (macvlan.populateNetworks cn d).1 = Outcome.ret none ∧
        (macvlan.populateNetworks cn d).2.calls =
          d.calls ++ macvlan.Call.ListConfigurations :: configs.map macvlan.Call.createNetwork ∧
        ((macvlan.populateNetworks cn d).2.networks, (macvlan.populateNetworks cn d).2.host) =
          macvlan.restoreNetworks cn configs (d.networks, d.host) ∧
        macvlan.initStore cn d = macvlan.populateEndpoints (macvlan.populateNetworks cn d).2 ∧
        (macvlan.listed (st.ListEndpoints (macvlan.populateNetworks cn d).2.backend).1 = none →
          (macvlan.initStore cn d).2.calls =
            (macvlan.populateNetworks cn d).2.calls ++ [macvlan.Call.ListEndpoints] ∧
          (macvlan.initStore cn d).2.networks = (macvlan.populateNetworks cn d).2.networks) ∧
        (∀ eps, macvlan.listed (st.ListEndpoints (macvlan.populateNetworks cn d).2.backend).1
            = some eps →
          (macvlan.initStore cn d).2.calls =
            (macvlan.populateNetworks cn d).2.calls ++ macvlan.Call.ListEndpoints ::
              (eps.filter (fun e =>
                  decide (e.nid ∉ GoMap.keys (macvlan.populateNetworks cn d).2.networks))).map
                (fun e => macvlan.Call.DeleteObject (macvlan.KVObject.endpoint e)) ∧
          (macvlan.initStore cn d).2.networks =
            macvlan.attachAll (macvlan.populateNetworks cn d).2.networks eps))) :=
  ⟨fun cn d st hs => ipvlan.initStore_order cn d st hs,
   fun cn d st hs => macvlan.initStore_order_mv cn d st hs⟩

/-- Witness of C9 on the example store, which lists the network record `net1`:
`populateNetworks` makes the listing and the call `createNetwork(net1)` and
succeeds, and `initStore` is `populateEndpoints` run on what it left. -/
theorem initStore_networks_before_endpoints_witness :
    (ipvlan.exDriver.store = some ipvlan.MemStore.store ∧
      ipvlan.listed (ipvlan.MemStore.store.ListConfigurations ipvlan.exDriver.backend).1
        = some [ipvlan.exConfig] ∧
      (ipvlan.populateNetworks ipvlan.createNetworkOk ipvlan.exDriver).2.calls =
        ipvlan.exDriver.calls ++ ipvlan.Call.ListConfigurations ::
          [ipvlan.exConfig].map ipvlan.Call.createNetwork ∧
      ipvlan.initStore ipvlan.createNetworkOk ipvlan.exDriver =
        ipvlan.populateEndpoints (ipvlan.populateNetworks ipvlan.createNetworkOk
          ipvlan.exDriver).2) ∧
    (macvlan.exDriver.store = some macvlan.MemStore.store ∧
      macvlan.listed (macvlan.MemStore.store.ListConfigurations macvlan.exDriver.backend).1
        = some [macvlan.exConfig] ∧
      (macvlan.populateNetworks macvlan.createNetworkOk macvlan.exDriver).2.calls =
        macvlan.exDriver.calls ++ macvlan.Call.ListConfigurations ::
          [macvlan.exConfig].map macvlan.Call.createNetwork ∧
      macvlan.initStore macvlan.createNetworkOk macvlan.exDriver =
        macvlan.populateEndpoints (macvlan.populateNetworks macvlan.createNetworkOk
          macvlan.exDriver).2) :=
  ⟨⟨rfl, rfl,
      ((initStore_networks_before_endpoints.1 ipvlan.createNetworkOk ipvlan.exDriver
        ipvlan.MemStore.store rfl).2 [ipvlan.exConfig] rfl).2.1,
      ((initStore_networks_before_endpoints.1 ipvlan.createNetworkOk ipvlan.exDriver
        ipvlan.MemStore.store rfl).2 [ipvlan.exConfig] rfl).2.2.2.1⟩,
    ⟨rfl, rfl,
      ((initStore_networks_before_endpoints.2 macvlan.createNetworkOk macvlan.exDriver
        macvlan.MemStore.store rfl).2 [macvlan.exConfig] rfl).2.1,
      ((initStore_networks_before_endpoints.2 macvlan.createNetworkOk macvlan.exDriver
        macvlan.MemStore.store rfl).2 [macvlan.exConfig] rfl).2.2.2.1⟩⟩

/-- C10, as amended. Orphan reconciliation is idempotent, for the ipvlan and
the macvlan driver, when the network phase is. Take a driver with a store on
which deletions succeed and whose listed endpoint records have pairwise
distinct identifiers, run `initStore` once, and run it a second time as a
driver restarted on the result does (same initial index, the store and host
the first run left). If `populateNetworks` of the second run rebuilds the
index of networks that `populateNetworks` of the first run built (as it does
when the effect of `createNetwork` on the index does not depend on the state
of the host), the second run calls no `DeleteObject`, leaves the store as the
first run left it, and ends with the same index of networks and endpoints and
the same result as the first run. -/
theorem initStore_rerun_idempotent :
    (∀ {σ ω : Type} (cn : ipvlan.CreateNetwork ω) (d : ipvlan.driver σ ω) (st : ipvlan.Store σ),
      d.store = some st → st.DeletionsSucceed →
      (ipvlan.populateNetworks cn { d with
          backend := (ipvlan.initStore cn d).2.backend
          host := (ipvlan.initStore cn d).2.host
          calls := [] }).2.networks = (ipvlan.populateNetworks cn d).2.networks →
      (∀ eps, ipvlan.listed (st.ListEndpoints d.backend).1 = some eps →
        (eps.map ipvlan.endpoint.id).Nodup) →
      (∀ o, ipvlan.Call.DeleteObject o ∉ (ipvlan.initStore cn { d with
          backend := (ipvlan.initStore cn d).2.backend
          host := (ipvlan.initStore cn d).2.host
          calls := [] }).2.calls) ∧
      (ipvlan.initStore cn { d with
          backend := (ipvlan.initStore cn d).2.backend
          host := (ipvlan.initStore cn d).2.host
          calls := [] }).2.networks = (ipvlan.initStore cn d).2.networks ∧
      (ipvlan.initStore cn { d with
          backend := (ipvlan.initStore cn d).2.backend
          host := (ipvlan.initStore cn d).2.host
          calls := [] }).2.backend = (ipvlan.initStore cn d).2.backend ∧
      (ipvlan.initStore cn { d with
          backend := (ipvlan.initStore cn d).2.backend
          host := (ipvlan.initStore cn d).2.host
          calls := [] }).1 = (ipvlan.initStore cn d).1) ∧
    (∀ {σ ω : Type} (cn : macvlan.CreateNetwork ω) (d : macvlan.driver σ ω) (st : macvlan.Store σ),
      d.store = some st → st.DeletionsSucceed →
      (macvlan.populateNetworks cn { d with
          backend := (macvlan.initStore cn d).2.backend
          host := (macvlan.initStore cn d).2.host
          calls := [] }).2.networks = (macvlan.populateNetworks cn d).2.networks →
      (∀ eps, macvlan.listed (st.ListEndpoints d.backend).1 = some eps →
        (eps.map macvlan.endpoint.id).Nodup) →
      (∀ o, macvlan.Call.DeleteObject o ∉ (macvlan.initStore cn { d with
          backend := (macvlan.initStore cn d).2.backend
          host := (macvlan.initStore cn d).2.host
          calls := [] }).2.calls) ∧
      (macvlan.initStore cn { d with
          backend := (macvlan.initStore cn d).2.backend
          host := (macvlan.initStore cn d).2.host
          calls := [] }).2.networks = (macvlan.initStore cn d).2.networks ∧
      (macvlan.initStore cn { d with
          backend := (macvlan.initStore cn d).2.backend
          host := (macvlan.initStore cn d).2.host
          calls := [] }).2.backend = (macvlan.initStore cn d).2.backend ∧
      (macvlan.initStore cn { d with
          backend := (macvlan.initStore cn d).2.backend
          host := (macvlan.initStore cn d).2.host
          calls := [] }).1 = (macvlan.initStore cn d).1) :=
  ⟨fun cn d st hs law hcn hnd => ipvlan.initStore_rerun cn d st hs law hcn hnd,
   fun cn d st hs law hcn hnd => macvlan.initStore_rerun_mv cn d st hs law hcn hnd⟩

/-- Counterexample to C10 as stated, for both drivers: the store of the
example (deletions succeed, identifiers are distinct) with a `createNetwork`
that inspects the host and refuses to create a link that exists. The first
run creates the link of `net1`, attaches `ep1` and leaves `ep1` in the store;
the second run finds the link on the host, restores no network, deletes `ep1`
from the store and ends with another index than the first. -/
theorem initStore_rerun_differs :
    (ipvlan.exDriverLinks.store = some ipvlan.MemStore.store ∧
    ipvlan.MemStore.store.DeletionsSucceed ∧
    (∀ eps, ipvlan.listed (ipvlan.MemStore.store.ListEndpoints ipvlan.exDriverLinks.backend).1
        = some eps → (eps.map ipvlan.endpoint.id).Nodup) ∧
    ipvlan.endpointAt (ipvlan.initStore ipvlan.createNetworkOnce ipvlan.exDriverLinks).2.networks
      "net1" "ep1" = some ipvlan.exEp1 ∧
    (ipvlan.initStore ipvlan.createNetworkOnce ipvlan.exDriverLinks).2.backend.endpoints
      = [ipvlan.exEp1] ∧
    ipvlan.Call.DeleteObject (ipvlan.KVObject.endpoint ipvlan.exEp1) ∈
      (ipvlan.initStore ipvlan.createNetworkOnce { ipvlan.exDriverLinks with
        backend := (ipvlan.initStore ipvlan.createNetworkOnce ipvlan.exDriverLinks).2.backend
        host := (ipvlan.initStore ipvlan.createNetworkOnce ipvlan.exDriverLinks).2.host
        calls := [] }).2.calls ∧
    (ipvlan.initStore ipvlan.createNetworkOnce { ipvlan.exDriverLinks with
        backend := (ipvlan.initStore ipvlan.createNetworkOnce ipvlan.exDriverLinks).2.backend
        host := (ipvlan.initStore ipvlan.createNetworkOnce ipvlan.exDriverLinks).2.host
        calls := [] }).2.networks
      ≠ (ipvlan.initStore ipvlan.createNetworkOnce ipvlan.exDriverLinks).2.networks) ∧
    (macvlan.exDriverLinks.store = some macvlan.MemStore.store ∧
    macvlan.MemStore.store.DeletionsSucceed ∧
    (∀ eps, macvlan.listed (macvlan.MemStore.store.ListEndpoints macvlan.exDriverLinks.backend).1
        = some eps → (eps.map macvlan.endpoint.id).Nodup) ∧
    macvlan.endpointAt (macvlan.initStore macvlan.createNetworkOnce macvlan.exDriverLinks).2.networks
      "net1" "ep1" = some macvlan.exEp1 ∧
    (macvlan.initStore macvlan.createNetworkOnce macvlan.exDriverLinks).2.backend.endpoints
      = [macvlan.exEp1] ∧
    macvlan.Call.DeleteObject (macvlan.KVObject.endpoint macvlan.exEp1) ∈
      (macvlan.initStore macvlan.createNetworkOnce { macvlan.exDriverLinks with
        backend := (macvlan.initStore macvlan.createNetworkOnce macvlan.exDriverLinks).2.backend
        host := (macvlan.initStore macvlan.createNetworkOnce macvlan.exDriverLinks).2.host
        calls := [] }).2.calls ∧
    (macvlan.initStore macvlan.createNetworkOnce { macvlan.exDriverLinks with
        backend := (macvlan.initStore macvlan.createNetworkOnce macvlan.exDriverLinks).2.backend
        host := (macvlan.initStore macvlan.createNetworkOnce macvlan.exDriverLinks).2.host
        calls := [] }).2.networks
      ≠ (macvlan.initStore macvlan.createNetworkOnce macvlan.exDriverLinks).2.networks) :=
  ⟨⟨rfl, ipvlan.memStore_deletionsSucceed, fun eps h => by cases h; decide, by decide,
      by decide, by decide, by decide⟩,
    ⟨rfl, macvlan.memStore_deletionsSucceed_mv, fun eps h => by cases h; decide, by decide,
      by decide, by decide, by decide⟩⟩

/-- Witness of C10, the example of the specification: the store holds network
`net1` and the endpoints `ep1` (of `net1`) and `ep2` (of `net404`). The first
run leaves `ep1` attached to `net1`, deletes `ep2` and leaves `ep1` alone in
the store; the second run deletes nothing and ends with the same index. -/
theorem initStore_rerun_idempotent_witness :
    (ipvlan.exDriver.store = some ipvlan.MemStore.store ∧
      ipvlan.endpointAt (ipvlan.initStore ipvlan.createNetworkOk ipvlan.exDriver).2.networks
        "net1" "ep1" = some ipvlan.exEp1 ∧
      ipvlan.Call.DeleteObject (ipvlan.KVObject.endpoint ipvlan.exEp2) ∈
        (ipvlan.initStore ipvlan.createNetworkOk ipvlan.exDriver).2.calls ∧
      (ipvlan.initStore ipvlan.createNetworkOk ipvlan.exDriver).2.backend.endpoints
        = [ipvlan.exEp1] ∧
      (∀ o, ipvlan.Call.DeleteObject o ∉ (ipvlan.initStore ipvlan.createNetworkOk
        { ipvlan.exDriver with
          backend := (ipvlan.initStore ipvlan.createNetworkOk ipvlan.exDriver).2.backend
          host := (ipvlan.initStore ipvlan.createNetworkOk ipvlan.exDriver).2.host
          calls := [] }).2.calls) ∧
      (ipvlan.initStore ipvlan.createNetworkOk
        { ipvlan.exDriver with
          backend := (ipvlan.initStore ipvlan.createNetworkOk ipvlan.exDriver).2.backend
          host := (ipvlan.initStore ipvlan.createNetworkOk ipvlan.exDriver).2.host
          calls := [] }).2.networks
        = (ipvlan.initStore ipvlan.createNetworkOk ipvlan.exDriver).2.networks) ∧
    (macvlan.exDriver.store = some macvlan.MemStore.store ∧
      macvlan.endpointAt (macvlan.initStore macvlan.createNetworkOk macvlan.exDriver).2.networks
        "net1" "ep1" = some macvlan.exEp1 ∧
      macvlan.Call.DeleteObject (macvlan.KVObject.endpoint macvlan.exEp2) ∈
        (macvlan.initStore macvlan.createNetworkOk macvlan.exDriver).2.calls ∧
      (macvlan.initStore macvlan.createNetworkOk macvlan.exDriver).2.backend.endpoints
        = [macvlan.exEp1] ∧
      (∀ o, macvlan.Call.DeleteObject o ∉ (macvlan.initStore macvlan.createNetworkOk
        { macvlan.exDriver with
          backend := (macvlan.initStore macvlan.createNetworkOk macvlan.exDriver).2.backend
          host := (macvlan.initStore macvlan.createNetworkOk macvlan.exDriver).2.host
          calls := [] }).2.calls) ∧
      (macvlan.initStore macvlan.createNetworkOk
        { macvlan.exDriver with
          backend := (macvlan.initStore macvlan.createNetworkOk macvlan.exDriver).2.backend
          host := (macvlan.initStore macvlan.createNetworkOk macvlan.exDriver).2.host
          calls := [] }).2.networks
        = (macvlan.initStore macvlan.createNetworkOk macvlan.exDriver).2.networks) :=
  ⟨⟨rfl, by decide, by decide, rfl,
      (initStore_rerun_idempotent.1 ipvlan.createNetworkOk ipvlan.exDriver ipvlan.MemStore.store
        rfl ipvlan.memStore_deletionsSucceed
        (ipvlan.populateNetworks_rerun_of_host ipvlan.createNetworkOk ipvlan.exDriver
          ipvlan.MemStore.store rfl ipvlan.memStore_deletionsSucceed (fun _ _ _ _ => rfl))
        (fun eps h => by cases h; decide)).1,
      (initStore_rerun_idempotent.1 ipvlan.createNetworkOk ipvlan.exDriver ipvlan.MemStore.store
        rfl ipvlan.memStore_deletionsSucceed
        (ipvlan.populateNetworks_rerun_of_host ipvlan.createNetworkOk ipvlan.exDriver
          ipvlan.MemStore.store rfl ipvlan.memStore_deletionsSucceed (fun _ _ _ _ => rfl))
        (fun eps h => by cases h; decide)).2.1⟩,
   ⟨rfl, by decide, by decide, rfl,
      (initStore_rerun_idempotent.2 macvlan.createNetworkOk macvlan.exDriver macvlan.MemStore.store
        rfl macvlan.memStore_deletionsSucceed_mv
        (macvlan.populateNetworks_rerun_of_host_mv macvlan.createNetworkOk macvlan.exDriver
          macvlan.MemStore.store rfl macvlan.memStore_deletionsSucceed_mv (fun _ _ _ _ => rfl))
        (fun eps h => by cases h; decide)).1,
      (initStore_rerun_idempotent.2 macvlan.createNetworkOk macvlan.exDriver macvlan.MemStore.store
        rfl macvlan.memStore_deletionsSucceed_mv
        (macvlan.populateNetworks_rerun_of_host_mv macvlan.createNetworkOk macvlan.exDriver
          macvlan.MemStore.store rfl macvlan.memStore_deletionsSucceed_mv (fun _ _ _ _ => rfl))
        (fun eps h => by cases h; decide)).2.1⟩⟩

/-- C11. With no store configured (`d.store` is nil), `storeUpdate` and
`storeDelete` of the ipvlan and of the macvlan driver return no error for
every object and leave the driver as it was: its index, the content behind
the store, the host and the record of collaborator calls, to which no store
operation is added. The object is passed by value and is not given back, so
it is not changed either. -/
theorem store_disabled_is_noop :
    (∀ {σ ω : Type} (d : ipvlan.driver σ ω) (kvObject : ipvlan.KVObject), d.store = none →
      ipvlan.storeUpdate d kvObject = (none, d) ∧ ipvlan.storeDelete d kvObject = (none, d)) ∧
    (∀ {σ ω : Type} (d : macvlan.driver σ ω) (kvObject : macvlan.KVObject), d.store = none →
      macvlan.storeUpdate d kvObject = (none, d) ∧ macvlan.storeDelete d kvObject = (none, d)) := by
  refine ⟨fun d o h => ?_, fun d o h => ?_⟩
  · simp only [ipvlan.storeUpdate, ipvlan.storeDelete, h, and_self]
  · simp only [macvlan.storeUpdate, macvlan.storeDelete, h, and_self]

/-- Witness of C11 on the driver of the example with its store removed. -/
theorem store_disabled_is_noop_witness :
    ({ ipvlan.exDriver with store := none } : ipvlan.driver ipvlan.MemStore Unit).store = none ∧
    ipvlan.storeUpdate { ipvlan.exDriver with store := none }
        (ipvlan.KVObject.endpoint ipvlan.exEp1) =
      (none, { ipvlan.exDriver with store := none }) ∧
    ipvlan.storeDelete { ipvlan.exDriver with store := none }
        (ipvlan.KVObject.endpoint ipvlan.exEp1) =
      (none, { ipvlan.exDriver with store := none }) :=
  ⟨rfl, store_disabled_is_noop.1 { ipvlan.exDriver with store := none }
    (ipvlan.KVObject.endpoint ipvlan.exEp1) rfl⟩

/-- C12. With a store configured, `storeUpdate` of the ipvlan and of the
macvlan driver makes exactly one collaborator call, `PutObjectAtomic` of the
object, and returns an error if and only if that call returned one;
`storeDelete` makes exactly one call, `DeleteObject` of the object, and
returns what that call returned. In both cases the content behind the store
is what the backend call left and nothing else of the driver changes. -/
theorem store_enabled_propagates :
    (∀ {σ ω : Type} (d : ipvlan.driver σ ω) (st : ipvlan.Store σ) (kvObject : ipvlan.KVObject),
      d.store = some st →
      ((ipvlan.storeUpdate d kvObject).2 =
          { d with backend := (st.PutObjectAtomic kvObject d.backend).2
                   calls := d.calls ++ [ipvlan.Call.PutObjectAtomic kvObject] } ∧
        ((ipvlan.storeUpdate d kvObject).1 ≠ none ↔
          (st.PutObjectAtomic kvObject d.backend).1 ≠ none)) ∧
      ((ipvlan.storeDelete d kvObject).2 =
          { d with backend := (st.DeleteObject kvObject d.backend).2
                   calls := d.calls ++ [ipvlan.Call.DeleteObject kvObject] } ∧
        (ipvlan.storeDelete d kvObject).1 = (st.DeleteObject kvObject d.backend).1)) ∧
    (∀ {σ ω : Type} (d : macvlan.driver σ ω) (st : macvlan.Store σ) (kvObject : macvlan.KVObject),
      d.store = some st →
      ((macvlan.storeUpdate d kvObject).2 =
          { d with backend := (st.PutObjectAtomic kvObject d.backend).2
                   calls := d.calls ++ [macvlan.Call.PutObjectAtomic kvObject] } ∧
        ((macvlan.storeUpdate d kvObject).1 ≠ none ↔
          (st.PutObjectAtomic kvObject d.backend).1 ≠ none)) ∧
      ((macvlan.storeDelete d kvObject).2 =
          { d with backend := (st.DeleteObject kvObject d.backend).2
                   calls := d.calls ++ [macvlan.Call.DeleteObject kvObject] } ∧
        (macvlan.storeDelete d kvObject).1 = (st.DeleteObject kvObject d.backend).1)) := by
  refine ⟨fun d st o h => ?_, fun d st o h => ?_⟩
  · refine ⟨?_, ?_⟩
    · simp only [ipvlan.storeUpdate, h]
      cases (st.PutObjectAtomic o d.backend).1 <;> simp
    · simp only [ipvlan.storeDelete, h, and_self]
  · refine ⟨?_, ?_⟩
    · simp only [macvlan.storeUpdate, h]
      cases (st.PutObjectAtomic o d.backend).1 <;> simp
    · simp only [macvlan.storeDelete, h, and_self]

/-- Witness of C12 on the example: on the store whose deletions fail,
`storeDelete` of `ep2` returns the error of the backend. -/
theorem store_enabled_propagates_witness :
    ipvlan.exDriverFailing.store = some ipvlan.MemStore.failingDeletes ∧
    (ipvlan.storeDelete ipvlan.exDriverFailing (ipvlan.KVObject.endpoint ipvlan.exEp2)).1 =
      some (GoError.errorString "delete failed") ∧
    (ipvlan.storeDelete ipvlan.exDriverFailing (ipvlan.KVObject.endpoint ipvlan.exEp2)).2.calls =
      [ipvlan.Call.DeleteObject (ipvlan.KVObject.endpoint ipvlan.exEp2)] := by
  have h := (store_enabled_propagates.1 ipvlan.exDriverFailing ipvlan.MemStore.failingDeletes
    (ipvlan.KVObject.endpoint ipvlan.exEp2) rfl).2
  exact ⟨rfl, by rw [h.2]; rfl, by rw [h.1]; rfl⟩

/-- C17. For the network and the endpoint records of the ipvlan and of the
macvlan driver, `Key()` is `KeyPrefix()` followed by the identifier of the
record, whatever its other fields hold; two records of the same kind have the
same `Key()` if and only if they have the same identifier; and the key
prefixes of the four kinds are pairwise distinct, so that records of
different kinds never have the same key. -/
theorem keys_stable_and_unique :
    (∀ c : ipvlan.configuration,
      ipvlan.configuration.Key c = ipvlan.configuration.KeyPrefix c ++ [c.ID]) ∧
    (∀ e : ipvlan.endpoint, ipvlan.endpoint.Key e = ipvlan.endpoint.KeyPrefix e ++ [e.id]) ∧
    (∀ c : macvlan.configuration,
      macvlan.configuration.Key c = macvlan.configuration.KeyPrefix c ++ [c.ID]) ∧
    (∀ e : macvlan.endpoint, macvlan.endpoint.Key e = macvlan.endpoint.KeyPrefix e ++ [e.id]) ∧
    (∀ c c2 : ipvlan.configuration,
      ipvlan.configuration.KeyPrefix c = ipvlan.configuration.KeyPrefix c2 ∧
      (ipvlan.configuration.Key c = ipvlan.configuration.Key c2 ↔ c.ID = c2.ID)) ∧
    (∀ e e2 : ipvlan.endpoint,
      ipvlan.endpoint.KeyPrefix e = ipvlan.endpoint.KeyPrefix e2 ∧
      (ipvlan.endpoint.Key e = ipvlan.endpoint.Key e2 ↔ e.id = e2.id)) ∧
    (∀ c c2 : macvlan.configuration,
      macvlan.configuration.KeyPrefix c = macvlan.configuration.KeyPrefix c2 ∧
      (macvlan.configuration.Key c = macvlan.configuration.Key c2 ↔ c.ID = c2.ID)) ∧
    (∀ e e2 : macvlan.endpoint,
      macvlan.endpoint.KeyPrefix e = macvlan.endpoint.KeyPrefix e2 ∧
      (macvlan.endpoint.Key e = macvlan.endpoint.Key e2 ↔ e.id = e2.id)) ∧
    (∀ (c : ipvlan.configuration) (e : ipvlan.endpoint) (mc : macvlan.configuration)
        (me : macvlan.endpoint),
      [ipvlan.configuration.KeyPrefix c, ipvlan.endpoint.KeyPrefix e,
        macvlan.configuration.KeyPrefix mc, macvlan.endpoint.KeyPrefix me].Nodup ∧
      [ipvlan.configuration.Key c, ipvlan.endpoint.Key e,
        macvlan.configuration.Key mc, macvlan.endpoint.Key me].Nodup) := by
  have h1 : ipvlan.ipvlanNetworkPrefix = "ipvlan/network" := by decide
  have h2 : ipvlan.ipvlanEndpointPrefix = "ipvlan/endpoint" := by decide
  have h3 : macvlan.macvlanNetworkPrefix = "macvlan/network" := by decide
  have h4 : macvlan.macvlanEndpointPrefix = "macvlan/endpoint" := by decide
  refine ⟨fun _ => rfl, fun _ => rfl, fun _ => rfl, fun _ => rfl, fun c c2 => ⟨rfl, ?_⟩,
    fun e e2 => ⟨rfl, ?_⟩, fun c c2 => ⟨rfl, ?_⟩, fun e e2 => ⟨rfl, ?_⟩, fun c e mc me => ?_⟩
  · simp [ipvlan.configuration.Key]
  · simp [ipvlan.endpoint.Key]
  · simp [macvlan.configuration.Key]
  · simp [macvlan.endpoint.Key]
  · simp [ipvlan.configuration.Key, ipvlan.endpoint.Key, macvlan.configuration.Key,
      macvlan.endpoint.Key, ipvlan.configuration.KeyPrefix, ipvlan.endpoint.KeyPrefix,
      macvlan.configuration.KeyPrefix, macvlan.endpoint.KeyPrefix, h1, h2, h3, h4]

/-- C18. For every network record and endpoint record `e` of the ipvlan and of
the macvlan driver and every `n`: after `e.SetIndex(n)`, `e.Index()` is `n`,
`e.Exists()` is true and every other field of `e` is as before, the spare
capacity of the subnet slices of a network record included; a record made by
`New()` has `Exists()` false and `Index()` zero; and `Skip()` is false for
every record. -/
theorem index_and_exists :
    ((∀ (c : ipvlan.configuration) (n : Nat),
        ipvlan.configuration.Index (ipvlan.configuration.SetIndex c n) = n ∧
        ipvlan.configuration.Exists (ipvlan.configuration.SetIndex c n) = true ∧
        (ipvlan.configuration.SetIndex c n).ID = c.ID ∧
        (ipvlan.configuration.SetIndex c n).Mtu = c.Mtu ∧
        (ipvlan.configuration.SetIndex c n).Internal = c.Internal ∧
        (ipvlan.configuration.SetIndex c n).Parent = c.Parent ∧
        (ipvlan.configuration.SetIndex c n).IpvlanMode = c.IpvlanMode ∧
        (ipvlan.configuration.SetIndex c n).IpvlanFlag = c.IpvlanFlag ∧
        (ipvlan.configuration.SetIndex c n).CreatedSlaveLink = c.CreatedSlaveLink ∧
        (ipvlan.configuration.SetIndex c n).Ipv4Subnets = c.Ipv4Subnets ∧
        (ipvlan.configuration.SetIndex c n).Ipv6Subnets = c.Ipv6Subnets ∧
        (ipvlan.configuration.SetIndex c n).Ipv4Spare = c.Ipv4Spare ∧
        (ipvlan.configuration.SetIndex c n).Ipv6Spare = c.Ipv6Spare ∧
        ipvlan.configuration.Exists (ipvlan.configuration.New c) = false ∧
        ipvlan.configuration.Index (ipvlan.configuration.New c) = 0 ∧
        ipvlan.configuration.Skip c = false) ∧
      (∀ (e : ipvlan.endpoint) (n : Nat),
        ipvlan.endpoint.Index (ipvlan.endpoint.SetIndex e n) = n ∧
        ipvlan.endpoint.Exists (ipvlan.endpoint.SetIndex e n) = true ∧
        (ipvlan.endpoint.SetIndex e n).id = e.id ∧
        (ipvlan.endpoint.SetIndex e n).nid = e.nid ∧
        (ipvlan.endpoint.SetIndex e n).mac = e.mac ∧
        (ipvlan.endpoint.SetIndex e n).addr = e.addr ∧
        (ipvlan.endpoint.SetIndex e n).addrv6 = e.addrv6 ∧
        (ipvlan.endpoint.SetIndex e n).srcName = e.srcName ∧
        ipvlan.endpoint.Exists (ipvlan.endpoint.New e) = false ∧
        ipvlan.endpoint.Index (ipvlan.endpoint.New e) = 0 ∧
        ipvlan.endpoint.Skip e = false)) ∧
    ((∀ (c : macvlan.configuration) (n : Nat),
        macvlan.configuration.Index (macvlan.configuration.SetIndex c n) = n ∧
        macvlan.configuration.Exists (macvlan.configuration.SetIndex c n) = true ∧
        (macvlan.configuration.SetIndex c n).ID = c.ID ∧
        (macvlan.configuration.SetIndex c n).Mtu = c.Mtu ∧
        (macvlan.configuration.SetIndex c n).Internal = c.Internal ∧
        (macvlan.configuration.SetIndex c n).Parent = c.Parent ∧
        (macvlan.configuration.SetIndex c n).MacvlanMode = c.MacvlanMode ∧
        (macvlan.configuration.SetIndex c n).CreatedSlaveLink = c.CreatedSlaveLink ∧
        (macvlan.configuration.SetIndex c n).Ipv4Subnets = c.Ipv4Subnets ∧
        (macvlan.configuration.SetIndex c n).Ipv6Subnets = c.Ipv6Subnets ∧
        (macvlan.configuration.SetIndex c n).Ipv4Spare = c.Ipv4Spare ∧
        (macvlan.configuration.SetIndex c n).Ipv6Spare = c.Ipv6Spare ∧
        macvlan.configuration.Exists (macvlan.configuration.New c) = false ∧
        macvlan.configuration.Index (macvlan.configuration.New c) = 0 ∧
        macvlan.configuration.Skip c = false) ∧
      (∀ (e : macvlan.endpoint) (n : Nat),
        macvlan.endpoint.Index (macvlan.endpoint.SetIndex e n) = n ∧
        macvlan.endpoint.Exists (macvlan.endpoint.SetIndex e n) = true ∧
        (macvlan.endpoint.SetIndex e n).id = e.id ∧
        (macvlan.endpoint.SetIndex e n).nid = e.nid ∧
        (macvlan.endpoint.SetIndex e n).mac = e.mac ∧
        (macvlan.endpoint.SetIndex e n).addr = e.addr ∧
        (macvlan.endpoint.SetIndex e n).addrv6 = e.addrv6 ∧
        (macvlan.endpoint.SetIndex e n).srcName = e.srcName ∧
        macvlan.endpoint.Exists (macvlan.endpoint.New e) = false ∧
        macvlan.endpoint.Index (macvlan.endpoint.New e) = 0 ∧
        macvlan.endpoint.Skip e = false)) :=
  ⟨⟨fun _ _ => ⟨rfl, rfl, rfl, rfl, rfl, rfl, rfl, rfl, rfl, rfl, rfl, rfl, rfl, rfl, rfl, rfl⟩,
    fun _ _ => ⟨rfl, rfl, rfl, rfl, rfl, rfl, rfl, rfl, rfl, rfl, rfl⟩⟩,
   ⟨fun _ _ => ⟨rfl, rfl, rfl, rfl, rfl, rfl, rfl, rfl, rfl, rfl, rfl, rfl, rfl, rfl, rfl⟩,
    fun _ _ => ⟨rfl, rfl, rfl, rfl, rfl, rfl, rfl, rfl, rfl, rfl, rfl⟩⟩⟩

/-- C14, as amended. For every endpoint payload of the ipvlan and of the
macvlan driver that decodes to a field map: when the member `MacAddress` is a
string that `net.ParseMAC` rejects, or the member `Addr` or `Addrv6` is a
string that `types.ParseCIDR` rejects, the address members read before it
being absent or strings, `endpoint.UnmarshalJSON` returns an Internal error,
hence not success. The parsers are those of any address library, the library
of Go among them. -/
theorem unmarshal_bad_address_is_internal_error :
    (∀ (lib : AddrLib) (ep : ipvlan.endpoint) (b : json.Text) (epMap : GoMap json.JSON),
      json.unmarshalMap b = Except.ok epMap →
      (∀ s, GoMap.lookup epMap "MacAddress" = some (json.JSON.string s) →
        (lib.ParseMAC s).2 ≠ none →
        ∃ msg r, ipvlan.endpoint.UnmarshalJSON lib ep b =
          (Outcome.ret (some (GoError.InternalError msg)), r)) ∧
      ((GoMap.lookup epMap "MacAddress" = none ∨
          ∃ s, GoMap.lookup epMap "MacAddress" = some (json.JSON.string s)) →
        ∀ s, GoMap.lookup epMap "Addr" = some (json.JSON.string s) →
        (lib.ParseCIDR s).2 ≠ none →
        ∃ msg r, ipvlan.endpoint.UnmarshalJSON lib ep b =
          (Outcome.ret (some (GoError.InternalError msg)), r)) ∧
      ((GoMap.lookup epMap "MacAddress" = none ∨
          ∃ s, GoMap.lookup epMap "MacAddress" = some (json.JSON.string s)) →
        (GoMap.lookup epMap "Addr" = none ∨
          ∃ s, GoMap.lookup epMap "Addr" = some (json.JSON.string s)) →
        ∀ s, GoMap.lookup epMap "Addrv6" = some (json.JSON.string s) →
        (lib.ParseCIDR s).2 ≠ none →
        ∃ msg r, ipvlan.endpoint.UnmarshalJSON lib ep b =
          (Outcome.ret (some (GoError.InternalError msg)), r))) ∧
    (∀ (lib : AddrLib) (ep : macvlan.endpoint) (b : json.Text) (epMap : GoMap json.JSON),
      json.unmarshalMap b = Except.ok epMap →
      (∀ s, GoMap.lookup epMap "MacAddress" = some (json.JSON.string s) →
        (lib.ParseMAC s).2 ≠ none →
        ∃ msg r, macvlan.endpoint.UnmarshalJSON lib ep b =
          (Outcome.ret (some (GoError.InternalError msg)), r)) ∧
      ((GoMap.lookup epMap "MacAddress" = none ∨
          ∃ s, GoMap.lookup epMap "MacAddress" = some (json.JSON.string s)) →
        ∀ s, GoMap.lookup epMap "Addr" = some (json.JSON.string s) →
        (lib.ParseCIDR s).2 ≠ none →
        ∃ msg r, macvlan.endpoint.UnmarshalJSON lib ep b =
          (Outcome.ret (some (GoError.InternalError msg)), r)) ∧
      ((GoMap.lookup epMap "MacAddress" = none ∨
          ∃ s, GoMap.lookup epMap "MacAddress" = some (json.JSON.string s)) →
        (GoMap.lookup epMap "Addr" = none ∨
          ∃ s, GoMap.lookup epMap "Addr" = some (json.JSON.string s)) →
        ∀ s, GoMap.lookup epMap "Addrv6" = some (json.JSON.string s) →
        (lib.ParseCIDR s).2 ≠ none →
        ∃ msg r, macvlan.endpoint.UnmarshalJSON lib ep b =
          (Outcome.ret (some (GoError.InternalError msg)), r))) :=
  ⟨fun lib ep b epMap hu => ipvlan.endpoint.unmarshal_internal lib ep b epMap hu,
   fun lib ep b epMap hu => macvlan.endpoint.unmarshal_internal_mv lib ep b epMap hu⟩

/-- Witness of C14: an endpoint payload whose `MacAddress` is `zz`. -/
theorem unmarshal_bad_address_is_internal_error_witness :
    json.unmarshalMap exBadMacPayload = Except.ok exBadMacMap ∧
    GoMap.lookup exBadMacMap "MacAddress" = some (json.JSON.string "zz") ∧
    (netLib.ParseMAC "zz").2 ≠ none ∧
    ∃ msg r, ipvlan.endpoint.UnmarshalJSON netLib ipvlan.exEp1 exBadMacPayload =
      (Outcome.ret (some (GoError.InternalError msg)), r) :=
  ⟨exBadMacPayload_decodes, rfl, by decide,
    (unmarshal_bad_address_is_internal_error.1 netLib ipvlan.exEp1 exBadMacPayload exBadMacMap
      exBadMacPayload_decodes).1 "zz" rfl (by decide)⟩

/-- Counterexample to C14 as stated. The payload `exBadAddrPayload` carries the
string `bad` as `Addr`, which is not a CIDR, and the number 5 as `MacAddress`:
`endpoint.UnmarshalJSON` panics in the assertion on `MacAddress` and returns
nothing. The payload `exHugePayload` carries the string `zz` as `MacAddress`,
which is not a hardware address, and a number outside the range of `float64`:
`endpoint.UnmarshalJSON` returns the error of the decoder wrapped by
`fmt.Errorf`, which is not an Internal error. -/
theorem unmarshal_bad_address_other_outcomes :
    (json.unmarshalMap exBadAddrPayload = Except.ok exBadAddrMap ∧
      GoMap.lookup exBadAddrMap "Addr" = some (json.JSON.string "bad") ∧
      (netLib.ParseCIDR "bad").2 ≠ none ∧
      ipvlan.endpoint.UnmarshalJSON netLib ipvlan.exEp1 exBadAddrPayload =
        (Outcome.panicked "interface conversion: interface {} is not string", ipvlan.exEp1)) ∧
    (json.parse exHugePayload = some (json.JSON.object exHugeMembers) ∧
      GoMap.lookup exHugeMembers "MacAddress" = some (json.JSON.string "zz") ∧
      (netLib.ParseMAC "zz").2 ≠ none ∧
      ipvlan.endpoint.UnmarshalJSON netLib ipvlan.exEp1 exHugePayload =
        (Outcome.ret (some (GoError.errorString "Failed to unmarshal to ipvlan endpoint")),
          ipvlan.exEp1)) := by
  have hc : (netLib.ParseCIDR "bad").2 ≠ none := by decide
  have hm : (netLib.ParseMAC "zz").2 ≠ none := by decide
  have hp : json.parse exHugePayload = some (json.JSON.object exHugeMembers) := rfl
  have h1 : ipvlan.endpoint.UnmarshalJSON netLib ipvlan.exEp1 exBadAddrPayload =
      (Outcome.panicked "interface conversion: interface {} is not string", ipvlan.exEp1) := by
    unfold ipvlan.endpoint.UnmarshalJSON
    rw [exBadAddrPayload_decodes]
    rfl
  exact ⟨⟨exBadAddrPayload_decodes, rfl, hc, h1⟩, hp, rfl, hm,
    ipvlan.endpoint.unmarshal_of_error _ _ _ _ exHugePayload_fails⟩

/-- C15, as amended. For every payload `p` on which `SetValue` succeeds (ipvlan
and macvlan): the fixed fields of the receiver afterwards (network: ID, Mtu,
Parent, mode, flag, Internal, CreatedSlaveLink; endpoint: id, nid, srcName)
and every endpoint address that `p` carries (mac, addr, addrv6) are the same
whatever the receiver held before the call; a subnet slice afterwards depends
only on `p` and on that slice of the receiver before the call, its elements
and what its backing array held in its spare capacity, into which the decoder
decodes; and a subnet slice, a MAC or an address that `p` does not carry is
left as the receiver had it. -/
theorem setValue_fields_are_determined :
    ((∀ (c1 c2 r1 r2 : ipvlan.configuration) (p : json.Text),
        ipvlan.configuration.SetValue c1 p = (Outcome.ret none, r1) →
        ipvlan.configuration.SetValue c2 p = (Outcome.ret none, r2) →
        r1.ID = r2.ID ∧ r1.Mtu = r2.Mtu ∧ r1.Parent = r2.Parent ∧
        r1.IpvlanMode = r2.IpvlanMode ∧
        r1.IpvlanFlag = r2.IpvlanFlag ∧
        r1.Internal = r2.Internal ∧ r1.CreatedSlaveLink = r2.CreatedSlaveLink ∧
        (c1.Ipv4Subnets = c2.Ipv4Subnets → c1.Ipv4Spare = c2.Ipv4Spare →
          r1.Ipv4Subnets = r2.Ipv4Subnets ∧ r1.Ipv4Spare = r2.Ipv4Spare) ∧
        (c1.Ipv6Subnets = c2.Ipv6Subnets → c1.Ipv6Spare = c2.Ipv6Spare →
          r1.Ipv6Subnets = r2.Ipv6Subnets ∧ r1.Ipv6Spare = r2.Ipv6Spare)) ∧
      (∀ (c r : ipvlan.configuration) (p : json.Text) (nMap : GoMap json.JSON),
        json.unmarshalMap p = Except.ok nMap →
        ipvlan.configuration.SetValue c p = (Outcome.ret none, r) →
        (GoMap.lookup nMap "Ipv4Subnets" = none →
          r.Ipv4Subnets = c.Ipv4Subnets ∧ r.Ipv4Spare = c.Ipv4Spare) ∧
        (GoMap.lookup nMap "Ipv6Subnets" = none →
          r.Ipv6Subnets = c.Ipv6Subnets ∧ r.Ipv6Spare = c.Ipv6Spare)) ∧
      (∀ (lib : AddrLib) (e1 e2 r1 r2 : ipvlan.endpoint) (p : json.Text)
          (epMap : GoMap json.JSON),
        json.unmarshalMap p = Except.ok epMap →
        ipvlan.endpoint.SetValue lib e1 p = (Outcome.ret none, r1) →
        ipvlan.endpoint.SetValue lib e2 p = (Outcome.ret none, r2) →
        r1.id = r2.id ∧ r1.nid = r2.nid ∧ r1.srcName = r2.srcName ∧
        (GoMap.lookup epMap "MacAddress" ≠ none → r1.mac = r2.mac) ∧
        (GoMap.lookup epMap "Addr" ≠ none → r1.addr = r2.addr) ∧
        (GoMap.lookup epMap "Addrv6" ≠ none → r1.addrv6 = r2.addrv6) ∧
        (GoMap.lookup epMap "MacAddress" = none → r1.mac = e1.mac) ∧
        (GoMap.lookup epMap "Addr" = none → r1.addr = e1.addr) ∧
        (GoMap.lookup epMap "Addrv6" = none → r1.addrv6 = e1.addrv6))) ∧
    ((∀ (c1 c2 r1 r2 : macvlan.configuration) (p : json.Text),
        macvlan.configuration.SetValue c1 p = (Outcome.ret none, r1) →
        macvlan.configuration.SetValue c2 p = (Outcome.ret none, r2) →
        r1.ID = r2.ID ∧ r1.Mtu = r2.Mtu ∧ r1.Parent = r2.Parent ∧
        r1.MacvlanMode = r2.MacvlanMode ∧
        r1.Internal = r2.Internal ∧ r1.CreatedSlaveLink = r2.CreatedSlaveLink ∧
        (c1.Ipv4Subnets = c2.Ipv4Subnets → c1.Ipv4Spare = c2.Ipv4Spare →
          r1.Ipv4Subnets = r2.Ipv4Subnets ∧ r1.Ipv4Spare = r2.Ipv4Spare) ∧
        (c1.Ipv6Subnets = c2.Ipv6Subnets → c1.Ipv6Spare = c2.Ipv6Spare →
          r1.Ipv6Subnets = r2.Ipv6Subnets ∧ r1.Ipv6Spare = r2.Ipv6Spare)) ∧
      (∀ (c r : macvlan.configuration) (p : json.Text) (nMap : GoMap json.JSON),
        json.unmarshalMap p = Except.ok nMap →
        macvlan.configuration.SetValue c p = (Outcome.ret none, r) →
        (GoMap.lookup nMap "Ipv4Subnets" = none →
          r.Ipv4Subnets = c.Ipv4Subnets ∧ r.Ipv4Spare = c.Ipv4Spare) ∧
        (GoMap.lookup nMap "Ipv6Subnets" = none →
          r.Ipv6Subnets = c.Ipv6Subnets ∧ r.Ipv6Spare = c.Ipv6Spare)) ∧
      (∀ (lib : AddrLib) (e1 e2 r1 r2 : macvlan.endpoint) (p : json.Text)
          (epMap : GoMap json.JSON),
        json.unmarshalMap p = Except.ok epMap →
        macvlan.endpoint.SetValue lib e1 p = (Outcome.ret none, r1) →
        macvlan.endpoint.SetValue lib e2 p = (Outcome.ret none, r2) →
        r1.id = r2.id ∧ r1.nid = r2.nid ∧ r1.srcName = r2.srcName ∧
        (GoMap.lookup epMap "MacAddress" ≠ none → r1.mac = r2.mac) ∧
        (GoMap.lookup epMap "Addr" ≠ none → r1.addr = r2.addr) ∧
        (GoMap.lookup epMap "Addrv6" ≠ none → r1.addrv6 = r2.addrv6) ∧
        (GoMap.lookup epMap "MacAddress" = none → r1.mac = e1.mac) ∧
        (GoMap.lookup epMap "Addr" = none → r1.addr = e1.addr) ∧
        (GoMap.lookup epMap "Addrv6" = none → r1.addrv6 = e1.addrv6))) :=
  ⟨⟨fun c1 c2 r1 r2 p h1 h2 => ipvlan.configuration.SetValue_determined c1 c2 r1 r2 p h1 h2,
    fun c r p nMap hu h => ipvlan.configuration.SetValue_keeps c r p nMap hu h,
    fun lib e1 e2 r1 r2 p epMap hu h1 h2 =>
      ipvlan.endpoint.setValue_determined lib e1 e2 r1 r2 p epMap hu h1 h2⟩,
   ⟨fun c1 c2 r1 r2 p h1 h2 => macvlan.configuration.SetValue_determined_mv c1 c2 r1 r2 p h1 h2,
    fun c r p nMap hu h => macvlan.configuration.SetValue_keeps_mv c r p nMap hu h,
    fun lib e1 e2 r1 r2 p epMap hu h1 h2 =>
      macvlan.endpoint.setValue_determined_mv lib e1 e2 r1 r2 p epMap hu h1 h2⟩⟩

/-- Witness of C15: the payload without subnets, decoded into the record `net1`
and into a fresh record, gives the same fixed fields, and leaves `net1` its
subnet list. -/
theorem setValue_fields_are_determined_witness :
    (∃ r1 r2,
      ipvlan.configuration.SetValue ipvlan.exConfig ipvlan.exOldPayload = (Outcome.ret none, r1) ∧
      ipvlan.configuration.SetValue (ipvlan.configuration.New ipvlan.exConfig)
        ipvlan.exOldPayload = (Outcome.ret none, r2) ∧
      r1.ID = r2.ID ∧ r1.Mtu = r2.Mtu ∧ r1.IpvlanFlag = r2.IpvlanFlag) ∧
    (∃ r, json.unmarshalMap ipvlan.exOldPayload = Except.ok ipvlan.exOldMap ∧
      ipvlan.configuration.SetValue ipvlan.exConfig ipvlan.exOldPayload = (Outcome.ret none, r) ∧
      GoMap.lookup ipvlan.exOldMap "Ipv4Subnets" = none ∧
      r.Ipv4Subnets = ipvlan.exConfig.Ipv4Subnets) := by
  have h := setValue_fields_are_determined.1.1 ipvlan.exConfig
    (ipvlan.configuration.New ipvlan.exConfig) _ _ ipvlan.exOldPayload
    ipvlan.exOldPayload_keeps_subnets.1 ipvlan.exOldPayload_keeps_subnets.2
  have k := setValue_fields_are_determined.1.2.1 ipvlan.exConfig _ ipvlan.exOldPayload
    ipvlan.exOldMap ipvlan.exOldPayload_decodes ipvlan.exOldPayload_keeps_subnets.1
  exact ⟨⟨_, _, ipvlan.exOldPayload_keeps_subnets.1, ipvlan.exOldPayload_keeps_subnets.2,
      h.1, h.2.1, h.2.2.2.2.1⟩,
    ⟨_, ipvlan.exOldPayload_decodes, ipvlan.exOldPayload_keeps_subnets.1, rfl, (k.1 rfl).1⟩⟩

/-- Counterexample to C15 as stated: one payload, which carries no subnets,
is decoded with success into the record `net1` and into a fresh record; the
first keeps the subnet it had, the second has none. -/
theorem setValue_keeps_receiver_subnets :
    (ipvlan.configuration.SetValue ipvlan.exConfig ipvlan.exOldPayload).1 = Outcome.ret none ∧
    (ipvlan.configuration.SetValue (ipvlan.configuration.New ipvlan.exConfig)
      ipvlan.exOldPayload).1 = Outcome.ret none ∧
    (ipvlan.configuration.SetValue ipvlan.exConfig ipvlan.exOldPayload).2.Ipv4Subnets =
      [some { SubnetIP := "192.168.1.0/24", GwIP := "192.168.1.1" }] ∧
    (ipvlan.configuration.SetValue (ipvlan.configuration.New ipvlan.exConfig)
      ipvlan.exOldPayload).2.Ipv4Subnets = [] := by
  rw [ipvlan.exOldPayload_keeps_subnets.1, ipvlan.exOldPayload_keeps_subnets.2]
  exact ⟨rfl, rfl, rfl, rfl⟩

/-- C19. `configuration.MarshalJSON` of the ipvlan and of the macvlan driver
prints a field map that has the member `Ipv4Subnets` if and only if the IPv4
subnet list is not empty and the member `Ipv6Subnets` if and only if the IPv6
subnet list is not empty; `endpoint.MarshalJSON` prints a field map that has
`MacAddress` if and only if the MAC is not empty, `Addr` if and only if the
IPv4 address is set and `Addrv6` if and only if the IPv6 address is set. The
fixed members (`ID`, `Mtu`, `Parent`, the mode, the ipvlan flag, `Internal`,
`CreatedSubIface`; `id`, `nid`, `SrcName`) are in the map of every record. -/
theorem optional_members_only_when_present :
    ((∀ c : ipvlan.configuration,
        ipvlan.configuration.MarshalJSON c =
          (json.encode (json.GoValue.object (ipvlan.configuration.nMap c)), none) ∧
        ("Ipv4Subnets" ∈ GoMap.keys (ipvlan.configuration.nMap c) ↔ c.Ipv4Subnets ≠ []) ∧
        ("Ipv6Subnets" ∈ GoMap.keys (ipvlan.configuration.nMap c) ↔ c.Ipv6Subnets ≠ []) ∧
        "ID" ∈ GoMap.keys (ipvlan.configuration.nMap c) ∧
        "Mtu" ∈ GoMap.keys (ipvlan.configuration.nMap c) ∧
        "Parent" ∈ GoMap.keys (ipvlan.configuration.nMap c) ∧
        "IpvlanMode" ∈ GoMap.keys (ipvlan.configuration.nMap c) ∧
        "IpvlanFlag" ∈ GoMap.keys (ipvlan.configuration.nMap c) ∧
        "Internal" ∈ GoMap.keys (ipvlan.configuration.nMap c) ∧
        "CreatedSubIface" ∈ GoMap.keys (ipvlan.configuration.nMap c)) ∧
      (∀ (lib : AddrLib) (ep : ipvlan.endpoint),
        ipvlan.endpoint.MarshalJSON lib ep =
          (json.encode (json.GoValue.object (ipvlan.endpoint.epMap lib ep)), none) ∧
        ("MacAddress" ∈ GoMap.keys (ipvlan.endpoint.epMap lib ep) ↔ ep.mac ≠ []) ∧
        ("Addr" ∈ GoMap.keys (ipvlan.endpoint.epMap lib ep) ↔ ep.addr ≠ none) ∧
        ("Addrv6" ∈ GoMap.keys (ipvlan.endpoint.epMap lib ep) ↔ ep.addrv6 ≠ none) ∧
        "id" ∈ GoMap.keys (ipvlan.endpoint.epMap lib ep) ∧
        "nid" ∈ GoMap.keys (ipvlan.endpoint.epMap lib ep) ∧
        "SrcName" ∈ GoMap.keys (ipvlan.endpoint.epMap lib ep))) ∧
    ((∀ c : macvlan.configuration,
        macvlan.configuration.MarshalJSON c =
          (json.encode (json.GoValue.object (macvlan.configuration.nMap c)), none) ∧
        ("Ipv4Subnets" ∈ GoMap.keys (macvlan.configuration.nMap c) ↔ c.Ipv4Subnets ≠ []) ∧
        ("Ipv6Subnets" ∈ GoMap.keys (macvlan.configuration.nMap c) ↔ c.Ipv6Subnets ≠ []) ∧
        "ID" ∈ GoMap.keys (macvlan.configuration.nMap c) ∧
        "Mtu" ∈ GoMap.keys (macvlan.configuration.nMap c) ∧
        "Parent" ∈ GoMap.keys (macvlan.configuration.nMap c) ∧
        "MacvlanMode" ∈ GoMap.keys (macvlan.configuration.nMap c) ∧
        "Internal" ∈ GoMap.keys (macvlan.configuration.nMap c) ∧
        "CreatedSubIface" ∈ GoMap.keys (macvlan.configuration.nMap c)) ∧
      (∀ (lib : AddrLib) (ep : macvlan.endpoint),
        macvlan.endpoint.MarshalJSON lib ep =
          (json.encode (json.GoValue.object (macvlan.endpoint.epMap lib ep)), none) ∧
        ("MacAddress" ∈ GoMap.keys (macvlan.endpoint.epMap lib ep) ↔ ep.mac ≠ []) ∧
        ("Addr" ∈ GoMap.keys (macvlan.endpoint.epMap lib ep) ↔ ep.addr ≠ none) ∧
        ("Addrv6" ∈ GoMap.keys (macvlan.endpoint.epMap lib ep) ↔ ep.addrv6 ≠ none) ∧
        "id" ∈ GoMap.keys (macvlan.endpoint.epMap lib ep) ∧
        "nid" ∈ GoMap.keys (macvlan.endpoint.epMap lib ep) ∧
        "SrcName" ∈ GoMap.keys (macvlan.endpoint.epMap lib ep))) :=
  ⟨⟨fun c => ⟨rfl, ipvlan.configuration.nMap_keys c⟩,
    fun lib ep => ⟨rfl, ipvlan.endpoint.epMap_keys lib ep⟩⟩,
   ⟨fun c => ⟨rfl, macvlan.configuration.nMap_keys_mv c⟩,
    fun lib ep => ⟨rfl, macvlan.endpoint.epMap_keys_mv lib ep⟩⟩⟩

/-- C20. For every string `h` without `/` and every string `p`,
`ConvertToHostname` gives `h` on `"http://" + h + "/" + p`, on
`"https://" + h + "/" + p`, on `"https://" + h` and on `h` itself. -/
theorem convertToHostname_strips_scheme_and_path :
    ∀ h p : String, '/' ∉ h.data →
      registry.ConvertToHostname ("http://" ++ h ++ "/" ++ p) = h ∧
      registry.ConvertToHostname ("https://" ++ h ++ "/" ++ p) = h ∧
      registry.ConvertToHostname ("https://" ++ h) = h ∧
      registry.ConvertToHostname h = h :=
  fun h p hh => ⟨registry.ConvertToHostname_http h p hh, registry.ConvertToHostname_https h p hh,
    registry.ConvertToHostname_https_host h hh, registry.ConvertToHostname_plain h hh⟩

/-- Witness of C20 on the host `index.docker.io` and the path `v1/`. -/
theorem convertToHostname_strips_scheme_and_path_witness :
    '/' ∉ "index.docker.io".data ∧
    registry.ConvertToHostname ("http://" ++ "index.docker.io" ++ "/" ++ "v1/")
      = "index.docker.io" ∧
    registry.ConvertToHostname ("https://" ++ "index.docker.io" ++ "/" ++ "v1/")
      = "index.docker.io" ∧
    registry.ConvertToHostname ("https://" ++ "index.docker.io") = "index.docker.io" ∧
    registry.ConvertToHostname "index.docker.io" = "index.docker.io" :=
  ⟨by decide, convertToHostname_strips_scheme_and_path "index.docker.io" "v1/" (by decide)⟩

/-- C16, as amended. For every source record `s` and destination `d` of the same
kind (ipvlan and macvlan, network and endpoint), neither pointer being nil,
`s.CopyTo(d)` returns no error and assigns the struct: afterwards every field
of `d`, the version stamp and the existence flag included, is the field of
`s`, and all that can be read through `d` is what could be read through `s`;
`s` and every other record are unchanged; and a later assignment to a field
of `d` does not change `s`. The copy is of the struct only: the slice headers
and pointers of `d` are those of `s`, so `d` has the subnet descriptors, the
MAC bytes and the address objects of `s`, not copies of them. -/
theorem copyTo_assigns_the_struct :
    ((∀ (h : ipvlan.Heap) (config dst : Addr), config ≠ 0 → dst ≠ 0 →
        ∃ h2, ipvlan.configuration.CopyTo h config (KVRef.configuration dst)
            = (Outcome.ret none, h2) ∧
          h2.configurations dst = h.configurations config ∧
          h2.loadConfiguration dst = h.loadConfiguration config ∧
          (∀ p, p ≠ dst → h2.configurations p = h.configurations p) ∧
          (∀ p, p ≠ dst → h2.loadConfiguration p = h.loadConfiguration p) ∧
          h2.loadConfiguration config = h.loadConfiguration config ∧
          (∀ p, h2.loadEndpoint p = h.loadEndpoint p) ∧
          (config ≠ dst → ∀ c, (h2.storeConfiguration dst c).loadConfiguration config
            = h.loadConfiguration config)) ∧
      (∀ (h : ipvlan.Heap) (ep dst : Addr), ep ≠ 0 → dst ≠ 0 →
        ∃ h2, ipvlan.endpoint.CopyTo h ep (KVRef.endpoint dst) = (Outcome.ret none, h2) ∧
          h2.endpoints dst = h.endpoints ep ∧
          h2.loadEndpoint dst = h.loadEndpoint ep ∧
          (∀ p, p ≠ dst → h2.endpoints p = h.endpoints p) ∧
          (∀ p, p ≠ dst → h2.loadEndpoint p = h.loadEndpoint p) ∧
          h2.loadEndpoint ep = h.loadEndpoint ep ∧
          (∀ p, h2.loadConfiguration p = h.loadConfiguration p) ∧
          (ep ≠ dst → ∀ e, (h2.storeEndpoint dst e).loadEndpoint ep = h.loadEndpoint ep))) ∧
    ((∀ (h : macvlan.Heap) (config dst : Addr), config ≠ 0 → dst ≠ 0 →
        ∃ h2, macvlan.configuration.CopyTo h config (KVRef.configuration dst)
            = (Outcome.ret none, h2) ∧
          h2.configurations dst = h.configurations config ∧
          h2.loadConfiguration dst = h.loadConfiguration config ∧
          (∀ p, p ≠ dst → h2.configurations p = h.configurations p) ∧
          (∀ p, p ≠ dst → h2.loadConfiguration p = h.loadConfiguration p) ∧
          h2.loadConfiguration config = h.loadConfiguration config ∧
          (∀ p, h2.loadEndpoint p = h.loadEndpoint p) ∧
          (config ≠ dst → ∀ c, (h2.storeConfiguration dst c).loadConfiguration config
            = h.loadConfiguration config)) ∧
      (∀ (h : macvlan.Heap) (ep dst : Addr), ep ≠ 0 → dst ≠ 0 →
        ∃ h2, macvlan.endpoint.CopyTo h ep (KVRef.endpoint dst) = (Outcome.ret none, h2) ∧
          h2.endpoints dst = h.endpoints ep ∧
          h2.loadEndpoint dst = h.loadEndpoint ep ∧
          (∀ p, p ≠ dst → h2.endpoints p = h.endpoints p) ∧
          (∀ p, p ≠ dst → h2.loadEndpoint p = h.loadEndpoint p) ∧
          h2.loadEndpoint ep = h.loadEndpoint ep ∧
          (∀ p, h2.loadConfiguration p = h.loadConfiguration p) ∧
          (ep ≠ dst → ∀ e, (h2.storeEndpoint dst e).loadEndpoint ep = h.loadEndpoint ep))) :=
  ⟨⟨fun h config dst hc hd => ipvlan.configuration.CopyTo_spec h config dst hc hd,
    fun h ep dst hc hd => ipvlan.endpoint.copyTo_spec h ep dst hc hd⟩,
   ⟨fun h config dst hc hd => macvlan.configuration.CopyTo_spec_mv h config dst hc hd,
    fun h ep dst hc hd => macvlan.endpoint.copyTo_spec_mv h ep dst hc hd⟩⟩

/-- Witness of C16: the record `net1` at address 1 copied to address 2. -/
theorem copyTo_assigns_the_struct_witness :
    (1 : Addr) ≠ 0 ∧ (2 : Addr) ≠ 0 ∧
    ∃ h2, ipvlan.configuration.CopyTo ipvlan.exHeap 1 (KVRef.configuration 2)
        = (Outcome.ret none, h2) ∧
      h2.loadConfiguration 2 = ipvlan.exHeap.loadConfiguration 1 ∧
      h2.loadConfiguration 1 = ipvlan.exHeap.loadConfiguration 1 := by
  obtain ⟨h2, e, _, e2, _, _, e1, _⟩ :=
    copyTo_assigns_the_struct.1.1 ipvlan.exHeap 1 2 (by decide) (by decide)
  exact ⟨by decide, by decide, h2, e, e2, e1⟩

/-- Counterexample to C16 as stated: `net1.CopyTo(d)` succeeds and `d` reads as
`net1`; then the assignment `d.Ipv4Subnets[0].GwIP = "10.0.0.1"`, a change to
a subnet descriptor of `d`, changes the gateway of `net1`. -/
theorem copyTo_shares_subnet_descriptors :
    (ipvlan.configuration.CopyTo ipvlan.exHeap 1 (KVRef.configuration 2)).1 = Outcome.ret none ∧
    (ipvlan.configuration.CopyTo ipvlan.exHeap 1 (KVRef.configuration 2)).2.loadConfiguration 2
      = ipvlan.exConfig ∧
    (ipvlan.configuration.CopyTo ipvlan.exHeap 1 (KVRef.configuration 2)).2.loadConfiguration 1
      = ipvlan.exConfig ∧
    ((ipvlan.configuration.CopyTo ipvlan.exHeap 1 (KVRef.configuration 2)).2.setGwIP
      ((ipvlan.configuration.CopyTo ipvlan.exHeap 1 (KVRef.configuration 2)).2.subnetPointer
        ((ipvlan.configuration.CopyTo ipvlan.exHeap 1
          (KVRef.configuration 2)).2.configurations 2).Ipv4Subnets 0)
      "10.0.0.1").loadConfiguration 1 =
      { ipvlan.exConfig with
        Ipv4Subnets := [some { SubnetIP := "192.168.1.0/24", GwIP := "10.0.0.1" }] } := by
  decide

/-- C21. `ResolveAuthConfig`, for every `GetAuthConfigKey`, every map of
credentials in every order of visit, and every index: when the map has an
entry under the config key of the index, that entry is returned; when it has
none and no key of the map is converted by `ConvertToHostname` to the config
key, the empty `AuthConfig` is returned; and when it has none, the index is
not official and some key is converted to the config key, the result is the
entry of a key that is converted to the config key. -/
theorem resolveAuthConfig_matches :
    ∀ (GetAuthConfigKey : registry.IndexInfo → String) (authConfigs : GoMap registry.AuthConfig)
        (index : registry.IndexInfo),
      (∀ c, GoMap.lookup authConfigs (GetAuthConfigKey index) = some c →
        registry.ResolveAuthConfig GetAuthConfigKey authConfigs index = c) ∧
      (GoMap.lookup authConfigs (GetAuthConfigKey index) = none →
        (∀ k ∈ GoMap.keys authConfigs, registry.ConvertToHostname k ≠ GetAuthConfigKey index) →
        registry.ResolveAuthConfig GetAuthConfigKey authConfigs index
          = registry.AuthConfig.empty) ∧
      (GoMap.lookup authConfigs (GetAuthConfigKey index) = none → index.Official = false →
        (∃ k ∈ GoMap.keys authConfigs, registry.ConvertToHostname k = GetAuthConfigKey index) →
        ∃ k, k ∈ GoMap.keys authConfigs ∧
          registry.ConvertToHostname k = GetAuthConfigKey index ∧
          GoMap.lookup authConfigs k =
            some (registry.ResolveAuthConfig GetAuthConfigKey authConfigs index)) :=
  fun key m index => registry.ResolveAuthConfig_spec key m index

/-- Witness of C21: credentials kept under the legacy key
`https://registry.example.com/v1/` are found for the index
`registry.example.com`, and credentials kept under the very key of an index
are returned for it. -/
theorem resolveAuthConfig_matches_witness :
    (GoMap.lookup registry.exAuthConfigs (registry.exGetAuthConfigKey
        { Name := "registry.example.com", Official := false }) = none ∧
      (∃ k ∈ GoMap.keys registry.exAuthConfigs, registry.ConvertToHostname k =
        registry.exGetAuthConfigKey { Name := "registry.example.com", Official := false }) ∧
      ∃ k, k ∈ GoMap.keys registry.exAuthConfigs ∧
        registry.ConvertToHostname k =
          registry.exGetAuthConfigKey { Name := "registry.example.com", Official := false } ∧
        GoMap.lookup registry.exAuthConfigs k =
          some (registry.ResolveAuthConfig registry.exGetAuthConfigKey registry.exAuthConfigs
            { Name := "registry.example.com", Official := false })) ∧
    (GoMap.lookup registry.exAuthConfigs (registry.exGetAuthConfigKey
        { Name := "other.example.com", Official := false }) =
        some { Username := "other", Password := "pw2", IdentityToken := "" } ∧
      registry.ResolveAuthConfig registry.exGetAuthConfigKey registry.exAuthConfigs
          { Name := "other.example.com", Official := false } =
        { Username := "other", Password := "pw2", IdentityToken := "" }) := by
  have hk : ∃ k ∈ GoMap.keys registry.exAuthConfigs, registry.ConvertToHostname k =
      registry.exGetAuthConfigKey { Name := "registry.example.com", Official := false } :=
    ⟨"https://registry.example.com/v1/", by decide, by decide⟩
  exact ⟨⟨by decide, hk,
      (resolveAuthConfig_matches registry.exGetAuthConfigKey registry.exAuthConfigs
        { Name := "registry.example.com", Official := false }).2.2 (by decide) rfl hk⟩,
    ⟨by decide,
      (resolveAuthConfig_matches registry.exGetAuthConfigKey registry.exAuthConfigs
        { Name := "other.example.com", Official := false }).1 _ (by decide)⟩⟩

/-- C22, as amended. With the address functions of the Go library, for every
endpoint record `e` of the ipvlan and of the macvlan driver whose MAC is
empty or has 6, 8 or 20 bytes and whose addresses are absent or well formed
(an IPv4 address, in 4 bytes or in 16 bytes with the IPv4 prefix, with a
prefix mask of 4 bytes; another address of 16 bytes with a prefix mask of 16
bytes): `SetValue(e.Value())` on a fresh endpoint returns no error and leaves
an endpoint with the id, nid, srcName and MAC of `e` and with the addresses of
`e` in the 16-byte form, their masks unchanged, an absent address staying
absent; the version stamp and the existence flag are those of the fresh
endpoint. When the addresses of `e` are held in 16 bytes the endpoint that is
left has, byte for byte, the addresses of `e`. -/
theorem endpoint_value_roundtrip :
    (∀ (e : ipvlan.endpoint),
      (e.mac = [] ∨ e.mac.length = 6 ∨ e.mac.length = 8 ∨ e.mac.length = 20) →
      (∀ a, e.addr = some a → net.IPNet.WellFormed a) →
      (∀ a, e.addrv6 = some a → net.IPNet.WellFormed a) →
      ipvlan.endpoint.SetValue netLib (ipvlan.endpoint.New e) (ipvlan.endpoint.Value netLib e) =
          (Outcome.ret none,
            { e with
              dbIndex := 0, dbExists := false, addr := e.addr.map net.IPNet.To16,
              addrv6 := e.addrv6.map net.IPNet.To16 }) ∧
        ((∀ a, e.addr = some a → a.IP.length = 16) →
          (∀ a, e.addrv6 = some a → a.IP.length = 16) →
          ipvlan.endpoint.SetValue netLib (ipvlan.endpoint.New e)
              (ipvlan.endpoint.Value netLib e) =
            (Outcome.ret none, { e with dbIndex := 0, dbExists := false }))) ∧
    (∀ (e : macvlan.endpoint),
      (e.mac = [] ∨ e.mac.length = 6 ∨ e.mac.length = 8 ∨ e.mac.length = 20) →
      (∀ a, e.addr = some a → net.IPNet.WellFormed a) →
      (∀ a, e.addrv6 = some a → net.IPNet.WellFormed a) →
      macvlan.endpoint.SetValue netLib (macvlan.endpoint.New e) (macvlan.endpoint.Value netLib e) =
          (Outcome.ret none,
            { e with
              dbIndex := 0, dbExists := false, addr := e.addr.map net.IPNet.To16,
              addrv6 := e.addrv6.map net.IPNet.To16 }) ∧
        ((∀ a, e.addr = some a → a.IP.length = 16) →
          (∀ a, e.addrv6 = some a → a.IP.length = 16) →
          macvlan.endpoint.SetValue netLib (macvlan.endpoint.New e)
              (macvlan.endpoint.Value netLib e) =
            (Outcome.ret none, { e with dbIndex := 0, dbExists := false }))) :=
  ⟨fun e hm h4 h6 => ⟨ipvlan.endpoint.setValue_value e hm h4 h6,
      fun k4 k6 => ipvlan.endpoint.setValue_value_exact e hm h4 h6 k4 k6⟩,
   fun e hm h4 h6 => ⟨macvlan.endpoint.setValue_value_mv e hm h4 h6,
      fun k4 k6 => macvlan.endpoint.setValue_value_exact_mv e hm h4 h6 k4 k6⟩⟩

/-- Witness of C22: an endpoint with a MAC of 6 bytes, the IPv4 address
`10.0.0.2/24` held in 16 bytes and the IPv6 address `2001:db8::1/64` comes
back as it was. -/
theorem endpoint_value_roundtrip_witness :
    (ipvlan.exEpAddressed.mac = [] ∨ ipvlan.exEpAddressed.mac.length = 6 ∨
      ipvlan.exEpAddressed.mac.length = 8 ∨ ipvlan.exEpAddressed.mac.length = 20) ∧
    (∀ a, ipvlan.exEpAddressed.addr = some a → net.IPNet.WellFormed a) ∧
    (∀ a, ipvlan.exEpAddressed.addrv6 = some a → net.IPNet.WellFormed a) ∧
    ipvlan.endpoint.SetValue netLib (ipvlan.endpoint.New ipvlan.exEpAddressed)
        (ipvlan.endpoint.Value netLib ipvlan.exEpAddressed) =
      (Outcome.ret none, { ipvlan.exEpAddressed with dbIndex := 0, dbExists := false }) :=
  ⟨Or.inr (Or.inl rfl), ipvlan.exEpAddressed_wellFormed.1, ipvlan.exEpAddressed_wellFormed.2,
    (endpoint_value_roundtrip.1 ipvlan.exEpAddressed (Or.inr (Or.inl rfl))
      ipvlan.exEpAddressed_wellFormed.1 ipvlan.exEpAddressed_wellFormed.2).2
      (fun a ha => by cases ha; rfl) (fun a ha => by cases ha; rfl)⟩

/-- Counterexample to C22 as stated, with the address functions of the Go
library. The endpoint `exEpShortMask` has no MAC and an IPv6 address whose
mask is the prefix mask of 24 bits held in 4 bytes, a mask in canonical form:
`IPNet.String` prints the address as `<nil>`, and the round trip fails with
an Internal error. The endpoint `exEpFourByte` has no MAC and the IPv4
address `10.0.0.2/24` held in 4 bytes: its round trip succeeds and leaves the
address in 16 bytes, so the record that is left is not the record that was
written. -/
theorem endpoint_roundtrip_fails_or_changes_address :
    (ipvlan.exEpShortMask.mac = [] ∧ ipvlan.exEpShortMask.addr = none ∧
      ipvlan.exEpShortMask.addrv6 =
        some { IP := [32, 1, 13, 184, 0, 0, 0, 0, 0, 0, 0, 0, 0, 0, 0, 1],
               Mask := [255, 255, 255, 0] } ∧
      net.simpleMaskLength [255, 255, 255, 0] = some 24 ∧
      netLib.ipNetString { IP := [32, 1, 13, 184, 0, 0, 0, 0, 0, 0, 0, 0, 0, 0, 0, 1],
                           Mask := [255, 255, 255, 0] } = "<nil>" ∧
      ∃ msg r, ipvlan.endpoint.SetValue netLib (ipvlan.endpoint.New ipvlan.exEpShortMask)
          (ipvlan.endpoint.Value netLib ipvlan.exEpShortMask) =
        (Outcome.ret (some (GoError.InternalError msg)), r)) ∧
    (ipvlan.exEpFourByte.mac = [] ∧
      ipvlan.exEpFourByte.addr = some { IP := [10, 0, 0, 2], Mask := [255, 255, 255, 0] } ∧
      ipvlan.exEpFourByte.addrv6 = none ∧
      ipvlan.endpoint.SetValue netLib (ipvlan.endpoint.New ipvlan.exEpFourByte)
          (ipvlan.endpoint.Value netLib ipvlan.exEpFourByte) =
        (Outcome.ret none,
          { ipvlan.exEpFourByte with
            dbIndex := 0, dbExists := false,
            addr := some { IP := [0, 0, 0, 0, 0, 0, 0, 0, 0, 0, 255, 255, 10, 0, 0, 2],
                           Mask := [255, 255, 255, 0] } }) ∧
      (ipvlan.endpoint.SetValue netLib (ipvlan.endpoint.New ipvlan.exEpFourByte)
          (ipvlan.endpoint.Value netLib ipvlan.exEpFourByte)).2.addr ≠
        ipvlan.exEpFourByte.addr) := by
  have h := ipvlan.exEpFourByte_roundtrip
  refine ⟨⟨rfl, rfl, rfl, by decide, by decide, ipvlan.exEpShortMask_fails⟩, rfl, rfl, rfl, h, ?_⟩
  rw [h]
  decide

/-- C23. `populateEndpoints` of the ipvlan and of the macvlan driver keeps the
invariant of the index, that every endpoint held under
`networks[k].endpoints[i]` has `nid = k` and `id = i`: when it holds before
the call it holds after it, for every driver state, every store and every
store content; and the index has the same network keys after the call as
before it. -/
theorem populateEndpoints_keeps_index_invariant :
    (∀ {σ ω : Type} (d : ipvlan.driver σ ω),
      (ipvlan.IndexInvariant d.networks →
        ipvlan.IndexInvariant (ipvlan.populateEndpoints d).2.networks) ∧
      (∀ k, k ∈ GoMap.keys (ipvlan.populateEndpoints d).2.networks ↔ k ∈ GoMap.keys d.networks)) ∧
    (∀ {σ ω : Type} (d : macvlan.driver σ ω),
      (macvlan.IndexInvariant d.networks →
        macvlan.IndexInvariant (macvlan.populateEndpoints d).2.networks) ∧
      (∀ k, k ∈ GoMap.keys (macvlan.populateEndpoints d).2.networks ↔ k ∈ GoMap.keys d.networks)) :=
  ⟨fun d => ipvlan.populateEndpoints_invariant d,
   fun d => macvlan.populateEndpoints_invariant_mv d⟩

/-- Witness of C23 on the example: the index that holds `net1` without
endpoints satisfies the invariant, and so does the index after the call, in
which `ep1` is held under `net1`. -/
theorem populateEndpoints_keeps_index_invariant_witness :
    ipvlan.IndexInvariant ipvlan.exIndexed.networks ∧
    ipvlan.IndexInvariant (ipvlan.populateEndpoints ipvlan.exIndexed).2.networks ∧
    ipvlan.endpointAt (ipvlan.populateEndpoints ipvlan.exIndexed).2.networks "net1" "ep1"
      = some ipvlan.exEp1 := by
  have h0 : ipvlan.IndexInvariant ipvlan.exIndexed.networks := by
    intro k i e he
    by_cases hk : k = "net1"
    · subst hk
      exact absurd he (by simp [ipvlan.endpointAt, ipvlan.exIndexed, GoMap.lookup])
    · exact absurd he (by simp [ipvlan.endpointAt, ipvlan.exIndexed, GoMap.lookup, hk])
  exact ⟨h0, (populateEndpoints_keeps_index_invariant.1 ipvlan.exIndexed).1 h0, by decide⟩

/-- C24. The version stamp and the existence flag are not in the payload, for
the network and the endpoint records of the ipvlan and of the macvlan
driver: `Value()` of a record does not change when its `dbIndex` and
`dbExists` are replaced by others, and after `SetValue` of any payload,
whether it returns success or an error or panics, `Index()` and `Exists()`
of the receiver are what they were. -/
theorem index_and_exists_not_serialized :
    ((∀ (c : ipvlan.configuration) (n : Nat) (b : Bool),
        ipvlan.configuration.Value { c with dbIndex := n, dbExists := b }
          = ipvlan.configuration.Value c) ∧
      (∀ (c : ipvlan.configuration) (value : json.Text),
        ipvlan.configuration.Index (ipvlan.configuration.SetValue c value).2
          = ipvlan.configuration.Index c ∧
        ipvlan.configuration.Exists (ipvlan.configuration.SetValue c value).2
          = ipvlan.configuration.Exists c) ∧
      (∀ (lib : AddrLib) (e : ipvlan.endpoint) (n : Nat) (b : Bool),
        ipvlan.endpoint.Value lib { e with dbIndex := n, dbExists := b }
          = ipvlan.endpoint.Value lib e) ∧
      (∀ (lib : AddrLib) (e : ipvlan.endpoint) (value : json.Text),
        ipvlan.endpoint.Index (ipvlan.endpoint.SetValue lib e value).2
          = ipvlan.endpoint.Index e ∧
        ipvlan.endpoint.Exists (ipvlan.endpoint.SetValue lib e value).2
          = ipvlan.endpoint.Exists e)) ∧
    ((∀ (c : macvlan.configuration) (n : Nat) (b : Bool),
        macvlan.configuration.Value { c with dbIndex := n, dbExists := b }
          = macvlan.configuration.Value c) ∧
      (∀ (c : macvlan.configuration) (value : json.Text),
        macvlan.configuration.Index (macvlan.configuration.SetValue c value).2
          = macvlan.configuration.Index c ∧
        macvlan.configuration.Exists (macvlan.configuration.SetValue c value).2
          = macvlan.configuration.Exists c) ∧
      (∀ (lib : AddrLib) (e : macvlan.endpoint) (n : Nat) (b : Bool),
        macvlan.endpoint.Value lib { e with dbIndex := n, dbExists := b }
          = macvlan.endpoint.Value lib e) ∧
      (∀ (lib : AddrLib) (e : macvlan.endpoint) (value : json.Text),
        macvlan.endpoint.Index (macvlan.endpoint.SetValue lib e value).2
          = macvlan.endpoint.Index e ∧
        macvlan.endpoint.Exists (macvlan.endpoint.SetValue lib e value).2
          = macvlan.endpoint.Exists e)) :=
  ⟨⟨fun c n b => ipvlan.configuration.Value_index c n b,
    fun c value => ipvlan.configuration.SetValue_index c value,
    fun lib e n b => ipvlan.endpoint.value_index lib e n b,
    fun lib e value => ipvlan.endpoint.setValue_index lib e value⟩,
   ⟨fun c n b => macvlan.configuration.Value_index_mv c n b,
    fun c value => macvlan.configuration.SetValue_index_mv c value,
    fun lib e n b => macvlan.endpoint.value_index_mv lib e n b,
    fun lib e value => macvlan.endpoint.setValue_index_mv lib e value⟩⟩

/-- C25. For every string `s`, `ConvertToHostname(s)` contains no `/`, and
`ConvertToHostname` applied to it gives it back. -/
theorem convertToHostname_idempotent :
    ∀ s : String, '/' ∉ (registry.ConvertToHostname s).data ∧
      registry.ConvertToHostname (registry.ConvertToHostname s) = registry.ConvertToHostname s :=
  fun s => ⟨registry.ConvertToHostname_no_slash s, registry.ConvertToHostname_fixed s⟩
